import Mathlib

/-!
# State-sorting analyzer of the retracer (`retrace_swizzle.cpp`)

A shallow embedding of the state-sorting code appended to
`src/retrace/retrace_swizzle.cpp` (`createBins`, `assignToBin`, `getBin`,
`assignIDToHash`, `setPtrHashID`, `getPtrHashID`, `computeHash`, the three
`packOutput` overloads and `stateSort`) together with theorems about it.

Conventions of the embedding:

* `unsigned long long` values are `Nat`, reduced modulo `2^64` where the C++
  arithmetic wraps; `int` values are `Int`, reduced to 32-bit two's complement
  (`toInt32`) wherever the C++ code computes a new `int`;
* a `std::map` is an association list read with `mapFind` and written with
  `mapSet` (the behaviour of `operator[]` on assignment);
* the process-wide variables are the fields of `State`;
* a function returns `none` exactly where the C++ code would index `vecBins`
  or the array `ct` out of bounds, or read past the end of the payload buffer.
-/

namespace Retrace

/-! ## Machine integers -/

/-- One `unsigned char`. -/
abbrev Byte := Fin 256

/-- Conversion of an integer value to a 32-bit two's-complement `int`. -/
def toInt32 (x : Int) : Int := (x + 2147483648) % 4294967296 - 2147483648

/-- Conversion of an integer value to a (signed) `char`. -/
def toInt8 (x : Int) : Int := (x + 128) % 256 - 128

/-- Conversion of an integer value to `unsigned long long`. -/
def toUInt64 (x : Int) : Nat := (x % 18446744073709551616).toNat

/-- The values an `int` can hold. -/
def isInt32 (x : Int) : Prop := -2147483648 ≤ x ∧ x ≤ 2147483647

instance (x : Int) : Decidable (isInt32 x) := by
  unfold isInt32; infer_instance

/-! ## Constants of `retrace_swizzle.hpp` -/

abbrev BIN_UNDEF : Int := 0
abbrev BIN_CREATE : Int := 1
abbrev BIN_UPDATE : Int := 2
abbrev BIN_SWITCH : Int := 3
abbrev BIN_NOCHANGE : Int := 4

abbrev BIN_SHADER : Int := 0
abbrev BIN_RENDER : Int := 1
abbrev BIN_VIEWPORT : Int := 2
abbrev BIN_RASTER : Int := 3
abbrev BIN_DEPTH : Int := 4
abbrev BIN_BLEND : Int := 5
abbrev BIN_SAMPLER : Int := 6
abbrev BIN_INPUT : Int := 7
abbrev BIN_TEXTURE : Int := 8
abbrev BIN_VERTEX0 : Int := 9
abbrev BIN_VERTEX1 : Int := 10
abbrev BIN_VERTEX2 : Int := 11
abbrev BIN_VERTEX3 : Int := 12
abbrev BIN_VERTEX4 : Int := 13
abbrev BIN_VSCONST0 : Int := 14
abbrev BIN_VSCONST1 : Int := 15
abbrev BIN_VSCONST2 : Int := 16
abbrev BIN_VSCONST3 : Int := 17
abbrev BIN_VSCONST4 : Int := 18
abbrev BIN_PSCONST0 : Int := 19
abbrev BIN_PSCONST1 : Int := 20
abbrev BIN_PSCONST2 : Int := 21
abbrev BIN_PSCONST3 : Int := 22
abbrev BIN_PSCONST4 : Int := 23
abbrev BIN_INDEX : Int := 24
abbrev NUM_BIN : Nat := 25

abbrev BIN_DRAW : Int := 25
abbrev BIN_PRESENT : Int := 26

abbrev BIN_UNKNOWN : Int := 250

/-! ## `std::map` -/

/-- The value stored under key `k` (`find`), if any. -/
def mapFind {β : Type} : List (Nat × β) → Nat → Option β
  | [], _ => none
  | (k', v) :: rest, k => if k' = k then some v else mapFind rest k

/-- The map after `m[k] = v`: the entry of `k` is overwritten, or a new entry
is added when `k` has none. -/
def mapSet {β : Type} : List (Nat × β) → Nat → β → List (Nat × β)
  | [], k, v => [(k, v)]
  | (k', v') :: rest, k, v =>
    if k' = k then (k, v) :: rest else (k', v') :: mapSet rest k v

/-! ## Data model -/

/-- The class `StateBin`. -/
structure StateBin where
  name : String
  curr : Int
  change : Int
  bytes : Int
  cnt : Int
  hashmap : List (Nat × Int)
deriving DecidableEq, Repr

/-- One buffer handed to `fwrite` on the binary stream `g_fp2`, field by field
in the order of the `memcpy` calls that fill `g_buf`. -/
inductive Record where
  | call (typ : Char) (nameID : Int) (tstart tstop : Nat)
      (bin size : Int) (valid objptr : Nat)
  | frame (typ : Char) (nameID : Int) (tstart tstop : Nat)
      (g_frame g_bytes : Int)
  | draw (typ : Char) (nameID : Int) (tstart tstop : Nat)
      (bins : List (Int × Int × Int)) (prim_cnt : Int) (d : Char)
      (draw_bytes : Int)
deriving DecidableEq, Repr

/-- One `fprintf` on the text stream `g_fp`, as the list of its arguments. -/
inductive TextLine where
  | call (bin size : Int) (objptr valid : Nat) (name : String)
  | frame (g_frame g_bytes : Int)
  | draw (name : String) (bins : List (Int × Char × Int)) (prim_cnt : Int)
      (draw_bytes : Int)
deriving DecidableEq, Repr

/-- The process-wide variables read and written by the analyzer. -/
structure State where
  vecBins : List StateBin
  mapPtrToBin : List (Nat × Int)
  mapPtrToHash : List (Nat × Nat)
  g_bytes : Nat
  g_frame : Int
  g_pass : Int
  stateTraceTxt : Bool
  stateTraceRaw : Bool
  g_fp : List TextLine
  g_fp2 : List Record
deriving DecidableEq, Repr

/-- The arguments of one `stateSort` invocation; `dat` is `none` for a null
pointer and otherwise the bytes stored from that address on. -/
structure Invocation where
  change_type : Int
  name : String
  nameID : Int
  bin : Int
  objptr : Nat
  datptr : Nat
  dat : Option (List Byte)
  size : Int
deriving DecidableEq, Repr

/-- The variables as their static initialisers leave them, for the given
settings of the two trace toggles. -/
def initState (txt raw : Bool) : State :=
  { vecBins := [], mapPtrToBin := [], mapPtrToHash := [], g_bytes := 0,
    g_frame := 0, g_pass := 1, stateTraceTxt := txt, stateTraceRaw := raw,
    g_fp := [], g_fp2 := [] }

/-! ## Bin table and resource map -/

/-- The bin that one iteration of the loop of `createBins` allocates. -/
def newBin : StateBin :=
  { name := "", cnt := 0, curr := BIN_UNDEF, change := BIN_UNDEF, bytes := 0,
    hashmap := [] }

/-- The function `createBins`: 32 fresh bins are pushed onto `vecBins`. -/
def createBins (s : State) : State :=
  { s with vecBins := s.vecBins ++ List.replicate 32 newBin }

/-- The element `vecBins[i]`, or `none` when `i` is not an index of the vector. -/
def binAt (vecBins : List StateBin) (i : Int) : Option StateBin :=
  if 0 ≤ i then vecBins[i.toNat]? else none

/-- The vector after the object `vecBins[i]` has been replaced by `b`. -/
def binSet (vecBins : List StateBin) (i : Int) (b : StateBin) : List StateBin :=
  vecBins.set i.toNat b

/-- The function `assignToBin`, on the map `mapPtrToBin`. -/
def assignToBin (m : List (Nat × Int)) (ptr : Nat) (bin_id : Int) :
    List (Nat × Int) :=
  if bin_id = BIN_UNKNOWN then m else mapSet m ptr bin_id

/-- The function `getBin`, on the map `mapPtrToBin`. -/
def getBin (m : List (Nat × Int)) (ptr : Nat) : Int :=
  match mapFind m ptr with
  | some b => b
  | none => BIN_UNKNOWN

/-- The function `assignIDToHash`: the returned id and the new bin vector. -/
def assignIDToHash (vecBins : List StateBin) (val : Nat) (bin_id : Int) :
    Option (Int × List StateBin) :=
  match binAt vecBins bin_id with
  | none => none
  | some bin =>
    let bin :=
      if (mapFind bin.hashmap val).isNone then
        { bin with hashmap := mapSet bin.hashmap val bin.cnt,
                   cnt := toInt32 (bin.cnt + 1) }
      else bin
    some ((mapFind bin.hashmap val).getD 0, binSet vecBins bin_id bin)

/-- The function `setPtrHashID`: the `int` is stored as a `hashVal`. -/
def setPtrHashID (m : List (Nat × Nat)) (ptr : Nat) (id : Int) :
    List (Nat × Nat) :=
  mapSet m ptr (toUInt64 id)

/-- The function `getPtrHashID`: the stored `hashVal` is returned as an `int`. -/
def getPtrHashID (m : List (Nat × Nat)) (ptr : Nat) : Int :=
  match mapFind m ptr with
  | some v => toInt32 v
  | none => -1

/-! ## Hashing -/

/-- The statement `hash = ((hash << 5) + hash) + b` on `unsigned long long`. -/
def hashStep (hash b : Nat) : Nat :=
  (((hash <<< 5) % 18446744073709551616 + hash) % 18446744073709551616 + b)
    % 18446744073709551616

/-- The byte `ptrdat[i]` of the little-endian object representation of `ptr`. -/
def ptrdat (ptr i : Nat) : Nat := ptr / 256 ^ i % 256

/-- The loop `for (; ch != chend; ch++)` of `computeHash` with `n` bytes left
to read from the buffer `mem`. -/
def hashLoop : Nat → List Byte → Nat → Option Nat
  | 0, _, hash => some hash
  | _ + 1, [], _ => none
  | n + 1, b :: mem, hash => hashLoop n mem (hashStep hash b.val)

/-- The function `computeHash`. -/
def computeHash (ptr : Nat) (dat : Option (List Byte)) (size : Int) :
    Option Nat :=
  let hash := 5381
  let hash := hashStep hash (ptrdat ptr 0)
  let hash := hashStep hash (ptrdat ptr 1)
  let hash := hashStep hash (ptrdat ptr 2)
  let hash := hashStep hash (ptrdat ptr 3)
  match dat with
  | none => some hash
  | some mem => if size < 0 then none else hashLoop size.toNat mem hash

/-- The djb2 hash of a byte sequence as the specification words it: start from
5381 and apply `h := (h * 33 + b) mod 2^64` to each byte in order. -/
def djb2 (bytes : List Nat) : Nat :=
  bytes.foldl (fun h b => (h * 33 + b) % 2 ^ 64) 5381

/-- The four low-order bytes of a handle, least significant first. -/
def handleBytes (handle : Nat) : List Nat :=
  [handle % 256, handle / 256 % 256, handle / 65536 % 256,
   handle / 16777216 % 256]

/-! ## Record encoder -/

/-- The overload of `packOutput` that writes a call; the `int` argument
`nameID` is received in a `char` parameter. -/
def packOutputCall (s : State) (typ : Char) (bin size : Int)
    (objptr valid : Nat) (name : String) (nameID : Int) : State :=
  let nameID := toInt8 nameID
  let s :=
    if s.stateTraceTxt then
      { s with g_fp := s.g_fp ++ [TextLine.call bin size objptr valid name] }
    else s
  if s.stateTraceRaw then
    { s with g_fp2 :=
        s.g_fp2 ++ [Record.call typ nameID 0 0 bin size valid objptr] }
  else s

/-- The overload of `packOutput` that writes a frame.  Its parameters
`g_frame` and `g_bytes` are by-value copies that hide the variables of the same
names, so the `g_frame++` of the text branch changes the copy only. -/
def packOutputFrame (s : State) (typ : Char) (g_frame g_bytes : Int) : State :=
  let s1 :=
    if s.stateTraceTxt then
      { s with g_fp := s.g_fp ++ [TextLine.frame g_frame g_bytes] }
    else s
  let g_frame := if s.stateTraceTxt then toInt32 (g_frame + 1) else g_frame
  if s1.stateTraceRaw then
    { s1 with g_fp2 := s1.g_fp2 ++ [Record.frame typ 0 0 0 g_frame g_bytes] }
  else s1

/-- The array `ct` of `packOutput` (draw). -/
def ct : List Char := ['x', 'c', 'u', 's', '-']

/-- The element `ct[i]`, or `none` when `i` is not an index of the array. -/
def ctAt (i : Int) : Option Char :=
  if 0 ≤ i then ct[i.toNat]? else none

/-- The loop `draw_bytes += vecBins[n]->bytes` over the given bins. -/
def sumBytes (bins : List StateBin) : Int :=
  bins.foldl (fun draw_bytes b => toInt32 (draw_bytes + b.bytes)) 0

/-- The triple that the binary draw record holds for one bin. -/
def rawTriple (b : StateBin) : Int × Int × Int := (b.curr, b.change, b.bytes)

/-- The triples that the text draw line holds for the given bins: the loop
`fprintf (g_fp, "%d%c[%d] ", curr, ct[change], bytes)`. -/
def txtTriples : List StateBin → Option (List (Int × Char × Int))
  | [] => some []
  | b :: bins =>
    match ctAt b.change, txtTriples bins with
    | some c, some l => some ((b.curr, c, b.bytes) :: l)
    | _, _ => none

/-- The overload of `packOutput` that writes a draw: the returned `draw_bytes`
and the new state. -/
def packOutputDraw (s : State) (typ : Char) (prim_cnt : Int) (name : String)
    (nameID : Int) : Option (Int × State) :=
  let nameID := toInt8 nameID
  if s.vecBins.length < NUM_BIN then none
  else
    let bins := s.vecBins.take NUM_BIN
    let draw_bytes := sumBytes bins
    let s1 :=
      if s.stateTraceRaw then
        { s with g_fp2 :=
            s.g_fp2 ++ [Record.draw typ nameID 0 0 (bins.map rawTriple)
              prim_cnt 'D' draw_bytes] }
      else s
    if s1.stateTraceTxt then
      match txtTriples bins with
      | none => none
      | some l =>
        some (draw_bytes,
          { s1 with g_fp := s1.g_fp ++ [TextLine.draw name l prim_cnt draw_bytes] })
    else some (draw_bytes, s1)

/-! ## Driver -/

/-- The body of the loop that clears one bin for the next draw. -/
def resetBin (b : StateBin) : StateBin :=
  { b with bytes := 0,
           change := if b.change ≠ BIN_UNDEF then BIN_NOCHANGE else b.change }

/-- The loop `for (n = 0; n < NUM_BIN; n++)` that clears the bins after a draw. -/
def resetChange (vecBins : List StateBin) : List StateBin :=
  (vecBins.take NUM_BIN).map resetBin ++ vecBins.drop NUM_BIN

/-- The bin that pass 2 of `stateSort` works on for a call that is neither a
draw nor a present: `getBin (objptr)`, then `getBin (datptr)`. -/
def resolveBin (m : List (Nat × Int)) (objptr datptr : Nat) : Int :=
  let bin := getBin m objptr
  if bin = BIN_UNKNOWN then getBin m datptr else bin

/-- The priority test `change_type <= change || change == BIN_UNDEF`. -/
def priorityTest (change_type change : Int) : Bool :=
  decide (change_type ≤ change) || decide (change = BIN_UNDEF)

/-- The function `stateSort`. -/
def stateSort (s : State) (change_type : Int) (name : String) (nameID : Int)
    (bin : Int) (objptr datptr : Nat) (dat : Option (List Byte)) (size : Int) :
    Option State :=
  if s.g_pass = 1 then
    if bin ≥ BIN_DRAW then some s
    else some { s with mapPtrToBin := assignToBin s.mapPtrToBin objptr bin }
  else if bin = BIN_PRESENT then
    let s1 := packOutputFrame s 'F' s.g_frame (toInt32 s.g_bytes)
    some { s1 with g_bytes := 0 }
  else if bin = BIN_DRAW then
    match binAt s.vecBins bin with
    | none => none
    | some b =>
      let s1 := packOutputCall s 'C' bin size objptr (toUInt64 b.curr) name nameID
      match packOutputDraw s1 'D' size name nameID with
      | none => none
      | some (draw_bytes, s2) =>
        some { s2 with
          g_bytes := (s2.g_bytes + toUInt64 draw_bytes) % 18446744073709551616,
          vecBins := resetChange s2.vecBins }
  else
    let bin := resolveBin s.mapPtrToBin objptr datptr
    if bin = BIN_UNKNOWN then some s
    else
      match binAt s.vecBins bin with
      | none => none
      | some b =>
        let updated : Option State :=
          if change_type = BIN_CREATE ∨ change_type = BIN_UPDATE then
            if priorityTest change_type b.change then
              match computeHash objptr dat size with
              | none => none
              | some hval =>
                match assignIDToHash s.vecBins hval bin with
                | none => none
                | some (id, vecBins) =>
                  match binAt vecBins bin with
                  | none => none
                  | some b1 =>
                    some { s with
                      mapPtrToHash := setPtrHashID s.mapPtrToHash objptr id,
                      vecBins := binSet vecBins bin
                        { b1 with
                          curr := id, change := change_type,
                          bytes := if change_type = BIN_UPDATE then size else 0 } }
            else some s
          else
            let id := getPtrHashID s.mapPtrToHash objptr
            if id ≠ -1 ∧ priorityTest change_type b.change then
              some { s with
                vecBins := binSet s.vecBins bin
                  { b with curr := id, change := change_type, bytes := 0 } }
            else some s
        match updated with
        | none => none
        | some s1 =>
          match binAt s1.vecBins bin with
          | none => none
          | some b2 =>
            some (packOutputCall s1 'C' bin size objptr (toUInt64 b2.curr)
              name nameID)

/-- One `stateSort` call with the arguments of `a`. -/
def step (s : State) (a : Invocation) : Option State :=
  stateSort s a.change_type a.name a.nameID a.bin a.objptr a.datptr a.dat a.size

/-- A sequence of `stateSort` calls, in order. -/
def run (s : State) : List Invocation → Option State
  | [] => some s
  | a :: rest =>
    match step s a with
    | none => none
    | some s1 => run s1 rest

/-- A sequence of `assignIDToHash` calls `(val, bin_id)`, in order: the ids
returned, and the final bin vector. -/
def assignAll (vecBins : List StateBin) :
    List (Nat × Int) → Option (List Int × List StateBin)
  | [] => some ([], vecBins)
  | (val, bin_id) :: rest =>
    match assignIDToHash vecBins val bin_id with
    | none => none
    | some (id, vecBins1) =>
      match assignAll vecBins1 rest with
      | none => none
      | some (ids, vecBins2) => some (id :: ids, vecBins2)

/-! ## Specification-side definitions and invariants -/

/-- The distinct values of `hs`, in the order in which each first occurs. -/
def firstSeen (hs : List Nat) : List Nat :=
  hs.foldl (fun seen h => if h ∈ seen then seen else seen ++ [h]) []

/-- The hashes that the calls `(val, bin_id)` present to bin `b`, in order. -/
def presented (calls : List (Nat × Int)) (b : Int) : List Nat :=
  (calls.filter (fun c => decide (c.2 = b))).map Prod.fst

/-- The table that gives the `k`-th element of `ds` the id `k`. -/
def denseTable (ds : List Nat) : List (Nat × Int) :=
  ds.zip ((List.range ds.length).map Int.ofNat)

/-- The bin vector `vb` is what the calls `hist` make of 32 fresh bins: every
bin's table gives the `k`-th distinct hash presented to it the id `k`, and its
counter is the number of those hashes. -/
def Tracks (vb : List StateBin) (hist : List (Nat × Int)) : Prop :=
  vb.length = 32 ∧ ∀ b : Int, 0 ≤ b → b < 32 → ∃ bin, binAt vb b = some bin ∧
    bin.hashmap = denseTable (firstSeen (presented hist b)) ∧
    bin.cnt = ((firstSeen (presented hist b)).length : Int)

/-- What one record says about byte totals, in either encoding: nothing (a call
record), the byte total of a frame, or the `draw_bytes` of a draw. -/
inductive ByteTotal where
  | call
  | frame (g_bytes : Int)
  | draw (draw_bytes : Int)
deriving DecidableEq, Repr

/-- The byte total that a binary record carries. -/
def Record.total : Record → ByteTotal
  | Record.call _ _ _ _ _ _ _ _ => ByteTotal.call
  | Record.frame _ _ _ _ _ g_bytes => ByteTotal.frame g_bytes
  | Record.draw _ _ _ _ _ _ _ draw_bytes => ByteTotal.draw draw_bytes

/-- The byte total that a text line carries. -/
def TextLine.total : TextLine → ByteTotal
  | TextLine.call _ _ _ _ _ => ByteTotal.call
  | TextLine.frame _ g_bytes => ByteTotal.frame g_bytes
  | TextLine.draw _ _ _ draw_bytes => ByteTotal.draw draw_bytes

/-- The sum of the `draw_bytes` of the draws written since the last frame,
after one more record has been written, when that sum was `acc` before. -/
def pendingStep (acc : Int) : ByteTotal → Int
  | ByteTotal.call => acc
  | ByteTotal.frame _ => 0
  | ByteTotal.draw draw_bytes => acc + draw_bytes

/-- Every frame of the stream carries as its byte total the sum of the
`draw_bytes` of the draws between it and the previous frame (or the start of
the stream, where the sum so far is `acc`), provided that sum is the value of
an `int`. -/
def frameSumsOK : Int → List ByteTotal → Prop
  | _, [] => True
  | acc, r :: rest =>
    (match r with
      | ByteTotal.frame g_bytes => isInt32 acc → g_bytes = acc
      | _ => True)
    ∧ frameSumsOK (pendingStep acc r) rest

/-- The invariant behind the frame sums: both streams are well summed so far,
and `g_bytes` is, modulo `2^64`, the pending sum of each stream that is on. -/
def FrameInv (s : State) : Prop :=
  frameSumsOK 0 (s.g_fp2.map Record.total)
    ∧ frameSumsOK 0 (s.g_fp.map TextLine.total)
    ∧ (s.stateTraceRaw = true →
        (s.g_bytes : Int)
          = ((s.g_fp2.map Record.total).foldl pendingStep 0) % 18446744073709551616)
    ∧ (s.stateTraceTxt = true →
        (s.g_bytes : Int)
          = ((s.g_fp.map TextLine.total).foldl pendingStep 0) % 18446744073709551616)

/-- The state is one the analyzer can be in: there are 32 bins, every bin of
the resource map is one of the 25 pipeline bins, and every change kind is one
of the five kinds. -/
def WellFormed (s : State) : Prop :=
  s.vecBins.length = 32
    ∧ (∀ e ∈ s.mapPtrToBin, 0 ≤ e.2 ∧ e.2 < 25)
    ∧ (∀ b ∈ s.vecBins, 0 ≤ b.change ∧ b.change ≤ 4)

/-- The invocation is one `stateCall` can make: the change kind is CREATE,
UPDATE or SWITCH, and the payload pointer is null or points to at least `size`
bytes. -/
def ValidCall (a : Invocation) : Prop :=
  (a.change_type = BIN_CREATE ∨ a.change_type = BIN_UPDATE ∨ a.change_type = BIN_SWITCH)
    ∧ (match a.dat with
        | none => True
        | some mem => 0 ≤ a.size ∧ a.size ≤ (mem.length : Int))

instance (s : State) : Decidable (WellFormed s) := by
  unfold WellFormed; infer_instance

instance (a : Invocation) : Decidable (ValidCall a) := by
  unfold ValidCall
  cases a.dat <;> infer_instance

/-! ## Sample states and traces -/

/-- The state at the start of pass 2 with an empty resource map, for the given
settings of the two trace toggles. -/
def pass2Start (txt raw : Bool) : State :=
  { createBins (initState txt raw) with g_pass := 2 }

/-- A pass-2 state used to evaluate the model: the state after `createBins`
whose resource map sends the handle 10042 to the texture bin and the handle 7
to the bin of vertex slot 0. -/
def demoState : State :=
  { createBins (initState true true) with
    g_pass := 2, mapPtrToBin := [(10042, BIN_TEXTURE), (7, BIN_VERTEX0)] }

/-- A pass-2 state in the middle of a draw window, used to evaluate the model:
the texture bin holds an UPDATE of 64 bytes and the bin of vertex slot 0 an
UPDATE of 36 bytes. -/
def demoDrawState : State :=
  { demoState with
    vecBins := binSet
      (binSet demoState.vecBins BIN_TEXTURE
        { newBin with curr := 0, change := BIN_UPDATE, bytes := 64, cnt := 1,
                      hashmap := [(7570407011736496, 0)] })
      BIN_VERTEX0
      { newBin with curr := 1, change := BIN_UPDATE, bytes := 36, cnt := 2,
                    hashmap := [(11, 0), (12, 1)] },
    mapPtrToHash := [(10042, 0), (7, 1)] }

/-- The invocation that `stateCall` makes for `wglSwapBuffers`. -/
def swapBuffers : Invocation :=
  { change_type := BIN_SWITCH, name := "SwapBuffers", nameID := 100, bin := BIN_PRESENT,
    objptr := 0, datptr := 0, dat := none, size := 0 }

/-- The invocation that `stateCall` makes for `glBindTexture (GL_TEXTURE_2D, 42)`. -/
def bindTexture42 : Invocation :=
  { change_type := BIN_SWITCH, name := "BindTexture", nameID := 111, bin := BIN_TEXTURE,
    objptr := 10042, datptr := 10042, dat := none, size := 0 }

/-- A short pass-2 trace used to evaluate the model: a texture upload of 64
bytes, a draw of 6 primitives, a present. -/
def demoTrace : List Invocation :=
  [{ change_type := BIN_UPDATE, name := "TexSubImage2D", nameID := 112, bin := BIN_TEXTURE,
     objptr := 10042, datptr := 10042, dat := none, size := 64 },
   { change_type := BIN_SWITCH, name := "DrawArrays", nameID := 101, bin := BIN_DRAW,
     objptr := 0, datptr := 0, dat := none, size := 6 },
   swapBuffers]

/-- Modelled from the spec: the driver, which is not among the sources, runs
`stateSort` over the call stream with `g_pass == 1`, then sets `g_pass` to 2
and runs it over the call stream again.  Here the invocations of the first scan
are `pass1` and those of the second scan `pass2`. -/
def twoPass (s : State) (pass1 pass2 : List Invocation) : Option State :=
  match run { s with g_pass := 1 } pass1 with
  | none => none
  | some s1 => run { s1 with g_pass := 2 } pass2

/-- The invocation that `stateCall` makes for `glGenBuffers` returning the
buffer name 7. -/
def genBuffers7 : Invocation :=
  { change_type := BIN_CREATE, name := "GenBuffers", nameID := 104, bin := BIN_UNKNOWN,
    objptr := 7, datptr := 7, dat := none, size := 0 }

/-- The invocation that `stateCall` makes for
`glBindBuffer (GL_ARRAY_BUFFER, 7)`. -/
def bindArrayBuffer7 : Invocation :=
  { change_type := BIN_SWITCH, name := "BindBuffer", nameID := 105, bin := BIN_VERTEX0,
    objptr := 7, datptr := 7, dat := none, size := 0 }

/-- The invocation that `stateCall` makes for
`glBindBuffer (GL_ELEMENT_ARRAY_BUFFER, 7)`. -/
def bindElementBuffer7 : Invocation :=
  { change_type := BIN_SWITCH, name := "BindBuffer", nameID := 105, bin := BIN_INDEX,
    objptr := 7, datptr := 7, dat := none, size := 0 }

/-- The invocation that `stateCall` makes for `glDrawArrays` with count 6. -/
def drawArrays6 : Invocation :=
  { change_type := BIN_SWITCH, name := "DrawArrays", nameID := 101, bin := BIN_DRAW,
    objptr := 0, datptr := 0, dat := none, size := 6 }

/-- A trace in which one buffer is bound to two binding points: it is generated
and bound as index buffer, a draw follows, then it is bound as vertex buffer
and as index buffer again. -/
def rebindTrace : List Invocation :=
  [genBuffers7, bindElementBuffer7, drawArrays6, bindArrayBuffer7, bindElementBuffer7]

/-- The invocation that `stateCall` makes for `glTexSubImage2D` on the bound
texture 42 with the pixel data `mem`. -/
def uploadTexture42 (mem : List Byte) : Invocation :=
  { change_type := BIN_UPDATE, name := "TexSubImage2D", nameID := 112, bin := BIN_TEXTURE,
    objptr := 10042, datptr := 10042, dat := some mem, size := mem.length }

/-! ## Bytes of the binary stream

`packOutput` builds each binary record in `g_buf` with a sequence of `memcpy`
calls and writes it with one `fwrite`.  `memcpy (buf, (char*) &x, n)` copies the
first `n` bytes of the object representation of `x`; on the little-endian
two's-complement targets of the tool these are the `n` low bytes of `x`, least
significant first. -/

/-- The `n` low bytes of `x`, least significant first. -/
def leBytes : Nat → Nat → List Byte
  | 0, _ => []
  | n + 1, x => ⟨x % 256, Nat.mod_lt x (by decide)⟩ :: leBytes n (x / 256)

/-- The bytes that `memcpy (buf, (char*) &x, n)` copies from an `int x`. -/
def intBytes (n : Nat) (x : Int) : List Byte := leBytes n (x % 4294967296).toNat

/-- The byte that `memcpy (buf, (char*) &c, 1)` copies from a `char c` holding a
character. -/
def charBytes (c : Char) : List Byte := leBytes 1 c.toNat

/-- The byte that `memcpy (buf, (char*) &nameID, 1)` copies from the `char`
`nameID`. -/
def int8Bytes (x : Int) : List Byte := leBytes 1 (x % 256).toNat

/-- The bytes that `memcpy (buf, (char*) &x, n)` copies from an
`unsigned long long x`. -/
def u64Bytes (n : Nat) (x : Nat) : List Byte := leBytes n (x % 18446744073709551616)

/-- The 18-byte header that every overload of `packOutput` builds first. -/
def headerBytes (typ : Char) (nameID : Int) (tstart tstop : Nat) : List Byte :=
  charBytes typ ++ int8Bytes nameID ++ u64Bytes 8 tstart ++ u64Bytes 8 tstop

/-- The bytes that the loop over the bins copies into a draw record: per bin
four bytes of `curr`, one byte of `change`, four bytes of `bytes`. -/
def tripleBytes : List (Int × Int × Int) → List Byte
  | [] => []
  | (curr, change, bytes) :: rest =>
    intBytes 4 curr ++ intBytes 1 change ++ intBytes 4 bytes ++ tripleBytes rest

/-- The bytes of one binary record, in the order of the `memcpy` calls of
`packOutput`.  The `fwrite` that follows writes the first 18 + 20, 18 + 8 or
18 + NUM_BIN * 9 + 9 bytes of `g_buf`, which are the bytes copied
(`length_encode`). -/
def Record.encode : Record → List Byte
  | Record.call typ nameID tstart tstop bin size valid objptr =>
    headerBytes typ nameID tstart tstop
      ++ intBytes 4 bin ++ intBytes 4 size ++ u64Bytes 4 valid ++ u64Bytes 8 objptr
  | Record.frame typ nameID tstart tstop g_frame g_bytes =>
    headerBytes typ nameID tstart tstop ++ intBytes 4 g_frame ++ intBytes 4 g_bytes
  | Record.draw typ nameID tstart tstop bins prim_cnt d draw_bytes =>
    headerBytes typ nameID tstart tstop ++ tripleBytes bins
      ++ intBytes 4 prim_cnt ++ charBytes d ++ intBytes 4 draw_bytes

/-- The contents of the file behind `g_fp2`: the records in the order of their
`fwrite` calls. -/
def encodeAll : List Record → List Byte
  | [] => []
  | r :: rs => r.encode ++ encodeAll rs

/-- The shape that `packOutput` gives to every record: the tag of its kind,
a `char` for `nameID` (0 in a frame), the two time stamps 0, and in a draw
record 25 bins and the letter D. -/
def Record.Shape : Record → Prop
  | Record.call typ nameID tstart tstop _ _ _ _ =>
    typ = 'C' ∧ -128 ≤ nameID ∧ nameID ≤ 127 ∧ tstart = 0 ∧ tstop = 0
  | Record.frame typ nameID tstart tstop _ _ =>
    typ = 'F' ∧ nameID = 0 ∧ tstart = 0 ∧ tstop = 0
  | Record.draw typ nameID tstart tstop bins _ d _ =>
    typ = 'D' ∧ -128 ≤ nameID ∧ nameID ≤ 127 ∧ tstart = 0 ∧ tstop = 0
      ∧ bins.length = 25 ∧ d = 'D'

instance (r : Record) : Decidable r.Shape := by
  cases r <;> unfold Record.Shape <;> infer_instance

/-- The fields of the record hold values of their C types: `int` fields are
32-bit, the handle is 64-bit, the id passed as `valid` is an `int` converted to
`unsigned long long`, and a change kind fits the one byte copied from it. -/
def Record.InRange : Record → Prop
  | Record.call _ _ _ _ bin size valid objptr =>
    isInt32 bin ∧ isInt32 size ∧ valid = toUInt64 (toInt32 valid)
      ∧ objptr < 18446744073709551616
  | Record.frame _ _ _ _ g_frame g_bytes => isInt32 g_frame ∧ isInt32 g_bytes
  | Record.draw _ _ _ _ bins prim_cnt _ draw_bytes =>
    (∀ t ∈ bins, isInt32 t.1 ∧ (0 ≤ t.2.1 ∧ t.2.1 < 256) ∧ isInt32 t.2.2)
      ∧ isInt32 prim_cnt ∧ isInt32 draw_bytes

instance (r : Record) : Decidable r.InRange := by
  cases r <;> unfold Record.InRange <;> infer_instance

/-! ## A parser for the binary stream -/

/-- The value of a little-endian byte string. -/
def leValue : List Byte → Nat
  | [] => 0
  | b :: bs => b.val + 256 * leValue bs

/-- Reads `n` bytes as a little-endian number; the rest of the input is
returned with it. -/
def readLE : Nat → List Byte → Option (Nat × List Byte)
  | 0, bs => some (0, bs)
  | _ + 1, [] => none
  | n + 1, b :: bs =>
    match readLE n bs with
    | none => none
    | some (v, rest) => some (b.val + 256 * v, rest)

/-- Reads a 32-bit `int`. -/
def readInt32 (bs : List Byte) : Option (Int × List Byte) :=
  match readLE 4 bs with
  | none => none
  | some (v, rest) => some (toInt32 v, rest)

/-- Reads the triples of `n` bins of a draw record. -/
def readTriples : Nat → List Byte → Option (List (Int × Int × Int) × List Byte)
  | 0, bs => some ([], bs)
  | n + 1, bs =>
    match readInt32 bs with
    | none => none
    | some (curr, bs1) =>
      match readLE 1 bs1 with
      | none => none
      | some (change, bs2) =>
        match readInt32 bs2 with
        | none => none
        | some (bytes, bs3) =>
          match readTriples n bs3 with
          | none => none
          | some (l, rest) => some ((curr, (change : Int), bytes) :: l, rest)

/-- Reads the 18-byte header: the tag, the `char` `nameID` and the two time
stamps. -/
def readHeader (bs : List Byte) : Option (Nat × Int × Nat × Nat × List Byte) :=
  match readLE 1 bs with
  | none => none
  | some (tag, bs1) =>
    match readLE 1 bs1 with
    | none => none
    | some (nameID, bs2) =>
      match readLE 8 bs2 with
      | none => none
      | some (tstart, bs3) =>
        match readLE 8 bs3 with
        | none => none
        | some (tstop, bs4) => some (tag, toInt8 nameID, tstart, tstop, bs4)

/-- Reads the 20 bytes that follow the header of a call record. -/
def readCall (nameID : Int) (tstart tstop : Nat) (bs : List Byte) :
    Option (Record × List Byte) :=
  match readInt32 bs with
  | none => none
  | some (bin, bs1) =>
    match readInt32 bs1 with
    | none => none
    | some (size, bs2) =>
      match readInt32 bs2 with
      | none => none
      | some (valid, bs3) =>
        match readLE 8 bs3 with
        | none => none
        | some (objptr, bs4) =>
          some (Record.call 'C' nameID tstart tstop bin size (toUInt64 valid) objptr, bs4)

/-- Reads the 8 bytes that follow the header of a frame record. -/
def readFrame (nameID : Int) (tstart tstop : Nat) (bs : List Byte) :
    Option (Record × List Byte) :=
  match readInt32 bs with
  | none => none
  | some (g_frame, bs1) =>
    match readInt32 bs1 with
    | none => none
    | some (g_bytes, bs2) =>
      some (Record.frame 'F' nameID tstart tstop g_frame g_bytes, bs2)

/-- Reads the 25 * 9 + 9 bytes that follow the header of a draw record. -/
def readDraw (nameID : Int) (tstart tstop : Nat) (bs : List Byte) :
    Option (Record × List Byte) :=
  match readTriples 25 bs with
  | none => none
  | some (bins, bs1) =>
    match readInt32 bs1 with
    | none => none
    | some (prim_cnt, bs2) =>
      match readLE 1 bs2 with
      | none => none
      | some (d, bs3) =>
        match readInt32 bs3 with
        | none => none
        | some (draw_bytes, bs4) =>
          some (Record.draw 'D' nameID tstart tstop bins prim_cnt (Char.ofNat d)
            draw_bytes, bs4)

/-- Reads one record: the tag decides the kind, and with it the length, of the
record. -/
def readRecord (bs : List Byte) : Option (Record × List Byte) :=
  match readHeader bs with
  | none => none
  | some (tag, nameID, tstart, tstop, body) =>
    if tag = 67 then readCall nameID tstart tstop body
    else if tag = 70 then readFrame nameID tstart tstop body
    else if tag = 68 then readDraw nameID tstart tstop body
    else none

/-- Reads records until the input is used up; `fuel` bounds the number of
records. -/
def readRecords : Nat → List Byte → Option (List Record)
  | _, [] => some []
  | 0, _ :: _ => none
  | fuel + 1, b :: bs =>
    match readRecord (b :: bs) with
    | none => none
    | some (r, rest) =>
      match readRecords fuel rest with
      | none => none
      | some rs => some (r :: rs)

/-- The parser of a binary stream: no record is empty, so the length of the
input bounds the number of records. -/
def parseStream (bs : List Byte) : Option (List Record) := readRecords bs.length bs

/-- The `int` variables of the analyzer hold values of an `int`: the frame
number, and in every bin `curr`, `bytes`, `cnt` and the ids of the value
table. -/
def Typed (s : State) : Prop :=
  isInt32 s.g_frame
    ∧ ∀ b ∈ s.vecBins, isInt32 b.curr ∧ isInt32 b.bytes ∧ isInt32 b.cnt
        ∧ ∀ e ∈ b.hashmap, isInt32 e.2

instance (s : State) : Decidable (Typed s) := by
  unfold Typed; infer_instance

/-- The ids of the value table of a bin are 0, 1, ..., `cnt - 1` in the order
of their registration, and once the bin has been changed its `curr` is one of
them. -/
def BinDense (b : StateBin) : Prop :=
  0 ≤ b.cnt
    ∧ b.hashmap.map Prod.snd = (List.range b.cnt.toNat).map (fun (i : Nat) => (i : Int))
    ∧ (b.change ≠ BIN_UNDEF → 0 ≤ b.curr ∧ b.curr < b.cnt)

/-- The id remembered for a handle that has a bin in the resource map is an
id of the value table of that bin. -/
def HandleIds (s : State) : Prop :=
  ∀ p v b, mapFind s.mapPtrToHash p = some v → getBin s.mapPtrToBin p ≠ BIN_UNKNOWN →
    binAt s.vecBins (getBin s.mapPtrToBin p) = some b →
    0 ≤ toInt32 v ∧ toInt32 v < b.cnt

/-- A pass-2 trace in which a texture is uploaded twice and bound, a draw
follows, and the texture is bound again. -/
def textureTrace : List Invocation :=
  [uploadTexture42 [1, 2, 3, 4], uploadTexture42 [9, 9], bindTexture42, drawArrays6,
   bindTexture42]

/-- A pass-2 trace in which the bin of a call is found through `datptr`: two
uploads through the handles 4 and 5 into the resource 1, then a bind of the
handle 5 through the resource 2. -/
def fallbackTrace : List Invocation :=
  [{ change_type := BIN_UPDATE, name := "Map", nameID := 15, bin := BIN_UNKNOWN,
     objptr := 4, datptr := 1, dat := some [1], size := 1 },
   { change_type := BIN_UPDATE, name := "Map", nameID := 15, bin := BIN_UNKNOWN,
     objptr := 5, datptr := 1, dat := some [2], size := 1 },
   { change_type := BIN_SWITCH, name := "Bind", nameID := 17, bin := BIN_UNKNOWN,
     objptr := 5, datptr := 2, dat := none, size := 0 }]

/-- The pass-1 trace that gives the resource 1 the texture bin and the
resource 2 the bin of vertex slot 0. -/
def fallbackPass1 : List Invocation :=
  [{ change_type := BIN_SWITCH, name := "BindTexture", nameID := 111, bin := BIN_TEXTURE,
     objptr := 1, datptr := 1, dat := none, size := 0 },
   { change_type := BIN_SWITCH, name := "BindBuffer", nameID := 105, bin := BIN_VERTEX0,
     objptr := 2, datptr := 2, dat := none, size := 0 }]

/-! ## Decoded calls

`stateCall` reads the decoded call through the accessors of `trace::Value`.  The
sources hold an older declaration of the class (`trace_model.hpp`, with nine
kinds of value) that lacks these accessors, and the OpenGL headers are not among
them either. -/

/-- Modelled from the spec: a decoded argument or return value, one of the nine
kinds of `trace_model.hpp`.  A `Float` is held as the four bytes of its
conversion to `float`, which is all that `stateCall` takes from it; a `String`
is held as its bytes; the size of a `Blob` is the length of `buf`. -/
inductive Value where
  | null
  | bool (value : Bool)
  | sint (value : Int)
  | uint (value : Nat)
  | float (b0 b1 b2 b3 : Byte)
  | string (value : List Byte)
  | const (name : String) (value : Value)
  | array (values : List Value)
  | blob (buf : List Byte)

/-- The class `Call`: number, name, arguments and return value (`none` for the
null `ret` of a call without one). -/
structure Call where
  no : Nat
  name : String
  args : List Value
  ret : Option Value

/-- Modelled from the spec: the accessor `toSInt`, which is not among the
sources: the number held by an integer value, 0 for a value of another kind. -/
def Value.toSInt : Value → Int
  | Value.sint v => v
  | Value.uint v => v
  | Value.bool b => if b then 1 else 0
  | Value.const _ v => v.toSInt
  | _ => 0

/-- Modelled from the spec: the accessor `toUInt`, which is not among the
sources: the number held by an integer value as an `unsigned long long`, 0 for
a value of another kind. -/
def Value.toUInt : Value → Nat
  | Value.sint v => toUInt64 v
  | Value.uint v => v % 18446744073709551616
  | Value.bool b => if b then 1 else 0
  | Value.const _ v => v.toUInt
  | _ => 0

/-- Modelled from the spec: the accessor `toUIntPtr`, which is not among the
sources: the address held by a value, 0 for a value that holds none. -/
def Value.toUIntPtr : Value → Nat
  | Value.sint v => toUInt64 v
  | Value.uint v => v % 18446744073709551616
  | Value.const _ v => v.toUIntPtr
  | _ => 0

/-- Modelled from the spec: the accessor `toNull`, which is not among the
sources: whether the value is a `Null` (the accessor then returns a non-null
pointer). -/
def Value.toNull : Value → Bool
  | Value.null => true
  | _ => false

/-- Modelled from the spec: the accessor `toPointer`, which is not among the
sources: `none` for a null pointer, otherwise the memory the pointer leads to.
A `Blob` leads to its `buf`; a non-zero address leads to memory that the trace
does not hold, of which no byte can be read in the model. -/
def Value.toPointer : Value → Option (List Byte)
  | Value.blob buf => some buf
  | Value.uint v => if v % 18446744073709551616 = 0 then none else some []
  | Value.sint v => if toUInt64 v = 0 then none else some []
  | Value.const _ v => v.toPointer
  | _ => none

/-- Modelled from the spec: the accessor `toFloat` followed by the conversion
to `float`: the four bytes of the `float`.  The conversion of a value of
another kind is floating-point arithmetic and has no result in the model. -/
def Value.toFloat : Value → Option (List Byte)
  | Value.float b0 b1 b2 b3 => some [b0, b1, b2, b3]
  | Value.const _ v => v.toFloat
  | _ => none

/-- Modelled from the spec: the accessor `toString`, which is not among the
sources: the bytes of a `String`; a value of another kind has no string. -/
def Value.toString : Value → Option (List Byte)
  | Value.string v => some v
  | Value.const _ v => v.toString
  | _ => none

/-- The cast `(trace::Array*) (&value)` followed by a read of `values`, which
is defined for an `Array` only. -/
def Value.asArray : Value → Option (List Value)
  | Value.array values => some values
  | _ => none

/-- The cast of `&value` to `trace::Blob*`: the buffer of a `Blob`.  For
another value the C cast has no defined result and `dynamic_cast` gives a null
pointer. -/
def Value.asBlob : Value → Option (List Byte)
  | Value.blob buf => some buf
  | _ => none

/-- The expression `call.arg (index)`, which is defined for the indices of
`args` only. -/
def Call.arg (call : Call) (index : Nat) : Option Value := call.args[index]?

/-- Conversion to `unsigned long`, which has 32 bits on the Windows targets that
`stateCall` is written for (it decodes `wglSwapBuffers` and the D3D
interfaces). -/
def toULong (x : Int) : Nat := (x % 4294967296).toNat

/-- Conversion to `GLenum`, an `unsigned int`. -/
def toGLenum (x : Int) : Nat := (x % 4294967296).toNat

/-- Modelled from the spec: the constants of `<gl/gl.h>` and `<gl/glext.h>`
that `stateCall` names, with their values in the OpenGL headers. -/
abbrev GL_ARRAY_BUFFER : Nat := 34962
/-- Modelled from the spec: a constant of `<gl/glext.h>`. -/
abbrev GL_ELEMENT_ARRAY_BUFFER : Nat := 34963
/-- Modelled from the spec: a constant of `<gl/gl.h>`. -/
abbrev GL_RGB : Nat := 6407
/-- Modelled from the spec: a constant of `<gl/gl.h>`. -/
abbrev GL_RGBA : Nat := 6408
/-- Modelled from the spec: a constant of `<gl/glext.h>`. -/
abbrev GL_BGR : Nat := 32992
/-- Modelled from the spec: a constant of `<gl/glext.h>`. -/
abbrev GL_BGRA : Nat := 32993
/-- Modelled from the spec: a constant of `<gl/gl.h>`. -/
abbrev GL_UNSIGNED_BYTE : Nat := 5121
/-- Modelled from the spec: a constant of `<gl/gl.h>`. -/
abbrev GL_UNSIGNED_SHORT : Nat := 5123
/-- Modelled from the spec: a constant of `<gl/gl.h>`. -/
abbrev GL_INT : Nat := 5124
/-- Modelled from the spec: a constant of `<gl/gl.h>`. -/
abbrev GL_UNSIGNED_INT : Nat := 5125
/-- Modelled from the spec: a constant of `<gl/gl.h>`. -/
abbrev GL_FLOAT : Nat := 5126
/-- Modelled from the spec: a constant of `<gl/gl.h>`. -/
abbrev GL_TEXTURE_2D : Nat := 3553
/-! ## Call classifier -/

/-- The variables `lastBindVBO` and `lastBindTEX`. -/
structure Classifier where
  lastBindVBO : Nat
  lastBindTEX : Nat
deriving DecidableEq, Repr

/-- The two variables as their initialisers leave them. -/
def initClassifier : Classifier := { lastBindVBO := 0, lastBindTEX := 0 }

/-- The arguments of one call `stateSort (change_type, name, nameID, bin, objptr,
datptr, dat, size)`. -/
def sortArgs (change_type : Int) (name : String) (nameID bin : Int) (objptr datptr : Nat)
    (dat : Option (List Byte)) (size : Int) : Invocation :=
  { change_type := change_type, name := name, nameID := nameID, bin := bin,
    objptr := objptr, datptr := datptr, dat := dat, size := size }

/-- The test `strstr (name, pattern) != 0x0`. -/
def strstr : List Char → List Char → Bool
  | [], pattern => pattern.isEmpty
  | c :: cs, pattern => pattern.isPrefixOf (c :: cs) || strstr cs pattern

/-- The function `strlen` on the bytes of a string. -/
def strlen : List Byte → Nat
  | [] => 0
  | b :: bs => if b.val = 0 then 0 else strlen bs + 1

/-- The loop `for (n = 0; n < 16; n++) dat[n] = arr->values[n]->toFloat ()`
over the first values of an array: the bytes of `dat`. -/
def floatBytes : Nat → List Value → Option (List Byte)
  | 0, _ => some []
  | _ + 1, [] => none
  | n + 1, v :: values =>
    match v.toFloat, floatBytes n values with
    | some b, some rest => some (b ++ rest)
    | _, _ => none

/-- The loop of the three multi-slot calls, with `k` rounds left at index `n`:
`ptr = arr->values[n]->toUIntPtr ()` and a SWITCH on the bin `slot0 + n`. -/
def slotCalls (name : String) (nameID slot0 : Int) (values : Option (List Value)) :
    Nat → Nat → Option (List Invocation)
  | 0, _ => some []
  | k + 1, n =>
    match values with
    | none => none
    | some vs =>
      match vs[n]? with
      | none => none
      | some v =>
        match slotCalls name nameID slot0 values k (n + 1) with
        | none => none
        | some rest =>
          some (sortArgs BIN_SWITCH name nameID (slot0 + n) v.toUIntPtr v.toUIntPtr
            none 0 :: rest)

/-- The body shared by `IASetVertexBuffers`, `VSSetConstantBuffers` and
`PSSetConstantBuffers`: `num` is read from argument 2 into an `int` and clamped
to 5, the array is argument 3. -/
def multiSlot (call : Call) (name : String) (nameID slot0 : Int) :
    Option (List Invocation) :=
  match call.arg 2, call.arg 3 with
  | some a2, some a3 =>
    let num := toInt32 a2.toUInt
    let num := if num > 5 then 5 else num
    slotCalls name nameID slot0 a3.asArray num.toNat 0
  | _, _ => none

/-- The loops `for (n = 0; n < arr->values.size (); n++)` that make one CREATE
or SWITCH per element of an array, with the handle `handle (value)` and the
payload `payload (handle)`. -/
def perElement (arr : Option Value) (change_type : Int) (name : String) (nameID bin : Int)
    (handle : Value → Nat) (payload : Nat → Option (List Byte)) (size : Int) :
    Option (List Invocation) :=
  match arr with
  | none => none
  | some a =>
    match a.asArray with
    | none => none
    | some values =>
      some (values.map (fun v =>
        sortArgs change_type name nameID bin (handle v) (handle v) (payload (handle v)) size))

/-- The bodies that read `arr->values[0]->toUIntPtr ()` into an
`unsigned long ptr` and pass `&ptr` with the size 8: four bytes of `ptr` are
there to be read. -/
def firstElement (arr : Option Value) (name : String) (nameID bin : Int) :
    Option (List Invocation) :=
  match arr with
  | none => none
  | some a =>
    match a.asArray with
    | none => none
    | some values =>
      match values[0]? with
      | none => none
      | some v =>
        let ptr := toULong v.toUIntPtr
        some [sortArgs BIN_CREATE name nameID bin ptr ptr (some (leBytes 4 ptr)) 8]

/-- The bodies of `glCreateShader` and `glCreateProgram`. -/
def createShader (call : Call) (name : String) (nameID : Int) : Option (List Invocation) :=
  match call.ret with
  | none => none
  | some r =>
    let ptr := toULong (r.toUInt + 20000)
    some [sortArgs BIN_CREATE name nameID BIN_SHADER ptr ptr (some (leBytes 4 ptr)) 8]

/-- The body shared by `glBindBuffer` and `glBufferData`: one SWITCH on the bin
of the target. -/
def bufferTarget (target : Nat) (name : String) (nameID : Int) (ptr : Nat)
    (dat : Option (List Byte)) (size : Int) : List Invocation :=
  (if target = GL_ARRAY_BUFFER then
    [sortArgs BIN_SWITCH name nameID BIN_VERTEX0 ptr ptr dat size] else [])
  ++ (if target = GL_ELEMENT_ARRAY_BUFFER then
    [sortArgs BIN_SWITCH name nameID BIN_INDEX ptr ptr dat size] else [])

/-- The byte count that `glTexSubImage2D` computes from width, height, format
and type in `int` arithmetic. -/
def texSize (width height : Int) (format type : Nat) : Int :=
  let size := toInt32 (width * height)
  let size :=
    if format = GL_RGB then toInt32 (size * 3)
    else if format = GL_RGBA then toInt32 (size * 4)
    else if format = GL_BGR then toInt32 (size * 3)
    else if format = GL_BGRA then toInt32 (size * 4)
    else size
  if type = GL_UNSIGNED_SHORT then toInt32 (size * 2)
  else if type = GL_UNSIGNED_INT then toInt32 (size * 4)
  else if type = GL_INT then toInt32 (size * 4)
  else if type = GL_FLOAT then toInt32 (size * 4)
  else size

/-- The bodies of `glVertexPointer` and `glNormalPointer` for the pointer
argument `a`. -/
def pointerCall (arg : Option Value) (name : String) (nameID bin : Int) :
    Option (List Invocation) :=
  match arg with
  | none => none
  | some a =>
    if a.toPointer.isSome then
      match a.asBlob with
      | none =>
        some [sortArgs BIN_SWITCH name nameID bin a.toUIntPtr a.toUIntPtr none 0]
      | some buf =>
        some [sortArgs BIN_UPDATE name nameID bin 0 0 (some buf) (toInt32 buf.length)]
    else some []

/-- The bodies of `glLoadMatrixd` and `glLoadMatrixf`. -/
def loadMatrix (call : Call) (name : String) (nameID : Int) : Option (List Invocation) :=
  match call.arg 0 with
  | none => none
  | some a =>
    if a.toNull then some []
    else
      match a.asArray with
      | none => none
      | some values =>
        match floatBytes 16 values with
        | none => none
        | some dat => some [sortArgs BIN_UPDATE name nameID BIN_PSCONST4 0 0 (some dat) 64]

/-- The bodies of `glUniform1f`, `glUniform3f` and `glUniform4f`, which copy
`n` arguments into `dat`. -/
def uniform (call : Call) (name : String) (nameID : Int) (n : Nat) :
    Option (List Invocation) :=
  match call.arg 0 with
  | none => none
  | some a0 =>
    let ptr := toULong a0.toSInt
    match floatBytes n (call.args.drop 1) with
    | none => none
    | some dat =>
      some [sortArgs BIN_UPDATE name nameID BIN_VSCONST0 ptr ptr (some dat) (4 * n)]

/-- The strings `arr->values[n]->toString ()` of an array. -/
def strings : List Value → Option (List (List Byte))
  | [] => some []
  | v :: values =>
    match v.toString, strings values with
    | some s, some rest => some (s :: rest)
    | _, _ => none

/-- The body of `glShaderSource`.  The strings are copied into `char dat[65535]`
with one byte left unwritten after each, so only the bytes of the first string
are there to be read with a determined value. -/
def shaderSource (call : Call) : Option (List Invocation) :=
  match call.arg 0, call.arg 2 with
  | some a0, some a2 =>
    let ptr := toULong (a0.toUInt + 20000)
    match a2.asArray with
    | none => none
    | some values =>
      match strings values with
      | none => none
      | some strs =>
        let siz := (strs.map (fun s => strlen s + 1)).sum
        if siz > 65535 then none
        else
          some [sortArgs BIN_UPDATE "ShaderSource" 118 BIN_SHADER ptr ptr
            (some ((strs.headD []).take (strlen (strs.headD [])))) siz]
  | _, _ => none

/-- The function `stateCall`: the new values of `lastBindVBO` and `lastBindTEX`
and the calls of `stateSort` that it makes, in order.  There is no result where
`stateCall` reads an argument that the call does not have, an element outside
an array, or through a cast to a class that the value does not have. -/
def stateCall (c : Classifier) (call : Call) : Option (Classifier × List Invocation) :=
  let name := call.name
  -- OpenGL
  if name = "wglSwapBuffers" then
    some (c, [sortArgs BIN_SWITCH "SwapBuffers" 100 BIN_PRESENT 0 0 none 0])
  else if name = "glDrawArrays" then
    match call.arg 2 with
    | none => none
    | some a2 =>
      some (c, [sortArgs BIN_SWITCH "DrawArrays" 101 BIN_DRAW 0 0 none (toInt32 a2.toSInt)])
  else if name = "glDrawElements" then
    match call.arg 3 with
    | none => none
    | some a3 =>
      if a3.toNull then
        match call.arg 1 with
        | none => none
        | some a1 =>
          some (c, [sortArgs BIN_SWITCH "DrawElem" 102 BIN_DRAW 0 0 none (toInt32 a1.toSInt)])
      else
        match a3.asBlob with
        | none => none
        | some buf =>
          some (c, [sortArgs BIN_CREATE "DrawElem" 102 BIN_DRAW 0 0 (some buf)
            (toInt32 buf.length)])
  else if name = "glGenBuffers" ∨ name = "glGenBuffersARB" then
    (perElement (call.arg 1) BIN_CREATE "GenBuffers" 104 BIN_UNKNOWN
      (fun v => v.toUInt) (fun _ => none) 0).map (fun l => (c, l))
  else if name = "glBindBuffer" then
    match call.arg 0, call.arg 1 with
    | some a0, some a1 =>
      let target := toGLenum a0.toSInt
      let ptr := toULong a1.toUInt
      some ({ c with lastBindVBO := ptr }, bufferTarget target "BindBuffer" 105 ptr none 0)
    | _, _ => none
  else if name = "glBufferData" ∧ c.lastBindVBO ≠ 0 then
    match call.arg 0, call.arg 1, call.arg 2 with
    | some a0, some a1, some a2 =>
      let target := toGLenum a0.toSInt
      let size := toInt32 a1.toSInt
      let dat := a2.toPointer
      some (c, bufferTarget target "BufferData" 106 c.lastBindVBO dat size)
    | _, _, _ => none
  else if name = "glCreateShader" then
    (createShader call "CreateShader" 107).map (fun l => (c, l))
  else if name = "glCreateProgram" then
    (createShader call "CreateProgram" 108).map (fun l => (c, l))
  else if name = "glUseProgram" then
    match call.arg 0 with
    | none => none
    | some a0 =>
      let ptr := toULong (a0.toUInt + 20000)
      some (c, [sortArgs BIN_SWITCH "UseProgram" 109 BIN_SHADER ptr ptr none 0])
  else if name = "glGenTextures" ∨ name = "glGenTexturesEXT" then
    (perElement (call.arg 1) BIN_CREATE "GenTextures" 110 BIN_TEXTURE
      (fun v => (v.toUInt + 10000) % 18446744073709551616) (fun _ => none) 0).map
      (fun l => (c, l))
  else if name = "glBindTexture" then
    match call.arg 1 with
    | none => none
    | some a1 =>
      let ptr := toULong (a1.toUInt + 10000)
      some ({ c with lastBindTEX := ptr },
        [sortArgs BIN_SWITCH "BindTexture" 111 BIN_TEXTURE ptr ptr none 0])
  else if name = "glTexSubImage2D" ∧ c.lastBindTEX ≠ 0 then
    match call.arg 4, call.arg 5, call.arg 8, call.arg 6, call.arg 7 with
    | some a4, some a5, some a8, some a6, some a7 =>
      let size := texSize a4.toSInt a5.toSInt (toGLenum a6.toSInt) (toGLenum a7.toSInt)
      let dat := a8.toPointer
      some (c, [sortArgs BIN_UPDATE "TexSubImage2D" 112 BIN_TEXTURE c.lastBindTEX
        c.lastBindTEX dat size])
    | _, _, _, _, _ => none
  else if name = "glGetUniformLocation" then
    match call.ret with
    | none => none
    | some r =>
      let ptr := toULong r.toSInt
      some (c, [sortArgs BIN_CREATE "GetUniformLocation" 113 BIN_UNKNOWN ptr ptr none 0])
  else if name = "glUniform1f" then
    (uniform call "glUniform1f" 114 1).map (fun l => (c, l))
  else if name = "glUniform3f" then
    (uniform call "glUniform3f" 115 3).map (fun l => (c, l))
  else if name = "glUniform4f" then
    (uniform call "glUniform4f" 116 4).map (fun l => (c, l))
  else if name = "glUniformMatrix4fv" then
    match call.arg 0, call.arg 3 with
    | some a0, some a3 =>
      let ptr := toULong a0.toSInt
      match a3.asArray with
      | none => none
      | some values =>
        match floatBytes 16 values with
        | none => none
        | some dat =>
          some (c, [sortArgs BIN_UPDATE "glUniformMatrix4fv" 117 (BIN_VSCONST0 + 1) ptr ptr
            (some dat) 64])
    | _, _ => none
  else if name = "glShaderSource" then
    (shaderSource call).map (fun l => (c, l))
  else if name = "glVertexPointer" then
    (pointerCall (call.arg 3) "VertPointer" 119 BIN_VERTEX0).map (fun l => (c, l))
  else if name = "glNormalPointer" then
    (pointerCall (call.arg 2) "NormPointer" 120 BIN_VERTEX1).map (fun l => (c, l))
  else if name = "glLoadMatrixd" then
    (loadMatrix call "glLoadMatrixd" 121).map (fun l => (c, l))
  else if name = "glLoadMatrixf" then
    (loadMatrix call "glLoadMatrixf" 122).map (fun l => (c, l))
  -- DirectX 11
  else if name = "IDXGISwapChain::Present" then
    some (c, [sortArgs BIN_SWITCH "Present" 0 BIN_PRESENT 0 0 none 0])
  else if name = "ID3D10Device::DrawIndexed" ∨ name = "ID3D11DeviceContext::DrawIndexed" then
    match call.arg 1 with
    | none => none
    | some a1 =>
      some (c, [sortArgs BIN_SWITCH "DrawIdx" 1 BIN_DRAW 0 0 none (toInt32 a1.toUInt)])
  else if name = "ID3D10Device::DrawInstanced"
      ∨ name = "ID3D11DeviceContext::DrawInstanced" then
    match call.arg 1, call.arg 2 with
    | some a1, some a2 =>
      some (c, [sortArgs BIN_SWITCH "DrawIst" 2 BIN_DRAW 0 0 none
        (toInt32 (a1.toUInt * a2.toUInt))])
    | _, _ => none
  else if name = "ID3D10Device::Draw" ∨ name = "ID3D11DeviceContext::Draw" then
    match call.arg 1 with
    | none => none
    | some a1 =>
      some (c, [sortArgs BIN_SWITCH "Draw   " 3 BIN_DRAW 0 0 none (toInt32 a1.toUInt)])
  else if name = "ID3D10Device::CreateBuffer" ∨ name = "ID3D11Device::CreateBuffer" then
    (perElement (call.arg 3) BIN_CREATE "CreateBuffer" 4 BIN_UNKNOWN
      (fun v => v.toUIntPtr) (fun _ => none) 0).map (fun l => (c, l))
  else if name = "ID3D10Device::CreateRenderTargetView"
      ∨ name = "ID3D11Device::CreateRenderTargetView" then
    (firstElement (call.arg 3) "CreateRenderTargetView" 5 BIN_RENDER).map (fun l => (c, l))
  else if name = "ID3D10Device::OMSetRenderTargets"
      ∨ name = "ID3D11DeviceContext::OMSetRenderTargets" then
    (perElement (call.arg 2) BIN_SWITCH "OMSetRenderTargets" 6 BIN_RENDER
      (fun v => v.toUIntPtr) (fun ptr => some (leBytes 8 ptr)) 8).map (fun l => (c, l))
  else if name = "ID3D10Device::CreateRasterizerState"
      ∨ name = "ID3D11Device::CreateRasterizerState" then
    (firstElement (call.arg 2) "CreateRasterizerState" 7 BIN_RASTER).map (fun l => (c, l))
  else if name = "ID3D10Device::RSSetState" ∨ name = "ID3D11DeviceContext::RSSetState" then
    match call.arg 1 with
    | none => none
    | some a1 =>
      let ptr := a1.toUIntPtr
      some (c, [sortArgs BIN_SWITCH "RSSetState" 8 BIN_RASTER ptr ptr
        (some (leBytes 8 ptr)) 8])
  else if strstr name.toList "ID3D10Device1::CreateVertexShader".toList then
    (firstElement (call.arg 3) "CreateVertexShader" 9 BIN_SHADER).map (fun l => (c, l))
  else if strstr name.toList "ID3D11Device::CreateVertexShader".toList then
    (firstElement (call.arg 4) "CreateVertexShader" 10 BIN_SHADER).map (fun l => (c, l))
  else if strstr name.toList "ID3D10Device::CreatePixelShader".toList then
    (firstElement (call.arg 3) "CreatePixelShader" 11 BIN_SHADER).map (fun l => (c, l))
  else if strstr name.toList "ID3D11Device::CreatePixelShader".toList then
    (firstElement (call.arg 4) "CreatePixelShader" 12 BIN_SHADER).map (fun l => (c, l))
  else if name = "ID3D10Device::VSSetShader" ∨ name = "ID3D11DeviceContext::VSSetShader" then
    match call.arg 1 with
    | none => none
    | some a1 =>
      some (c, [sortArgs BIN_SWITCH "VSSetShader" 13 BIN_SHADER a1.toUIntPtr a1.toUIntPtr
        none 0])
  else if name = "ID3D10Device::PSSetShader" ∨ name = "ID3D11DeviceContext::PSSetShader" then
    match call.arg 1 with
    | none => none
    | some a1 =>
      some (c, [sortArgs BIN_SWITCH "PSSetShader" 14 BIN_SHADER a1.toUIntPtr a1.toUIntPtr
        none 0])
  else if name = "ID3D10Buffer::Map" then
    match call.arg 3 with
    | none => none
    | some a3 =>
      match a3.asArray with
      | none => none
      | some values =>
        match values[0]? with
        | none => none
        | some v => some (c, [sortArgs BIN_UPDATE "Map" 15 BIN_UNKNOWN v.toUIntPtr 0 none 0])
  else if name = "ID3D11DeviceContext::Map" then
    match call.arg 1 with
    | none => none
    | some a1 => some (c, [sortArgs BIN_UPDATE "Map" 15 BIN_UNKNOWN a1.toUIntPtr 0 none 0])
  else if name = "ID3D10Device::UpdateSubresource"
      ∨ name = "ID3D11DeviceContext::UpdateSubresource" then
    match call.arg 4, call.arg 1 with
    | some a4, some a1 =>
      match a4.asBlob with
      | none => none
      | some buf =>
        some (c, [sortArgs BIN_UPDATE "UpdateSubresource" 16 BIN_UNKNOWN a1.toUIntPtr
          a1.toUIntPtr (some buf) (toInt32 buf.length)])
    | _, _ => none
  else if name = "ID3D10Device::IASetVertexBuffers"
      ∨ name = "ID3D11DeviceContext::IASetVertexBuffers" then
    (multiSlot call "IASetVertexBuffers" 17 BIN_VERTEX0).map (fun l => (c, l))
  else if name = "ID3D10Device::IASetIndexBuffer"
      ∨ name = "ID3D11DeviceContext::IASetIndexBuffer" then
    match call.arg 1 with
    | none => none
    | some a1 =>
      some (c, [sortArgs BIN_SWITCH "IASetIndexBuffer" 18 BIN_INDEX a1.toUIntPtr a1.toUIntPtr
        none 0])
  else if name = "ID3D10Device::VSSetConstantBuffers"
      ∨ name = "ID3D11DeviceContext::VSSetConstantBuffers" then
    (multiSlot call "VSSetConstantBuffers" 19 BIN_VSCONST0).map (fun l => (c, l))
  else if name = "ID3D10Device::PSSetConstantBuffers"
      ∨ name = "ID3D11DeviceContext::PSSetConstantBuffers" then
    (multiSlot call "PSSetConstantBuffers" 20 BIN_PSCONST0).map (fun l => (c, l))
  else some (c, [])

/-- The part of `Retracer::retrace` that runs the analyzer on one call:
`stateCall (call)`, whose `stateSort` calls act on the state in order. -/
def retrace (cs : Classifier × State) (call : Call) : Option (Classifier × State) :=
  match stateCall cs.1 call with
  | none => none
  | some (c1, calls) =>
    match run cs.2 calls with
    | none => none
    | some s1 => some (c1, s1)

/-- One scan of the call stream. -/
def retraceAll (cs : Classifier × State) : List Call → Option (Classifier × State)
  | [] => some cs
  | call :: rest =>
    match retrace cs call with
    | none => none
    | some cs1 => retraceAll cs1 rest

/-- Modelled from the spec: the driver, which is not among the sources, calls
`createBins`, scans the call stream with `g_pass == 1`, sets `g_pass` to 2 and
scans the call stream again; `lastBindVBO` and `lastBindTEX` keep their values
between the scans.  Here the calls of the first scan are `pass1` and those of
the second scan `pass2`. -/
def analyze (txt raw : Bool) (pass1 pass2 : List Call) : Option (Classifier × State) :=
  match retraceAll (initClassifier, { createBins (initState txt raw) with g_pass := 1 })
      pass1 with
  | none => none
  | some (c1, s1) => retraceAll (c1, { s1 with g_pass := 2 }) pass2

/-- The call `glGenTextures (1, textures)` that returns the name 42. -/
def callGenTextures42 : Call :=
  { no := 0, name := "glGenTextures", args := [Value.sint 1, Value.array [Value.uint 42]],
    ret := none }

/-- The call `glBindTexture (GL_TEXTURE_2D, 42)`. -/
def callBindTexture42 : Call :=
  { no := 1, name := "glBindTexture",
    args := [Value.const "GL_TEXTURE_2D" (Value.sint 3553), Value.uint 42], ret := none }

/-- The call `glTexSubImage2D (GL_TEXTURE_2D, 0, 0, 0, 4, 4, GL_RGBA,
GL_UNSIGNED_BYTE, pixels)` with the blob `pixels`. -/
def callTexSubImage (pixels : List Byte) : Call :=
  { no := 2, name := "glTexSubImage2D",
    args := [Value.const "GL_TEXTURE_2D" (Value.sint 3553), Value.sint 0, Value.sint 0,
      Value.sint 0, Value.sint 4, Value.sint 4, Value.const "GL_RGBA" (Value.sint 6408),
      Value.const "GL_UNSIGNED_BYTE" (Value.sint 5121), Value.blob pixels], ret := none }

/-- The call `glDrawArrays (GL_TRIANGLES, 0, 6)`. -/
def callDrawArrays6 : Call :=
  { no := 3, name := "glDrawArrays",
    args := [Value.const "GL_TRIANGLES" (Value.sint 4), Value.sint 0, Value.sint 6],
    ret := none }

/-- The call `wglSwapBuffers`. -/
def callSwapBuffers : Call :=
  { no := 4, name := "wglSwapBuffers", args := [Value.uint 1], ret := some (Value.bool true) }

/-- The calls of scenario S1: `glGenTextures` returning the name 42,
`glBindTexture (GL_TEXTURE_2D, 42)`, `glTexSubImage2D` of a 4 x 4 RGBA image of
unsigned bytes, `glDrawArrays` with count 6, `wglSwapBuffers`. -/
def traceS1 (pixels : List Byte) : List Call :=
  [callGenTextures42, callBindTexture42, callTexSubImage pixels, callDrawArrays6,
   callSwapBuffers]

/-- The call `glGenBuffers (1, buffers)` that returns the name `buffer`. -/
def callGenBuffers (buffer : Nat) : Call :=
  { no := 0, name := "glGenBuffers", args := [Value.sint 1, Value.array [Value.uint buffer]],
    ret := none }

/-- The call `glBindBuffer (target, buffer)`. -/
def callBindBuffer (target buffer : Nat) : Call :=
  { no := 0, name := "glBindBuffer", args := [Value.sint target, Value.uint buffer],
    ret := none }

/-- The call `glBufferData (target, 128, data, GL_STATIC_DRAW)` with the blob
`data`. -/
def callBufferData (target : Nat) (data : List Byte) : Call :=
  { no := 0, name := "glBufferData",
    args := [Value.sint target, Value.sint 128, Value.blob data,
      Value.const "GL_STATIC_DRAW" (Value.sint 35044)], ret := none }

/-- The calls of scenario S3 as the scenario lists them: two buffers are
generated and `glBufferData` is called twice with the same data. -/
def traceS3 (data : List Byte) : List Call :=
  [callGenBuffers 10, callGenBuffers 11, callBufferData GL_ARRAY_BUFFER data,
   callBufferData GL_ARRAY_BUFFER data]

/-- The calls of scenario S3 with each buffer bound before its data is set:
the buffer 10 to `target10`, the buffer 11 to `target11`. -/
def traceS3Bound (target10 target11 : Nat) (data : List Byte) : List Call :=
  [callGenBuffers 10, callGenBuffers 11, callBindBuffer target10 10,
   callBufferData target10 data, callBindBuffer target11 11, callBufferData target11 data]

/-- The classifier variables and the state with which pass 2 of scenario S1
starts: the texture 42 is the last bound texture and its handle 10042 is in the
texture bin. -/
def startS1 (txt raw : Bool) : Classifier × State :=
  ({ lastBindVBO := 0, lastBindTEX := 10042 },
   { createBins (initState txt raw) with
     g_pass := 2, mapPtrToBin := [(10042, BIN_TEXTURE)] })

/-- A trace that sets the data of the bound buffer 7 after a draw:
`glGenBuffers` returning 7, `glBindBuffer (GL_ARRAY_BUFFER, 7)`, `glDrawArrays`
of 6 vertices, `glBufferData (GL_ARRAY_BUFFER, 128, data, _)`. -/
def traceBufferData (data : List Byte) : List Call :=
  [callGenBuffers 7, callBindBuffer GL_ARRAY_BUFFER 7, callDrawArrays6,
    callBufferData GL_ARRAY_BUFFER data]

/-- The call `glDrawElements (GL_TRIANGLES, 12, GL_UNSIGNED_SHORT, indices)`. -/
def callDrawElements (indices : Value) : Call :=
  { no := 5, name := "glDrawElements",
    args := [Value.const "GL_TRIANGLES" (Value.sint 4), Value.sint 12,
      Value.const "GL_UNSIGNED_SHORT" (Value.sint 5123), indices], ret := none }

/-- The bytes per texel that the specification gives a pixel format: 3 for
RGB and BGR, 4 for RGBA and BGRA, 1 otherwise. -/
def specFormatFactor (format : Nat) : Int :=
  if format = GL_RGB ∨ format = GL_BGR then 3
  else if format = GL_RGBA ∨ format = GL_BGRA then 4
  else 1

/-- The stride that the specification gives a component type: 2 for
UNSIGNED_SHORT, 4 for UNSIGNED_INT, INT and FLOAT, 1 otherwise. -/
def specTypeFactor (type : Nat) : Int :=
  if type = GL_UNSIGNED_SHORT then 2
  else if type = GL_UNSIGNED_INT ∨ type = GL_INT ∨ type = GL_FLOAT then 4
  else 1

/-- The call `ID3D11DeviceContext::VSSetConstantBuffers (this, 0, count,
handles)`. -/
def callVSSetConstantBuffers (count : Value) (handles : List Nat) : Call :=
  { no := 6, name := "ID3D11DeviceContext::VSSetConstantBuffers",
    args := [Value.uint 4096, Value.uint 0, count,
      Value.array (handles.map (fun h => Value.uint h))], ret := none }

/-- The call `ID3D11DeviceContext::PSSetConstantBuffers (this, 0, count,
handles)`. -/
def callPSSetConstantBuffers (count : Value) (handles : List Nat) : Call :=
  { no := 7, name := "ID3D11DeviceContext::PSSetConstantBuffers",
    args := [Value.uint 4096, Value.uint 0, count,
      Value.array (handles.map (fun h => Value.uint h))], ret := none }

/-- The call `ID3D11Device::CreateBuffer (this, desc, data, &buffer)` that
returns the buffer `handle`. -/
def callCreateBuffer (handle : Nat) : Call :=
  { no := 8, name := "ID3D11Device::CreateBuffer",
    args := [Value.uint 4096, Value.null, Value.null, Value.array [Value.uint handle]],
    ret := none }

/-- The call `ID3D11DeviceContext::Draw (this, 3, 0)`. -/
def callDraw3 : Call :=
  { no := 9, name := "ID3D11DeviceContext::Draw",
    args := [Value.uint 4096, Value.uint 3, Value.uint 0], ret := none }

/-- A trace in which the vertex and the pixel stage share the constant buffer
101: `CreateBuffer` returning 101, a `Draw`, `VSSetConstantBuffers` with the
count 7 and the buffers 101 to 107, then `PSSetConstantBuffers` with the count 1
and the buffer 101. -/
def traceSharedBuffer : List Call :=
  [callCreateBuffer 101, callDraw3,
    callVSSetConstantBuffers (Value.uint 7) [101, 102, 103, 104, 105, 106, 107],
    callPSSetConstantBuffers (Value.uint 1) [101]]

/-- The call `glGenTextures (1, textures)` that returns the name `texture`. -/
def callGenTextures (texture : Nat) : Call :=
  { no := 0, name := "glGenTextures",
    args := [Value.sint 1, Value.array [Value.uint texture]], ret := none }

/-- The call `glBindTexture (GL_TEXTURE_2D, texture)`. -/
def callBindTexture (texture : Nat) : Call :=
  { no := 0, name := "glBindTexture",
    args := [Value.const "GL_TEXTURE_2D" (Value.sint 3553), Value.uint texture],
    ret := none }

/-- The call `glCreateShader (GL_VERTEX_SHADER)` that returns the name
`shader`. -/
def callCreateShader (shader : Nat) : Call :=
  { no := 0, name := "glCreateShader",
    args := [Value.const "GL_VERTEX_SHADER" (Value.sint 35633)],
    ret := some (Value.uint shader) }

/-- The call `glUseProgram (program)`. -/
def callUseProgram (program : Nat) : Call :=
  { no := 0, name := "glUseProgram", args := [Value.uint program], ret := none }

/-- The call `glGetUniformLocation (program, name)` that returns `location`. -/
def callGetUniformLocation (program location : Nat) : Call :=
  { no := 0, name := "glGetUniformLocation",
    args := [Value.uint program, Value.string [109, 118, 112, 0]],
    ret := some (Value.sint location) }

/-- A trace in which the texture 5 and the buffer 10005 are created and
bound. -/
def traceBiasClash : List Call :=
  [callGenTextures 5, callBindTexture 5, callGenBuffers 10005,
    callBindBuffer GL_ARRAY_BUFFER 10005]

/-! ## Region map

`regionMap` is a `std::map` from the start address of a region to its
`Region`; its iterators visit the entries in increasing order of the key.  The
map is held as the list of its entries in that order, and an iterator as the
entry it points to (`none` for `regionMap.end ()`). -/

/-- The struct `Region`; `buffer` is the address that the pointer holds. -/
structure Region where
  buffer : Nat
  size : Nat
deriving DecidableEq, Repr

/-- The type `RegionMap`: the entries in increasing order of the key. -/
abbrev RegionMap := List (Nat × Region)

/-- The function `contains`; the sum `it->first + it->second.size` is taken in
`unsigned long long`. -/
def contains (it : Nat × Region) (address : Nat) : Bool :=
  decide (it.1 ≤ address)
    && decide ((it.1 + it.2.size) % 18446744073709551616 > address)

/-- The member `lower_bound` of the map: the entries before the iterator it
returns, and the entries from that iterator on (none when it is `end ()`). -/
def lower_bound (regionMap : RegionMap) (address : Nat) : RegionMap × RegionMap :=
  (regionMap.takeWhile (fun e => decide (e.1 < address)),
    regionMap.dropWhile (fun e => decide (e.1 < address)))

/-- The function `lookupRegion`.  The outer result is `none` when the
assertion `assert (contains (it, address))` fails; with `ndebug` the assertion
is compiled out.  The inner result is the entry of the returned iterator,
`none` for `regionMap.end ()`. -/
def lookupRegion (ndebug : Bool) (regionMap : RegionMap) (address : Nat) :
    Option (Option (Nat × Region)) :=
  let before := (lower_bound regionMap address).1
  let it := (lower_bound regionMap address).2.head?
  let stepBack : Bool :=
    match it with
    | none => true
    | some e => decide (e.1 > address)
  let it : Option (Option (Nat × Region)) :=
    if stepBack then
      match before.getLast? with
      | none => none
      | some pred => some (some pred)
    else some it
  match it with
  | none => some none
  | some none => none
  | some (some e) => if ndebug ∨ contains e address then some (some e) else none

/-- The function `lookupAddress`: the address that the returned pointer holds,
or `none` when an assertion fails.  The offset is taken in
`unsigned long long`. -/
def lookupAddress (ndebug : Bool) (regionMap : RegionMap) (address : Nat) : Option Nat :=
  match lookupRegion ndebug regionMap address with
  | none => none
  | some (some it) =>
    let offset := (address + 18446744073709551616 - it.1 % 18446744073709551616)
      % 18446744073709551616
    if ndebug ∨ offset < it.2.size then some (it.2.buffer + offset) else none
  | some none => some (address % 18446744073709551616)

/-- A region map with the one region of 10 bytes at the address 100, held in
the buffer at 4096. -/
def oneRegion : RegionMap := [(100, { buffer := 4096, size := 10 })]

/-- A region map with two regions that overlap: 1000 bytes at the address 100
and 10 bytes at the address 200. -/
def overlappingRegions : RegionMap :=
  [(100, { buffer := 4096, size := 1000 }), (200, { buffer := 8192, size := 10 })]

/-- The invocation has a bin and a change kind that `stateCall` supplies: the
bin is one of the indices 0 to 26 or `BIN_UNKNOWN`, and the change kind is
CREATE, UPDATE or SWITCH. -/
def Supplied (a : Invocation) : Prop :=
  ((0 ≤ a.bin ∧ a.bin ≤ 26) ∨ a.bin = BIN_UNKNOWN)
    ∧ (a.change_type = BIN_CREATE ∨ a.change_type = BIN_UPDATE ∨ a.change_type = BIN_SWITCH)

instance (a : Invocation) : Decidable (Supplied a) := by
  unfold Supplied; infer_instance

/-! ## Theorems -/

/-! ### Hashing -/

/-- The shift-and-add statement of the source is one djb2 step. -/
theorem hashStep_eq (h b : Nat) : hashStep h b = (h * 33 + b) % 2 ^ 64 := by
  unfold hashStep
  rw [Nat.shiftLeft_eq]
  omega

theorem ptrdat_bytes (ptr : Nat) :
    [ptrdat ptr 0, ptrdat ptr 1, ptrdat ptr 2, ptrdat ptr 3] = handleBytes ptr := by
  simp [ptrdat, handleBytes]

theorem hashLoop_append (mem rest : List Byte) (h : Nat) :
    hashLoop mem.length (mem ++ rest) h
      = some ((mem.map Fin.val).foldl (fun h b => (h * 33 + b) % 2 ^ 64) h) := by
  induction mem generalizing h with
  | nil => simp [hashLoop]
  | cons b mem ih => simp [hashLoop, ih, hashStep_eq]

theorem handle_prefix (ptr : Nat) :
    hashStep (hashStep (hashStep (hashStep 5381 (ptrdat ptr 0)) (ptrdat ptr 1))
      (ptrdat ptr 2)) (ptrdat ptr 3) = djb2 (handleBytes ptr) := by
  simp [hashStep_eq, djb2, handleBytes, ptrdat]

/-- Claim C1: `computeHash` returns the djb2 value of the four low-order handle
bytes (least significant first) followed by the payload bytes, read from a
buffer that may extend past `size`; with a null payload it returns the djb2
value of the four handle bytes alone, whatever `size` is.  Being a function of
`(handle, payload)` alone, it gives the same value on every call. -/
theorem computeHash_djb2 (handle : Nat) (payload rest : List Byte) :
    computeHash handle (some (payload ++ rest)) payload.length
        = some (djb2 (handleBytes handle ++ payload.map Fin.val))
      ∧ ∀ size : Int, computeHash handle none size = some (djb2 (handleBytes handle)) := by
  constructor
  · have h0 : ¬ ((payload.length : Int) < 0) := by omega
    simp only [computeHash, h0, if_false, Int.toNat_ofNat, hashLoop_append, handle_prefix]
    simp [djb2, List.foldl_append]
  · intro size
    simp only [computeHash, handle_prefix]

/-! ### Maps and the bin vector -/

theorem mapFind_mapSet_self {β : Type} (m : List (Nat × β)) (k : Nat) (v : β) :
    mapFind (mapSet m k v) k = some v := by
  induction m with
  | nil => simp [mapSet, mapFind]
  | cons e m ih =>
    obtain ⟨k', v'⟩ := e
    by_cases h : k' = k <;> simp [mapSet, mapFind, h, ih]

theorem mapFind_mapSet_ne {β : Type} (m : List (Nat × β)) (k k' : Nat) (v : β)
    (h : k' ≠ k) : mapFind (mapSet m k v) k' = mapFind m k' := by
  induction m with
  | nil => simp [mapSet, mapFind, Ne.symm h]
  | cons e m ih =>
    obtain ⟨k1, v1⟩ := e
    by_cases h1 : k1 = k
    · subst h1
      simp [mapSet, mapFind, Ne.symm h]
    · by_cases h2 : k1 = k'
      · subst h2
        simp [mapSet, mapFind, h1]
      · simp [mapSet, mapFind, h1, h2, ih]

theorem mapSet_absent {β : Type} (m : List (Nat × β)) (k : Nat) (v : β)
    (h : mapFind m k = none) : mapSet m k v = m ++ [(k, v)] := by
  induction m with
  | nil => simp [mapSet]
  | cons e m ih =>
    obtain ⟨k1, v1⟩ := e
    by_cases h1 : k1 = k
    · simp [mapFind, h1] at h
    · simp [mapFind, h1] at h
      simp [mapSet, h1, ih h]

theorem binAt_eq_some {vb : List StateBin} {i : Int} {b : StateBin}
    (h : binAt vb i = some b) : 0 ≤ i ∧ i.toNat < vb.length ∧ vb[i.toNat]? = some b := by
  unfold binAt at h
  by_cases h0 : 0 ≤ i
  · simp only [h0, if_true] at h
    exact ⟨h0, (List.getElem?_eq_some_iff.mp h).1, h⟩
  · simp [h0] at h

theorem binAt_isSome {vb : List StateBin} {i : Int} (h0 : 0 ≤ i)
    (h1 : i < vb.length) : ∃ b, binAt vb i = some b := by
  have : i.toNat < vb.length := by omega
  exact ⟨vb[i.toNat], by simp [binAt, h0, List.getElem?_eq_getElem this]⟩

theorem length_binSet (vb : List StateBin) (i : Int) (b : StateBin) :
    (binSet vb i b).length = vb.length := by
  simp [binSet]

theorem binAt_binSet_self {vb : List StateBin} {i : Int} {b : StateBin}
    (b' : StateBin) (h : binAt vb i = some b) : binAt (binSet vb i b') i = some b' := by
  obtain ⟨h0, h1, _⟩ := binAt_eq_some h
  simp [binAt, binSet, h0, h1]

theorem binAt_binSet_ne (vb : List StateBin) {i j : Int} (b' : StateBin)
    (hi : 0 ≤ i) (hij : i ≠ j) : binAt (binSet vb i b') j = binAt vb j := by
  unfold binAt binSet
  by_cases hj : 0 ≤ j
  · have : i.toNat ≠ j.toNat := by omega
    simp [hj, List.getElem?_set_ne this]
  · simp [hj]

/-! ### Dense ids -/

theorem firstSeen_concat (hs : List Nat) (h : Nat) :
    firstSeen (hs ++ [h])
      = if h ∈ firstSeen hs then firstSeen hs else firstSeen hs ++ [h] := by
  simp [firstSeen, List.foldl_append]

theorem mem_firstSeen (hs : List Nat) (h : Nat) : h ∈ firstSeen hs ↔ h ∈ hs := by
  induction hs using List.reverseRecOn with
  | nil => simp [firstSeen]
  | append_singleton hs x ih =>
    rw [firstSeen_concat]
    by_cases hx : x ∈ firstSeen hs
    · simp only [hx, if_true, List.mem_append, List.mem_singleton]
      constructor
      · intro hm; exact Or.inl (ih.mp hm)
      · rintro (hm | rfl)
        · exact ih.mpr hm
        · exact hx
    · simp [hx, ih]

theorem firstSeen_nodup (hs : List Nat) : (firstSeen hs).Nodup := by
  induction hs using List.reverseRecOn with
  | nil => simp [firstSeen]
  | append_singleton hs x ih =>
    rw [firstSeen_concat]
    by_cases hx : x ∈ firstSeen hs
    · simpa [hx] using ih
    · simp only [hx, if_false]
      exact List.Nodup.append ih (List.nodup_singleton x) (by simpa using hx)

theorem length_firstSeen_le (hs : List Nat) : (firstSeen hs).length ≤ hs.length := by
  induction hs using List.reverseRecOn with
  | nil => simp [firstSeen]
  | append_singleton hs x ih =>
    rw [firstSeen_concat]
    by_cases hx : x ∈ firstSeen hs
    · simp only [hx, if_true, List.length_append, List.length_singleton]; omega
    · simp only [hx, if_false, List.length_append, List.length_singleton]; omega

theorem firstSeen_append (a b : List Nat) : ∃ t, firstSeen (a ++ b) = firstSeen a ++ t := by
  induction b using List.reverseRecOn with
  | nil => exact ⟨[], by simp⟩
  | append_singleton b x ih =>
    obtain ⟨t, ht⟩ := ih
    rw [← List.append_assoc, firstSeen_concat]
    by_cases hx : x ∈ firstSeen (a ++ b)
    · exact ⟨t, by rw [if_pos hx, ht]⟩
    · exact ⟨t ++ [x], by rw [if_neg hx, ht, List.append_assoc]⟩

theorem presented_append (x y : List (Nat × Int)) (b : Int) :
    presented (x ++ y) b = presented x b ++ presented y b := by
  simp [presented]

theorem length_presented_le (x : List (Nat × Int)) (b : Int) :
    (presented x b).length ≤ x.length := by
  simp only [presented, List.length_map]
  exact List.length_filter_le _ _

theorem denseTable_concat (ds : List Nat) (h : Nat) :
    denseTable (ds ++ [h]) = denseTable ds ++ [(h, (ds.length : Int))] := by
  unfold denseTable
  rw [List.length_append, List.length_singleton, List.range_succ, List.map_append,
    List.zip_append (by simp)]
  simp

theorem mapFind_concat {β : Type} (m : List (Nat × β)) (k k' : Nat) (v : β) :
    mapFind (m ++ [(k, v)]) k'
      = match mapFind m k' with
        | some x => some x
        | none => if k = k' then some v else none := by
  induction m with
  | nil => simp [mapFind]
  | cons e m ih =>
    obtain ⟨k1, v1⟩ := e
    by_cases h1 : k1 = k' <;> simp [mapFind, h1, ih]

theorem mapFind_denseTable (ds : List Nat) (h : Nat) :
    mapFind (denseTable ds) h
      = if h ∈ ds then some ((List.indexOf h ds : Nat) : Int) else none := by
  induction ds using List.reverseRecOn with
  | nil => simp [denseTable, mapFind]
  | append_singleton ds x ih =>
    rw [denseTable_concat, mapFind_concat, ih]
    by_cases hm : h ∈ ds
    · simp [hm, List.indexOf_append_of_mem hm]
    · by_cases hx : x = h
      · subst hx
        simp [hm, List.indexOf_append_of_not_mem hm]
      · have : ¬ h = x := fun e => hx e.symm
        simp [hm, hx, this]

theorem toInt32_of_isInt32 {x : Int} (h : isInt32 x) : toInt32 x = x := by
  unfold isInt32 at h
  unfold toInt32
  omega

theorem assignIDToHash_tracks {vb : List StateBin} {hist : List (Nat × Int)}
    (ht : Tracks vb hist) (val : Nat) (b : Int) (hb0 : 0 ≤ b) (hb : b < 32)
    (hlen : hist.length + 1 < 2147483648) :
    ∃ vb1, assignIDToHash vb val b
        = some (((List.indexOf val (firstSeen (presented (hist ++ [(val, b)]) b)) : Nat) : Int),
            vb1)
      ∧ Tracks vb1 (hist ++ [(val, b)]) := by
  obtain ⟨hl, hbins⟩ := ht
  obtain ⟨bin, hbin, hmap, hcnt⟩ := hbins b hb0 hb
  have hpres : presented (hist ++ [(val, b)]) b = presented hist b ++ [val] := by
    simp [presented]
  have hle : (firstSeen (presented hist b)).length ≤ hist.length :=
    le_trans (length_firstSeen_le _) (length_presented_le _ _)
  by_cases hm : val ∈ firstSeen (presented hist b)
  · -- the hash is registered already
    have hfs : firstSeen (presented (hist ++ [(val, b)]) b) = firstSeen (presented hist b) := by
      rw [hpres, firstSeen_concat, if_pos hm]
    have hfind : mapFind bin.hashmap val
        = some ((List.indexOf val (firstSeen (presented hist b)) : Nat) : Int) := by
      rw [hmap, mapFind_denseTable, if_pos hm]
    refine ⟨binSet vb b bin, ?_, ?_⟩
    · simp [assignIDToHash, hbin, hfind, hfs]
    · refine ⟨by simp [length_binSet, hl], ?_⟩
      intro b' hb'0 hb'
      by_cases hbb : b = b'
      · subst hbb
        exact ⟨bin, binAt_binSet_self bin hbin, by rw [hfs]; exact hmap, by rw [hfs]; exact hcnt⟩
      · obtain ⟨bin', hbin', hmap', hcnt'⟩ := hbins b' hb'0 hb'
        have hp : presented (hist ++ [(val, b)]) b' = presented hist b' := by
          simp [presented, hbb]
        exact ⟨bin', by rw [binAt_binSet_ne vb bin hb0 hbb]; exact hbin',
          by rw [hp]; exact hmap', by rw [hp]; exact hcnt'⟩
  · -- a new hash
    have hfs : firstSeen (presented (hist ++ [(val, b)]) b)
        = firstSeen (presented hist b) ++ [val] := by
      rw [hpres, firstSeen_concat, if_neg hm]
    have hfind : mapFind bin.hashmap val = none := by
      rw [hmap, mapFind_denseTable, if_neg hm]
    have hc : toInt32 (bin.cnt + 1) = bin.cnt + 1 := by
      apply toInt32_of_isInt32
      unfold isInt32
      omega
    refine ⟨binSet vb b { bin with hashmap := mapSet bin.hashmap val bin.cnt,
                                   cnt := toInt32 (bin.cnt + 1) }, ?_, ?_⟩
    · simp [assignIDToHash, hbin, hfind, mapFind_mapSet_self, hfs,
        List.indexOf_append_of_not_mem hm, hcnt]
    · refine ⟨by simp [length_binSet, hl], ?_⟩
      intro b' hb'0 hb'
      by_cases hbb : b = b'
      · subst hbb
        refine ⟨_, binAt_binSet_self _ hbin, ?_, ?_⟩
        · simp only [hfs, denseTable_concat]
          rw [mapSet_absent _ _ _ hfind, hmap, hcnt]
        · show toInt32 (bin.cnt + 1) = _
          rw [hc, hfs, hcnt, List.length_append, List.length_singleton]
          push_cast
          rfl
      · obtain ⟨bin', hbin', hmap', hcnt'⟩ := hbins b' hb'0 hb'
        have hp : presented (hist ++ [(val, b)]) b' = presented hist b' := by
          simp [presented, hbb]
        exact ⟨bin', by rw [binAt_binSet_ne vb _ hb0 hbb]; exact hbin',
          by rw [hp]; exact hmap', by rw [hp]; exact hcnt'⟩

theorem indexOf_firstSeen_append (a b : List Nat) (h : Nat) (hm : h ∈ firstSeen a) :
    List.indexOf h (firstSeen (a ++ b)) = List.indexOf h (firstSeen a) := by
  obtain ⟨t, ht⟩ := firstSeen_append a b
  rw [ht, List.indexOf_append_of_mem hm]

theorem assignAll_tracks (calls : List (Nat × Int)) :
    ∀ (vb : List StateBin) (hist : List (Nat × Int)), Tracks vb hist →
      (∀ c ∈ calls, 0 ≤ c.2 ∧ c.2 < 32) →
      hist.length + calls.length < 2147483648 →
      ∃ vb1, assignAll vb calls
          = some (calls.map (fun c =>
              ((List.indexOf c.1 (firstSeen (presented (hist ++ calls) c.2)) : Nat) : Int)),
              vb1)
        ∧ Tracks vb1 (hist ++ calls) := by
  induction calls with
  | nil =>
    intro vb hist ht _ _
    exact ⟨vb, by simp [assignAll], by simpa using ht⟩
  | cons c rest ih =>
    intro vb hist ht hr hlen
    obtain ⟨val, b⟩ := c
    have hb := hr (val, b) (List.mem_cons_self _ _)
    simp only [List.length_cons] at hlen
    obtain ⟨vb1, h1, ht1⟩ := assignIDToHash_tracks ht val b hb.1 hb.2 (by omega)
    obtain ⟨vb2, h2, ht2⟩ := ih vb1 (hist ++ [(val, b)]) ht1
      (fun c hc => hr c (List.mem_cons_of_mem _ hc))
      (by simp only [List.length_append, List.length_singleton]; omega)
    have happ : hist ++ [(val, b)] ++ rest = hist ++ (val, b) :: rest := by simp
    rw [happ] at h2 ht2
    refine ⟨vb2, ?_, ht2⟩
    have hmem : val ∈ firstSeen (presented (hist ++ [(val, b)]) b) := by
      rw [mem_firstSeen]
      simp [presented]
    have hidx : List.indexOf val (firstSeen (presented (hist ++ (val, b) :: rest) b))
        = List.indexOf val (firstSeen (presented (hist ++ [(val, b)]) b)) := by
      rw [← happ, presented_append, indexOf_firstSeen_append _ _ _ hmem]
    simp only [assignAll, h1, h2, List.map_cons, hidx]

theorem map_fst_denseTable (ds : List Nat) : (denseTable ds).map Prod.fst = ds := by
  unfold denseTable
  rw [List.map_fst_zip]
  simp

theorem map_snd_denseTable (ds : List Nat) :
    (denseTable ds).map Prod.snd = (List.range ds.length).map Int.ofNat := by
  unfold denseTable
  rw [List.map_snd_zip]
  simp

theorem tracks_createBins (txt raw : Bool) :
    Tracks (createBins (initState txt raw)).vecBins [] := by
  refine ⟨by simp [createBins, initState], ?_⟩
  intro b hb0 hb
  refine ⟨newBin, ?_, by simp [newBin, presented, firstSeen, denseTable],
    by simp [newBin, presented, firstSeen]⟩
  have h : b.toNat < 32 := by omega
  show binAt ([] ++ List.replicate 32 newBin) b = some newBin
  simp only [binAt, hb0, if_true, List.nil_append, List.getElem?_replicate, h]

/-- Claim C2 (id monotonicity): from the bins made by `createBins`, after any
sequence of `assignIDToHash` calls `(hash, bin)` on existing bins (fewer than
`2^31` calls, so that the `int` counter does not wrap), every call returned the
position of its hash among the distinct hashes presented to its bin, in order
of first presentation; and every bin's value table holds exactly those distinct
hashes, each once, with the ids `0, 1, ..., cnt-1` in that order, where `cnt`
is the bin's counter.  The table of a bin depends on the calls on that bin
only. -/
theorem assignIDToHash_ids_dense (txt raw : Bool) (calls : List (Nat × Int))
    (hbin : ∀ c ∈ calls, 0 ≤ c.2 ∧ c.2 < 32) (hlen : calls.length < 2147483648) :
    ∃ vb, assignAll (createBins (initState txt raw)).vecBins calls
        = some (calls.map (fun c =>
            ((List.indexOf c.1 (firstSeen (presented calls c.2)) : Nat) : Int)), vb)
      ∧ ∀ b : Int, 0 ≤ b → b < 32 → ∃ bin, binAt vb b = some bin ∧
          bin.hashmap.map Prod.fst = firstSeen (presented calls b) ∧
          (bin.hashmap.map Prod.fst).Nodup ∧
          bin.hashmap.map Prod.snd
            = (List.range (firstSeen (presented calls b)).length).map Int.ofNat ∧
          bin.cnt = ((firstSeen (presented calls b)).length : Int) := by
  obtain ⟨vb, h1, -, h2⟩ := assignAll_tracks calls _ [] (tracks_createBins txt raw) hbin
    (by simpa using hlen)
  refine ⟨vb, by simpa using h1, ?_⟩
  intro b hb0 hb
  obtain ⟨bin, hbin, hmap, hcnt⟩ := h2 b hb0 hb
  simp only [List.nil_append] at hmap hcnt
  refine ⟨bin, hbin, ?_, ?_, ?_, hcnt⟩
  · rw [hmap, map_fst_denseTable]
  · rw [hmap, map_fst_denseTable]
    exact firstSeen_nodup _
  · rw [hmap, map_snd_denseTable]

theorem assignIDToHash_ids_dense_witness :
    (∀ c ∈ [((7 : Nat), (3 : Int)), (9, 3), (7, 3), (5, 4), (4, 3)], 0 ≤ c.2 ∧ c.2 < 32)
    ∧ [((7 : Nat), (3 : Int)), (9, 3), (7, 3), (5, 4), (4, 3)].length < 2147483648
    ∧ ∃ vb, assignAll (createBins (initState true true)).vecBins
          [((7 : Nat), (3 : Int)), (9, 3), (7, 3), (5, 4), (4, 3)]
        = some ([((7 : Nat), (3 : Int)), (9, 3), (7, 3), (5, 4), (4, 3)].map (fun c =>
            ((List.indexOf c.1 (firstSeen (presented
              [((7 : Nat), (3 : Int)), (9, 3), (7, 3), (5, 4), (4, 3)] c.2)) : Nat) : Int)), vb)
      ∧ ∀ b : Int, 0 ≤ b → b < 32 → ∃ bin, binAt vb b = some bin ∧
          bin.hashmap.map Prod.fst = firstSeen (presented
            [((7 : Nat), (3 : Int)), (9, 3), (7, 3), (5, 4), (4, 3)] b) ∧
          (bin.hashmap.map Prod.fst).Nodup ∧
          bin.hashmap.map Prod.snd
            = (List.range (firstSeen (presented
                [((7 : Nat), (3 : Int)), (9, 3), (7, 3), (5, 4), (4, 3)] b)).length).map
                Int.ofNat ∧
          bin.cnt = ((firstSeen (presented
            [((7 : Nat), (3 : Int)), (9, 3), (7, 3), (5, 4), (4, 3)] b)).length : Int) :=
  ⟨by decide, by decide,
    assignIDToHash_ids_dense true true
      [((7 : Nat), (3 : Int)), (9, 3), (7, 3), (5, 4), (4, 3)] (by decide) (by decide)⟩

/-! ### Id stability -/

theorem binSet_same {vb : List StateBin} {i : Int} {b : StateBin}
    (h : binAt vb i = some b) : binSet vb i b = vb := by
  obtain ⟨_, h1, h2⟩ := binAt_eq_some h
  unfold binSet
  apply List.ext_getElem? 
  intro n
  by_cases hn : i.toNat = n
  · subst hn
    simp [List.getElem?_set_self h1, h2]
  · simp [List.getElem?_set_ne hn]

theorem assignIDToHash_of_registered {vb : List StateBin} {b : Int} {bin : StateBin}
    {val : Nat} {id : Int} (hb : binAt vb b = some bin)
    (hf : mapFind bin.hashmap val = some id) :
    assignIDToHash vb val b = some (id, vb) := by
  simp [assignIDToHash, hb, hf, binSet_same hb]

theorem assignIDToHash_registers {vb vb1 : List StateBin} {b : Int} {val : Nat} {id : Int}
    (h : assignIDToHash vb val b = some (id, vb1)) :
    ∃ bin1, binAt vb1 b = some bin1 ∧ mapFind bin1.hashmap val = some id := by
  unfold assignIDToHash at h
  cases hb : binAt vb b with
  | none => simp [hb] at h
  | some bin =>
    simp only [hb] at h
    cases hf : mapFind bin.hashmap val with
    | none =>
      simp only [hf, Option.isNone_none, if_true, mapFind_mapSet_self, Option.getD_some,
        Option.some.injEq, Prod.mk.injEq] at h
      obtain ⟨h1, h2⟩ := h
      subst h1 h2
      exact ⟨_, binAt_binSet_self _ hb, by simp [mapFind_mapSet_self]⟩
    | some v =>
      simp only [hf, Option.isNone_some, Bool.false_eq_true, if_false, Option.getD_some,
        Option.some.injEq, Prod.mk.injEq] at h
      obtain ⟨h1, h2⟩ := h
      subst h1 h2
      exact ⟨_, binAt_binSet_self _ hb, hf⟩

theorem assignIDToHash_find_preserved {vb vb1 : List StateBin} {c b : Int} {v val : Nat}
    {i id : Int} {bin : StateBin} (h : assignIDToHash vb v c = some (i, vb1))
    (hb : binAt vb b = some bin) (hf : mapFind bin.hashmap val = some id) :
    ∃ bin1, binAt vb1 b = some bin1 ∧ mapFind bin1.hashmap val = some id := by
  unfold assignIDToHash at h
  cases hc : binAt vb c with
  | none => simp [hc] at h
  | some binc =>
    simp only [hc, Option.some.injEq, Prod.mk.injEq] at h
    obtain ⟨-, h2⟩ := h
    subst h2
    by_cases hcb : c = b
    · subst hcb
      rw [hb] at hc
      cases hc
      refine ⟨_, binAt_binSet_self _ hb, ?_⟩
      cases hv : mapFind bin.hashmap v with
      | some x => simpa [hv] using hf
      | none =>
        have hne : val ≠ v := by
          intro e
          subst e
          rw [hf] at hv
          cases hv
        simp [hv, mapFind_mapSet_ne _ _ _ _ hne, hf]
    · exact ⟨bin, by rw [binAt_binSet_ne vb _ (binAt_eq_some hc).1 hcb]; exact hb, hf⟩

theorem assignAll_find_preserved (mid : List (Nat × Int)) :
    ∀ {vb vb2 : List StateBin} {ids : List Int} {b : Int} {val : Nat} {id : Int}
      {bin : StateBin}, assignAll vb mid = some (ids, vb2) → binAt vb b = some bin →
      mapFind bin.hashmap val = some id →
      ∃ bin2, binAt vb2 b = some bin2 ∧ mapFind bin2.hashmap val = some id := by
  induction mid with
  | nil =>
    intro vb vb2 ids b val id bin h hb hf
    simp only [assignAll, Option.some.injEq, Prod.mk.injEq] at h
    obtain ⟨-, h2⟩ := h
    subst h2
    exact ⟨bin, hb, hf⟩
  | cons c rest ih =>
    intro vb vb2 ids b val id bin h hb hf
    obtain ⟨v, cb⟩ := c
    simp only [assignAll] at h
    cases h1 : assignIDToHash vb v cb with
    | none => simp [h1] at h
    | some r =>
      obtain ⟨i, vb1⟩ := r
      simp only [h1] at h
      cases h2 : assignAll vb1 rest with
      | none => simp [h2] at h
      | some r2 =>
        obtain ⟨ids2, vb2'⟩ := r2
        simp only [h2, Option.some.injEq, Prod.mk.injEq] at h
        obtain ⟨-, h3⟩ := h
        subst h3
        obtain ⟨bin1, hb1, hf1⟩ := assignIDToHash_find_preserved h1 hb hf
        exact ih h2 hb1 hf1

/-- Claim C3 (id stability): if `assignIDToHash` has returned `id` for the hash
of `(handle, payload)` in bin `b`, then after any further sequence `mid` of
`assignIDToHash` calls (on any bins, with any hashes) a call for the hash of
the same `(handle, payload)` in bin `b` returns `id` again and leaves every
bin, hence the value table and the counter of bin `b`, unchanged. -/
theorem assignIDToHash_stable (vb vb1 vb2 : List StateBin) (handle : Nat)
    (dat : Option (List Byte)) (size : Int) (hv : Nat) (b id : Int)
    (mid : List (Nat × Int)) (ids : List Int)
    (hh : computeHash handle dat size = some hv)
    (h1 : assignIDToHash vb hv b = some (id, vb1))
    (h2 : assignAll vb1 mid = some (ids, vb2)) :
    ∃ hv2, computeHash handle dat size = some hv2
      ∧ assignIDToHash vb2 hv2 b = some (id, vb2) := by
  obtain ⟨bin1, hb1, hf1⟩ := assignIDToHash_registers h1
  obtain ⟨bin2, hb2, hf2⟩ := assignAll_find_preserved mid h2 hb1 hf1
  exact ⟨hv, hh, assignIDToHash_of_registered hb2 hf2⟩
theorem assignIDToHash_stable_witness :
    computeHash 10 (some [1, 2]) 2 = some 6949780495154
    ∧ assignIDToHash (createBins (initState true true)).vecBins 6949780495154 9
        = some (0, List.replicate 9 newBin
            ++ { newBin with cnt := 1, hashmap := [(6949780495154, 0)] }
            :: List.replicate 22 newBin)
    ∧ assignAll (List.replicate 9 newBin
            ++ { newBin with cnt := 1, hashmap := [(6949780495154, 0)] }
            :: List.replicate 22 newBin) [(5, 9), (6, 3)]
        = some ([1, 0], List.replicate 3 newBin
            ++ { newBin with cnt := 1, hashmap := [(6, 0)] }
            :: List.replicate 5 newBin
            ++ { newBin with cnt := 2, hashmap := [(6949780495154, 0), (5, 1)] }
            :: List.replicate 22 newBin)
    ∧ ∃ hv2, computeHash 10 (some [1, 2]) 2 = some hv2
      ∧ assignIDToHash (List.replicate 3 newBin
            ++ { newBin with cnt := 1, hashmap := [(6, 0)] }
            :: List.replicate 5 newBin
            ++ { newBin with cnt := 2, hashmap := [(6949780495154, 0), (5, 1)] }
            :: List.replicate 22 newBin) hv2 9
        = some (0, List.replicate 3 newBin
            ++ { newBin with cnt := 1, hashmap := [(6, 0)] }
            :: List.replicate 5 newBin
            ++ { newBin with cnt := 2, hashmap := [(6949780495154, 0), (5, 1)] }
            :: List.replicate 22 newBin) :=
  ⟨by decide, by decide, by decide,
    assignIDToHash_stable (createBins (initState true true)).vecBins
      (List.replicate 9 newBin
        ++ { newBin with cnt := 1, hashmap := [(6949780495154, 0)] }
        :: List.replicate 22 newBin) _ 10 (some [1, 2]) 2 6949780495154 9 0 [(5, 9), (6, 3)] [1, 0]
      (by decide) (by decide) (by decide)⟩

/-! ### The call encoder -/

@[simp] theorem packOutputCall_vecBins (s : State) (typ : Char) (bin size : Int)
    (objptr valid : Nat) (name : String) (nameID : Int) :
    (packOutputCall s typ bin size objptr valid name nameID).vecBins = s.vecBins := by
  unfold packOutputCall
  cases h1 : s.stateTraceTxt <;> cases h2 : s.stateTraceRaw <;> simp [h1, h2]

@[simp] theorem packOutputCall_mapPtrToHash (s : State) (typ : Char) (bin size : Int)
    (objptr valid : Nat) (name : String) (nameID : Int) :
    (packOutputCall s typ bin size objptr valid name nameID).mapPtrToHash = s.mapPtrToHash := by
  unfold packOutputCall
  cases h1 : s.stateTraceTxt <;> cases h2 : s.stateTraceRaw <;> simp [h1, h2]

@[simp] theorem packOutputCall_mapPtrToBin (s : State) (typ : Char) (bin size : Int)
    (objptr valid : Nat) (name : String) (nameID : Int) :
    (packOutputCall s typ bin size objptr valid name nameID).mapPtrToBin = s.mapPtrToBin := by
  unfold packOutputCall
  cases h1 : s.stateTraceTxt <;> cases h2 : s.stateTraceRaw <;> simp [h1, h2]

@[simp] theorem packOutputCall_g_bytes (s : State) (typ : Char) (bin size : Int)
    (objptr valid : Nat) (name : String) (nameID : Int) :
    (packOutputCall s typ bin size objptr valid name nameID).g_bytes = s.g_bytes := by
  unfold packOutputCall
  cases h1 : s.stateTraceTxt <;> cases h2 : s.stateTraceRaw <;> simp [h1, h2]

@[simp] theorem packOutputCall_g_frame (s : State) (typ : Char) (bin size : Int)
    (objptr valid : Nat) (name : String) (nameID : Int) :
    (packOutputCall s typ bin size objptr valid name nameID).g_frame = s.g_frame := by
  unfold packOutputCall
  cases h1 : s.stateTraceTxt <;> cases h2 : s.stateTraceRaw <;> simp [h1, h2]

@[simp] theorem packOutputCall_g_pass (s : State) (typ : Char) (bin size : Int)
    (objptr valid : Nat) (name : String) (nameID : Int) :
    (packOutputCall s typ bin size objptr valid name nameID).g_pass = s.g_pass := by
  unfold packOutputCall
  cases h1 : s.stateTraceTxt <;> cases h2 : s.stateTraceRaw <;> simp [h1, h2]

@[simp] theorem packOutputCall_stateTraceTxt (s : State) (typ : Char) (bin size : Int)
    (objptr valid : Nat) (name : String) (nameID : Int) :
    (packOutputCall s typ bin size objptr valid name nameID).stateTraceTxt
      = s.stateTraceTxt := by
  unfold packOutputCall
  cases h1 : s.stateTraceTxt <;> cases h2 : s.stateTraceRaw <;> simp [h1, h2]

@[simp] theorem packOutputCall_stateTraceRaw (s : State) (typ : Char) (bin size : Int)
    (objptr valid : Nat) (name : String) (nameID : Int) :
    (packOutputCall s typ bin size objptr valid name nameID).stateTraceRaw
      = s.stateTraceRaw := by
  unfold packOutputCall
  cases h1 : s.stateTraceTxt <;> cases h2 : s.stateTraceRaw <;> simp [h1, h2]

theorem packOutputCall_g_fp2 (s : State) (typ : Char) (bin size : Int)
    (objptr valid : Nat) (name : String) (nameID : Int) :
    (packOutputCall s typ bin size objptr valid name nameID).g_fp2
      = s.g_fp2 ++ (if s.stateTraceRaw then
          [Record.call typ (toInt8 nameID) 0 0 bin size valid objptr] else []) := by
  unfold packOutputCall
  cases h1 : s.stateTraceTxt <;> cases h2 : s.stateTraceRaw <;> simp [h1, h2]

theorem packOutputCall_g_fp (s : State) (typ : Char) (bin size : Int)
    (objptr valid : Nat) (name : String) (nameID : Int) :
    (packOutputCall s typ bin size objptr valid name nameID).g_fp
      = s.g_fp ++ (if s.stateTraceTxt then
          [TextLine.call bin size objptr valid name] else []) := by
  unfold packOutputCall
  cases h1 : s.stateTraceTxt <;> cases h2 : s.stateTraceRaw <;> simp [h1, h2]

theorem toInt32_toUInt64 {id : Int} (h : isInt32 id) : toInt32 (toUInt64 id) = id := by
  unfold isInt32 at h
  unfold toInt32 toUInt64
  rw [Int.toNat_of_nonneg (Int.emod_nonneg _ (by norm_num))]
  omega

theorem getPtrHashID_setPtrHashID (m : List (Nat × Nat)) (ptr : Nat) {id : Int}
    (h : isInt32 id) : getPtrHashID (setPtrHashID m ptr id) ptr = id := by
  simp [getPtrHashID, setPtrHashID, mapFind_mapSet_self, toInt32_toUInt64 h]

theorem getPtrHashID_setPtrHashID_ne (m : List (Nat × Nat)) {ptr ptr1 : Nat} (id : Int)
    (h : ptr1 ≠ ptr) : getPtrHashID (setPtrHashID m ptr id) ptr1 = getPtrHashID m ptr1 := by
  simp [getPtrHashID, setPtrHashID, mapFind_mapSet_ne _ _ _ _ h]

/-! ### CREATE and UPDATE -/

theorem priorityTest_iff (c ch : Int) :
    priorityTest c ch = true ↔ (c ≤ ch ∨ ch = BIN_UNDEF) := by
  simp [priorityTest]

theorem binSet_binSet (vb : List StateBin) (i : Int) (b b1 : StateBin) :
    binSet (binSet vb i b) i b1 = binSet vb i b1 := by
  simp [binSet, List.set_set]

theorem assignIDToHash_eq {vb : List StateBin} {B : Int} {b : StateBin} (hv : Nat)
    (hb : binAt vb B = some b) :
    assignIDToHash vb hv B
      = some ((mapFind b.hashmap hv).getD b.cnt,
          binSet vb B
            { b with
              cnt := if (mapFind b.hashmap hv).isNone then toInt32 (b.cnt + 1) else b.cnt,
              hashmap := if (mapFind b.hashmap hv).isNone
                         then mapSet b.hashmap hv b.cnt else b.hashmap }) := by
  cases hf : mapFind b.hashmap hv with
  | none => simp [assignIDToHash, hb, hf, mapFind_mapSet_self]
  | some i => simp [assignIDToHash, hb, hf]

/-- The state that pass 2 of `stateSort` leaves when a CREATE or UPDATE passes
the priority test on the resolved bin. -/
theorem stateSort_applied (s : State) (change_type : Int) (name : String)
    (nameID bin : Int) (objptr datptr : Nat) (dat : Option (List Byte)) (size : Int)
    (b : StateBin) (hv : Nat)
    (hpass : s.g_pass ≠ 1) (hp : bin ≠ BIN_PRESENT) (hd : bin ≠ BIN_DRAW)
    (hct : change_type = BIN_CREATE ∨ change_type = BIN_UPDATE)
    (hres : resolveBin s.mapPtrToBin objptr datptr ≠ BIN_UNKNOWN)
    (hb : binAt s.vecBins (resolveBin s.mapPtrToBin objptr datptr) = some b)
    (hprio : change_type ≤ b.change ∨ b.change = BIN_UNDEF)
    (hh : computeHash objptr dat size = some hv) :
    stateSort s change_type name nameID bin objptr datptr dat size
      = some (packOutputCall
          { s with
            mapPtrToHash :=
              setPtrHashID s.mapPtrToHash objptr ((mapFind b.hashmap hv).getD b.cnt),
            vecBins := binSet s.vecBins (resolveBin s.mapPtrToBin objptr datptr)
              { name := b.name, curr := (mapFind b.hashmap hv).getD b.cnt,
                change := change_type,
                bytes := if change_type = BIN_UPDATE then size else 0,
                cnt := if (mapFind b.hashmap hv).isNone then toInt32 (b.cnt + 1)
                       else b.cnt,
                hashmap := if (mapFind b.hashmap hv).isNone
                           then mapSet b.hashmap hv b.cnt else b.hashmap } }
          'C' (resolveBin s.mapPtrToBin objptr datptr) size objptr
          (toUInt64 ((mapFind b.hashmap hv).getD b.cnt)) name nameID) := by
  have hpt : priorityTest change_type b.change = true := (priorityTest_iff _ _).mpr hprio
  simp only [stateSort, hpass, hp, hd, if_false, hres, hb, hct, if_true, hpt, hh,
    assignIDToHash_eq hv hb, binAt_binSet_self _ hb, binSet_binSet]

/-- The state that pass 2 of `stateSort` leaves when a CREATE or UPDATE fails
the priority test on the resolved bin. -/
theorem stateSort_rejected (s : State) (change_type : Int) (name : String)
    (nameID bin : Int) (objptr datptr : Nat) (dat : Option (List Byte)) (size : Int)
    (b : StateBin)
    (hpass : s.g_pass ≠ 1) (hp : bin ≠ BIN_PRESENT) (hd : bin ≠ BIN_DRAW)
    (hct : change_type = BIN_CREATE ∨ change_type = BIN_UPDATE)
    (hres : resolveBin s.mapPtrToBin objptr datptr ≠ BIN_UNKNOWN)
    (hb : binAt s.vecBins (resolveBin s.mapPtrToBin objptr datptr) = some b)
    (hprio : ¬ (change_type ≤ b.change ∨ b.change = BIN_UNDEF)) :
    stateSort s change_type name nameID bin objptr datptr dat size
      = some (packOutputCall s 'C' (resolveBin s.mapPtrToBin objptr datptr) size objptr
          (toUInt64 b.curr) name nameID) := by
  have hpt : priorityTest change_type b.change = false := by
    rw [← Bool.not_eq_true, priorityTest_iff]; exact hprio
  simp only [stateSort, hpass, hp, hd, if_false, hres, hb, hct, if_true, hpt,
    Bool.false_eq_true]
/-- Claim C4: in pass 2, for a CREATE or UPDATE invocation that is neither a
draw nor a present and whose resolved bin `B` exists (`b` is its content):
if `change_type <= b.change` or `b.change == BIN_UNDEF`, then for the hash
`hv` of `(objptr, dat, size)` the call succeeds and `B` gets as `curr` the
dense id of `hv` in its value table (the id already registered, else the
counter value, which is then registered and the counter advanced), as `change`
the change kind, as `bytes` 0 for CREATE and `size` for UPDATE; the handle-id
map remembers that id for `objptr` and `getPtrHashID (objptr)` returns it; no
other bin changes.  Otherwise the call leaves all bins (with their value
tables) and the handle-id map unchanged. -/
theorem stateSort_create_update (s : State) (change_type : Int) (name : String)
    (nameID bin : Int) (objptr datptr : Nat) (dat : Option (List Byte)) (size : Int)
    (b : StateBin)
    (hpass : s.g_pass ≠ 1) (hp : bin ≠ BIN_PRESENT) (hd : bin ≠ BIN_DRAW)
    (hct : change_type = BIN_CREATE ∨ change_type = BIN_UPDATE)
    (hres : resolveBin s.mapPtrToBin objptr datptr ≠ BIN_UNKNOWN)
    (hb : binAt s.vecBins (resolveBin s.mapPtrToBin objptr datptr) = some b) :
    ((change_type ≤ b.change ∨ b.change = BIN_UNDEF) →
      ∀ hv, computeHash objptr dat size = some hv →
      ∃ s1 b1, stateSort s change_type name nameID bin objptr datptr dat size = some s1
        ∧ binAt s1.vecBins (resolveBin s.mapPtrToBin objptr datptr) = some b1
        ∧ mapFind b1.hashmap hv = some b1.curr
        ∧ b1.curr = (mapFind b.hashmap hv).getD b.cnt
        ∧ b1.hashmap = (if (mapFind b.hashmap hv).isNone
            then b.hashmap ++ [(hv, b.cnt)] else b.hashmap)
        ∧ b1.cnt = (if (mapFind b.hashmap hv).isNone then toInt32 (b.cnt + 1) else b.cnt)
        ∧ b1.change = change_type
        ∧ (change_type = BIN_CREATE → b1.bytes = 0)
        ∧ (change_type = BIN_UPDATE → b1.bytes = size)
        ∧ s1.mapPtrToHash = setPtrHashID s.mapPtrToHash objptr b1.curr
        ∧ (isInt32 b1.curr → getPtrHashID s1.mapPtrToHash objptr = b1.curr)
        ∧ (∀ j, j ≠ resolveBin s.mapPtrToBin objptr datptr →
            binAt s1.vecBins j = binAt s.vecBins j))
    ∧ (¬ (change_type ≤ b.change ∨ b.change = BIN_UNDEF) →
      ∃ s1, stateSort s change_type name nameID bin objptr datptr dat size = some s1
        ∧ s1.vecBins = s.vecBins ∧ s1.mapPtrToHash = s.mapPtrToHash) := by
  have hB0 := (binAt_eq_some hb).1
  constructor
  · intro hprio hv hh
    refine ⟨_,
      { name := b.name, curr := (mapFind b.hashmap hv).getD b.cnt, change := change_type,
        bytes := if change_type = BIN_UPDATE then size else 0,
        cnt := if (mapFind b.hashmap hv).isNone then toInt32 (b.cnt + 1) else b.cnt,
        hashmap := if (mapFind b.hashmap hv).isNone
                   then mapSet b.hashmap hv b.cnt else b.hashmap },
      stateSort_applied s change_type name nameID bin objptr datptr dat size b hv
        hpass hp hd hct hres hb hprio hh, ?_⟩
    refine ⟨by simp only [packOutputCall_vecBins]; exact binAt_binSet_self _ hb, ?_⟩
    refine ⟨?_, rfl, ?_, rfl, rfl, ?_, ?_, ?_, ?_, ?_⟩
    · cases hf : mapFind b.hashmap hv with
      | none => simp [mapFind_mapSet_self]
      | some i => simp [hf]
    · cases hf : mapFind b.hashmap hv with
      | none => simp [mapSet_absent _ _ _ hf]
      | some i => simp
    · intro hc
      have : ¬ change_type = BIN_UPDATE := by rw [hc]; decide
      simp [this]
    · intro hc
      simp [hc]
    · simp only [packOutputCall_mapPtrToHash]
    · intro hi
      simp only [packOutputCall_mapPtrToHash]
      exact getPtrHashID_setPtrHashID _ _ hi
    · intro j hj
      simp only [packOutputCall_vecBins]
      exact binAt_binSet_ne _ _ hB0 (Ne.symm hj)
  · intro hprio
    exact ⟨_, stateSort_rejected s change_type name nameID bin objptr datptr dat size b
      hpass hp hd hct hres hb hprio, by simp, by simp⟩

theorem stateSort_create_update_witness :
    demoState.g_pass ≠ 1 ∧ BIN_TEXTURE ≠ BIN_PRESENT ∧ BIN_TEXTURE ≠ BIN_DRAW
    ∧ (BIN_UPDATE = BIN_CREATE ∨ BIN_UPDATE = BIN_UPDATE)
    ∧ resolveBin demoState.mapPtrToBin 10042 10042 ≠ BIN_UNKNOWN
    ∧ binAt demoState.vecBins (resolveBin demoState.mapPtrToBin 10042 10042) = some newBin
    ∧ (BIN_UPDATE ≤ newBin.change ∨ newBin.change = BIN_UNDEF)
    ∧ computeHash 10042 (some [1, 2, 3, 4]) 4 = some 7570407011736496
    ∧ ∃ s1 b1, stateSort demoState BIN_UPDATE "TexSubImage2D" 112 BIN_TEXTURE 10042 10042
          (some [1, 2, 3, 4]) 4 = some s1
        ∧ binAt s1.vecBins BIN_TEXTURE = some b1
        ∧ b1.curr = 0 ∧ b1.change = BIN_UPDATE ∧ b1.bytes = 4 ∧ b1.cnt = 1
        ∧ b1.hashmap = [(7570407011736496, 0)]
        ∧ getPtrHashID s1.mapPtrToHash 10042 = 0 := by
  refine ⟨by decide, by decide, by decide, by decide, by decide, by decide, by decide,
    by decide, ?_⟩
  obtain ⟨s1, b1, h1, h2, -, h4, h5, h6, h7, -, h9, -, h11, -⟩ :=
    (stateSort_create_update demoState BIN_UPDATE "TexSubImage2D" 112 BIN_TEXTURE 10042 10042
      (some [1, 2, 3, 4]) 4 newBin (by decide) (by decide) (by decide) (by decide)
      (by decide) (by decide)).1 (by decide) 7570407011736496 (by decide)
  have hc : b1.curr = 0 := by rw [h4]; decide
  refine ⟨s1, b1, h1, h2, hc, h7, h9 rfl, by rw [h6]; decide, by rw [h5]; decide, ?_⟩
  rw [← hc]
  exact h11 (by rw [hc]; decide)

/-! ### SWITCH -/

/-- The state that pass 2 of `stateSort` leaves when a change that is neither
CREATE nor UPDATE is accepted on the resolved bin. -/
theorem stateSort_switch_applied (s : State) (change_type : Int) (name : String)
    (nameID bin : Int) (objptr datptr : Nat) (dat : Option (List Byte)) (size : Int)
    (b : StateBin)
    (hpass : s.g_pass ≠ 1) (hp : bin ≠ BIN_PRESENT) (hd : bin ≠ BIN_DRAW)
    (hct : ¬ (change_type = BIN_CREATE ∨ change_type = BIN_UPDATE))
    (hres : resolveBin s.mapPtrToBin objptr datptr ≠ BIN_UNKNOWN)
    (hb : binAt s.vecBins (resolveBin s.mapPtrToBin objptr datptr) = some b)
    (hid : getPtrHashID s.mapPtrToHash objptr ≠ -1)
    (hprio : change_type ≤ b.change ∨ b.change = BIN_UNDEF) :
    stateSort s change_type name nameID bin objptr datptr dat size
      = some (packOutputCall
          { s with
            vecBins := binSet s.vecBins (resolveBin s.mapPtrToBin objptr datptr)
              { b with curr := getPtrHashID s.mapPtrToHash objptr,
                       change := change_type, bytes := 0 } }
          'C' (resolveBin s.mapPtrToBin objptr datptr) size objptr
          (toUInt64 (getPtrHashID s.mapPtrToHash objptr)) name nameID) := by
  have hpt : priorityTest change_type b.change = true := (priorityTest_iff _ _).mpr hprio
  simp only [stateSort, hpass, hp, hd, if_false, hres, hb, hct, hpt, hid, ne_eq,
    not_false_eq_true, and_self, if_true, binAt_binSet_self _ hb]

/-- The state that pass 2 of `stateSort` leaves when a change that is neither
CREATE nor UPDATE is not accepted on the resolved bin. -/
theorem stateSort_switch_rejected (s : State) (change_type : Int) (name : String)
    (nameID bin : Int) (objptr datptr : Nat) (dat : Option (List Byte)) (size : Int)
    (b : StateBin)
    (hpass : s.g_pass ≠ 1) (hp : bin ≠ BIN_PRESENT) (hd : bin ≠ BIN_DRAW)
    (hct : ¬ (change_type = BIN_CREATE ∨ change_type = BIN_UPDATE))
    (hres : resolveBin s.mapPtrToBin objptr datptr ≠ BIN_UNKNOWN)
    (hb : binAt s.vecBins (resolveBin s.mapPtrToBin objptr datptr) = some b)
    (hrej : ¬ (getPtrHashID s.mapPtrToHash objptr ≠ -1
      ∧ (change_type ≤ b.change ∨ b.change = BIN_UNDEF))) :
    stateSort s change_type name nameID bin objptr datptr dat size
      = some (packOutputCall s 'C' (resolveBin s.mapPtrToBin objptr datptr) size objptr
          (toUInt64 b.curr) name nameID) := by
  have hrej2 : ¬ (getPtrHashID s.mapPtrToHash objptr ≠ -1
      ∧ priorityTest change_type b.change = true) := by
    rw [priorityTest_iff]; exact hrej
  simp only [stateSort, hpass, hp, hd, if_false, hres, hb, hct, hrej2]

/-- Claim C5: in pass 2, for a SWITCH invocation that is neither a draw nor a
present and whose resolved bin `B` exists (`b` is its content), whatever the
payload arguments are: if `getPtrHashID (objptr) != -1` and the priority test
holds, the call sets `curr` of `B` to `getPtrHashID (objptr)`, `change` to
SWITCH and `bytes` to 0, keeps the value table and counter of `B`, every other
bin and the handle-id map; otherwise (in particular on a handle-id map miss)
all bins and the handle-id map are unchanged.  The id that `getPtrHashID`
returns for a handle is the one `setPtrHashID` last stored for it. -/
theorem stateSort_switch (s : State) (name : String)
    (nameID bin : Int) (objptr datptr : Nat) (dat : Option (List Byte)) (size : Int)
    (b : StateBin)
    (hpass : s.g_pass ≠ 1) (hp : bin ≠ BIN_PRESENT) (hd : bin ≠ BIN_DRAW)
    (hres : resolveBin s.mapPtrToBin objptr datptr ≠ BIN_UNKNOWN)
    (hb : binAt s.vecBins (resolveBin s.mapPtrToBin objptr datptr) = some b) :
    ((getPtrHashID s.mapPtrToHash objptr ≠ -1
        ∧ (BIN_SWITCH ≤ b.change ∨ b.change = BIN_UNDEF)) →
      ∃ s1 b1, stateSort s BIN_SWITCH name nameID bin objptr datptr dat size = some s1
        ∧ binAt s1.vecBins (resolveBin s.mapPtrToBin objptr datptr) = some b1
        ∧ b1.curr = getPtrHashID s.mapPtrToHash objptr
        ∧ b1.change = BIN_SWITCH ∧ b1.bytes = 0
        ∧ b1.hashmap = b.hashmap ∧ b1.cnt = b.cnt
        ∧ (∀ j, j ≠ resolveBin s.mapPtrToBin objptr datptr →
            binAt s1.vecBins j = binAt s.vecBins j)
        ∧ s1.mapPtrToHash = s.mapPtrToHash)
    ∧ (¬ (getPtrHashID s.mapPtrToHash objptr ≠ -1
        ∧ (BIN_SWITCH ≤ b.change ∨ b.change = BIN_UNDEF)) →
      ∃ s1, stateSort s BIN_SWITCH name nameID bin objptr datptr dat size = some s1
        ∧ s1.vecBins = s.vecBins ∧ s1.mapPtrToHash = s.mapPtrToHash)
    ∧ (mapFind s.mapPtrToHash objptr = none →
      ∃ s1, stateSort s BIN_SWITCH name nameID bin objptr datptr dat size = some s1
        ∧ s1.vecBins = s.vecBins ∧ s1.mapPtrToHash = s.mapPtrToHash)
    ∧ (∀ (m : List (Nat × Nat)) (id : Int), isInt32 id →
        getPtrHashID (setPtrHashID m objptr id) objptr = id)
    ∧ (∀ (m : List (Nat × Nat)) (ptr : Nat) (id : Int), objptr ≠ ptr →
        getPtrHashID (setPtrHashID m ptr id) objptr = getPtrHashID m objptr) := by
  have hB0 := (binAt_eq_some hb).1
  have hct : ¬ (BIN_SWITCH = BIN_CREATE ∨ BIN_SWITCH = BIN_UPDATE) := by decide
  have hrejd : ∀ hrej : ¬ (getPtrHashID s.mapPtrToHash objptr ≠ -1
        ∧ (BIN_SWITCH ≤ b.change ∨ b.change = BIN_UNDEF)),
      ∃ s1, stateSort s BIN_SWITCH name nameID bin objptr datptr dat size = some s1
        ∧ s1.vecBins = s.vecBins ∧ s1.mapPtrToHash = s.mapPtrToHash := fun hrej =>
    ⟨_, stateSort_switch_rejected s BIN_SWITCH name nameID bin objptr datptr dat size b
      hpass hp hd hct hres hb hrej, by simp, by simp⟩
  refine ⟨?_, hrejd, ?_, fun m id hi => getPtrHashID_setPtrHashID m objptr hi,
    fun m ptr id hne => getPtrHashID_setPtrHashID_ne m id hne⟩
  · rintro ⟨hid, hprio⟩
    refine ⟨_, { b with curr := getPtrHashID s.mapPtrToHash objptr,
                        change := BIN_SWITCH, bytes := 0 },
      stateSort_switch_applied s BIN_SWITCH name nameID bin objptr datptr dat size b
        hpass hp hd hct hres hb hid hprio, ?_, rfl, rfl, rfl, rfl, rfl, ?_, ?_⟩
    · simp only [packOutputCall_vecBins]
      exact binAt_binSet_self _ hb
    · intro j hj
      simp only [packOutputCall_vecBins]
      exact binAt_binSet_ne _ _ hB0 (Ne.symm hj)
    · simp only [packOutputCall_mapPtrToHash]
  · intro hmiss
    apply hrejd
    simp [getPtrHashID, hmiss]

theorem stateSort_switch_witness :
    ({ demoState with mapPtrToHash := [(10042, 5)] } : State).g_pass ≠ 1
    ∧ BIN_TEXTURE ≠ BIN_PRESENT ∧ BIN_TEXTURE ≠ BIN_DRAW
    ∧ resolveBin ({ demoState with mapPtrToHash := [(10042, 5)] } : State).mapPtrToBin
        10042 10042 ≠ BIN_UNKNOWN
    ∧ binAt ({ demoState with mapPtrToHash := [(10042, 5)] } : State).vecBins
        (resolveBin ({ demoState with mapPtrToHash := [(10042, 5)] } : State).mapPtrToBin
          10042 10042) = some newBin
    ∧ ∃ s1 b1, stateSort { demoState with mapPtrToHash := [(10042, 5)] } BIN_SWITCH
          "BindTexture" 111 BIN_TEXTURE 10042 10042 none 0 = some s1
        ∧ binAt s1.vecBins BIN_TEXTURE = some b1
        ∧ b1.curr = 5 ∧ b1.change = BIN_SWITCH ∧ b1.bytes = 0 := by
  refine ⟨by decide, by decide, by decide, by decide, by decide, ?_⟩
  obtain ⟨s1, b1, h1, h2, h3, h4, h5, -⟩ :=
    (stateSort_switch { demoState with mapPtrToHash := [(10042, 5)] } "BindTexture" 111
      BIN_TEXTURE 10042 10042 none 0 newBin (by decide) (by decide) (by decide)
      (by decide) (by decide)).1 (by decide)
  exact ⟨s1, b1, h1, h2, by rw [h3]; decide, h4, h5⟩

/-! ### Draw -/

theorem ctAt_isSome {i : Int} (h0 : 0 ≤ i) (h1 : i < 5) : ∃ c, ctAt i = some c := by
  have h : i.toNat < ct.length := by simp [ct]; omega
  exact ⟨ct[i.toNat], by simp [ctAt, h0, List.getElem?_eq_getElem h]⟩

theorem txtTriples_eq (bins : List StateBin)
    (h : ∀ b ∈ bins, 0 ≤ b.change ∧ b.change < 5) :
    txtTriples bins
      = some (bins.map (fun b => (b.curr, (ctAt b.change).getD 'x', b.bytes))) := by
  induction bins with
  | nil => rfl
  | cons b bins ih =>
    obtain ⟨c, hc⟩ := ctAt_isSome (h b (List.mem_cons_self _ _)).1 (h b (List.mem_cons_self _ _)).2
    simp [txtTriples, ih (fun b hb => h b (List.mem_cons_of_mem _ hb)), hc]

theorem toInt32_add_toInt32 (a b : Int) : toInt32 (toInt32 a + b) = toInt32 (a + b) := by
  unfold toInt32
  omega

theorem isInt32_toInt32 (x : Int) : isInt32 (toInt32 x) := by
  unfold isInt32 toInt32
  omega

theorem foldl_sumBytes (bins : List StateBin) :
    ∀ acc : Int, bins.foldl (fun d b => toInt32 (d + b.bytes)) (toInt32 acc)
      = toInt32 (acc + (bins.map StateBin.bytes).sum) := by
  induction bins with
  | nil => intro acc; simp
  | cons b bins ih =>
    intro acc
    simp only [List.foldl_cons, List.map_cons, List.sum_cons]
    rw [toInt32_add_toInt32, ih (acc + b.bytes), add_assoc]

theorem sumBytes_eq (bins : List StateBin) :
    sumBytes bins = toInt32 ((bins.map StateBin.bytes).sum) := by
  have h := foldl_sumBytes bins 0
  simpa [sumBytes, toInt32] using h

/-- The state that pass 2 of `stateSort` leaves after a draw. -/
theorem stateSort_draw_eq (s : State) (change_type : Int) (name : String) (nameID : Int)
    (objptr datptr : Nat) (dat : Option (List Byte)) (size : Int) (b25 : StateBin)
    (hpass : s.g_pass ≠ 1) (h25 : binAt s.vecBins BIN_DRAW = some b25)
    (hch : s.stateTraceTxt = true →
      ∀ b ∈ s.vecBins.take NUM_BIN, 0 ≤ b.change ∧ b.change < 5) :
    stateSort s change_type name nameID BIN_DRAW objptr datptr dat size
      = some { s with
          vecBins := resetChange s.vecBins,
          g_bytes := (s.g_bytes + toUInt64 (sumBytes (s.vecBins.take NUM_BIN)))
            % 18446744073709551616,
          g_fp := s.g_fp ++ (if s.stateTraceTxt then
            [TextLine.call BIN_DRAW size objptr (toUInt64 b25.curr) name,
             TextLine.draw name
               ((s.vecBins.take NUM_BIN).map
                 (fun b => (b.curr, (ctAt b.change).getD 'x', b.bytes)))
               size (sumBytes (s.vecBins.take NUM_BIN))] else []),
          g_fp2 := s.g_fp2 ++ (if s.stateTraceRaw then
            [Record.call 'C' (toInt8 nameID) 0 0 BIN_DRAW size (toUInt64 b25.curr) objptr,
             Record.draw 'D' (toInt8 nameID) 0 0 ((s.vecBins.take NUM_BIN).map rawTriple)
               size 'D' (sumBytes (s.vecBins.take NUM_BIN))] else []) } := by
  have hlen : ¬ s.vecBins.length < NUM_BIN := by
    have := (binAt_eq_some h25).2.1
    simp only [BIN_DRAW] at this
    simp only [NUM_BIN]
    omega
  have hd : ¬ BIN_DRAW = BIN_PRESENT := by decide
  cases htxt : s.stateTraceTxt <;> cases hraw : s.stateTraceRaw
  · simp [stateSort, hpass, hd, h25, packOutputDraw, packOutputCall, htxt, hraw, hlen]
  · simp [stateSort, hpass, hd, h25, packOutputDraw, packOutputCall, htxt, hraw, hlen]
  · have hm := txtTriples_eq _ (hch htxt)
    simp [stateSort, hpass, hd, h25, packOutputDraw, packOutputCall, htxt, hraw, hlen, hm]
  · have hm := txtTriples_eq _ (hch htxt)
    simp [stateSort, hpass, hd, h25, packOutputDraw, packOutputCall, htxt, hraw, hlen, hm]

theorem resetChange_getElem? (vb : List StateBin) (n : Nat) (h : NUM_BIN ≤ vb.length) :
    (resetChange vb)[n]? = if n < NUM_BIN then vb[n]?.map resetBin else vb[n]? := by
  unfold resetChange
  have hl : ((vb.take NUM_BIN).map resetBin).length = NUM_BIN := by
    simp [List.length_take, h]
  by_cases hn : n < NUM_BIN
  · rw [List.getElem?_append_left (by rw [hl]; exact hn)]
    simp [hn, List.getElem?_take]
  · rw [List.getElem?_append_right (by rw [hl]; omega), hl]
    simp only [hn, if_false, List.getElem?_drop]
    congr 1
    omega

theorem binAt_resetChange (vb : List StateBin) (n : Int) (h : NUM_BIN ≤ vb.length) :
    binAt (resetChange vb) n
      = if n < 25 then (binAt vb n).map resetBin else binAt vb n := by
  unfold binAt
  by_cases h0 : 0 ≤ n
  · simp only [h0, if_true, resetChange_getElem? vb n.toNat h]
    by_cases hn : n < 25
    · have : n.toNat < NUM_BIN := by simp only [NUM_BIN]; omega
      simp only [hn, this, if_true]
    · have : ¬ n.toNat < NUM_BIN := by simp only [NUM_BIN]; omega
      simp only [hn, this, if_false]
  · simp [h0]

/-- Claim C7 (draw-boundary reset): in pass 2 a DRAW invocation on a state
whose bin vector has the 26 entries the draw reads (and, when the text stream
is on, change kinds within the table `ct`) succeeds, and afterwards each of the
25 bins has `bytes == 0`, `change == BIN_NOCHANGE` if its `change` was not
`BIN_UNDEF` and `BIN_UNDEF` if it was, and the same `curr`, value table and
counter as before; the entries past the 25 bins, the resource map and the
handle-id map are unchanged. -/
theorem stateSort_draw_reset (s : State) (change_type : Int) (name : String) (nameID : Int)
    (objptr datptr : Nat) (dat : Option (List Byte)) (size : Int) (b25 : StateBin)
    (hpass : s.g_pass ≠ 1) (h25 : binAt s.vecBins BIN_DRAW = some b25)
    (hch : s.stateTraceTxt = true →
      ∀ b ∈ s.vecBins.take NUM_BIN, 0 ≤ b.change ∧ b.change < 5) :
    ∃ s1, stateSort s change_type name nameID BIN_DRAW objptr datptr dat size = some s1
      ∧ s1.vecBins.length = s.vecBins.length
      ∧ (∀ n : Int, 0 ≤ n → n < 25 →
          ∃ b b1, binAt s.vecBins n = some b ∧ binAt s1.vecBins n = some b1
            ∧ b1.bytes = 0
            ∧ (b.change ≠ BIN_UNDEF → b1.change = BIN_NOCHANGE)
            ∧ (b.change = BIN_UNDEF → b1.change = BIN_UNDEF)
            ∧ b1.curr = b.curr ∧ b1.hashmap = b.hashmap ∧ b1.cnt = b.cnt
            ∧ b1.name = b.name)
      ∧ (∀ n : Int, 25 ≤ n → binAt s1.vecBins n = binAt s.vecBins n)
      ∧ s1.mapPtrToBin = s.mapPtrToBin ∧ s1.mapPtrToHash = s.mapPtrToHash := by
  have hlen : NUM_BIN ≤ s.vecBins.length := by
    have := (binAt_eq_some h25).2.1
    simp only [BIN_DRAW] at this
    simp only [NUM_BIN]
    omega
  refine ⟨_, stateSort_draw_eq s change_type name nameID objptr datptr dat size b25 hpass h25
    hch, ?_, ?_, ?_, rfl, rfl⟩
  · simp only [NUM_BIN] at hlen
    simp only [resetChange, List.length_append, List.length_map, List.length_take,
      List.length_drop, NUM_BIN]
    omega
  · intro n h0 hn
    have hn2 : n < (s.vecBins.length : Int) := by
      simp only [NUM_BIN] at hlen
      omega
    obtain ⟨b, hb⟩ := binAt_isSome h0 hn2
    refine ⟨b, resetBin b, hb, ?_, rfl, ?_, ?_, rfl, rfl, rfl, rfl⟩
    · simp only [binAt_resetChange _ _ hlen, hn, if_true, hb, Option.map_some']
    · intro hc
      simp [resetBin, hc]
    · intro hc
      simp [resetBin, hc]
  · intro n hn
    have : ¬ n < 25 := by omega
    simp only [binAt_resetChange _ _ hlen, this, if_false]

theorem stateSort_draw_reset_witness :
    demoDrawState.g_pass ≠ 1
    ∧ binAt demoDrawState.vecBins BIN_DRAW = some newBin
    ∧ (demoDrawState.stateTraceTxt = true →
        ∀ b ∈ demoDrawState.vecBins.take NUM_BIN, 0 ≤ b.change ∧ b.change < 5)
    ∧ ∃ s1 b1, stateSort demoDrawState BIN_SWITCH "DrawArrays" 101 BIN_DRAW 0 0 none 6 = some s1
        ∧ binAt s1.vecBins BIN_TEXTURE = some b1
        ∧ b1.bytes = 0 ∧ b1.change = BIN_NOCHANGE ∧ b1.curr = 0
        ∧ b1.hashmap = [(7570407011736496, 0)] ∧ b1.cnt = 1 := by
  refine ⟨by decide, by decide, by decide, ?_⟩
  obtain ⟨s1, h1, -, h3, -⟩ := stateSort_draw_reset demoDrawState BIN_SWITCH "DrawArrays" 101
    0 0 none 6 newBin (by decide) (by decide) (by decide)
  obtain ⟨b, b1, hb, hb1, h4, h5, -, h7, h8, h9, -⟩ := h3 BIN_TEXTURE (by decide) (by decide)
  have hb2 : binAt demoDrawState.vecBins BIN_TEXTURE
      = some { newBin with curr := 0, change := BIN_UPDATE, bytes := 64, cnt := 1,
                           hashmap := [(7570407011736496, 0)] } := by decide
  rw [hb2] at hb
  cases hb
  exact ⟨s1, b1, h1, hb1, h4, h5 (by decide), h7, h8, h9⟩

theorem cast_add_toUInt64 (g : Nat) (d : Int) :
    (((g + toUInt64 d) % 18446744073709551616 : Nat) : Int)
      = ((g : Int) + d) % 18446744073709551616 := by
  unfold toUInt64
  have h : ((d % 18446744073709551616).toNat : Int) = d % 18446744073709551616 :=
    Int.toNat_of_nonneg (Int.emod_nonneg _ (by norm_num))
  push_cast
  rw [h]
  omega

/-- Claim C9: in pass 2 a DRAW invocation with size `size` (on a state whose
bin vector has the 26 entries the draw reads and, when the text stream is on,
change kinds within the table `ct`) appends to each enabled stream exactly two
records, in this order: a call record with bin 25 and size `size`, then a draw
record that lists for the 25 bins in index order `(curr, change, bytes)` as
they are before the reset, followed by `prim_cnt = size`, the byte `'D'` and
`draw_bytes`.  `draw_bytes` is the sum of `bytes` over the 25 bins in `int`
arithmetic (the exact sum whenever that fits in an `int`), and `g_bytes`
grows by `draw_bytes` in `unsigned long long` arithmetic (exactly, when
`draw_bytes` is not negative and the total stays below `2^64`). -/
theorem stateSort_draw_records (s : State) (change_type : Int) (name : String)
    (nameID : Int) (objptr datptr : Nat) (dat : Option (List Byte)) (size : Int)
    (b25 : StateBin)
    (hpass : s.g_pass ≠ 1) (h25 : binAt s.vecBins BIN_DRAW = some b25)
    (hch : s.stateTraceTxt = true →
      ∀ b ∈ s.vecBins.take NUM_BIN, 0 ≤ b.change ∧ b.change < 5) :
    ∃ s1 draw_bytes,
      stateSort s change_type name nameID BIN_DRAW objptr datptr dat size = some s1
      ∧ s1.g_fp2 = s.g_fp2 ++ (if s.stateTraceRaw then
          [Record.call 'C' (toInt8 nameID) 0 0 25 size (toUInt64 b25.curr) objptr,
           Record.draw 'D' (toInt8 nameID) 0 0
             ((s.vecBins.take 25).map (fun b => (b.curr, b.change, b.bytes)))
             size 'D' draw_bytes] else [])
      ∧ s1.g_fp = s.g_fp ++ (if s.stateTraceTxt then
          [TextLine.call 25 size objptr (toUInt64 b25.curr) name,
           TextLine.draw name
             ((s.vecBins.take 25).map
               (fun b => (b.curr, (ctAt b.change).getD 'x', b.bytes)))
             size draw_bytes] else [])
      ∧ draw_bytes = toInt32 (((s.vecBins.take 25).map StateBin.bytes).sum)
      ∧ (isInt32 (((s.vecBins.take 25).map StateBin.bytes).sum) →
          draw_bytes = ((s.vecBins.take 25).map StateBin.bytes).sum)
      ∧ (s1.g_bytes : Int) = ((s.g_bytes : Int) + draw_bytes) % 18446744073709551616
      ∧ (0 ≤ draw_bytes → (s.g_bytes : Int) + draw_bytes < 18446744073709551616 →
          (s1.g_bytes : Int) = (s.g_bytes : Int) + draw_bytes) := by
  refine ⟨_, sumBytes (s.vecBins.take NUM_BIN),
    stateSort_draw_eq s change_type name nameID objptr datptr dat size b25 hpass h25 hch,
    rfl, rfl, sumBytes_eq _, ?_, cast_add_toUInt64 _ _, ?_⟩
  · intro hi
    rw [sumBytes_eq]
    exact toInt32_of_isInt32 hi
  · intro h0 h1
    show (((s.g_bytes + toUInt64 (sumBytes (s.vecBins.take NUM_BIN)))
      % 18446744073709551616 : Nat) : Int) = _
    rw [cast_add_toUInt64]
    omega

theorem stateSort_draw_records_witness :
    demoDrawState.g_pass ≠ 1
    ∧ binAt demoDrawState.vecBins BIN_DRAW = some newBin
    ∧ (demoDrawState.stateTraceTxt = true →
        ∀ b ∈ demoDrawState.vecBins.take NUM_BIN, 0 ≤ b.change ∧ b.change < 5)
    ∧ ∃ s1 draw_bytes,
        stateSort demoDrawState BIN_SWITCH "DrawArrays" 101 BIN_DRAW 0 0 none 6 = some s1
        ∧ draw_bytes = 100
        ∧ s1.g_fp2 = [Record.call 'C' 101 0 0 25 6 0 0,
            Record.draw 'D' 101 0 0
              ((demoDrawState.vecBins.take 25).map (fun b => (b.curr, b.change, b.bytes)))
              6 'D' draw_bytes]
        ∧ (s1.g_bytes : Int) = 100 := by
  refine ⟨by decide, by decide, by decide, ?_⟩
  obtain ⟨s1, draw_bytes, h1, h2, -, h4, -, h6, -⟩ :=
    stateSort_draw_records demoDrawState BIN_SWITCH "DrawArrays" 101 0 0 none 6 newBin
      (by decide) (by decide) (by decide)
  have hd : draw_bytes = 100 := by rw [h4]; decide
  refine ⟨s1, draw_bytes, h1, hd, ?_, ?_⟩
  · rw [h2]; rfl
  · rw [h6, hd]; decide

/-! ### Present -/

/-- The state that pass 2 of `stateSort` leaves after a present. -/
theorem stateSort_present_eq (s : State) (change_type : Int) (name : String) (nameID : Int)
    (objptr datptr : Nat) (dat : Option (List Byte)) (size : Int) (hpass : s.g_pass ≠ 1) :
    stateSort s change_type name nameID BIN_PRESENT objptr datptr dat size
      = some { s with
          g_bytes := 0,
          g_fp := s.g_fp ++ (if s.stateTraceTxt then
            [TextLine.frame s.g_frame (toInt32 s.g_bytes)] else []),
          g_fp2 := s.g_fp2 ++ (if s.stateTraceRaw then
            [Record.frame 'F' 0 0 0
              (if s.stateTraceTxt then toInt32 (s.g_frame + 1) else s.g_frame)
              (toInt32 s.g_bytes)] else []) } := by
  cases htxt : s.stateTraceTxt <;> cases hraw : s.stateTraceRaw <;>
    simp [stateSort, hpass, packOutputFrame, htxt, hraw]

/-- Claim C8 (frame-boundary reset), evaluated on the code: a PRESENT in pass 2
resets `g_bytes` to 0 but leaves the frame number `g_frame` as it was, because
`packOutput` increments its by-value parameter only.  Two presents from the
start of pass 2 give two binary frame records that both carry frame number 0
(binary stream only), or that both carry 1 while both text lines carry 0 (both
streams), and `g_frame` is still 0. -/
theorem stateSort_present_frame_number :
    (run (pass2Start false true) [swapBuffers, swapBuffers]).map
          (fun s => (s.g_frame, s.g_bytes, s.g_fp2))
        = some (0, 0, [Record.frame 'F' 0 0 0 0 0, Record.frame 'F' 0 0 0 0 0])
    ∧ (run (pass2Start true true) [swapBuffers, swapBuffers]).map
          (fun s => (s.g_frame, s.g_bytes, s.g_fp, s.g_fp2))
        = some (0, 0, [TextLine.frame 0 0, TextLine.frame 0 0],
            [Record.frame 'F' 0 0 0 1 0, Record.frame 'F' 0 0 0 1 0]) :=
  ⟨by decide, by decide⟩

/-! ### Frame totals -/

/-- The shape of the state that pass 2 of `stateSort` leaves after a call that
is neither a draw nor a present: nothing changes, or bins and handle-id map
change and one call record is written. -/
theorem stateSort_other_shape (s s1 : State) (change_type : Int) (name : String)
    (nameID bin : Int) (objptr datptr : Nat) (dat : Option (List Byte)) (size : Int)
    (hpass : s.g_pass ≠ 1) (hp : bin ≠ BIN_PRESENT) (hd : bin ≠ BIN_DRAW)
    (h : stateSort s change_type name nameID bin objptr datptr dat size = some s1) :
    s1 = s ∨ ∃ vb m valid,
      s1 = packOutputCall { s with vecBins := vb, mapPtrToHash := m } 'C'
        (resolveBin s.mapPtrToBin objptr datptr) size objptr valid name nameID := by
  simp only [stateSort, hpass, hp, hd, if_false] at h
  split at h
  · left; cases h; rfl
  · right
    split at h
    · cases h
    · rename_i b hb
      split at h
      · cases h
      · rename_i s2 hu
        split at h
        · cases h
        · rename_i b2 hb2
          cases h
          refine ⟨s2.vecBins, s2.mapPtrToHash, toUInt64 b2.curr, ?_⟩
          have hs2 : s2 = { s with vecBins := s2.vecBins, mapPtrToHash := s2.mapPtrToHash } := by
            split at hu
            · split at hu
              · split at hu
                · cases hu
                · split at hu
                  · cases hu
                  · split at hu
                    · cases hu
                    · cases hu; rfl
              · cases hu; rfl
            · split at hu
              · cases hu; rfl
              · cases hu; rfl
          rw [← hs2]

theorem packOutputDraw_out (s s2 : State) (typ : Char) (prim_cnt : Int) (name : String)
    (nameID db : Int) (h : packOutputDraw s typ prim_cnt name nameID = some (db, s2)) :
    db = sumBytes (s.vecBins.take NUM_BIN)
      ∧ s2.g_fp2 = s.g_fp2 ++ (if s.stateTraceRaw then
          [Record.draw typ (toInt8 nameID) 0 0 ((s.vecBins.take NUM_BIN).map rawTriple)
             prim_cnt 'D' (sumBytes (s.vecBins.take NUM_BIN))] else [])
      ∧ s2.g_bytes = s.g_bytes ∧ s2.g_pass = s.g_pass
      ∧ s2.stateTraceRaw = s.stateTraceRaw ∧ s2.stateTraceTxt = s.stateTraceTxt
      ∧ s2.vecBins = s.vecBins ∧ s2.mapPtrToBin = s.mapPtrToBin
      ∧ s2.mapPtrToHash = s.mapPtrToHash ∧ s2.g_frame = s.g_frame
      ∧ ∃ l, s2.g_fp = s.g_fp ++ (if s.stateTraceTxt then
          [TextLine.draw name l prim_cnt (sumBytes (s.vecBins.take NUM_BIN))] else []) := by
  unfold packOutputDraw at h
  by_cases hlen : s.vecBins.length < NUM_BIN
  · simp [hlen] at h
  · cases htxt : s.stateTraceTxt <;> cases hraw : s.stateTraceRaw
    · simp [hlen, htxt, hraw] at h
      obtain ⟨h1, h2⟩ := h
      subst h1 h2
      simp [hraw, htxt]
    · simp [hlen, htxt, hraw] at h
      obtain ⟨h1, h2⟩ := h
      subst h1 h2
      simp [hraw, htxt]
    · cases ht : txtTriples (s.vecBins.take NUM_BIN) with
      | none => simp [hlen, htxt, hraw, ht] at h
      | some l =>
        simp [hlen, htxt, hraw, ht] at h
        obtain ⟨h1, h2⟩ := h
        subst h1 h2
        simp [hraw, htxt]
    · cases ht : txtTriples (s.vecBins.take NUM_BIN) with
      | none => simp [hlen, htxt, hraw, ht] at h
      | some l =>
        simp [hlen, htxt, hraw, ht] at h
        obtain ⟨h1, h2⟩ := h
        subst h1 h2
        simp [hraw, htxt]

/-- What a successful draw in pass 2 writes to the two streams and adds to
`g_bytes`. -/
theorem stateSort_draw_out (s s1 : State) (change_type : Int) (name : String)
    (nameID : Int) (objptr datptr : Nat) (dat : Option (List Byte)) (size : Int)
    (hpass : s.g_pass ≠ 1)
    (h : stateSort s change_type name nameID BIN_DRAW objptr datptr dat size = some s1) :
    ∃ valid l, s1.g_fp2 = s.g_fp2 ++ (if s.stateTraceRaw then
          [Record.call 'C' (toInt8 nameID) 0 0 BIN_DRAW size valid objptr,
           Record.draw 'D' (toInt8 nameID) 0 0 ((s.vecBins.take NUM_BIN).map rawTriple)
             size 'D' (sumBytes (s.vecBins.take NUM_BIN))] else [])
      ∧ s1.g_fp = s.g_fp ++ (if s.stateTraceTxt then
          [TextLine.call BIN_DRAW size objptr valid name,
           TextLine.draw name l size (sumBytes (s.vecBins.take NUM_BIN))] else [])
      ∧ s1.g_bytes = (s.g_bytes + toUInt64 (sumBytes (s.vecBins.take NUM_BIN)))
          % 18446744073709551616
      ∧ s1.g_pass = s.g_pass ∧ s1.stateTraceRaw = s.stateTraceRaw
      ∧ s1.stateTraceTxt = s.stateTraceTxt ∧ s1.vecBins = resetChange s.vecBins
      ∧ s1.mapPtrToBin = s.mapPtrToBin ∧ s1.mapPtrToHash = s.mapPtrToHash
      ∧ s1.g_frame = s.g_frame := by
  have hd : ¬ BIN_DRAW = BIN_PRESENT := by decide
  simp only [stateSort, hpass, hd, if_false, if_true] at h
  split at h
  · cases h
  · rename_i b25 h25
    split at h
    · cases h
    · rename_i db s2 hdraw
      cases h
      obtain ⟨h1, h2, h3, h4, h5, h6, h7, h8, h9, h10, l, h11⟩ :=
        packOutputDraw_out _ _ _ _ _ _ _ hdraw
      simp only [packOutputCall_vecBins, packOutputCall_stateTraceRaw,
        packOutputCall_stateTraceTxt, packOutputCall_g_bytes, packOutputCall_g_pass,
        packOutputCall_g_fp2, packOutputCall_g_fp, packOutputCall_mapPtrToBin,
        packOutputCall_mapPtrToHash, packOutputCall_g_frame]
        at h1 h2 h3 h4 h5 h6 h7 h8 h9 h10 h11
      refine ⟨toUInt64 b25.curr, l, ?_, ?_, ?_, h4, h5, h6, ?_, h8, h9, h10⟩
      · show s2.g_fp2 = _
        rw [h2]
        cases hraw : s.stateTraceRaw <;> simp
      · show s2.g_fp = _
        rw [h11]
        cases htxt : s.stateTraceTxt <;> simp
      · show (s2.g_bytes + toUInt64 db) % 18446744073709551616 = _
        rw [h1, h3]
      · show resetChange s2.vecBins = _
        rw [h7]

theorem frameSumsOK_append (l l1 : List ByteTotal) :
    ∀ acc : Int, frameSumsOK acc (l ++ l1)
      ↔ frameSumsOK acc l ∧ frameSumsOK (l.foldl pendingStep acc) l1 := by
  induction l with
  | nil => intro acc; simp [frameSumsOK]
  | cons r l ih =>
    intro acc
    show (_ ∧ frameSumsOK (pendingStep acc r) (l ++ l1)) ↔ _
    rw [ih]
    simp only [frameSumsOK, List.foldl_cons, and_assoc]

theorem toInt32_emod (x : Int) (h : isInt32 x) :
    toInt32 (x % 18446744073709551616) = x := by
  unfold isInt32 at h
  unfold toInt32
  omega

/-- What appending the records `l` does to a well-summed stream `out` whose
pending sum is `g_bytes` modulo `2^64`, for the three kinds of append that
`stateSort` makes: call records only, a call and a draw, or a frame. -/
theorem frameSums_extend (out : List ByteTotal) (g : Nat) (d : Int)
    (hok : frameSumsOK 0 out)
    (hg : (g : Int) = (out.foldl pendingStep 0) % 18446744073709551616) :
    (frameSumsOK 0 (out ++ [ByteTotal.call])
        ∧ (g : Int) = ((out ++ [ByteTotal.call]).foldl pendingStep 0)
            % 18446744073709551616)
    ∧ (frameSumsOK 0 (out ++ [ByteTotal.call, ByteTotal.draw d])
        ∧ (((g + toUInt64 d) % 18446744073709551616 : Nat) : Int)
            = ((out ++ [ByteTotal.call, ByteTotal.draw d]).foldl pendingStep 0)
              % 18446744073709551616)
    ∧ (frameSumsOK 0 (out ++ [ByteTotal.frame (toInt32 g)])
        ∧ ((0 : Nat) : Int) = ((out ++ [ByteTotal.frame (toInt32 g)]).foldl pendingStep 0)
            % 18446744073709551616) := by
  refine ⟨⟨?_, ?_⟩, ⟨?_, ?_⟩, ⟨?_, ?_⟩⟩
  · rw [frameSumsOK_append]
    exact ⟨hok, by simp [frameSumsOK]⟩
  · simpa [List.foldl_append, pendingStep] using hg
  · rw [frameSumsOK_append]
    exact ⟨hok, by simp [frameSumsOK]⟩
  · rw [cast_add_toUInt64, hg]
    simp only [List.foldl_append, List.foldl_cons, List.foldl_nil, pendingStep]
    omega
  · rw [frameSumsOK_append]
    refine ⟨hok, ?_⟩
    simp only [frameSumsOK, and_true]
    intro hi
    rw [hg]
    exact toInt32_emod _ hi
  · simp [List.foldl_append, pendingStep]

theorem step_frameInv (s s1 : State) (a : Invocation) (hpass : s.g_pass ≠ 1)
    (hinv : FrameInv s) (h : step s a = some s1) :
    FrameInv s1 ∧ s1.g_pass = s.g_pass := by
  obtain ⟨hok2, hok1, hg2, hg1⟩ := hinv
  unfold step at h
  by_cases hp : a.bin = BIN_PRESENT
  · rw [hp, stateSort_present_eq _ _ _ _ _ _ _ _ hpass] at h
    cases h
    refine ⟨⟨?_, ?_, ?_, ?_⟩, rfl⟩
    · show frameSumsOK 0 (List.map Record.total (s.g_fp2 ++ _))
      cases hraw : s.stateTraceRaw
      · simpa using hok2
      · simpa [Record.total] using
          (frameSums_extend _ s.g_bytes 0 hok2 (hg2 hraw)).2.2.1
    · show frameSumsOK 0 (List.map TextLine.total (s.g_fp ++ _))
      cases htxt : s.stateTraceTxt
      · simpa using hok1
      · simpa [TextLine.total] using
          (frameSums_extend _ s.g_bytes 0 hok1 (hg1 htxt)).2.2.1
    · intro hraw
      have hraw : s.stateTraceRaw = true := hraw
      show ((0 : Nat) : Int) = (List.foldl pendingStep 0 (List.map Record.total (s.g_fp2 ++ _))) % _
      simpa [hraw, Record.total] using
        (frameSums_extend _ s.g_bytes 0 hok2 (hg2 hraw)).2.2.2
    · intro htxt
      have htxt : s.stateTraceTxt = true := htxt
      show ((0 : Nat) : Int)
        = (List.foldl pendingStep 0 (List.map TextLine.total (s.g_fp ++ _))) % _
      simpa [htxt, TextLine.total] using
        (frameSums_extend _ s.g_bytes 0 hok1 (hg1 htxt)).2.2.2
  · by_cases hd : a.bin = BIN_DRAW
    · rw [hd] at h
      obtain ⟨valid, l, h1, h1t, h2, h3, h4, h5, -⟩ :=
        stateSort_draw_out _ _ _ _ _ _ _ _ _ hpass h
      refine ⟨⟨?_, ?_, ?_, ?_⟩, h3⟩
      · rw [h1]
        cases hraw : s.stateTraceRaw
        · simpa using hok2
        · simpa [Record.total] using
            (frameSums_extend _ s.g_bytes (sumBytes (s.vecBins.take NUM_BIN)) hok2
              (hg2 hraw)).2.1.1
      · rw [h1t]
        cases htxt : s.stateTraceTxt
        · simpa using hok1
        · simpa [TextLine.total] using
            (frameSums_extend _ s.g_bytes (sumBytes (s.vecBins.take NUM_BIN)) hok1
              (hg1 htxt)).2.1.1
      · intro hraw
        rw [h4] at hraw
        rw [h1, h2]
        simpa [hraw, Record.total] using
          (frameSums_extend _ s.g_bytes (sumBytes (s.vecBins.take NUM_BIN)) hok2
            (hg2 hraw)).2.1.2
      · intro htxt
        rw [h5] at htxt
        rw [h1t, h2]
        simpa [htxt, TextLine.total] using
          (frameSums_extend _ s.g_bytes (sumBytes (s.vecBins.take NUM_BIN)) hok1
            (hg1 htxt)).2.1.2
    · rcases stateSort_other_shape _ _ _ _ _ _ _ _ _ _ hpass hp hd h with h1 | ⟨vb, m, valid, h1⟩
      · subst h1
        exact ⟨⟨hok2, hok1, hg2, hg1⟩, rfl⟩
      · subst h1
        refine ⟨⟨?_, ?_, ?_, ?_⟩, by simp⟩
        · rw [packOutputCall_g_fp2]
          cases hraw : s.stateTraceRaw
          · simpa using hok2
          · simpa [Record.total] using (frameSums_extend _ s.g_bytes 0 hok2 (hg2 hraw)).1.1
        · rw [packOutputCall_g_fp]
          cases htxt : s.stateTraceTxt
          · simpa using hok1
          · simpa [TextLine.total] using (frameSums_extend _ s.g_bytes 0 hok1 (hg1 htxt)).1.1
        · intro hraw
          simp only [packOutputCall_stateTraceRaw] at hraw
          rw [packOutputCall_g_fp2, packOutputCall_g_bytes]
          simpa [hraw, Record.total] using (frameSums_extend _ s.g_bytes 0 hok2 (hg2 hraw)).1.2
        · intro htxt
          simp only [packOutputCall_stateTraceTxt] at htxt
          rw [packOutputCall_g_fp, packOutputCall_g_bytes]
          simpa [htxt, TextLine.total] using (frameSums_extend _ s.g_bytes 0 hok1 (hg1 htxt)).1.2

theorem run_frameInv (calls : List Invocation) :
    ∀ (s s1 : State), s.g_pass ≠ 1 → FrameInv s → run s calls = some s1 → FrameInv s1 := by
  induction calls with
  | nil =>
    intro s s1 _ hinv h
    simp only [run, Option.some.injEq] at h
    subst h
    exact hinv
  | cons a rest ih =>
    intro s s1 hpass hinv h
    simp only [run] at h
    cases hs : step s a with
    | none => simp [hs] at h
    | some s2 =>
      simp only [hs] at h
      obtain ⟨hinv2, hp2⟩ := step_frameInv s s2 a hpass hinv hs
      exact ih s2 s1 (by rw [hp2]; exact hpass) hinv2 h

/-! ### The priority rule within a draw window -/

/-- The resolved bin of a successful pass-2 call that is neither a draw nor a
present is unknown or an entry of the bin vector. -/
theorem stateSort_other_binAt (s s1 : State) (change_type : Int) (name : String)
    (nameID bin : Int) (objptr datptr : Nat) (dat : Option (List Byte)) (size : Int)
    (hpass : s.g_pass ≠ 1) (hp : bin ≠ BIN_PRESENT) (hd : bin ≠ BIN_DRAW)
    (h : stateSort s change_type name nameID bin objptr datptr dat size = some s1) :
    (resolveBin s.mapPtrToBin objptr datptr = BIN_UNKNOWN ∧ s1 = s)
      ∨ (resolveBin s.mapPtrToBin objptr datptr ≠ BIN_UNKNOWN
          ∧ ∃ b, binAt s.vecBins (resolveBin s.mapPtrToBin objptr datptr) = some b) := by
  simp only [stateSort, hpass, hp, hd, if_false] at h
  split at h
  · rename_i hu
    left
    cases h
    exact ⟨hu, rfl⟩
  · rename_i hu
    right
    refine ⟨hu, ?_⟩
    split at h
    · cases h
    · rename_i b hb
      exact ⟨b, hb⟩

/-- The effect on the bin vector of a successful pass-2 call that is neither a
draw nor a present: the vector is unchanged, or the resolved bin passed the
priority test and got the change kind of the call. -/
theorem stateSort_other_bins (s s1 : State) (change_type : Int) (name : String)
    (nameID bin : Int) (objptr datptr : Nat) (dat : Option (List Byte)) (size : Int)
    (hpass : s.g_pass ≠ 1) (hp : bin ≠ BIN_PRESENT) (hd : bin ≠ BIN_DRAW)
    (h : stateSort s change_type name nameID bin objptr datptr dat size = some s1) :
    s1.g_pass = s.g_pass ∧ s1.mapPtrToBin = s.mapPtrToBin
      ∧ (s1.vecBins = s.vecBins
        ∨ ∃ b b1, binAt s.vecBins (resolveBin s.mapPtrToBin objptr datptr) = some b
            ∧ s1.vecBins = binSet s.vecBins (resolveBin s.mapPtrToBin objptr datptr) b1
            ∧ b1.change = change_type
            ∧ (change_type ≤ b.change ∨ b.change = BIN_UNDEF)) := by
  rcases stateSort_other_binAt s s1 change_type name nameID bin objptr datptr dat size
    hpass hp hd h with ⟨-, h1⟩ | ⟨hres, b, hb⟩
  · subst h1
    exact ⟨rfl, rfl, Or.inl rfl⟩
  · by_cases hct : change_type = BIN_CREATE ∨ change_type = BIN_UPDATE
    · by_cases hprio : change_type ≤ b.change ∨ b.change = BIN_UNDEF
      · cases hh : computeHash objptr dat size with
        | none =>
          have hpt : priorityTest change_type b.change = true :=
            (priorityTest_iff _ _).mpr hprio
          simp [stateSort, hpass, hp, hd, hres, hb, hct, hpt, hh] at h
        | some hv =>
          rw [stateSort_applied s change_type name nameID bin objptr datptr dat size b hv
            hpass hp hd hct hres hb hprio hh] at h
          cases h
          refine ⟨by simp, by simp, Or.inr ⟨b, ?b1, hb, ?h1, ?h2, hprio⟩⟩
          case h1 => rw [packOutputCall_vecBins]; exact rfl
          case h2 => exact rfl
      · rw [stateSort_rejected s change_type name nameID bin objptr datptr dat size b
          hpass hp hd hct hres hb hprio] at h
        cases h
        exact ⟨by simp, by simp, Or.inl (by simp)⟩
    · by_cases hacc : getPtrHashID s.mapPtrToHash objptr ≠ -1
          ∧ (change_type ≤ b.change ∨ b.change = BIN_UNDEF)
      · rw [stateSort_switch_applied s change_type name nameID bin objptr datptr dat size b
          hpass hp hd hct hres hb hacc.1 hacc.2] at h
        cases h
        refine ⟨by simp, by simp, Or.inr ⟨b, ?b2, hb, ?h3, ?h4, hacc.2⟩⟩
        case h3 => rw [packOutputCall_vecBins]; exact rfl
        case h4 => exact rfl
      · rw [stateSort_switch_rejected s change_type name nameID bin objptr datptr dat size b
          hpass hp hd hct hres hb hacc] at h
        cases h
        exact ⟨by simp, by simp, Or.inl (by simp)⟩

/-- One pass-2 call other than a draw, on a state in which bin `B` holds a
recorded CREATE or UPDATE. -/
theorem step_window (s s1 : State) (a : Invocation) (B : Int) (b : StateBin)
    (hpass : s.g_pass ≠ 1) (hd : a.bin ≠ BIN_DRAW)
    (hct : a.change_type = BIN_CREATE ∨ a.change_type = BIN_UPDATE
      ∨ a.change_type = BIN_SWITCH)
    (hb : binAt s.vecBins B = some b)
    (hrec : b.change = BIN_CREATE ∨ b.change = BIN_UPDATE)
    (h : step s a = some s1) :
    s1.g_pass = s.g_pass ∧ s1.mapPtrToBin = s.mapPtrToBin
      ∧ ∃ b1, binAt s1.vecBins B = some b1
        ∧ (b1.change = BIN_CREATE ∨ b1.change = BIN_UPDATE) ∧ b1.change ≤ b.change
        ∧ (a.change_type = BIN_SWITCH → b1 = b)
        ∧ (b1 ≠ b → (a.change_type = BIN_CREATE ∨ a.change_type = BIN_UPDATE)
            ∧ a.change_type ≤ b.change ∧ a.bin ≠ BIN_PRESENT
            ∧ resolveBin s.mapPtrToBin a.objptr a.datptr = B) := by
  unfold step at h
  have hsame : ∀ s1 : State, s1.vecBins = s.vecBins →
      ∃ b1, binAt s1.vecBins B = some b1
        ∧ (b1.change = BIN_CREATE ∨ b1.change = BIN_UPDATE) ∧ b1.change ≤ b.change
        ∧ (a.change_type = BIN_SWITCH → b1 = b)
        ∧ (b1 ≠ b → (a.change_type = BIN_CREATE ∨ a.change_type = BIN_UPDATE)
            ∧ a.change_type ≤ b.change ∧ a.bin ≠ BIN_PRESENT
            ∧ resolveBin s.mapPtrToBin a.objptr a.datptr = B) := by
    intro s1 hv
    exact ⟨b, by rw [hv]; exact hb, hrec, le_refl _, fun _ => rfl, fun hne => absurd rfl hne⟩
  by_cases hp : a.bin = BIN_PRESENT
  · rw [hp, stateSort_present_eq _ _ _ _ _ _ _ _ hpass] at h
    cases h
    exact ⟨rfl, rfl, hsame _ rfl⟩
  · obtain ⟨h1, h2, h3⟩ := stateSort_other_bins s s1 a.change_type a.name a.nameID a.bin
      a.objptr a.datptr a.dat a.size hpass hp hd h
    refine ⟨h1, h2, ?_⟩
    rcases h3 with h3 | ⟨bR, b1, hbR, hv, hc, hprio⟩
    · exact hsame s1 h3
    · by_cases hRB : resolveBin s.mapPtrToBin a.objptr a.datptr = B
      · rw [hRB] at hbR hv
        rw [hb] at hbR
        cases hbR
        have hle : a.change_type ≤ b.change := by
          rcases hprio with hle | h0
          · exact hle
          · rcases hrec with hr | hr <;> rw [hr] at h0 <;> exact absurd h0 (by decide)
        have hcu : a.change_type = BIN_CREATE ∨ a.change_type = BIN_UPDATE := by
          rcases hct with h1 | h1 | h1
          · exact Or.inl h1
          · exact Or.inr h1
          · rw [h1] at hle
            rcases hrec with hr | hr <;> rw [hr] at hle <;> exact absurd hle (by decide)
        refine ⟨b1, by rw [hv]; exact binAt_binSet_self _ hb, by rw [hc]; exact hcu,
          by rw [hc]; exact hle, ?_, fun _ => ⟨hcu, hle, hp, hRB⟩⟩
        intro hsw
        rw [hsw] at hcu
        exact absurd hcu (by decide)
      · have hR0 := (binAt_eq_some hbR).1
        exact ⟨b, by rw [hv, binAt_binSet_ne _ _ hR0 hRB]; exact hb, hrec, le_refl _,
          fun _ => rfl, fun hne => absurd rfl hne⟩

theorem run_window (pre : List Invocation) :
    ∀ (s s1 : State) (B : Int) (b : StateBin), s.g_pass ≠ 1 →
      (∀ a ∈ pre, a.bin ≠ BIN_DRAW ∧ (a.change_type = BIN_CREATE
        ∨ a.change_type = BIN_UPDATE ∨ a.change_type = BIN_SWITCH)) →
      binAt s.vecBins B = some b → (b.change = BIN_CREATE ∨ b.change = BIN_UPDATE) →
      run s pre = some s1 →
      s1.g_pass = s.g_pass ∧ s1.mapPtrToBin = s.mapPtrToBin
        ∧ ∃ b1, binAt s1.vecBins B = some b1
          ∧ (b1.change = BIN_CREATE ∨ b1.change = BIN_UPDATE) ∧ b1.change ≤ b.change := by
  induction pre with
  | nil =>
    intro s s1 B b _ _ hb hrec h
    simp only [run, Option.some.injEq] at h
    subst h
    exact ⟨rfl, rfl, b, hb, hrec, le_refl _⟩
  | cons a rest ih =>
    intro s s1 B b hpass hw hb hrec h
    simp only [run] at h
    cases hs : step s a with
    | none => simp [hs] at h
    | some s2 =>
      simp only [hs] at h
      have ha := hw a (List.mem_cons_self _ _)
      obtain ⟨hp2, hm2, b2, hb2, hrec2, hle2, -⟩ :=
        step_window s s2 a B b hpass ha.1 ha.2 hb hrec hs
      obtain ⟨hp1, hm1, b1, hb1, hrec1, hle1⟩ := ih s2 s1 B b2 (by rw [hp2]; exact hpass)
        (fun x hx => hw x (List.mem_cons_of_mem _ hx)) hb2 hrec2 h
      exact ⟨by rw [hp1, hp2], by rw [hm1, hm2], b1, hb1, hrec1, le_trans hle1 hle2⟩

/-- A successful pass-2 CREATE or UPDATE resolved to bin `B` leaves in `B` a
change kind that no SWITCH can replace: it is below SWITCH and not UNDEF. -/
theorem step_records (s s1 : State) (a : Invocation) (b : StateBin)
    (hpass : s.g_pass ≠ 1) (hd : a.bin ≠ BIN_DRAW) (hp : a.bin ≠ BIN_PRESENT)
    (hct : a.change_type = BIN_CREATE ∨ a.change_type = BIN_UPDATE)
    (hres : resolveBin s.mapPtrToBin a.objptr a.datptr ≠ BIN_UNKNOWN)
    (hb : binAt s.vecBins (resolveBin s.mapPtrToBin a.objptr a.datptr) = some b)
    (h : step s a = some s1) :
    ∃ b1, binAt s1.vecBins (resolveBin s.mapPtrToBin a.objptr a.datptr) = some b1
      ∧ b1.change ≠ BIN_UNDEF ∧ b1.change < BIN_SWITCH := by
  unfold step at h
  by_cases hprio : a.change_type ≤ b.change ∨ b.change = BIN_UNDEF
  · cases hh : computeHash a.objptr a.dat a.size with
    | none =>
      have hpt : priorityTest a.change_type b.change = true :=
        (priorityTest_iff _ _).mpr hprio
      simp [stateSort, hpass, hp, hd, hres, hb, hct, hpt, hh] at h
    | some hv =>
      rw [stateSort_applied s a.change_type a.name a.nameID a.bin a.objptr a.datptr a.dat
        a.size b hv hpass hp hd hct hres hb hprio hh] at h
      cases h
      refine ⟨_, by rw [packOutputCall_vecBins]; exact binAt_binSet_self _ hb, ?_, ?_⟩
      · show a.change_type ≠ BIN_UNDEF
        rcases hct with h1 | h1 <;> rw [h1] <;> decide
      · show a.change_type < BIN_SWITCH
        rcases hct with h1 | h1 <;> rw [h1] <;> decide
  · rw [stateSort_rejected s a.change_type a.name a.nameID a.bin a.objptr a.datptr a.dat
      a.size b hpass hp hd hct hres hb hprio] at h
    cases h
    refine ⟨b, by rw [packOutputCall_vecBins]; exact hb, ?_, ?_⟩
    · exact fun h0 => hprio (Or.inr h0)
    · have hlt : b.change < a.change_type := by
        by_contra hge
        exact hprio (Or.inl (not_lt.mp hge))
      rcases hct with h1 | h1 <;> rw [h1] at hlt <;>
        simp only [BIN_SWITCH, BIN_CREATE, BIN_UPDATE] at hlt ⊢ <;> omega

/-- A pass-2 call other than a draw keeps in bin `B` a change kind that is
below SWITCH and not UNDEF. -/
theorem step_keeps (s s1 : State) (a : Invocation) (B : Int) (b : StateBin)
    (hpass : s.g_pass ≠ 1) (hd : a.bin ≠ BIN_DRAW)
    (hct : a.change_type = BIN_CREATE ∨ a.change_type = BIN_UPDATE
      ∨ a.change_type = BIN_SWITCH)
    (hb : binAt s.vecBins B = some b)
    (hJ : b.change ≠ BIN_UNDEF ∧ b.change < BIN_SWITCH)
    (h : step s a = some s1) :
    s1.g_pass = s.g_pass ∧ s1.mapPtrToBin = s.mapPtrToBin
      ∧ ∃ b1, binAt s1.vecBins B = some b1
        ∧ b1.change ≠ BIN_UNDEF ∧ b1.change < BIN_SWITCH := by
  unfold step at h
  by_cases hp : a.bin = BIN_PRESENT
  · rw [hp, stateSort_present_eq _ _ _ _ _ _ _ _ hpass] at h
    cases h
    exact ⟨rfl, rfl, b, hb, hJ⟩
  · obtain ⟨h1, h2, h3⟩ := stateSort_other_bins s s1 a.change_type a.name a.nameID a.bin
      a.objptr a.datptr a.dat a.size hpass hp hd h
    refine ⟨h1, h2, ?_⟩
    rcases h3 with h3 | ⟨bR, b1, hbR, hv, hc, hprio⟩
    · exact ⟨b, by rw [h3]; exact hb, hJ⟩
    · by_cases hRB : resolveBin s.mapPtrToBin a.objptr a.datptr = B
      · rw [hRB] at hbR hv
        rw [hb] at hbR
        cases hbR
        have hle : a.change_type ≤ b.change := by
          rcases hprio with hle | h0
          · exact hle
          · exact absurd h0 hJ.1
        have hlt : a.change_type < BIN_SWITCH := lt_of_le_of_lt hle hJ.2
        refine ⟨b1, by rw [hv]; exact binAt_binSet_self _ hb, ?_, by rw [hc]; exact hlt⟩
        rw [hc]
        rcases hct with h1 | h1 | h1
        · rw [h1]; decide
        · rw [h1]; decide
        · rw [h1] at hlt; exact absurd hlt (by decide)
      · have hR0 := (binAt_eq_some hbR).1
        exact ⟨b, by rw [hv, binAt_binSet_ne _ _ hR0 hRB]; exact hb, hJ⟩

theorem run_keeps (post : List Invocation) :
    ∀ (s s1 : State) (B : Int) (b : StateBin), s.g_pass ≠ 1 →
      (∀ a ∈ post, a.bin ≠ BIN_DRAW ∧ (a.change_type = BIN_CREATE
        ∨ a.change_type = BIN_UPDATE ∨ a.change_type = BIN_SWITCH)) →
      binAt s.vecBins B = some b → (b.change ≠ BIN_UNDEF ∧ b.change < BIN_SWITCH) →
      run s post = some s1 →
      ∃ b1, binAt s1.vecBins B = some b1
        ∧ b1.change ≠ BIN_UNDEF ∧ b1.change < BIN_SWITCH := by
  induction post with
  | nil =>
    intro s s1 B b _ _ hb hJ h
    simp only [run, Option.some.injEq] at h
    subst h
    exact ⟨b, hb, hJ⟩
  | cons a rest ih =>
    intro s s1 B b hpass hw hb hJ h
    simp only [run] at h
    cases hs : step s a with
    | none => simp [hs] at h
    | some s2 =>
      simp only [hs] at h
      have ha := hw a (List.mem_cons_self _ _)
      obtain ⟨hp2, -, b2, hb2, hJ2⟩ := step_keeps s s2 a B b hpass ha.1 ha.2 hb hJ hs
      exact ih s2 s1 B b2 (by rw [hp2]; exact hpass)
        (fun x hx => hw x (List.mem_cons_of_mem _ hx)) hb2 hJ2 h

theorem run_pass2 (pre : List Invocation) :
    ∀ (s s1 : State), s.g_pass ≠ 1 → (∀ a ∈ pre, a.bin ≠ BIN_DRAW) →
      run s pre = some s1 → s1.g_pass = s.g_pass ∧ s1.mapPtrToBin = s.mapPtrToBin := by
  induction pre with
  | nil =>
    intro s s1 _ _ h
    simp only [run, Option.some.injEq] at h
    subst h
    exact ⟨rfl, rfl⟩
  | cons a rest ih =>
    intro s s1 hpass hw h
    simp only [run] at h
    cases hs : step s a with
    | none => simp [hs] at h
    | some s2 =>
      simp only [hs] at h
      have hd := hw a (List.mem_cons_self _ _)
      have h2 : s2.g_pass = s.g_pass ∧ s2.mapPtrToBin = s.mapPtrToBin := by
        unfold step at hs
        by_cases hp : a.bin = BIN_PRESENT
        · rw [hp, stateSort_present_eq _ _ _ _ _ _ _ _ hpass] at hs
          cases hs
          exact ⟨rfl, rfl⟩
        · obtain ⟨h1, h2, -⟩ := stateSort_other_bins s s2 a.change_type a.name a.nameID
            a.bin a.objptr a.datptr a.dat a.size hpass hp hd hs
          exact ⟨h1, h2⟩
      obtain ⟨h3, h4⟩ := ih s2 s1 (by rw [h2.1]; exact hpass)
        (fun x hx => hw x (List.mem_cons_of_mem _ hx)) h
      exact ⟨by rw [h3, h2.1], by rw [h4, h2.2]⟩

/-- Claim C6 (priority invariant): let `w` be a window of pass-2 CREATE,
UPDATE and SWITCH invocations without a draw.  (1) If at the start bin `B`
holds a recorded CREATE or UPDATE, then at every call `a` of the window (after
the calls `pre`) bin `B` still holds a CREATE or UPDATE, of a kind numerically
not above the one recorded; if `a` is a SWITCH it leaves bin `B` (its `curr`,
`change` and `bytes` included) exactly as it was; and if `a` changes bin `B` at
all, then `a` is a CREATE or UPDATE resolved to `B` whose kind is numerically
`<=` the kind the bin held.  (2) From any start, once a CREATE or UPDATE
resolved to bin `B` has occurred in the window, the window ends with a change
kind of `B` other than SWITCH. -/
theorem priority_window (s : State) (w : List Invocation) (B : Int)
    (hpass : s.g_pass ≠ 1)
    (hw : ∀ a ∈ w, a.bin ≠ BIN_DRAW ∧ (a.change_type = BIN_CREATE
      ∨ a.change_type = BIN_UPDATE ∨ a.change_type = BIN_SWITCH)) :
    (∀ (b : StateBin), binAt s.vecBins B = some b →
      (b.change = BIN_CREATE ∨ b.change = BIN_UPDATE) →
      ∀ (pre post : List Invocation) (a : Invocation) (s1 s2 : State),
      w = pre ++ a :: post → run s pre = some s1 → step s1 a = some s2 →
      ∃ b1 b2, binAt s1.vecBins B = some b1 ∧ binAt s2.vecBins B = some b2
        ∧ (b1.change = BIN_CREATE ∨ b1.change = BIN_UPDATE) ∧ b1.change ≤ b.change
        ∧ (b2.change = BIN_CREATE ∨ b2.change = BIN_UPDATE) ∧ b2.change ≤ b1.change
        ∧ b2.change ≠ BIN_SWITCH
        ∧ (a.change_type = BIN_SWITCH →
            b2 = b1 ∧ b2.curr = b1.curr ∧ b2.change = b1.change ∧ b2.bytes = b1.bytes)
        ∧ (b2 ≠ b1 → (a.change_type = BIN_CREATE ∨ a.change_type = BIN_UPDATE)
            ∧ a.change_type ≤ b1.change
            ∧ resolveBin s.mapPtrToBin a.objptr a.datptr = B))
    ∧ (∀ (pre post : List Invocation) (a : Invocation) (s1 s2 s3 : State),
      w = pre ++ a :: post → run s pre = some s1 → step s1 a = some s2 →
      run s2 post = some s3 →
      (a.change_type = BIN_CREATE ∨ a.change_type = BIN_UPDATE) → a.bin ≠ BIN_PRESENT →
      resolveBin s.mapPtrToBin a.objptr a.datptr = B → B ≠ BIN_UNKNOWN →
      ∃ b3, binAt s3.vecBins B = some b3 ∧ b3.change ≠ BIN_SWITCH) := by
  constructor
  · intro b hb hrec pre post a s1 s2 hsplit hrun hstep
    have hpre : ∀ x ∈ pre, x.bin ≠ BIN_DRAW ∧ (x.change_type = BIN_CREATE
        ∨ x.change_type = BIN_UPDATE ∨ x.change_type = BIN_SWITCH) := by
      intro x hx
      exact hw x (by rw [hsplit]; exact List.mem_append_left _ hx)
    have ha := hw a (by rw [hsplit]; simp)
    obtain ⟨hp1, hm1, b1, hb1, hrec1, hle1⟩ :=
      run_window pre s s1 B b hpass hpre hb hrec hrun
    obtain ⟨-, -, b2, hb2, hrec2, hle2, hsw, hch⟩ :=
      step_window s1 s2 a B b1 (by rw [hp1]; exact hpass) ha.1 ha.2 hb1 hrec1 hstep
    refine ⟨b1, b2, hb1, hb2, hrec1, hle1, hrec2, hle2, ?_, ?_, ?_⟩
    · rcases hrec2 with h | h <;> rw [h] <;> decide
    · intro h
      have := hsw h
      subst this
      exact ⟨rfl, rfl, rfl, rfl⟩
    · intro hne
      obtain ⟨h1, h2, -, h4⟩ := hch hne
      exact ⟨h1, h2, by rw [← hm1]; exact h4⟩
  · intro pre post a s1 s2 s3 hsplit hrun hstep hrest hcu hp hRB hB
    have hpre : ∀ x ∈ pre, x.bin ≠ BIN_DRAW := by
      intro x hx
      exact (hw x (by rw [hsplit]; exact List.mem_append_left _ hx)).1
    have hpost : ∀ x ∈ post, x.bin ≠ BIN_DRAW ∧ (x.change_type = BIN_CREATE
        ∨ x.change_type = BIN_UPDATE ∨ x.change_type = BIN_SWITCH) := by
      intro x hx
      exact hw x (by rw [hsplit]; exact List.mem_append_right _ (List.mem_cons_of_mem _ hx))
    have ha := hw a (by rw [hsplit]; simp)
    obtain ⟨hp1, hm1⟩ := run_pass2 pre s s1 hpass hpre hrun
    have hpass1 : s1.g_pass ≠ 1 := by rw [hp1]; exact hpass
    rw [← hm1] at hRB
    have hres : resolveBin s1.mapPtrToBin a.objptr a.datptr ≠ BIN_UNKNOWN := by
      rw [hRB]; exact hB
    have hstep2 := hstep
    unfold step at hstep2
    rcases stateSort_other_binAt s1 s2 a.change_type a.name a.nameID a.bin a.objptr
      a.datptr a.dat a.size hpass1 hp ha.1 hstep2 with ⟨hu, -⟩ | ⟨-, b1, hb1⟩
    · exact absurd hu hres
    · obtain ⟨b2, hb2, hJ2⟩ := step_records s1 s2 a b1 hpass1 ha.1 hp hcu hres hb1 hstep
      obtain ⟨hp2, -, -⟩ := stateSort_other_bins s1 s2 a.change_type a.name a.nameID a.bin
        a.objptr a.datptr a.dat a.size hpass1 hp ha.1 hstep2
      rw [hRB] at hb2
      obtain ⟨b3, hb3, -, hlt⟩ := run_keeps post s2 s3 B b2 (by rw [hp2]; exact hpass1) hpost
        hb2 hJ2 hrest
      exact ⟨b3, hb3, ne_of_lt hlt⟩

set_option maxRecDepth 8000 in
theorem priority_window_witness :
    demoDrawState.g_pass ≠ 1
    ∧ (∀ a ∈ [bindTexture42, bindTexture42], a.bin ≠ BIN_DRAW ∧ (a.change_type = BIN_CREATE
        ∨ a.change_type = BIN_UPDATE ∨ a.change_type = BIN_SWITCH))
    ∧ ∃ s2 b2, step demoDrawState bindTexture42 = some s2
        ∧ binAt s2.vecBins BIN_TEXTURE = some b2
        ∧ b2.curr = 0 ∧ b2.change = BIN_UPDATE ∧ b2.bytes = 64 := by
  refine ⟨by decide, by decide, ?_⟩
  have hs : (step demoDrawState bindTexture42).isSome = true := by decide
  obtain ⟨s2, h2⟩ := Option.isSome_iff_exists.mp hs
  have hb : binAt demoDrawState.vecBins BIN_TEXTURE
      = some { newBin with curr := 0, change := BIN_UPDATE, bytes := 64, cnt := 1,
                           hashmap := [(7570407011736496, 0)] } := by decide
  obtain ⟨b1, b2, hb1, hb2, -, -, -, -, -, hsw, -⟩ :=
    (priority_window demoDrawState [bindTexture42, bindTexture42] BIN_TEXTURE (by decide)
      (by decide)).1 _ hb (by decide) [] [bindTexture42] bindTexture42 demoDrawState s2 rfl rfl h2
  rw [hb] at hb1
  cases hb1
  obtain ⟨-, h3, h4, h5⟩ := hsw rfl
  exact ⟨s2, b2, h2, hb2, h3, h4, h5⟩

/-! ### Well-formed states -/

theorem hashLoop_isSome (n : Nat) : ∀ (mem : List Byte) (h : Nat), n ≤ mem.length →
    ∃ hv, hashLoop n mem h = some hv := by
  induction n with
  | zero => intro mem h _; exact ⟨h, rfl⟩
  | succ n ih =>
    intro mem h hn
    cases mem with
    | nil => simp at hn
    | cons b mem =>
      simp only [hashLoop]
      exact ih mem _ (by simpa using hn)

theorem computeHash_isSome (ptr : Nat) (dat : Option (List Byte)) (size : Int)
    (h : match dat with
      | none => True
      | some mem => 0 ≤ size ∧ size ≤ (mem.length : Int)) :
    ∃ hv, computeHash ptr dat size = some hv := by
  cases dat with
  | none => exact ⟨_, rfl⟩
  | some mem =>
    obtain ⟨h0, h1⟩ := h
    have hn : ¬ size < 0 := by omega
    simp only [computeHash, hn, if_false]
    exact hashLoop_isSome _ _ _ (by omega)

theorem mapFind_mem {β : Type} (m : List (Nat × β)) (k : Nat) (v : β)
    (h : mapFind m k = some v) : (k, v) ∈ m := by
  induction m with
  | nil => simp [mapFind] at h
  | cons e m ih =>
    obtain ⟨k1, v1⟩ := e
    by_cases h1 : k1 = k
    · simp only [mapFind, h1, if_true, Option.some.injEq] at h
      subst h1 h
      exact List.mem_cons_self _ _
    · simp only [mapFind, h1, if_false] at h
      exact List.mem_cons_of_mem _ (ih h)

theorem getBin_mem (m : List (Nat × Int)) (ptr : Nat) :
    getBin m ptr = BIN_UNKNOWN ∨ (ptr, getBin m ptr) ∈ m := by
  unfold getBin
  cases h : mapFind m ptr with
  | none => exact Or.inl rfl
  | some v => exact Or.inr (mapFind_mem m ptr v h)

theorem resolveBin_range (m : List (Nat × Int)) (objptr datptr : Nat)
    (hm : ∀ e ∈ m, 0 ≤ e.2 ∧ e.2 < 25)
    (hres : resolveBin m objptr datptr ≠ BIN_UNKNOWN) :
    0 ≤ resolveBin m objptr datptr ∧ resolveBin m objptr datptr < 25 := by
  unfold resolveBin at hres ⊢
  by_cases h1 : getBin m objptr = BIN_UNKNOWN
  · simp only [h1, if_true] at hres ⊢
    rcases getBin_mem m datptr with h2 | h2
    · exact absurd h2 hres
    · exact hm _ h2
  · simp only [h1, if_false] at hres ⊢
    rcases getBin_mem m objptr with h2 | h2
    · exact absurd h2 h1
    · exact hm _ h2

theorem mem_binSet {vb : List StateBin} {i : Int} {b x : StateBin}
    (h : x ∈ binSet vb i b) : x = b ∨ x ∈ vb := by
  unfold binSet at h
  rcases List.mem_or_eq_of_mem_set h with h1 | h1
  · exact Or.inr h1
  · exact Or.inl h1

theorem mem_of_binAt {vb : List StateBin} {i : Int} {b : StateBin}
    (h : binAt vb i = some b) : b ∈ vb :=
  List.getElem?_mem (binAt_eq_some h).2.2

theorem mem_resetChange {vb : List StateBin} {x : StateBin} (h : x ∈ resetChange vb) :
    (x.change = BIN_UNDEF ∨ x.change = BIN_NOCHANGE) ∨ x ∈ vb := by
  unfold resetChange at h
  rcases List.mem_append.mp h with h1 | h1
  · left
    obtain ⟨b, -, hb⟩ := List.mem_map.mp h1
    subst hb
    by_cases hc : b.change = BIN_UNDEF
    · left; simp [resetBin, hc]
    · right; simp [resetBin, hc]
  · exact Or.inr (List.mem_of_mem_drop h1)

theorem wellFormed_binSet {s : State} (hwf : WellFormed s) (R : Int) (b1 : StateBin)
    (m : List (Nat × Nat)) (hc : 0 ≤ b1.change ∧ b1.change ≤ 4) :
    WellFormed { s with vecBins := binSet s.vecBins R b1, mapPtrToHash := m } := by
  obtain ⟨h1, h2, h3⟩ := hwf
  refine ⟨by simp [length_binSet, h1], h2, ?_⟩
  intro x hx
  rcases mem_binSet hx with h | h
  · subst h; exact hc
  · exact h3 x h

theorem wellFormed_packOutputCall {s : State} (hwf : WellFormed s) (typ : Char)
    (bin size : Int) (objptr valid : Nat) (name : String) (nameID : Int) :
    WellFormed (packOutputCall s typ bin size objptr valid name nameID) := by
  unfold WellFormed
  simp only [packOutputCall_vecBins, packOutputCall_mapPtrToBin]
  exact hwf

/-- In pass 2 every invocation that `stateCall` can make succeeds on a
well-formed state and leaves a well-formed state. -/
theorem step_wellFormed (s : State) (a : Invocation) (hpass : s.g_pass ≠ 1)
    (hwf : WellFormed s) (hv : ValidCall a) :
    ∃ s1, step s a = some s1 ∧ WellFormed s1 ∧ s1.g_pass = s.g_pass := by
  obtain ⟨hct, hdat⟩ := hv
  have hct04 : 0 ≤ a.change_type ∧ a.change_type ≤ 4 := by
    rcases hct with h | h | h <;> rw [h] <;> decide
  unfold step
  by_cases hp : a.bin = BIN_PRESENT
  · rw [hp, stateSort_present_eq _ _ _ _ _ _ _ _ hpass]
    exact ⟨_, rfl, hwf, rfl⟩
  · by_cases hd : a.bin = BIN_DRAW
    · obtain ⟨hl, hm, hc⟩ := hwf
      obtain ⟨b25, h25⟩ := @binAt_isSome s.vecBins BIN_DRAW (by decide)
        (by rw [hl]; decide)
      have hch : s.stateTraceTxt = true →
          ∀ b ∈ s.vecBins.take NUM_BIN, 0 ≤ b.change ∧ b.change < 5 := by
        intro _ b hb
        have := hc b (List.mem_of_mem_take hb)
        omega
      rw [hd, stateSort_draw_eq s _ _ _ _ _ _ _ b25 hpass h25 hch]
      refine ⟨_, rfl, ⟨?_, hm, ?_⟩, rfl⟩
      · show (resetChange s.vecBins).length = 32
        simp only [resetChange, List.length_append, List.length_map, List.length_take,
          List.length_drop, NUM_BIN, hl]
        rfl
      · intro x hx
        have hx : x ∈ resetChange s.vecBins := hx
        rcases mem_resetChange hx with (h | h) | h
        · rw [h]; decide
        · rw [h]; decide
        · exact hc x h
    · by_cases hu : resolveBin s.mapPtrToBin a.objptr a.datptr = BIN_UNKNOWN
      · exact ⟨s, by simp [stateSort, hpass, hp, hd, hu], hwf, rfl⟩
      · obtain ⟨hR0, hR1⟩ := resolveBin_range _ _ _ hwf.2.1 hu
        obtain ⟨b, hb⟩ := @binAt_isSome s.vecBins _ hR0 (by rw [hwf.1]; omega)
        by_cases hcu : a.change_type = BIN_CREATE ∨ a.change_type = BIN_UPDATE
        · by_cases hprio : a.change_type ≤ b.change ∨ b.change = BIN_UNDEF
          · obtain ⟨hv, hh⟩ := computeHash_isSome a.objptr a.dat a.size hdat
            rw [stateSort_applied s _ a.name a.nameID a.bin _ _ _ _ b hv hpass hp hd hcu hu hb
              hprio hh]
            exact ⟨_, rfl, wellFormed_packOutputCall
              (wellFormed_binSet hwf _ _ _ hct04) _ _ _ _ _ _ _, by simp⟩
          · rw [stateSort_rejected s _ a.name a.nameID a.bin _ _ a.dat a.size b hpass hp hd
              hcu hu hb hprio]
            exact ⟨_, rfl, wellFormed_packOutputCall hwf _ _ _ _ _ _ _, by simp⟩
        · by_cases hacc : getPtrHashID s.mapPtrToHash a.objptr ≠ -1
              ∧ (a.change_type ≤ b.change ∨ b.change = BIN_UNDEF)
          · rw [stateSort_switch_applied s _ a.name a.nameID a.bin _ _ a.dat a.size b hpass hp
              hd hcu hu hb hacc.1 hacc.2]
            exact ⟨_, rfl, wellFormed_packOutputCall
              (wellFormed_binSet hwf _ _ s.mapPtrToHash hct04) _ _ _ _ _ _ _, by simp⟩
          · rw [stateSort_switch_rejected s _ a.name a.nameID a.bin _ _ a.dat a.size b hpass
              hp hd hcu hu hb hacc]
            exact ⟨_, rfl, wellFormed_packOutputCall hwf _ _ _ _ _ _ _, by simp⟩

/-- In pass 2 every sequence of invocations that `stateCall` can make runs to
the end on a well-formed state. -/
theorem run_wellFormed (calls : List Invocation) :
    ∀ (s : State), s.g_pass ≠ 1 → WellFormed s → (∀ a ∈ calls, ValidCall a) →
      ∃ s1, run s calls = some s1 ∧ WellFormed s1 ∧ s1.g_pass = s.g_pass := by
  induction calls with
  | nil => intro s _ hwf _; exact ⟨s, rfl, hwf, rfl⟩
  | cons a rest ih =>
    intro s hpass hwf hv
    obtain ⟨s2, h2, hwf2, hp2⟩ := step_wellFormed s a hpass hwf (hv a (List.mem_cons_self _ _))
    obtain ⟨s1, h1, hwf1, hp1⟩ := ih s2 (by rw [hp2]; exact hpass) hwf2
      (fun x hx => hv x (List.mem_cons_of_mem _ hx))
    exact ⟨s1, by simp only [run, h2, h1], hwf1, by rw [hp1, hp2]⟩

/-! ### Frame totals of complete runs -/

/-- Claim C10: for every sequence of pass-2 `stateSort` invocations that starts
with `g_bytes == 0` and empty output streams, every frame record written, on
the binary stream and on the text stream, carries as its byte total the sum of
the `draw_bytes` fields of the draw records written on that stream since the
previous frame record (or since the start), provided that sum fits in a signed
32-bit integer.  This holds of every run that stays within the bin vector and
the payload buffers, and every sequence of invocations that `stateCall` can
make is such a run on a well-formed state. -/
theorem frame_bytes_sum (calls : List Invocation) (s0 : State)
    (hpass : s0.g_pass ≠ 1) (hbytes : s0.g_bytes = 0) (hout2 : s0.g_fp2 = [])
    (hout : s0.g_fp = []) :
    (∀ s1, run s0 calls = some s1 →
        frameSumsOK 0 (s1.g_fp2.map Record.total)
          ∧ frameSumsOK 0 (s1.g_fp.map TextLine.total))
    ∧ (WellFormed s0 → (∀ a ∈ calls, ValidCall a) →
        ∃ s1, run s0 calls = some s1
          ∧ frameSumsOK 0 (s1.g_fp2.map Record.total)
          ∧ frameSumsOK 0 (s1.g_fp.map TextLine.total)) := by
  have hinv : FrameInv s0 := by
    refine ⟨by rw [hout2]; trivial, by rw [hout]; trivial, ?_, ?_⟩
    · intro _
      rw [hbytes, hout2]
      rfl
    · intro _
      rw [hbytes, hout]
      rfl
  have h1 : ∀ s1, run s0 calls = some s1 →
      frameSumsOK 0 (s1.g_fp2.map Record.total)
        ∧ frameSumsOK 0 (s1.g_fp.map TextLine.total) := by
    intro s1 hrun
    obtain ⟨h2, h3, -⟩ := run_frameInv calls s0 s1 hpass hinv hrun
    exact ⟨h2, h3⟩
  refine ⟨h1, ?_⟩
  intro hwf hv
  obtain ⟨s1, hrun, -⟩ := run_wellFormed calls s0 hpass hwf hv
  exact ⟨s1, hrun, h1 s1 hrun⟩

set_option maxRecDepth 8000 in
theorem frame_bytes_sum_witness :
    ∃ s1, demoState.g_pass ≠ 1 ∧ demoState.g_bytes = 0 ∧ demoState.g_fp2 = []
      ∧ demoState.g_fp = []
      ∧ WellFormed demoState ∧ (∀ a ∈ demoTrace, ValidCall a)
      ∧ run demoState demoTrace = some s1
      ∧ frameSumsOK 0 (s1.g_fp2.map Record.total)
      ∧ frameSumsOK 0 (s1.g_fp.map TextLine.total)
      ∧ s1.g_fp2.map Record.total
          = [ByteTotal.call, ByteTotal.call, ByteTotal.draw 64, ByteTotal.frame 64]
      ∧ s1.g_fp.map TextLine.total
          = [ByteTotal.call, ByteTotal.call, ByteTotal.draw 64, ByteTotal.frame 64] := by
  obtain ⟨s1, h, hok2, hok⟩ :=
    (frame_bytes_sum demoTrace demoState (by decide) (by decide) (by decide) (by decide)).2
      (by decide) (by decide)
  have hl : (run demoState demoTrace).map
      (fun s => (s.g_fp2.map Record.total, s.g_fp.map TextLine.total))
      = some ([ByteTotal.call, ByteTotal.call, ByteTotal.draw 64, ByteTotal.frame 64],
          [ByteTotal.call, ByteTotal.call, ByteTotal.draw 64, ByteTotal.frame 64]) := by
    decide
  rw [h] at hl
  simp only [Option.map_some', Option.some.injEq, Prod.mk.injEq] at hl
  exact ⟨s1, by decide, by decide, by decide, by decide, by decide, by decide, h, hok2, hok,
    hl.1, hl.2⟩

/-! ### Pass 1 -/

/-- The state that pass 1 of `stateSort` leaves. -/
theorem stateSort_pass1_eq (s : State) (change_type : Int) (name : String)
    (nameID bin : Int) (objptr datptr : Nat) (dat : Option (List Byte)) (size : Int)
    (hpass : s.g_pass = 1) :
    stateSort s change_type name nameID bin objptr datptr dat size
      = some (if bin < BIN_DRAW then
          { s with mapPtrToBin := mapSet s.mapPtrToBin objptr bin } else s) := by
  by_cases hb : bin < BIN_DRAW
  · have h1 : ¬ bin ≥ BIN_DRAW := not_le.mpr hb
    have h2 : ¬ bin = BIN_UNKNOWN := by
      simp only [BIN_DRAW] at hb
      simp only [BIN_UNKNOWN]
      omega
    simp only [stateSort, hpass, if_true, h1, if_false, hb, assignToBin, h2]
  · have h1 : bin ≥ BIN_DRAW := not_lt.mp hb
    simp only [stateSort, hpass, if_true, h1, hb, if_false]

/-- Claim C14: every `stateSort` invocation of pass 1 succeeds, writes no
record on either stream and leaves the bins (fields and value tables), the
handle-id map, `g_bytes` and the frame number as they are.  If the supplied bin
is below `BIN_DRAW`, the resource map afterwards maps `objptr` to that bin
and every other handle as before; if the bin is `BIN_DRAW`, `BIN_PRESENT`,
`BIN_UNKNOWN` (or any other value from `BIN_DRAW` up), the resource map is
unchanged too. -/
theorem stateSort_pass1 (s : State) (change_type : Int) (name : String)
    (nameID bin : Int) (objptr datptr : Nat) (dat : Option (List Byte)) (size : Int)
    (hpass : s.g_pass = 1) :
    ∃ s1, stateSort s change_type name nameID bin objptr datptr dat size = some s1
      ∧ s1.g_fp = s.g_fp ∧ s1.g_fp2 = s.g_fp2
      ∧ s1.vecBins = s.vecBins ∧ s1.mapPtrToHash = s.mapPtrToHash
      ∧ s1.g_bytes = s.g_bytes ∧ s1.g_frame = s.g_frame ∧ s1.g_pass = s.g_pass
      ∧ (bin < BIN_DRAW →
          getBin s1.mapPtrToBin objptr = bin
          ∧ mapFind s1.mapPtrToBin objptr = some bin
          ∧ ∀ p, p ≠ objptr → mapFind s1.mapPtrToBin p = mapFind s.mapPtrToBin p
              ∧ getBin s1.mapPtrToBin p = getBin s.mapPtrToBin p)
      ∧ ((bin = BIN_DRAW ∨ bin = BIN_PRESENT ∨ bin = BIN_UNKNOWN ∨ BIN_DRAW ≤ bin) →
          s1.mapPtrToBin = s.mapPtrToBin) := by
  refine ⟨_, stateSort_pass1_eq s change_type name nameID bin objptr datptr dat size hpass,
    ?_, ?_, ?_, ?_, ?_, ?_, ?_, ?_, ?_⟩
  all_goals try (split <;> rfl)
  · intro hb
    simp only [hb, if_true]
    refine ⟨by simp [getBin, mapFind_mapSet_self], mapFind_mapSet_self _ _ _, ?_⟩
    intro p hp
    simp [getBin, mapFind_mapSet_ne _ _ _ _ hp]
  · intro hb
    have h : ¬ bin < BIN_DRAW := by
      rcases hb with h | h | h | h
      · rw [h]; decide
      · rw [h]; decide
      · rw [h]; decide
      · exact not_lt.mpr h
    simp only [h, if_false]

theorem stateSort_pass1_witness :
    (initState true true).g_pass = 1
    ∧ ∃ s1, stateSort (initState true true) BIN_CREATE "GenTextures" 110 BIN_TEXTURE 10042
          10042 none 0 = some s1
        ∧ s1.g_fp = [] ∧ s1.g_fp2 = []
        ∧ getBin s1.mapPtrToBin 10042 = BIN_TEXTURE := by
  refine ⟨rfl, ?_⟩
  obtain ⟨s1, h1, h2, h3, -, -, -, -, -, h4, -⟩ :=
    stateSort_pass1 (initState true true) BIN_CREATE "GenTextures" 110 BIN_TEXTURE 10042
      10042 none 0 rfl
  exact ⟨s1, h1, h2, h3, (h4 (by decide)).1⟩

/-! ### Bin resolution, dropped and rejected calls -/

set_option maxRecDepth 8000 in
/-- Claim C13 (effective-bin resolution), evaluated on the code: pass 2 of
`stateSort` replaces the supplied bin by `getBin (objptr)` whether or not the
supplied bin is `BIN_UNKNOWN`.  After both passes over a trace that generates
buffer 7, binds it as index buffer, draws, binds it as vertex buffer and as
index buffer again, the resource map holds the index bin for the buffer; in
pass 2 the bind as vertex buffer, whose supplied bin is `BIN_VERTEX0`, then
sets `change` of the index bin to SWITCH and writes a call record with bin 24,
while the bin of vertex slot 0 is still as `createBins` made it. -/
theorem stateSort_supplied_bin_ignored :
    bindArrayBuffer7.bin = BIN_VERTEX0
    ∧ rebindTrace.take 4 = [genBuffers7, bindElementBuffer7, drawArrays6, bindArrayBuffer7]
    ∧ (twoPass (createBins (initState false true)) rebindTrace (rebindTrace.take 4)).map
        (fun s => (s.mapPtrToBin, binAt s.vecBins BIN_VERTEX0,
          (binAt s.vecBins BIN_INDEX).map (fun b => (b.curr, b.change)), s.g_fp2.getLast?))
      = some ([(7, BIN_INDEX)], some newBin, some (0, BIN_SWITCH),
          some (Record.call 'C' 105 0 0 BIN_INDEX 0 0 7)) :=
  ⟨rfl, rfl, by decide⟩

/-- The state that pass 2 of `stateSort` leaves when no bin is found for the
call. -/
theorem stateSort_unknown_eq (s : State) (change_type : Int) (name : String)
    (nameID bin : Int) (objptr datptr : Nat) (dat : Option (List Byte)) (size : Int)
    (hpass : s.g_pass ≠ 1) (hp : bin ≠ BIN_PRESENT) (hd : bin ≠ BIN_DRAW)
    (hu : resolveBin s.mapPtrToBin objptr datptr = BIN_UNKNOWN) :
    stateSort s change_type name nameID bin objptr datptr dat size = some s := by
  simp only [stateSort, hpass, hp, hd, if_false, hu, if_true]

/-- Claim C18: in pass 2, a call that reaches the bin lookup (it is neither a
draw nor a present) and for which neither `getBin (objptr)` nor
`getBin (datptr)` yields a bin is dropped: `stateSort` returns with the whole
state as it was, so no record is written on either stream and no bin, value
table, handle-id map entry, `g_bytes` or frame number changes. -/
theorem stateSort_unknown_dropped (s : State) (change_type : Int) (name : String)
    (nameID bin : Int) (objptr datptr : Nat) (dat : Option (List Byte)) (size : Int)
    (hpass : s.g_pass ≠ 1) (hp : bin ≠ BIN_PRESENT) (hd : bin ≠ BIN_DRAW)
    (hobj : getBin s.mapPtrToBin objptr = BIN_UNKNOWN)
    (hdat : getBin s.mapPtrToBin datptr = BIN_UNKNOWN) :
    ∃ s1, stateSort s change_type name nameID bin objptr datptr dat size = some s1
      ∧ s1 = s
      ∧ s1.g_fp = s.g_fp ∧ s1.g_fp2 = s.g_fp2 ∧ s1.vecBins = s.vecBins
      ∧ s1.mapPtrToHash = s.mapPtrToHash ∧ s1.mapPtrToBin = s.mapPtrToBin
      ∧ s1.g_bytes = s.g_bytes ∧ s1.g_frame = s.g_frame := by
  have hu : resolveBin s.mapPtrToBin objptr datptr = BIN_UNKNOWN := by
    simp only [resolveBin, hobj, if_true, hdat]
  exact ⟨s, stateSort_unknown_eq s change_type name nameID bin objptr datptr dat size hpass
    hp hd hu, rfl, rfl, rfl, rfl, rfl, rfl, rfl, rfl⟩

theorem stateSort_unknown_dropped_witness :
    demoState.g_pass ≠ 1 ∧ BIN_UNKNOWN ≠ BIN_PRESENT ∧ BIN_UNKNOWN ≠ BIN_DRAW
    ∧ getBin demoState.mapPtrToBin 99 = BIN_UNKNOWN
    ∧ getBin demoState.mapPtrToBin 0 = BIN_UNKNOWN
    ∧ ∃ s1, stateSort demoState BIN_UPDATE "Map" 15 BIN_UNKNOWN 99 0 none 0 = some s1
        ∧ s1 = demoState := by
  refine ⟨by decide, by decide, by decide, by decide, by decide, ?_⟩
  obtain ⟨s1, h1, h2, -⟩ := stateSort_unknown_dropped demoState BIN_UPDATE "Map" 15
    BIN_UNKNOWN 99 0 none 0 (by decide) (by decide) (by decide) (by decide) (by decide)
  exact ⟨s1, h1, h2⟩

/-- Claim C19 as stated fails: on a state whose texture bin holds an UPDATE and
whose streams are empty, the priority test rejects the SWITCH of
`glBindTexture`, and yet the call writes one call record on each stream. -/
theorem rejected_call_writes_record :
    demoDrawState.g_fp2 = [] ∧ demoDrawState.g_fp = []
    ∧ resolveBin demoDrawState.mapPtrToBin bindTexture42.objptr bindTexture42.datptr
        = BIN_TEXTURE
    ∧ (binAt demoDrawState.vecBins BIN_TEXTURE).map
        (fun b => priorityTest bindTexture42.change_type b.change) = some false
    ∧ (step demoDrawState bindTexture42).map (fun s => (s.g_fp2, s.g_fp, s.vecBins))
        = some ([Record.call 'C' 111 0 0 BIN_TEXTURE 0 0 10042],
            [TextLine.call BIN_TEXTURE 0 10042 0 "BindTexture"], demoDrawState.vecBins) := by
  decide

/-- Claim C19, amended: in pass 2, when the priority test rejects a change
(CREATE, UPDATE or SWITCH) on a resolved bin, the update is suppressed (all bins with
their value tables, the handle-id map, the resource map, `g_bytes` and the
frame number stay as they are), and the call still writes exactly one call
record on each enabled stream, carrying the resolved bin, the size, the handle
and the unchanged `curr` of that bin. -/
theorem stateSort_rejected_record (s : State) (change_type : Int) (name : String)
    (nameID bin : Int) (objptr datptr : Nat) (dat : Option (List Byte)) (size : Int)
    (b : StateBin)
    (hpass : s.g_pass ≠ 1) (hp : bin ≠ BIN_PRESENT) (hd : bin ≠ BIN_DRAW)
    (hres : resolveBin s.mapPtrToBin objptr datptr ≠ BIN_UNKNOWN)
    (hb : binAt s.vecBins (resolveBin s.mapPtrToBin objptr datptr) = some b)
    (hrej : ¬ (change_type ≤ b.change ∨ b.change = BIN_UNDEF)) :
    ∃ s1, stateSort s change_type name nameID bin objptr datptr dat size = some s1
      ∧ s1.vecBins = s.vecBins ∧ s1.mapPtrToHash = s.mapPtrToHash
      ∧ s1.mapPtrToBin = s.mapPtrToBin ∧ s1.g_bytes = s.g_bytes ∧ s1.g_frame = s.g_frame
      ∧ s1.g_fp2 = s.g_fp2 ++ (if s.stateTraceRaw then
          [Record.call 'C' (toInt8 nameID) 0 0 (resolveBin s.mapPtrToBin objptr datptr) size
            (toUInt64 b.curr) objptr] else [])
      ∧ s1.g_fp = s.g_fp ++ (if s.stateTraceTxt then
          [TextLine.call (resolveBin s.mapPtrToBin objptr datptr) size objptr
            (toUInt64 b.curr) name] else []) := by
  have heq : stateSort s change_type name nameID bin objptr datptr dat size
      = some (packOutputCall s 'C' (resolveBin s.mapPtrToBin objptr datptr) size objptr
          (toUInt64 b.curr) name nameID) := by
    by_cases hcu : change_type = BIN_CREATE ∨ change_type = BIN_UPDATE
    · exact stateSort_rejected s change_type name nameID bin objptr datptr dat size b hpass hp
        hd hcu hres hb hrej
    · exact stateSort_switch_rejected s change_type name nameID bin objptr datptr dat size b
        hpass hp hd hcu hres hb (fun h => hrej h.2)
  exact ⟨_, heq, by simp, by simp, by simp, by simp, by simp, packOutputCall_g_fp2 _ _ _ _ _ _ _ _,
    packOutputCall_g_fp _ _ _ _ _ _ _ _⟩

set_option maxRecDepth 8000 in
theorem stateSort_rejected_record_witness :
    demoDrawState.g_pass ≠ 1 ∧ BIN_TEXTURE ≠ BIN_PRESENT ∧ BIN_TEXTURE ≠ BIN_DRAW
    ∧ resolveBin demoDrawState.mapPtrToBin 10042 10042 ≠ BIN_UNKNOWN
    ∧ ¬ (BIN_SWITCH ≤ BIN_UPDATE ∨ BIN_UPDATE = BIN_UNDEF)
    ∧ ∃ s1, stateSort demoDrawState BIN_SWITCH "BindTexture" 111 BIN_TEXTURE 10042 10042
          none 0 = some s1
        ∧ s1.vecBins = demoDrawState.vecBins
        ∧ s1.g_fp2 = [Record.call 'C' 111 0 0 BIN_TEXTURE 0 0 10042] := by
  refine ⟨by decide, by decide, by decide, by decide, by decide, ?_⟩
  obtain ⟨s1, h1, h2, -, -, -, -, h3, -⟩ :=
    stateSort_rejected_record demoDrawState BIN_SWITCH "BindTexture" 111 BIN_TEXTURE 10042
      10042 none 0
      { newBin with curr := 0, change := BIN_UPDATE, bytes := 64, cnt := 1,
                    hashmap := [(7570407011736496, 0)] }
      (by decide) (by decide) (by decide) (by decide) (by decide) (by decide)
  exact ⟨s1, h1, h2, by rw [h3]; rfl⟩

/-! ### Fresh bins -/

/-- Claim C20 as stated fails: `createBins` stores `BIN_UNDEF`, which is 0, in
`curr`, so every fresh bin has `curr = 0` and not -1; and 0 is the id that the
first `assignIDToHash` on a fresh bin returns. -/
theorem createBins_curr_not_minus_one :
    (createBins (initState true true)).vecBins.map (fun b => b.curr) = List.replicate 32 0
    ∧ (assignIDToHash (createBins (initState true true)).vecBins 5381 BIN_TEXTURE).map
        Prod.fst = some 0 := by
  decide

/-- Claim C20, amended: `createBins` pushes 32 bins, each with
`change = BIN_UNDEF`, `bytes = 0`, an empty value table with next id 0 and
`curr = BIN_UNDEF`, where `BIN_UNDEF` is 0: the value of `curr` in a fresh bin
is the same as the first dense id, which the first `assignIDToHash` on the bin
returns. -/
theorem createBins_fresh (s : State) :
    (createBins s).vecBins = s.vecBins ++ List.replicate 32 newBin
    ∧ (∀ txt raw, ∀ b ∈ (createBins (initState txt raw)).vecBins,
        b.change = BIN_UNDEF ∧ b.bytes = 0 ∧ b.hashmap = [] ∧ b.cnt = 0
          ∧ b.curr = BIN_UNDEF ∧ b.curr = 0)
    ∧ (∀ txt raw val bin_id, 0 ≤ bin_id → bin_id < 32 →
        (assignIDToHash (createBins (initState txt raw)).vecBins val bin_id).map Prod.fst
          = some 0) := by
  refine ⟨rfl, ?_, ?_⟩
  · intro txt raw b hb
    have hb1 : b ∈ List.replicate 32 newBin := by
      simpa [createBins, initState] using hb
    rw [List.eq_of_mem_replicate hb1]
    exact ⟨rfl, rfl, rfl, rfl, rfl, rfl⟩
  · intro txt raw val bin_id h0 h32
    have hb : binAt (createBins (initState txt raw)).vecBins bin_id = some newBin := by
      have hlt : bin_id.toNat < 32 := by omega
      simp only [binAt, h0, if_true, createBins, initState, List.nil_append]
      rw [List.getElem?_replicate]
      simp [hlt]
    simp only [assignIDToHash, hb]
    simp [newBin, mapFind, mapSet]

/-! ### The resource map after pass 1 -/

theorem mem_mapSet {β : Type} (m : List (Nat × β)) (k : Nat) (v : β) (e : Nat × β)
    (h : e ∈ mapSet m k v) : e ∈ m ∨ e = (k, v) := by
  induction m with
  | nil =>
    simp only [mapSet, List.mem_singleton] at h
    exact Or.inr h
  | cons x rest ih =>
    obtain ⟨k1, v1⟩ := x
    simp only [mapSet] at h
    split at h
    · rcases List.mem_cons.1 h with h1 | h1
      · exact Or.inr h1
      · exact Or.inl (List.mem_cons_of_mem _ h1)
    · rcases List.mem_cons.1 h with h1 | h1
      · exact Or.inl (by rw [h1]; exact List.mem_cons_self _ _)
      · rcases ih h1 with h2 | h2
        · exact Or.inl (List.mem_cons_of_mem _ h2)
        · exact Or.inr h2

/-- One call of pass 1. -/
theorem step_pass1 (s : State) (a : Invocation) (hpass : s.g_pass = 1) :
    step s a = some (if a.bin < BIN_DRAW then
      { s with mapPtrToBin := mapSet s.mapPtrToBin a.objptr a.bin } else s) :=
  stateSort_pass1_eq s _ _ _ _ _ _ _ _ hpass

/-- Pass 1 over a sequence of calls always completes; it changes the resource
map only, leaves every handle that had a pipeline bin with a pipeline bin,
gives one to the handle of every call whose bin is below `BIN_DRAW`, and keeps
the bins of the map within the 25 pipeline bins when the calls do. -/
theorem run_pass1 (calls : List Invocation) :
    ∀ (s : State), s.g_pass = 1 →
      ∃ m, run s calls = some { s with mapPtrToBin := m }
        ∧ (∀ p, (∃ b, mapFind s.mapPtrToBin p = some b ∧ b < BIN_DRAW) →
            ∃ b, mapFind m p = some b ∧ b < BIN_DRAW)
        ∧ (∀ a ∈ calls, a.bin < BIN_DRAW → ∃ b, mapFind m a.objptr = some b ∧ b < BIN_DRAW)
        ∧ ((∀ e ∈ s.mapPtrToBin, 0 ≤ e.2 ∧ e.2 < 25) →
            (∀ a ∈ calls, a.bin < BIN_DRAW → 0 ≤ a.bin) → ∀ e ∈ m, 0 ≤ e.2 ∧ e.2 < 25) := by
  induction calls with
  | nil =>
    intro s _
    exact ⟨s.mapPtrToBin, rfl, fun p h => h, fun a ha => absurd ha (List.not_mem_nil a),
      fun h _ => h⟩
  | cons a rest ih =>
    intro s hpass
    by_cases hlt : a.bin < BIN_DRAW
    · obtain ⟨m, hrun, hkeep, hreg, hwf⟩ :=
        ih { s with mapPtrToBin := mapSet s.mapPtrToBin a.objptr a.bin } hpass
      have hstep : ∀ p, (∃ b, mapFind s.mapPtrToBin p = some b ∧ b < BIN_DRAW) →
          ∃ b, mapFind (mapSet s.mapPtrToBin a.objptr a.bin) p = some b ∧ b < BIN_DRAW := by
        intro p hp
        by_cases hpa : p = a.objptr
        · rw [hpa, mapFind_mapSet_self]
          exact ⟨a.bin, rfl, hlt⟩
        · rw [mapFind_mapSet_ne _ _ _ _ hpa]
          exact hp
      refine ⟨m, ?_, ?_, ?_, ?_⟩
      · simp only [run, step_pass1 s a hpass, if_pos hlt]
        exact hrun
      · intro p hp
        exact hkeep p (hstep p hp)
      · intro x hx hxlt
        rcases List.mem_cons.1 hx with hxa | hxr
        · rw [hxa]
          exact hkeep a.objptr ⟨a.bin, by rw [mapFind_mapSet_self], hlt⟩
        · exact hreg x hxr hxlt
      · intro h0 hc
        refine hwf ?_ (fun x hx => hc x (List.mem_cons_of_mem _ hx))
        intro e he
        rcases mem_mapSet _ _ _ _ he with h1 | h1
        · exact h0 e h1
        · rw [h1]
          have := hc a (List.mem_cons_self _ _) hlt
          simp only [BIN_DRAW] at hlt
          exact ⟨this, hlt⟩
    · obtain ⟨m, hrun, hkeep, hreg, hwf⟩ := ih s hpass
      refine ⟨m, ?_, hkeep, ?_, ?_⟩
      · simp only [run, step_pass1 s a hpass, if_neg hlt]
        exact hrun
      · intro x hx hxlt
        rcases List.mem_cons.1 hx with hxa | hxr
        · rw [hxa] at hxlt
          exact absurd hxlt hlt
        · exact hreg x hxr hxlt
      · intro h0 hc
        exact hwf h0 (fun x hx => hc x (List.mem_cons_of_mem _ hx))

/-- A successful call of pass 2 leaves the resource map, the pass number and
the two stream switches as they are. -/
theorem step_pass2_map (s s1 : State) (a : Invocation) (hpass : s.g_pass ≠ 1)
    (h : step s a = some s1) :
    s1.mapPtrToBin = s.mapPtrToBin ∧ s1.g_pass = s.g_pass
      ∧ s1.stateTraceRaw = s.stateTraceRaw ∧ s1.stateTraceTxt = s.stateTraceTxt := by
  unfold step at h
  by_cases hp : a.bin = BIN_PRESENT
  · rw [hp, stateSort_present_eq _ _ _ _ _ _ _ _ hpass] at h
    cases h
    exact ⟨rfl, rfl, rfl, rfl⟩
  · by_cases hd : a.bin = BIN_DRAW
    · rw [hd] at h
      obtain ⟨valid, l, -, -, -, h3, h4, h5, -, h6, -⟩ :=
        stateSort_draw_out _ _ _ _ _ _ _ _ _ hpass h
      exact ⟨h6, h3, h4, h5⟩
    · rcases stateSort_other_shape _ _ _ _ _ _ _ _ _ _ hpass hp hd h with h1 | ⟨vb, m, valid, h1⟩
      · subst h1
        exact ⟨rfl, rfl, rfl, rfl⟩
      · subst h1
        simp

theorem run_pass2_map (calls : List Invocation) :
    ∀ (s s1 : State), s.g_pass ≠ 1 → run s calls = some s1 →
      s1.mapPtrToBin = s.mapPtrToBin ∧ s1.g_pass = s.g_pass
        ∧ s1.stateTraceRaw = s.stateTraceRaw ∧ s1.stateTraceTxt = s.stateTraceTxt := by
  induction calls with
  | nil =>
    intro s s1 _ h
    simp only [run, Option.some.injEq] at h
    subst h
    exact ⟨rfl, rfl, rfl, rfl⟩
  | cons a rest ih =>
    intro s s1 hpass h
    simp only [run] at h
    cases hs : step s a with
    | none => simp [hs] at h
    | some s2 =>
      simp only [hs] at h
      obtain ⟨h1, h2, h3, h4⟩ := step_pass2_map s s2 a hpass hs
      obtain ⟨k1, k2, k3, k4⟩ := ih s2 s1 (by rw [h2]; exact hpass) h
      exact ⟨by rw [k1, h1], by rw [k2, h2], by rw [k3, h3], by rw [k4, h4]⟩

/-- A successful call of pass 2 that is neither a draw nor a present and whose
bin is found appends exactly one call record, with the found bin, to each
enabled stream. -/
theorem stateSort_resolved_record (s s1 : State) (change_type : Int) (name : String)
    (nameID bin : Int) (objptr datptr : Nat) (dat : Option (List Byte)) (size : Int)
    (hpass : s.g_pass ≠ 1) (hp : bin ≠ BIN_PRESENT) (hd : bin ≠ BIN_DRAW)
    (hres : resolveBin s.mapPtrToBin objptr datptr ≠ BIN_UNKNOWN)
    (h : stateSort s change_type name nameID bin objptr datptr dat size = some s1) :
    ∃ valid,
      s1.g_fp2 = s.g_fp2 ++ (if s.stateTraceRaw then
          [Record.call 'C' (toInt8 nameID) 0 0 (resolveBin s.mapPtrToBin objptr datptr) size
            valid objptr] else [])
      ∧ s1.g_fp = s.g_fp ++ (if s.stateTraceTxt then
          [TextLine.call (resolveBin s.mapPtrToBin objptr datptr) size objptr valid name]
            else []) := by
  have hshape : ∃ vb m valid,
      s1 = packOutputCall { s with vecBins := vb, mapPtrToHash := m } 'C'
        (resolveBin s.mapPtrToBin objptr datptr) size objptr valid name nameID := by
    simp only [stateSort, hpass, hp, hd, if_false, hres] at h
    split at h
    · cases h
    · rename_i b hb
      split at h
      · cases h
      · rename_i s2 hu
        split at h
        · cases h
        · rename_i b2 hb2
          cases h
          refine ⟨s2.vecBins, s2.mapPtrToHash, toUInt64 b2.curr, ?_⟩
          have hs2 : s2 = { s with vecBins := s2.vecBins, mapPtrToHash := s2.mapPtrToHash } := by
            split at hu
            · split at hu
              · split at hu
                · cases hu
                · split at hu
                  · cases hu
                  · split at hu
                    · cases hu
                    · cases hu; rfl
              · cases hu; rfl
            · split at hu
              · cases hu; rfl
              · cases hu; rfl
          rw [← hs2]
  obtain ⟨vb, m, valid, h1⟩ := hshape
  subst h1
  exact ⟨valid, by rw [packOutputCall_g_fp2], by rw [packOutputCall_g_fp]⟩

theorem run_append (l1 l2 : List Invocation) :
    ∀ (s : State), run s (l1 ++ l2)
      = match run s l1 with
        | none => none
        | some s1 => run s1 l2 := by
  induction l1 with
  | nil => intro s; rfl
  | cons a rest ih =>
    intro s
    simp only [List.cons_append, run]
    cases step s a with
    | none => rfl
    | some s2 => exact ih s2

/-- Claim C15: pass 1 over any sequence of `stateSort` calls completes, and
afterwards every handle that occurs in the sequence as `objptr` of a call with
a supplied bin below `BIN_DRAW` has an entry in the resource map
(`getBin` is not `BIN_UNKNOWN`).  Pass 2 never changes the resource map, so
whenever the replay of the same sequence reaches such a call, `getBin (objptr)`
is the bin of the map, the call is not dropped for lack of a bin, and when the
call returns it has written one call record with that bin on each enabled
stream.  From a well-formed state and with calls that a classifier can make
(supplied bins that are not negative), the replay of the whole sequence
completes. -/
theorem pass1_registers_handles (s : State) (calls : List Invocation) :
    ∃ s1, run { s with g_pass := 1 } calls = some s1
      ∧ (∀ a ∈ calls, a.bin < BIN_DRAW → getBin s1.mapPtrToBin a.objptr ≠ BIN_UNKNOWN)
      ∧ (∀ pre a post sa, calls = pre ++ a :: post → a.bin < BIN_DRAW →
          run { s1 with g_pass := 2 } pre = some sa →
            getBin sa.mapPtrToBin a.objptr ≠ BIN_UNKNOWN
            ∧ resolveBin sa.mapPtrToBin a.objptr a.datptr = getBin s1.mapPtrToBin a.objptr
            ∧ ∀ sb, step sa a = some sb →
                ∃ valid, sb.g_fp2 = sa.g_fp2 ++ (if s.stateTraceRaw then
                    [Record.call 'C' (toInt8 a.nameID) 0 0 (getBin s1.mapPtrToBin a.objptr)
                      a.size valid a.objptr] else [])
                  ∧ sb.g_fp = sa.g_fp ++ (if s.stateTraceTxt then
                    [TextLine.call (getBin s1.mapPtrToBin a.objptr) a.size a.objptr valid
                      a.name] else []))
      ∧ (WellFormed s → (∀ a ∈ calls, ValidCall a ∧ (a.bin < BIN_DRAW → 0 ≤ a.bin)) →
          ∃ s2, twoPass s calls calls = some s2
            ∧ ∀ pre a post, calls = pre ++ a :: post →
                ∃ sa sb, run { s1 with g_pass := 2 } pre = some sa ∧ step sa a = some sb) := by
  obtain ⟨m, hrun, -, hreg, hwfm⟩ := run_pass1 calls { s with g_pass := 1 } rfl
  have hknown : ∀ a ∈ calls, a.bin < BIN_DRAW → getBin m a.objptr ≠ BIN_UNKNOWN := by
    intro a ha hlt
    obtain ⟨b, hb, hb25⟩ := hreg a ha hlt
    simp only [getBin, hb]
    intro hbu
    rw [hbu] at hb25
    exact absurd hb25 (by decide)
  have hne : ({ s with g_pass := 2, mapPtrToBin := m } : State).g_pass ≠ 1 := by
    show (2 : Int) ≠ 1
    decide
  refine ⟨_, hrun, hknown, ?_, ?_⟩
  · intro pre a post sa hsplit hlt hpre
    have hmem : a ∈ calls := by rw [hsplit]; simp
    obtain ⟨hm, hp2, hraw, htxt⟩ :=
      run_pass2_map pre { s with g_pass := 2, mapPtrToBin := m } sa hne hpre
    have hm1 : sa.mapPtrToBin = m := hm
    have hp3 : sa.g_pass ≠ 1 := by rw [hp2]; exact hne
    have hg : getBin sa.mapPtrToBin a.objptr ≠ BIN_UNKNOWN := by
      rw [hm1]; exact hknown a hmem hlt
    have hr : resolveBin sa.mapPtrToBin a.objptr a.datptr = getBin m a.objptr := by
      have hg1 := hg
      rw [hm1] at hg1
      simp only [resolveBin, hm1, hg1, if_false]
    refine ⟨hg, hr, ?_⟩
    intro sb hsb
    have hnp : a.bin ≠ BIN_PRESENT := by
      intro h; rw [h] at hlt; exact absurd hlt (by decide)
    have hnd : a.bin ≠ BIN_DRAW := by
      intro h; rw [h] at hlt; exact absurd hlt (by decide)
    have hres : resolveBin sa.mapPtrToBin a.objptr a.datptr ≠ BIN_UNKNOWN := by
      rw [hr]; exact hknown a hmem hlt
    obtain ⟨valid, h1, h2⟩ := stateSort_resolved_record sa sb _ _ _ _ _ _ _ _ hp3 hnp hnd hres hsb
    have hraw1 : sa.stateTraceRaw = s.stateTraceRaw := hraw
    have htxt1 : sa.stateTraceTxt = s.stateTraceTxt := htxt
    rw [hr, hraw1] at h1
    rw [hr, htxt1] at h2
    exact ⟨valid, h1, h2⟩
  · intro hwf hv
    obtain ⟨hlen, hmap, hch⟩ := hwf
    have hwf1 : WellFormed { s with g_pass := 2, mapPtrToBin := m } :=
      ⟨hlen, hwfm hmap (fun a ha => (hv a ha).2), hch⟩
    obtain ⟨s2, hs2, -, -⟩ := run_wellFormed calls { s with g_pass := 2, mapPtrToBin := m }
      hne hwf1 (fun a ha => (hv a ha).1)
    refine ⟨s2, ?_, ?_⟩
    · simp only [twoPass, hrun]
      exact hs2
    · intro pre a post hsplit
      have hs3 : run { s with g_pass := 2, mapPtrToBin := m } (pre ++ a :: post) = some s2 := by
        rw [← hsplit]; exact hs2
      rw [run_append] at hs3
      cases hpre : run { s with g_pass := 2, mapPtrToBin := m } pre with
      | none => simp [hpre] at hs3
      | some sa =>
        simp only [hpre, run] at hs3
        cases hsb : step sa a with
        | none => simp [hsb] at hs3
        | some sb => exact ⟨sa, sb, rfl, hsb⟩

set_option maxRecDepth 8000 in
theorem pass1_registers_handles_witness :
    ∃ s1, run { createBins (initState false true) with g_pass := 1 } rebindTrace = some s1
      ∧ getBin s1.mapPtrToBin 7 = BIN_INDEX
      ∧ ∃ s2, twoPass (createBins (initState false true)) rebindTrace rebindTrace = some s2 := by
  obtain ⟨s1, h1, h2, -, h4⟩ :=
    pass1_registers_handles (createBins (initState false true)) rebindTrace
  obtain ⟨s2, hs2, -⟩ := h4 (by decide) (by decide)
  refine ⟨s1, h1, ?_, s2, hs2⟩
  have h5 : (run { createBins (initState false true) with g_pass := 1 } rebindTrace).map
      (fun t => getBin t.mapPtrToBin 7) = some BIN_INDEX := by decide
  rw [h1] at h5
  simpa using h5

/-! ### What a resolved call does to its bin -/

/-- The three outcomes of a successful call of pass 2 that is neither a draw
nor a present and whose bin is found: the update is suppressed, a CREATE or
UPDATE is applied, or a switch is applied. -/
theorem stateSort_resolved_cases (s s1 : State) (change_type : Int) (name : String)
    (nameID bin : Int) (objptr datptr : Nat) (dat : Option (List Byte)) (size : Int)
    (b : StateBin)
    (hpass : s.g_pass ≠ 1) (hp : bin ≠ BIN_PRESENT) (hd : bin ≠ BIN_DRAW)
    (hres : resolveBin s.mapPtrToBin objptr datptr ≠ BIN_UNKNOWN)
    (hb : binAt s.vecBins (resolveBin s.mapPtrToBin objptr datptr) = some b)
    (h : stateSort s change_type name nameID bin objptr datptr dat size = some s1) :
    (s1.vecBins = s.vecBins ∧ s1.mapPtrToHash = s.mapPtrToHash
        ∧ (¬ (change_type ≤ b.change ∨ b.change = BIN_UNDEF)
          ∨ (¬ (change_type = BIN_CREATE ∨ change_type = BIN_UPDATE)
              ∧ getPtrHashID s.mapPtrToHash objptr = -1)))
    ∨ ((change_type = BIN_CREATE ∨ change_type = BIN_UPDATE)
        ∧ (change_type ≤ b.change ∨ b.change = BIN_UNDEF)
        ∧ ∃ hv, computeHash objptr dat size = some hv
          ∧ s1.mapPtrToHash
              = setPtrHashID s.mapPtrToHash objptr ((mapFind b.hashmap hv).getD b.cnt)
          ∧ s1.vecBins = binSet s.vecBins (resolveBin s.mapPtrToBin objptr datptr)
              { name := b.name, curr := (mapFind b.hashmap hv).getD b.cnt,
                change := change_type,
                bytes := if change_type = BIN_UPDATE then size else 0,
                cnt := if (mapFind b.hashmap hv).isNone then toInt32 (b.cnt + 1)
                       else b.cnt,
                hashmap := if (mapFind b.hashmap hv).isNone
                           then mapSet b.hashmap hv b.cnt else b.hashmap })
    ∨ (¬ (change_type = BIN_CREATE ∨ change_type = BIN_UPDATE)
        ∧ getPtrHashID s.mapPtrToHash objptr ≠ -1
        ∧ (change_type ≤ b.change ∨ b.change = BIN_UNDEF)
        ∧ s1.mapPtrToHash = s.mapPtrToHash
        ∧ s1.vecBins = binSet s.vecBins (resolveBin s.mapPtrToBin objptr datptr)
            { b with curr := getPtrHashID s.mapPtrToHash objptr,
                     change := change_type, bytes := 0 }) := by
  by_cases hct : change_type = BIN_CREATE ∨ change_type = BIN_UPDATE
  · by_cases hprio : change_type ≤ b.change ∨ b.change = BIN_UNDEF
    · cases hh : computeHash objptr dat size with
      | none =>
        have hpt : priorityTest change_type b.change = true :=
          (priorityTest_iff _ _).mpr hprio
        simp [stateSort, hpass, hp, hd, hres, hb, hct, hpt, hh] at h
      | some hv =>
        rw [stateSort_applied s change_type name nameID bin objptr datptr dat size b hv
          hpass hp hd hct hres hb hprio hh] at h
        cases h
        exact Or.inr (Or.inl ⟨hct, hprio, hv, rfl, by simp, by simp⟩)
    · rw [stateSort_rejected s change_type name nameID bin objptr datptr dat size b
        hpass hp hd hct hres hb hprio] at h
      cases h
      exact Or.inl ⟨by simp, by simp, Or.inl hprio⟩
  · by_cases happ : getPtrHashID s.mapPtrToHash objptr ≠ -1
        ∧ (change_type ≤ b.change ∨ b.change = BIN_UNDEF)
    · rw [stateSort_switch_applied s change_type name nameID bin objptr datptr dat size b
        hpass hp hd hct hres hb happ.1 happ.2] at h
      cases h
      exact Or.inr (Or.inr ⟨hct, happ.1, happ.2, by simp, by simp⟩)
    · rw [stateSort_switch_rejected s change_type name nameID bin objptr datptr dat size b
        hpass hp hd hct hres hb happ] at h
      cases h
      refine Or.inl ⟨by simp, by simp, ?_⟩
      by_cases hid : getPtrHashID s.mapPtrToHash objptr = -1
      · exact Or.inr ⟨hct, hid⟩
      · exact Or.inl (fun hprio => happ ⟨hid, hprio⟩)

/-- A call of a draw-free window that is a present, or resolves to another
bin, or has a change kind above the one the bin `B` holds, leaves the bin `B`
as it is. -/
theorem step_bin_untouched (s s1 : State) (a : Invocation) (B : Int) (b : StateBin)
    (hpass : s.g_pass ≠ 1) (hd : a.bin ≠ BIN_DRAW)
    (hb : binAt s.vecBins B = some b) (hundef : b.change ≠ BIN_UNDEF)
    (hx : a.bin = BIN_PRESENT ∨ resolveBin s.mapPtrToBin a.objptr a.datptr ≠ B
      ∨ b.change < a.change_type)
    (h : step s a = some s1) :
    binAt s1.vecBins B = some b := by
  unfold step at h
  by_cases hp : a.bin = BIN_PRESENT
  · rw [hp, stateSort_present_eq _ _ _ _ _ _ _ _ hpass] at h
    cases h
    exact hb
  · obtain ⟨-, -, hbins⟩ := stateSort_other_bins _ _ _ _ _ _ _ _ _ _ hpass hp hd h
    rcases hbins with h1 | ⟨b0, b1, hb0, h1, -, hprio⟩
    · rw [h1]; exact hb
    · rw [h1]
      by_cases hR : resolveBin s.mapPtrToBin a.objptr a.datptr = B
      · rw [hR, hb] at hb0
        cases hb0
        rcases hx with hx | hx | hx
        · exact absurd hx hp
        · exact absurd hR hx
        · rcases hprio with hprio | hprio
          · omega
          · exact absurd hprio hundef
      · rw [binAt_binSet_ne _ _ (binAt_eq_some hb0).1 hR]
        exact hb

theorem run_bin_untouched (post : List Invocation) :
    ∀ (s s1 : State) (B : Int) (b : StateBin), s.g_pass ≠ 1 →
      binAt s.vecBins B = some b → b.change ≠ BIN_UNDEF →
      (∀ x ∈ post, x.bin ≠ BIN_DRAW ∧ (x.bin = BIN_PRESENT
        ∨ resolveBin s.mapPtrToBin x.objptr x.datptr ≠ B ∨ b.change < x.change_type)) →
      run s post = some s1 → binAt s1.vecBins B = some b := by
  induction post with
  | nil =>
    intro s s1 B b _ hb _ _ h
    simp only [run, Option.some.injEq] at h
    subst h
    exact hb
  | cons a rest ih =>
    intro s s1 B b hpass hb hundef hpost h
    simp only [run] at h
    cases hs : step s a with
    | none => simp [hs] at h
    | some s2 =>
      simp only [hs] at h
      obtain ⟨hd, hx⟩ := hpost a (List.mem_cons_self _ _)
      obtain ⟨hm, hp2, -, -⟩ := step_pass2_map s s2 a hpass hs
      refine ih s2 s1 B b (by rw [hp2]; exact hpass)
        (step_bin_untouched s s2 a B b hpass hd hb hundef hx hs) hundef ?_ h
      intro x hxm
      rw [hm]
      exact hpost x (List.mem_cons_of_mem _ hxm)

/-! ### The byte count of a bin -/

set_option maxRecDepth 8000 in
/-- Claim C17 as stated fails: two UPDATEs of 4 and of 2 bytes on one texture,
with no draw between them, are both applied to the texture bin (the first
leaves id 0 and 4 bytes, the second id 1), and `bytes` is then 2, not 6. -/
theorem bytes_not_accumulated :
    (run demoState [uploadTexture42 [1, 2, 3, 4]]).map
        (fun s => (binAt s.vecBins BIN_TEXTURE).map (fun b => (b.curr, b.change, b.bytes)))
      = some (some (0, BIN_UPDATE, 4))
    ∧ (run demoState [uploadTexture42 [1, 2, 3, 4], uploadTexture42 [9, 9]]).map
        (fun s => (binAt s.vecBins BIN_TEXTURE).map (fun b => (b.curr, b.change, b.bytes)))
      = some (some (1, BIN_UPDATE, 2))
    ∧ (2 : Int) ≠ 4 + 2 := by
  decide

/-- Claim C17, amended: a bin's `bytes` field is the payload size of the change
most recently applied to the bin, not a sum.  When in pass 2 a CREATE, UPDATE or
SWITCH is applied to its resolved bin and no later call before the next draw is
applied to that bin (each is a present, resolves to another bin, or has a
change kind above the applied one, which the priority test rejects), then at
the draw the bin holds the applied change kind, and `bytes` is the size of the
call if it was an UPDATE and 0 if it was a CREATE or a SWITCH, whatever
`bytes` was before. -/
theorem bytes_last_applied (s s1 : State) (a : Invocation) (post : List Invocation)
    (b : StateBin)
    (hpass : s.g_pass ≠ 1) (hnd : a.bin ≠ BIN_DRAW) (hnp : a.bin ≠ BIN_PRESENT)
    (hres : resolveBin s.mapPtrToBin a.objptr a.datptr ≠ BIN_UNKNOWN)
    (hb : binAt s.vecBins (resolveBin s.mapPtrToBin a.objptr a.datptr) = some b)
    (hct : a.change_type = BIN_CREATE ∨ a.change_type = BIN_UPDATE
      ∨ a.change_type = BIN_SWITCH)
    (hprio : a.change_type ≤ b.change ∨ b.change = BIN_UNDEF)
    (hid : a.change_type = BIN_SWITCH → getPtrHashID s.mapPtrToHash a.objptr ≠ -1)
    (hrest : ∀ x ∈ post, x.bin ≠ BIN_DRAW ∧ (x.bin = BIN_PRESENT
      ∨ resolveBin s.mapPtrToBin x.objptr x.datptr
          ≠ resolveBin s.mapPtrToBin a.objptr a.datptr
      ∨ a.change_type < x.change_type))
    (hrun : run s (a :: post) = some s1) :
    ∃ b1, binAt s1.vecBins (resolveBin s.mapPtrToBin a.objptr a.datptr) = some b1
      ∧ b1.change = a.change_type
      ∧ b1.bytes = (if a.change_type = BIN_UPDATE then a.size else 0) := by
  simp only [run] at hrun
  cases hs : step s a with
  | none => simp [hs] at hrun
  | some sb =>
    simp only [hs] at hrun
    obtain ⟨hm, hp2, -, -⟩ := step_pass2_map s sb a hpass hs
    have hundef : a.change_type ≠ BIN_UNDEF := by
      rcases hct with h | h | h <;> rw [h] <;> decide
    have key : ∃ b1, binAt sb.vecBins (resolveBin s.mapPtrToBin a.objptr a.datptr) = some b1
        ∧ b1.change = a.change_type
        ∧ b1.bytes = (if a.change_type = BIN_UPDATE then a.size else 0) := by
      unfold step at hs
      rcases stateSort_resolved_cases s sb _ _ _ _ _ _ _ _ b hpass hnp hnd hres hb hs with
        ⟨-, -, hrej⟩ | ⟨-, -, hv, -, -, hvb⟩ | ⟨hncu, -, -, -, hvb⟩
      · rcases hrej with hrej | ⟨hncu, hrej⟩
        · exact absurd hprio hrej
        · rcases hct with h | h | h
          · exact absurd (Or.inl h) hncu
          · exact absurd (Or.inr h) hncu
          · exact absurd hrej (hid h)
      · rw [hvb]
        exact ⟨_, binAt_binSet_self _ hb, rfl, rfl⟩
      · rw [hvb]
        refine ⟨_, binAt_binSet_self _ hb, rfl, ?_⟩
        have : ¬ a.change_type = BIN_UPDATE := fun h => hncu (Or.inr h)
        simp [this]
    obtain ⟨b1, hb1, hc1, hbytes⟩ := key
    refine ⟨b1, ?_, hc1, hbytes⟩
    refine run_bin_untouched post sb s1 _ b1 (by rw [hp2]; exact hpass) hb1
      (by rw [hc1]; exact hundef) ?_ hrun
    intro x hx
    rw [hm, hc1]
    exact hrest x hx

set_option maxRecDepth 8000 in
theorem bytes_last_applied_witness :
    ∃ s1, run demoDrawState [uploadTexture42 [9, 9], bindTexture42] = some s1
      ∧ (binAt demoDrawState.vecBins BIN_TEXTURE).map (fun b => b.bytes) = some 64
      ∧ ∃ b1, binAt s1.vecBins BIN_TEXTURE = some b1 ∧ b1.change = BIN_UPDATE
          ∧ b1.bytes = 2 := by
  have hsome : (run demoDrawState [uploadTexture42 [9, 9], bindTexture42]).isSome = true := by
    decide
  obtain ⟨s1, hs1⟩ := Option.isSome_iff_exists.1 hsome
  refine ⟨s1, hs1, by decide, ?_⟩
  exact bytes_last_applied demoDrawState s1 (uploadTexture42 [9, 9]) [bindTexture42]
    { newBin with curr := 0, change := BIN_UPDATE, bytes := 64, cnt := 1,
                  hashmap := [(7570407011736496, 0)] }
    (by decide) (by decide) (by decide) (by decide) (by decide) (by decide) (by decide)
    (by decide) (by decide) hs1

/-! ### The bytes of a record -/

theorem length_leBytes (n : Nat) : ∀ x : Nat, (leBytes n x).length = n := by
  induction n with
  | zero => intro x; rfl
  | succ n ih => intro x; simp [leBytes, ih]

theorem readLE_leBytes (n : Nat) :
    ∀ (x : Nat) (rest : List Byte),
      readLE n (leBytes n x ++ rest) = some (x % 256 ^ n, rest) := by
  induction n with
  | zero => intro x rest; simp [leBytes, readLE, Nat.mod_one]
  | succ n ih =>
    intro x rest
    have : x % 256 + 256 * (x / 256 % 256 ^ n) = x % 256 ^ (n + 1) := by
      rw [pow_succ, Nat.mul_comm (256 ^ n) 256, Nat.mod_mul]
    show (match readLE n (leBytes n (x / 256) ++ rest) with
      | none => none
      | some (v, rest) => some (x % 256 + 256 * v, rest)) = _
    rw [ih]
    simp only [this]

theorem leBytes_mod (n : Nat) : ∀ x : Nat, leBytes n (x % 256 ^ n) = leBytes n x := by
  induction n with
  | zero => intro x; rfl
  | succ n ih =>
    intro x
    have h1 : x % 256 ^ (n + 1) % 256 = x % 256 := by
      rw [pow_succ, Nat.mul_comm (256 ^ n) 256]
      exact Nat.mod_mul_right_mod x 256 (256 ^ n)
    have h2 : x % 256 ^ (n + 1) / 256 = x / 256 % 256 ^ n := by
      rw [pow_succ, Nat.mul_comm (256 ^ n) 256]
      exact Nat.mod_mul_right_div_self x 256 (256 ^ n)
    simp only [leBytes, h1, h2, ih]

theorem leValue_leBytes (n : Nat) : ∀ x : Nat, leValue (leBytes n x) = x % 256 ^ n := by
  induction n with
  | zero => intro x; simp [leBytes, leValue, Nat.mod_one]
  | succ n ih =>
    intro x
    simp only [leBytes, leValue, ih]
    rw [pow_succ, Nat.mul_comm (256 ^ n) 256, Nat.mod_mul]

theorem readInt32_intBytes (x : Int) (rest : List Byte) (h : isInt32 x) :
    readInt32 (intBytes 4 x ++ rest) = some (x, rest) := by
  unfold isInt32 at h
  have hx : toInt32 (((x % 4294967296).toNat % 256 ^ 4 : Nat) : Int) = x := by
    unfold toInt32
    omega
  simp only [readInt32, intBytes, readLE_leBytes, hx]

theorem readLE_intBytes_one (x : Int) (rest : List Byte) (h : 0 ≤ x ∧ x < 256) :
    readLE 1 (intBytes 1 x ++ rest) = some (x.toNat, rest) := by
  have hx : (x % 4294967296).toNat % 256 ^ 1 = x.toNat := by omega
  simp only [intBytes, readLE_leBytes, hx]

theorem readTriples_tripleBytes (bins : List (Int × Int × Int)) :
    ∀ rest : List Byte,
      (∀ t ∈ bins, isInt32 t.1 ∧ (0 ≤ t.2.1 ∧ t.2.1 < 256) ∧ isInt32 t.2.2) →
      readTriples bins.length (tripleBytes bins ++ rest) = some (bins, rest) := by
  induction bins with
  | nil => intro rest _; rfl
  | cons t bins ih =>
    intro rest h
    obtain ⟨curr, change, bytes⟩ := t
    obtain ⟨h1, h2, h3⟩ := h (curr, change, bytes) (List.mem_cons_self _ _)
    have hrest := ih rest (fun t ht => h t (List.mem_cons_of_mem _ ht))
    have hc : ((change.toNat : Nat) : Int) = change := Int.toNat_of_nonneg h2.1
    simp only [tripleBytes, List.length_cons, readTriples, List.append_assoc,
      readInt32_intBytes _ _ h1, readLE_intBytes_one _ _ h2, readInt32_intBytes _ _ h3,
      hrest, hc]

theorem length_tripleBytes (bins : List (Int × Int × Int)) :
    (tripleBytes bins).length = 9 * bins.length := by
  induction bins with
  | nil => rfl
  | cons t bins ih =>
    obtain ⟨curr, change, bytes⟩ := t
    simp only [tripleBytes, List.length_append, intBytes, length_leBytes, ih,
      List.length_cons]
    omega

theorem length_headerBytes (typ : Char) (nameID : Int) (tstart tstop : Nat) :
    (headerBytes typ nameID tstart tstop).length = 18 := by
  simp [headerBytes, charBytes, int8Bytes, u64Bytes, length_leBytes]

/-- The length of the record that `fwrite` writes: 18 + 20 bytes for a call,
18 + 8 for a frame, 18 + 25 * 9 + 9 for a draw. -/
theorem length_encode (r : Record) (h : r.Shape) :
    r.encode.length
      = match r with
        | Record.call _ _ _ _ _ _ _ _ => 18 + 20
        | Record.frame _ _ _ _ _ _ => 18 + 8
        | Record.draw _ _ _ _ _ _ _ _ => 18 + 25 * 9 + 9 := by
  cases r with
  | call typ nameID tstart tstop bin size valid objptr =>
    simp [Record.encode, length_headerBytes, intBytes, u64Bytes, length_leBytes]
  | frame typ nameID tstart tstop g_frame g_bytes =>
    simp [Record.encode, length_headerBytes, intBytes, length_leBytes]
  | draw typ nameID tstart tstop bins prim_cnt d draw_bytes =>
    obtain ⟨-, -, -, -, -, hlen, -⟩ := h
    simp [Record.encode, length_headerBytes, intBytes, charBytes, length_leBytes,
      length_tripleBytes, hlen]

theorem readHeader_headerBytes (typ : Char) (nameID : Int) (rest : List Byte)
    (h : -128 ≤ nameID ∧ nameID ≤ 127) :
    readHeader (headerBytes typ nameID 0 0 ++ rest)
      = some (typ.toNat % 256, nameID, 0, 0, rest) := by
  have hz : (0 : Nat) % 18446744073709551616 % 256 ^ 8 = 0 := by decide
  have hn : toInt8 (((nameID % 256).toNat % 256 : Nat) : Int) = nameID := by
    unfold toInt8
    omega
  simp only [headerBytes, List.append_assoc, readHeader, charBytes, int8Bytes, u64Bytes,
    readLE_leBytes, hz, pow_one, hn]

theorem readCall_bytes (nameID : Int) (tstart tstop : Nat) (bin size : Int)
    (valid objptr : Nat) (rest : List Byte)
    (hr : (Record.call 'C' nameID tstart tstop bin size valid objptr).InRange) :
    readCall nameID tstart tstop
        (intBytes 4 bin ++ (intBytes 4 size ++ (u64Bytes 4 valid ++ (u64Bytes 8 objptr ++ rest))))
      = some (Record.call 'C' nameID tstart tstop bin size valid objptr, rest) := by
  obtain ⟨k1, k2, k3, k4⟩ := hr
  have hvalid : u64Bytes 4 valid = intBytes 4 (toInt32 valid) := by
    have e : (toInt32 (valid : Int) % 4294967296).toNat
        = valid % 18446744073709551616 % 256 ^ 4 := by
      unfold toInt32
      omega
    unfold u64Bytes intBytes
    rw [e, leBytes_mod]
  have hobj : objptr % 18446744073709551616 % 256 ^ 8 = objptr := by omega
  rw [hvalid]
  simp only [readCall, readInt32_intBytes _ _ k1, readInt32_intBytes _ _ k2,
    readInt32_intBytes _ _ (isInt32_toInt32 _), u64Bytes, readLE_leBytes, hobj, ← k3]

theorem readFrame_bytes (nameID : Int) (tstart tstop : Nat) (g_frame g_bytes : Int)
    (rest : List Byte)
    (hr : (Record.frame 'F' nameID tstart tstop g_frame g_bytes).InRange) :
    readFrame nameID tstart tstop (intBytes 4 g_frame ++ (intBytes 4 g_bytes ++ rest))
      = some (Record.frame 'F' nameID tstart tstop g_frame g_bytes, rest) := by
  obtain ⟨k1, k2⟩ := hr
  simp only [readFrame, readInt32_intBytes _ _ k1, readInt32_intBytes _ _ k2]

theorem readDraw_bytes (nameID : Int) (tstart tstop : Nat) (bins : List (Int × Int × Int))
    (prim_cnt draw_bytes : Int) (rest : List Byte) (hlen : bins.length = 25)
    (hr : (Record.draw 'D' nameID tstart tstop bins prim_cnt 'D' draw_bytes).InRange) :
    readDraw nameID tstart tstop
        (tripleBytes bins ++ (intBytes 4 prim_cnt ++ (charBytes 'D'
          ++ (intBytes 4 draw_bytes ++ rest))))
      = some (Record.draw 'D' nameID tstart tstop bins prim_cnt 'D' draw_bytes, rest) := by
  obtain ⟨k1, k2, k3⟩ := hr
  have ht := readTriples_tripleBytes bins
    (intBytes 4 prim_cnt ++ (charBytes 'D' ++ (intBytes 4 draw_bytes ++ rest))) k1
  rw [hlen] at ht
  have hD : Char.ofNat ('D'.toNat % 256 ^ 1) = 'D' := by decide
  simp only [readDraw, ht, readInt32_intBytes _ _ k2]
  simp only [charBytes, readLE_leBytes, readInt32_intBytes _ _ k3, hD]

/-- Reading back one record that has the shape and the value ranges of the
records of `packOutput`. -/
theorem readRecord_encode (r : Record) (rest : List Byte) (hs : r.Shape) (hr : r.InRange) :
    readRecord (r.encode ++ rest) = some (r, rest) := by
  cases r with
  | call typ nameID tstart tstop bin size valid objptr =>
    obtain ⟨h1, h2, h3, h4, h5⟩ := hs
    subst h1 h4 h5
    have hC : 'C'.toNat % 256 = 67 := by decide
    simp only [Record.encode, List.append_assoc, readRecord,
      readHeader_headerBytes _ _ _ ⟨h2, h3⟩, hC, if_true, readCall_bytes _ _ _ _ _ _ _ _ hr]
  | frame typ nameID tstart tstop g_frame g_bytes =>
    obtain ⟨h1, h2, h4, h5⟩ := hs
    subst h1 h2 h4 h5
    have hF : 'F'.toNat % 256 = 70 := by decide
    have h1 : ¬ (70 : Nat) = 67 := by decide
    simp only [Record.encode, List.append_assoc, readRecord,
      readHeader_headerBytes 'F' 0 _ ⟨by decide, by decide⟩, hF, h1, if_true, if_false,
      readFrame_bytes _ _ _ _ _ _ hr]
  | draw typ nameID tstart tstop bins prim_cnt d draw_bytes =>
    obtain ⟨h1, h2, h3, h4, h5, h6, h7⟩ := hs
    subst h1 h4 h5 h7
    have hD : 'D'.toNat % 256 = 68 := by decide
    have e1 : ¬ (68 : Nat) = 67 := by decide
    have e2 : ¬ (68 : Nat) = 70 := by decide
    simp only [Record.encode, List.append_assoc, readRecord,
      readHeader_headerBytes _ _ _ ⟨h2, h3⟩, hD, e1, e2, if_true, if_false,
      readDraw_bytes _ _ _ _ _ _ _ h6 hr]

/-! ### The records that the calls write -/

theorem toInt8_range (x : Int) : -128 ≤ toInt8 x ∧ toInt8 x ≤ 127 := by
  unfold toInt8
  omega

/-- A successful draw in pass 2 reads `vecBins[BIN_DRAW]`, whose `curr` is
the id of its call record. -/
theorem stateSort_draw_valid (s s1 : State) (change_type : Int) (name : String)
    (nameID : Int) (objptr datptr : Nat) (dat : Option (List Byte)) (size : Int)
    (hpass : s.g_pass ≠ 1)
    (h : stateSort s change_type name nameID BIN_DRAW objptr datptr dat size = some s1) :
    ∃ b25, binAt s.vecBins BIN_DRAW = some b25
      ∧ s1.g_fp2 = s.g_fp2 ++ (if s.stateTraceRaw then
          [Record.call 'C' (toInt8 nameID) 0 0 BIN_DRAW size (toUInt64 b25.curr) objptr,
           Record.draw 'D' (toInt8 nameID) 0 0 ((s.vecBins.take NUM_BIN).map rawTriple)
             size 'D' (sumBytes (s.vecBins.take NUM_BIN))] else []) := by
  cases hb : binAt s.vecBins BIN_DRAW with
  | none =>
    have hd : ¬ BIN_DRAW = BIN_PRESENT := by decide
    simp [stateSort, hpass, hd, hb] at h
  | some b25 =>
    refine ⟨b25, rfl, ?_⟩
    have hd : ¬ BIN_DRAW = BIN_PRESENT := by decide
    simp only [stateSort, hpass, hd, if_false, if_true, hb] at h
    split at h
    · cases h
    · rename_i db s2 hdraw
      cases h
      obtain ⟨-, h2, -⟩ := packOutputDraw_out _ _ _ _ _ _ _ hdraw
      simp only [packOutputCall_stateTraceRaw, packOutputCall_g_fp2,
        packOutputCall_vecBins] at h2
      show s2.g_fp2 = _
      rw [h2]
      cases hraw : s.stateTraceRaw <;> simp

/-- A successful call of pass 2 that is neither a draw nor a present and whose
bin is found writes the `curr` that the bin holds after the call. -/
theorem stateSort_resolved_valid (s s1 : State) (change_type : Int) (name : String)
    (nameID bin : Int) (objptr datptr : Nat) (dat : Option (List Byte)) (size : Int)
    (hpass : s.g_pass ≠ 1) (hp : bin ≠ BIN_PRESENT) (hd : bin ≠ BIN_DRAW)
    (hres : resolveBin s.mapPtrToBin objptr datptr ≠ BIN_UNKNOWN)
    (h : stateSort s change_type name nameID bin objptr datptr dat size = some s1) :
    ∃ b2, binAt s1.vecBins (resolveBin s.mapPtrToBin objptr datptr) = some b2
      ∧ s1.g_fp2 = s.g_fp2 ++ (if s.stateTraceRaw then
          [Record.call 'C' (toInt8 nameID) 0 0 (resolveBin s.mapPtrToBin objptr datptr) size
            (toUInt64 b2.curr) objptr] else []) := by
  simp only [stateSort, hpass, hp, hd, if_false, hres] at h
  split at h
  · cases h
  · rename_i b hb
    split at h
    · cases h
    · rename_i s2 hu
      split at h
      · cases h
      · rename_i b2 hb2
        cases h
        have hs2 : s2 = { s with vecBins := s2.vecBins, mapPtrToHash := s2.mapPtrToHash } := by
          split at hu
          · split at hu
            · split at hu
              · cases hu
              · split at hu
                · cases hu
                · split at hu
                  · cases hu
                  · cases hu; rfl
            · cases hu; rfl
          · split at hu
            · cases hu; rfl
            · cases hu; rfl
        refine ⟨b2, by simpa using hb2, ?_⟩
        rw [packOutputCall_g_fp2]
        rw [hs2]

/-- Every record that a call appends to the binary stream has the shape that
`packOutput` gives it. -/
theorem step_shape (s s1 : State) (a : Invocation) (h : step s a = some s1)
    (hinv : ∀ r ∈ s.g_fp2, r.Shape) : ∀ r ∈ s1.g_fp2, r.Shape := by
  by_cases hpass : s.g_pass = 1
  · rw [step_pass1 s a hpass] at h
    cases h
    split <;> exact hinv
  · unfold step at h
    by_cases hp : a.bin = BIN_PRESENT
    · rw [hp, stateSort_present_eq _ _ _ _ _ _ _ _ hpass] at h
      cases h
      intro r hr
      rcases List.mem_append.1 hr with h1 | h1
      · exact hinv r h1
      · cases hraw : s.stateTraceRaw
        · simp [hraw] at h1
        · simp only [hraw, if_true, List.mem_singleton] at h1
          rw [h1]
          exact ⟨rfl, rfl, rfl, rfl⟩
    · by_cases hd : a.bin = BIN_DRAW
      · rw [hd] at h
        obtain ⟨b25, hb25, hout⟩ := stateSort_draw_valid _ _ _ _ _ _ _ _ _ hpass h
        have hlen : 25 < s.vecBins.length := by
          have := (binAt_eq_some hb25).2.1
          simpa [BIN_DRAW] using this
        intro r hr
        rw [hout] at hr
        rcases List.mem_append.1 hr with h1 | h1
        · exact hinv r h1
        · cases hraw : s.stateTraceRaw
          · simp [hraw] at h1
          · simp only [hraw, if_true, List.mem_cons, List.mem_singleton, List.not_mem_nil,
              or_false] at h1
            rcases h1 with h1 | h1
            · rw [h1]
              exact ⟨rfl, (toInt8_range _).1, (toInt8_range _).2, rfl, rfl⟩
            · rw [h1]
              refine ⟨rfl, (toInt8_range _).1, (toInt8_range _).2, rfl, rfl, ?_, rfl⟩
              simp only [List.length_map, List.length_take, NUM_BIN]
              omega
      · rcases stateSort_other_shape _ _ _ _ _ _ _ _ _ _ hpass hp hd h with
          h1 | ⟨vb, m, valid, h1⟩
        · subst h1
          exact hinv
        · subst h1
          intro r hr
          rw [packOutputCall_g_fp2] at hr
          rcases List.mem_append.1 hr with h1 | h1
          · exact hinv r h1
          · cases hraw : s.stateTraceRaw
            · simp [hraw] at h1
            · simp only [hraw, if_true, List.mem_singleton] at h1
              rw [h1]
              exact ⟨rfl, (toInt8_range _).1, (toInt8_range _).2, rfl, rfl⟩

theorem run_shape (calls : List Invocation) :
    ∀ (s s1 : State), run s calls = some s1 → (∀ r ∈ s.g_fp2, r.Shape) →
      ∀ r ∈ s1.g_fp2, r.Shape := by
  induction calls with
  | nil =>
    intro s s1 h hinv
    simp only [run, Option.some.injEq] at h
    subst h
    exact hinv
  | cons a rest ih =>
    intro s s1 h hinv
    simp only [run] at h
    cases hs : step s a with
    | none => simp [hs] at h
    | some s2 =>
      simp only [hs] at h
      exact ih s2 s1 h (step_shape s s2 a hs hinv)

theorem take_drop_append (pre x rest : List Byte) (n k : Nat) (hpre : pre.length = n)
    (hx : x.length = k) : ((pre ++ (x ++ rest)).drop n).take k = x := by
  rw [List.drop_left' hpre, List.take_left' hx]

/-- Claim C11: every record that `stateSort` appends to the binary stream is
38 bytes long if it is a call record, 26 bytes if it is a frame record and
18 + 25 * 9 + 9 = 252 bytes if it is a draw record.  Its first 18 bytes are the
tag (67, 70 or 68: the letters C, F, D), the `nameID` byte (0 in a frame) and
sixteen zero bytes of `tstart` and `tstop`.  In a call record the bytes
18..21, 22..25, 26..29 and 30..37 are the little-endian values of `bin`,
`size` (as 32-bit two's complement), of the low 32 bits of the id passed as
`valid`, and of the 64-bit handle. -/
theorem record_layout (s s1 : State) (calls : List Invocation)
    (hstart : ∀ r ∈ s.g_fp2, r.Shape) (hrun : run s calls = some s1) :
    ∀ r ∈ s1.g_fp2,
      match r with
      | Record.call _ nameID _ _ bin size valid objptr =>
        r.encode.length = 38
          ∧ r.encode.take 18 = [(67 : Byte)] ++ int8Bytes nameID ++ List.replicate 16 0
          ∧ leValue ((r.encode.drop 18).take 4) = (bin % 4294967296).toNat
          ∧ leValue ((r.encode.drop 22).take 4) = (size % 4294967296).toNat
          ∧ leValue ((r.encode.drop 26).take 4) = valid % 4294967296
          ∧ leValue ((r.encode.drop 30).take 8) = objptr % 18446744073709551616
      | Record.frame _ _ _ _ _ _ =>
        r.encode.length = 26
          ∧ r.encode.take 18 = [(70 : Byte), 0] ++ List.replicate 16 0
      | Record.draw _ nameID _ _ _ _ _ _ =>
        r.encode.length = 252
          ∧ r.encode.take 18 = [(68 : Byte)] ++ int8Bytes nameID ++ List.replicate 16 0 := by
  intro r hr
  have hs := run_shape calls s s1 hrun hstart r hr
  have hlen := length_encode r hs
  cases r with
  | call typ nameID tstart tstop bin size valid objptr =>
    obtain ⟨h1, _, _, h4, h5⟩ := hs
    subst h1 h4 h5
    have hh : headerBytes 'C' nameID 0 0
        = [(67 : Byte)] ++ int8Bytes nameID ++ List.replicate 16 0 := by
      simp only [headerBytes, List.append_assoc]
      rfl
    have hhl := length_headerBytes 'C' nameID 0 0
    refine ⟨hlen, ?_, ?_, ?_, ?_, ?_⟩
    · rw [← hh]
      simp only [Record.encode, List.append_assoc]
      exact List.take_left' hhl
    · have := take_drop_append (headerBytes 'C' nameID 0 0) (intBytes 4 bin)
        (intBytes 4 size ++ (u64Bytes 4 valid ++ u64Bytes 8 objptr)) 18 4 hhl
        (length_leBytes _ _)
      simp only [Record.encode, List.append_assoc]
      rw [this, intBytes, leValue_leBytes]
      omega
    · have := take_drop_append (headerBytes 'C' nameID 0 0 ++ intBytes 4 bin) (intBytes 4 size)
        (u64Bytes 4 valid ++ u64Bytes 8 objptr) 22 4
        (by rw [List.length_append, hhl, intBytes, length_leBytes]) (length_leBytes _ _)
      simp only [Record.encode, List.append_assoc] at this ⊢
      rw [this, intBytes, leValue_leBytes]
      omega
    · have := take_drop_append (headerBytes 'C' nameID 0 0 ++ intBytes 4 bin ++ intBytes 4 size)
        (u64Bytes 4 valid) (u64Bytes 8 objptr) 26 4
        (by simp only [List.length_append, hhl, intBytes, length_leBytes])
        (length_leBytes _ _)
      simp only [Record.encode, List.append_assoc] at this ⊢
      rw [this, u64Bytes, leValue_leBytes]
      omega
    · have := take_drop_append
        (headerBytes 'C' nameID 0 0 ++ intBytes 4 bin ++ intBytes 4 size ++ u64Bytes 4 valid)
        (u64Bytes 8 objptr) [] 30 8
        (by simp only [List.length_append, hhl, intBytes, u64Bytes, length_leBytes])
        (length_leBytes _ _)
      simp only [Record.encode, List.append_assoc, List.append_nil] at this ⊢
      rw [this, u64Bytes, leValue_leBytes]
      omega
  | frame typ nameID tstart tstop g_frame g_bytes =>
    obtain ⟨h1, h2, h4, h5⟩ := hs
    subst h1 h2 h4 h5
    refine ⟨hlen, ?_⟩
    have hh : headerBytes 'F' 0 0 0 = [(70 : Byte), 0] ++ List.replicate 16 0 := by decide
    rw [← hh]
    simp only [Record.encode, List.append_assoc]
    exact List.take_left' (length_headerBytes _ _ _ _)
  | draw typ nameID tstart tstop bins prim_cnt d draw_bytes =>
    obtain ⟨h1, _, _, h4, h5, _, _⟩ := hs
    subst h1 h4 h5
    refine ⟨hlen, ?_⟩
    have hh : headerBytes 'D' nameID 0 0
        = [(68 : Byte)] ++ int8Bytes nameID ++ List.replicate 16 0 := by
      simp only [headerBytes, List.append_assoc]
      rfl
    rw [← hh]
    simp only [Record.encode, List.append_assoc]
    exact List.take_left' (length_headerBytes _ _ _ _)

set_option maxRecDepth 8000 in
theorem record_layout_witness :
    (∀ r ∈ (pass2Start false true).g_fp2, r.Shape)
    ∧ ∃ s1, run (pass2Start false true) demoTrace = some s1
        ∧ s1.g_fp2.map (fun r => r.encode.length) = [38, 252, 26]
        ∧ ∀ r ∈ s1.g_fp2,
            r.encode.length = 38 ∨ r.encode.length = 26 ∨ r.encode.length = 252 := by
  have hsome : (run (pass2Start false true) demoTrace).isSome = true := by decide
  obtain ⟨s1, hs1⟩ := Option.isSome_iff_exists.1 hsome
  have h0 : ∀ r ∈ (pass2Start false true).g_fp2, r.Shape := by decide
  refine ⟨h0, s1, hs1, ?_, ?_⟩
  · have h5 : (run (pass2Start false true) demoTrace).map
        (fun t => t.g_fp2.map (fun r => r.encode.length)) = some [38, 252, 26] := by decide
    rw [hs1] at h5
    simpa using h5
  · intro r hr
    have h := record_layout (pass2Start false true) s1 demoTrace h0 hs1 r hr
    cases r with
    | call typ nameID tstart tstop bin size valid objptr => exact Or.inl h.1
    | frame typ nameID tstart tstop g_frame g_bytes => exact Or.inr (Or.inl h.1)
    | draw typ nameID tstart tstop bins prim_cnt d draw_bytes => exact Or.inr (Or.inr h.1)

/-! ### Reading the binary stream back -/

theorem readRecords_encodeAll (rs : List Record) :
    ∀ fuel : Nat, (∀ r ∈ rs, r.Shape ∧ r.InRange) → rs.length ≤ fuel →
      readRecords fuel (encodeAll rs) = some rs := by
  induction rs with
  | nil =>
    intro fuel _ _
    cases fuel <;> rfl
  | cons r rest ih =>
    intro fuel hwf hfuel
    obtain ⟨hs, hr⟩ := hwf r (List.mem_cons_self _ _)
    cases fuel with
    | zero => simp at hfuel
    | succ f =>
      have hlen : 0 < r.encode.length := by
        have := length_encode r hs
        cases r <;> simp only at this <;> omega
      cases hE : r.encode ++ encodeAll rest with
      | nil =>
        have : (r.encode ++ encodeAll rest).length = 0 := by rw [hE]; rfl
        rw [List.length_append] at this
        omega
      | cons b bs =>
        show readRecords (f + 1) (r.encode ++ encodeAll rest) = _
        rw [hE]
        simp only [readRecords]
        rw [← hE, readRecord_encode r _ hs hr]
        simp only [ih f (fun x hx => hwf x (List.mem_cons_of_mem _ hx))
          (by simpa using hfuel)]

theorem length_encodeAll (rs : List Record) (hwf : ∀ r ∈ rs, r.Shape) :
    rs.length ≤ (encodeAll rs).length := by
  induction rs with
  | nil => simp
  | cons r rest ih =>
    have hs := hwf r (List.mem_cons_self _ _)
    have h1 := length_encode r hs
    have h2 := ih (fun x hx => hwf x (List.mem_cons_of_mem _ hx))
    have hlen : 0 < r.encode.length := by
      cases r <;> simp only at h1 <;> omega
    simp only [encodeAll, List.length_append, List.length_cons]
    omega

/-- The parser reads back every sequence of records of the shape and the value
ranges of `packOutput`. -/
theorem parseStream_encodeAll (rs : List Record) (hwf : ∀ r ∈ rs, r.Shape ∧ r.InRange) :
    parseStream (encodeAll rs) = some rs :=
  readRecords_encodeAll rs _ hwf (length_encodeAll rs (fun r hr => (hwf r hr).1))

theorem isInt32_getPtrHashID (m : List (Nat × Nat)) (ptr : Nat) :
    isInt32 (getPtrHashID m ptr) := by
  unfold getPtrHashID
  cases mapFind m ptr with
  | none => decide
  | some v => exact isInt32_toInt32 _

theorem mem_resetChange_fields {vb : List StateBin} {x : StateBin}
    (h : x ∈ resetChange vb) :
    ∃ y ∈ vb, x.curr = y.curr ∧ x.cnt = y.cnt ∧ x.hashmap = y.hashmap
      ∧ (x.bytes = 0 ∨ x.bytes = y.bytes)
      ∧ (x.change ≠ BIN_UNDEF → y.change ≠ BIN_UNDEF) := by
  unfold resetChange at h
  rcases List.mem_append.1 h with h1 | h1
  · obtain ⟨y, hy, hxy⟩ := List.mem_map.1 h1
    refine ⟨y, List.mem_of_mem_take hy, ?_⟩
    rw [← hxy]
    refine ⟨rfl, rfl, rfl, Or.inl rfl, ?_⟩
    intro hx hy0
    apply hx
    simp [resetBin, hy0]
  · exact ⟨x, List.mem_of_mem_drop h1, rfl, rfl, rfl, Or.inr rfl, fun h => h⟩

theorem valid_of_isInt32 {c : Int} (h : isInt32 c) :
    toUInt64 c = toUInt64 (toInt32 (toUInt64 c)) := by
  rw [toInt32_toUInt64 h]

/-- A call of pass 2 with arguments of their C types keeps the `int` variables
within the values of an `int` and writes records whose fields are in range. -/
theorem step_typed (s s1 : State) (a : Invocation) (hpass : s.g_pass ≠ 1)
    (hwf : WellFormed s) (ht : Typed s) (hsize : isInt32 a.size)
    (hobj : a.objptr < 18446744073709551616)
    (hrec : ∀ r ∈ s.g_fp2, r.InRange) (h : step s a = some s1) :
    Typed s1 ∧ ∀ r ∈ s1.g_fp2, r.InRange := by
  obtain ⟨hfr, hbins⟩ := ht
  obtain ⟨hlen, hmap, hch⟩ := hwf
  unfold step at h
  by_cases hp : a.bin = BIN_PRESENT
  · rw [hp, stateSort_present_eq _ _ _ _ _ _ _ _ hpass] at h
    cases h
    refine ⟨⟨hfr, hbins⟩, ?_⟩
    intro r hr
    rcases List.mem_append.1 hr with h1 | h1
    · exact hrec r h1
    · cases hraw : s.stateTraceRaw
      · simp [hraw] at h1
      · simp only [hraw, if_true, List.mem_singleton] at h1
        rw [h1]
        refine ⟨?_, isInt32_toInt32 _⟩
        split
        · exact isInt32_toInt32 _
        · exact hfr
  · by_cases hd : a.bin = BIN_DRAW
    · rw [hd] at h
      obtain ⟨b25, hb25, hout⟩ := stateSort_draw_valid _ _ _ _ _ _ _ _ _ hpass h
      obtain ⟨valid, l, -, -, -, -, -, -, hvb, -, -, hframe⟩ :=
        stateSort_draw_out _ _ _ _ _ _ _ _ _ hpass h
      refine ⟨⟨by rw [hframe]; exact hfr, ?_⟩, ?_⟩
      · intro x hx
        rw [hvb] at hx
        obtain ⟨y, hy, e1, e2, e3, e4, -⟩ := mem_resetChange_fields hx
        obtain ⟨k1, k2, k3, k4⟩ := hbins y hy
        refine ⟨by rw [e1]; exact k1, ?_, by rw [e2]; exact k3, by rw [e3]; exact k4⟩
        rcases e4 with e4 | e4
        · rw [e4]; decide
        · rw [e4]; exact k2
      · intro r hr
        rw [hout] at hr
        rcases List.mem_append.1 hr with h1 | h1
        · exact hrec r h1
        · cases hraw : s.stateTraceRaw
          · simp [hraw] at h1
          · simp only [hraw, if_true, List.mem_cons, List.mem_singleton, List.not_mem_nil,
              or_false] at h1
            rcases h1 with h1 | h1
            · rw [h1]
              exact ⟨by decide, hsize,
                valid_of_isInt32 (hbins b25 (mem_of_binAt hb25)).1, hobj⟩
            · rw [h1]
              refine ⟨?_, hsize, by rw [sumBytes_eq]; exact isInt32_toInt32 _⟩
              intro t htm
              obtain ⟨y, hy, hty⟩ := List.mem_map.1 htm
              have hy1 := List.mem_of_mem_take hy
              obtain ⟨k1, k2, -, -⟩ := hbins y hy1
              have hc := hch y hy1
              rw [← hty]
              exact ⟨k1, ⟨hc.1, by have := hc.2; show y.change < 256; omega⟩, k2⟩
    · have hframe : s1.g_frame = s.g_frame := by
        rcases stateSort_other_shape _ _ _ _ _ _ _ _ _ _ hpass hp hd h with
          h1 | ⟨vb, m, valid, h1⟩
        · rw [h1]
        · rw [h1]; simp
      rcases stateSort_other_binAt _ _ _ _ _ _ _ _ _ _ hpass hp hd h with
        ⟨-, h1⟩ | ⟨hres, b, hb⟩
      · subst h1
        exact ⟨⟨hfr, hbins⟩, hrec⟩
      · have hbt := hbins b (mem_of_binAt hb)
        have hbins1 : ∀ x ∈ s1.vecBins, isInt32 x.curr ∧ isInt32 x.bytes ∧ isInt32 x.cnt
            ∧ ∀ e ∈ x.hashmap, isInt32 e.2 := by
          rcases stateSort_resolved_cases s s1 _ _ _ _ _ _ _ _ b hpass hp hd hres hb h with
            ⟨hvb, -, -⟩ | ⟨-, -, hv, -, -, hvb⟩ | ⟨-, -, -, -, hvb⟩
          · rw [hvb]; exact hbins
          · rw [hvb]
            intro x hx
            rcases mem_binSet hx with hx1 | hx1
            · rw [hx1]
              obtain ⟨k1, k2, k3, k4⟩ := hbt
              refine ⟨?_, ?_, ?_, ?_⟩
              · show isInt32 ((mapFind b.hashmap hv).getD b.cnt)
                cases hf : mapFind b.hashmap hv with
                | none => exact k3
                | some v => exact k4 _ (mapFind_mem _ _ _ hf)
              · show isInt32 (if a.change_type = BIN_UPDATE then a.size else 0)
                split
                · exact hsize
                · decide
              · show isInt32 (if (mapFind b.hashmap hv).isNone then toInt32 (b.cnt + 1)
                  else b.cnt)
                split
                · exact isInt32_toInt32 _
                · exact k3
              · show ∀ e ∈ (if (mapFind b.hashmap hv).isNone then mapSet b.hashmap hv b.cnt
                  else b.hashmap), isInt32 e.2
                split
                · intro e he
                  rcases mem_mapSet _ _ _ _ he with h2 | h2
                  · exact k4 e h2
                  · rw [h2]; exact k3
                · exact k4
            · exact hbins x hx1
          · rw [hvb]
            intro x hx
            rcases mem_binSet hx with hx1 | hx1
            · rw [hx1]
              obtain ⟨k1, k2, k3, k4⟩ := hbt
              have h0 : isInt32 0 := by decide
              exact ⟨isInt32_getPtrHashID _ _, h0, k3, k4⟩
            · exact hbins x hx1
        refine ⟨⟨by rw [hframe]; exact hfr, hbins1⟩, ?_⟩
        obtain ⟨b2, hb2, hout⟩ := stateSort_resolved_valid _ _ _ _ _ _ _ _ _ _ hpass hp hd hres h
        intro r hr
        rw [hout] at hr
        rcases List.mem_append.1 hr with h1 | h1
        · exact hrec r h1
        · cases hraw : s.stateTraceRaw
          · simp [hraw] at h1
          · simp only [hraw, if_true, List.mem_singleton] at h1
            rw [h1]
            have hR := resolveBin_range _ _ _ hmap hres
            refine ⟨?_, hsize, valid_of_isInt32 (hbins1 b2 (mem_of_binAt hb2)).1, hobj⟩
            unfold isInt32
            omega

theorem run_typed (calls : List Invocation) :
    ∀ (s s1 : State), s.g_pass ≠ 1 → WellFormed s → Typed s →
      (∀ a ∈ calls, ValidCall a ∧ isInt32 a.size ∧ a.objptr < 18446744073709551616) →
      (∀ r ∈ s.g_fp2, r.InRange) → run s calls = some s1 →
      ∀ r ∈ s1.g_fp2, r.InRange := by
  induction calls with
  | nil =>
    intro s s1 _ _ _ _ hrec h
    simp only [run, Option.some.injEq] at h
    subst h
    exact hrec
  | cons a rest ih =>
    intro s s1 hpass hwf ht hcalls hrec h
    simp only [run] at h
    cases hs : step s a with
    | none => simp [hs] at h
    | some s2 =>
      simp only [hs] at h
      obtain ⟨hv, hsize, hobj⟩ := hcalls a (List.mem_cons_self _ _)
      obtain ⟨s3, hs3, hwf3, hp3⟩ := step_wellFormed s a hpass hwf hv
      rw [hs] at hs3
      cases hs3
      obtain ⟨ht2, hrec2⟩ := step_typed s s2 a hpass hwf ht hsize hobj hrec hs
      exact ih s2 s1 (by rw [hp3]; exact hpass) hwf3 ht2
        (fun x hx => hcalls x (List.mem_cons_of_mem _ hx)) hrec2 h

/-- Claim C12: the parser `parseStream`, which reads the tag of a record, then
the fields of the record kind that the tag names (38, 26 or 252 bytes in all),
and so on to the end of the input, reads back exactly the records written.
For every pass-2 run over calls with arguments of their C types, from a state
the analyzer can be in, the run completes and parsing the bytes of its binary
stream yields the sequence of records written: every call record with its bin,
size, id and handle, every frame record with its frame number and byte total,
every draw record with its 25 triples `(curr, change, bytes)`, its primitive
count and byte total.  Hence no other sequence of such records has the same
bytes. -/
theorem parse_emitted (s : State) (calls : List Invocation)
    (hpass : s.g_pass ≠ 1) (hwf : WellFormed s) (ht : Typed s)
    (hrec : ∀ r ∈ s.g_fp2, r.Shape ∧ r.InRange)
    (hcalls : ∀ a ∈ calls, ValidCall a ∧ isInt32 a.size
      ∧ a.objptr < 18446744073709551616) :
    ∃ s1, run s calls = some s1
      ∧ parseStream (encodeAll s1.g_fp2) = some s1.g_fp2
      ∧ ∀ rs, (∀ r ∈ rs, r.Shape ∧ r.InRange) → encodeAll rs = encodeAll s1.g_fp2 →
          rs = s1.g_fp2 := by
  obtain ⟨s1, hrun, -, -⟩ := run_wellFormed calls s hpass hwf (fun a ha => (hcalls a ha).1)
  have hall : ∀ r ∈ s1.g_fp2, r.Shape ∧ r.InRange := fun r hr =>
    ⟨run_shape calls s s1 hrun (fun x hx => (hrec x hx).1) r hr,
     run_typed calls s s1 hpass hwf ht hcalls (fun x hx => (hrec x hx).2) hrun r hr⟩
  have hparse := parseStream_encodeAll s1.g_fp2 hall
  refine ⟨s1, hrun, hparse, ?_⟩
  intro rs hrs heq
  have h1 := parseStream_encodeAll rs hrs
  rw [heq, hparse] at h1
  exact (Option.some.inj h1).symm

set_option maxRecDepth 8000 in
theorem parse_emitted_witness :
    demoState.g_pass ≠ 1 ∧ WellFormed demoState ∧ Typed demoState
    ∧ (∀ a ∈ demoTrace, ValidCall a ∧ isInt32 a.size ∧ a.objptr < 18446744073709551616)
    ∧ ∃ s1, run demoState demoTrace = some s1
        ∧ s1.g_fp2.length = 4
        ∧ parseStream (encodeAll s1.g_fp2) = some s1.g_fp2 := by
  refine ⟨by decide, by decide, by decide, by decide, ?_⟩
  obtain ⟨s1, h1, h2, -⟩ := parse_emitted demoState demoTrace (by decide) (by decide)
    (by decide) (by decide) (by decide)
  refine ⟨s1, h1, ?_, h2⟩
  have h5 : (run demoState demoTrace).map (fun t => t.g_fp2.length) = some 4 := by decide
  rw [h1] at h5
  simpa using h5

/-! ### Registered ids -/

theorem dense_mem {hashmap : List (Nat × Int)} {cnt : Int}
    (h : hashmap.map Prod.snd = (List.range cnt.toNat).map (fun (i : Nat) => (i : Int))) :
    ∀ e ∈ hashmap, 0 ≤ e.2 ∧ e.2 < cnt := by
  intro e he
  have h1 : e.2 ∈ hashmap.map Prod.snd := List.mem_map.2 ⟨e, he, rfl⟩
  rw [h] at h1
  obtain ⟨i, hi, hie⟩ := List.mem_map.1 h1
  have := List.mem_range.1 hi
  omega

theorem dense_registered {hashmap : List (Nat × Int)} {cnt c : Int}
    (h : hashmap.map Prod.snd = (List.range cnt.toNat).map (fun (i : Nat) => (i : Int)))
    (hc : 0 ≤ c ∧ c < cnt) : ∃ hv, (hv, c) ∈ hashmap := by
  have h1 : c ∈ (List.range cnt.toNat).map (fun (i : Nat) => (i : Int)) :=
    List.mem_map.2 ⟨c.toNat, List.mem_range.2 (by omega), by omega⟩
  rw [← h] at h1
  obtain ⟨e, he, hec⟩ := List.mem_map.1 h1
  exact ⟨e.1, by rw [← hec]; exact he⟩

/-- The bin that an applied CREATE or UPDATE leaves keeps its value table
dense and holds a registered id. -/
theorem binDense_assign (b : StateBin) (hv : Nat) (ct bytes : Int) (N : Nat)
    (hd : BinDense b) (hcnt : b.cnt ≤ N) (hN : N < 2147483647) :
    BinDense { name := b.name, curr := (mapFind b.hashmap hv).getD b.cnt, change := ct,
               bytes := bytes,
               cnt := if (mapFind b.hashmap hv).isNone then toInt32 (b.cnt + 1) else b.cnt,
               hashmap := if (mapFind b.hashmap hv).isNone
                          then mapSet b.hashmap hv b.cnt else b.hashmap }
      ∧ (if (mapFind b.hashmap hv).isNone then toInt32 (b.cnt + 1) else b.cnt) ≤ N + 1
      ∧ b.cnt ≤ (if (mapFind b.hashmap hv).isNone then toInt32 (b.cnt + 1) else b.cnt)
      ∧ 0 ≤ (mapFind b.hashmap hv).getD b.cnt
      ∧ (mapFind b.hashmap hv).getD b.cnt
          < (if (mapFind b.hashmap hv).isNone then toInt32 (b.cnt + 1) else b.cnt) := by
  obtain ⟨h0, htab, -⟩ := hd
  cases hf : mapFind b.hashmap hv with
  | none =>
    have hsucc : toInt32 (b.cnt + 1) = b.cnt + 1 := by
      unfold toInt32
      omega
    have hnat : (b.cnt + 1).toNat = b.cnt.toNat + 1 := by omega
    have hcast : ((b.cnt.toNat : Nat) : Int) = b.cnt := by omega
    simp only [Option.isNone_none, if_true, Option.getD_none, hsucc]
    refine ⟨⟨?_, ?_, fun _ => ⟨h0, ?_⟩⟩, by omega, by omega, h0, by omega⟩
    · show 0 ≤ b.cnt + 1
      omega
    · show List.map Prod.snd (mapSet b.hashmap hv b.cnt)
        = (List.range (b.cnt + 1).toNat).map (fun (i : Nat) => (i : Int))
      rw [mapSet_absent _ _ _ hf, List.map_append, htab, hnat, List.range_succ,
        List.map_append]
      simp [hcast]
    · show b.cnt < b.cnt + 1
      omega
  | some v =>
    have hv1 := dense_mem htab _ (mapFind_mem _ _ _ hf)
    simp only [Option.isNone_some, Bool.false_eq_true, if_false, Option.getD_some]
    exact ⟨⟨h0, htab, fun _ => hv1⟩, by omega, le_refl _, hv1.1, hv1.2⟩

/-- One call of pass 2 keeps every value table dense, every `curr` of a
changed bin registered, and the remembered id of every handle within the table
of the bin of the handle, when a call that is not a CREATE or UPDATE has
`datptr = objptr`. -/
theorem step_dense (s s1 : State) (a : Invocation) (N : Nat) (hpass : s.g_pass ≠ 1)
    (hN : N < 2147483647)
    (hsw : a.change_type = BIN_CREATE ∨ a.change_type = BIN_UPDATE ∨ a.datptr = a.objptr)
    (hJ1 : ∀ b ∈ s.vecBins, BinDense b ∧ b.cnt ≤ N) (hJ2 : HandleIds s)
    (h : step s a = some s1) :
    (∀ b ∈ s1.vecBins, BinDense b ∧ b.cnt ≤ N + 1) ∧ HandleIds s1 := by
  have hweak : ∀ b ∈ s.vecBins, BinDense b ∧ b.cnt ≤ N + 1 := by
    intro b hb
    have := hJ1 b hb
    exact ⟨this.1, by omega⟩
  obtain ⟨hm, -, -, -⟩ := step_pass2_map s s1 a hpass h
  unfold step at h
  by_cases hp : a.bin = BIN_PRESENT
  · rw [hp, stateSort_present_eq _ _ _ _ _ _ _ _ hpass] at h
    cases h
    exact ⟨hweak, hJ2⟩
  · by_cases hd : a.bin = BIN_DRAW
    · rw [hd] at h
      obtain ⟨b25, hb25, -⟩ := stateSort_draw_valid _ _ _ _ _ _ _ _ _ hpass h
      obtain ⟨valid, l, -, -, -, -, -, -, hvb, -, hh, -⟩ :=
        stateSort_draw_out _ _ _ _ _ _ _ _ _ hpass h
      have hlen : NUM_BIN ≤ s.vecBins.length := by
        have := (binAt_eq_some hb25).2.1
        simp only [BIN_DRAW, NUM_BIN] at this ⊢
        omega
      constructor
      · intro x hx
        rw [hvb] at hx
        obtain ⟨y, hy, e1, e2, e3, -, e5⟩ := mem_resetChange_fields hx
        obtain ⟨⟨k0, k1, k2⟩, k3⟩ := hJ1 y hy
        refine ⟨⟨by rw [e2]; exact k0, by rw [e2, e3]; exact k1, ?_⟩, by rw [e2]; omega⟩
        intro hx0
        rw [e1, e2]
        exact k2 (e5 hx0)
      · intro p v b hf hg hb
        rw [hh] at hf
        rw [hm] at hg hb
        rw [hvb, binAt_resetChange _ _ hlen] at hb
        split at hb
        · cases hy : binAt s.vecBins (getBin s.mapPtrToBin p) with
          | none => simp [hy] at hb
          | some y =>
            simp only [hy, Option.map_some', Option.some.injEq] at hb
            rw [← hb]
            exact hJ2 p v y hf hg hy
        · exact hJ2 p v b hf hg hb
    · rcases stateSort_other_binAt _ _ _ _ _ _ _ _ _ _ hpass hp hd h with
        ⟨-, h1⟩ | ⟨hres, b, hb⟩
      · subst h1
        exact ⟨hweak, hJ2⟩
      · obtain ⟨hbd, hbN⟩ := hJ1 b (mem_of_binAt hb)
        have hR0 := (binAt_eq_some hb).1
        rcases stateSort_resolved_cases s s1 _ _ _ _ _ _ _ _ b hpass hp hd hres hb h with
          ⟨hvb, hh, -⟩ | ⟨-, -, hv, -, hh, hvb⟩ | ⟨hncu, hid, -, hh, hvb⟩
        · refine ⟨by rw [hvb]; exact hweak, ?_⟩
          intro p v b1 hf hg hb1
          rw [hh] at hf
          rw [hm] at hg hb1
          rw [hvb] at hb1
          exact hJ2 p v b1 hf hg hb1
        · obtain ⟨kd, kN, kle, kid0, kid1⟩ :=
            binDense_assign b hv a.change_type
              (if a.change_type = BIN_UPDATE then a.size else 0) N hbd hbN hN
          constructor
          · intro x hx
            rw [hvb] at hx
            rcases mem_binSet hx with hx1 | hx1
            · rw [hx1]
              exact ⟨kd, kN⟩
            · exact hweak x hx1
          · intro p v b1 hf hg hb1
            rw [hh] at hf
            rw [hm] at hg hb1
            rw [hvb] at hb1
            by_cases hpo : p = a.objptr
            · rw [hpo] at hf hg hb1
              have hRp : resolveBin s.mapPtrToBin a.objptr a.datptr
                  = getBin s.mapPtrToBin a.objptr := by
                simp only [resolveBin, hg, if_false]
              rw [hRp] at hb1 hb
              rw [binAt_binSet_self _ hb] at hb1
              cases hb1
              simp only [setPtrHashID, mapFind_mapSet_self, Option.some.injEq] at hf
              rw [← hf]
              have hi32 : isInt32 ((mapFind b.hashmap hv).getD b.cnt) := by
                unfold isInt32
                omega
              rw [toInt32_toUInt64 hi32]
              exact ⟨kid0, kid1⟩
            · simp only [setPtrHashID, mapFind_mapSet_ne _ _ _ _ hpo] at hf
              by_cases hRp : resolveBin s.mapPtrToBin a.objptr a.datptr
                  = getBin s.mapPtrToBin p
              · rw [← hRp] at hb1
                rw [binAt_binSet_self _ hb] at hb1
                cases hb1
                have := hJ2 p v b hf hg (by rw [← hRp]; exact hb)
                exact ⟨this.1, lt_of_lt_of_le this.2 kle⟩
              · rw [binAt_binSet_ne _ _ hR0 hRp] at hb1
                exact hJ2 p v b1 hf hg hb1
        · have hdo : resolveBin s.mapPtrToBin a.objptr a.datptr
              = getBin s.mapPtrToBin a.objptr := by
            rcases hsw with hc | hc | hc
            · exact absurd (Or.inl hc) hncu
            · exact absurd (Or.inr hc) hncu
            · rw [hc]
              simp only [resolveBin]
              split <;> rename_i hu
              · exact hu.symm ▸ rfl
              · rfl
          have hgo : getBin s.mapPtrToBin a.objptr ≠ BIN_UNKNOWN := by
            rw [← hdo]; exact hres
          have hidv : 0 ≤ getPtrHashID s.mapPtrToHash a.objptr
              ∧ getPtrHashID s.mapPtrToHash a.objptr < b.cnt := by
            unfold getPtrHashID at hid ⊢
            cases hf : mapFind s.mapPtrToHash a.objptr with
            | none => simp [hf] at hid
            | some v =>
              simp only []
              exact hJ2 a.objptr v b hf hgo (by rw [← hdo]; exact hb)
          obtain ⟨k0, k1, -⟩ := hbd
          constructor
          · intro x hx
            rw [hvb] at hx
            rcases mem_binSet hx with hx1 | hx1
            · rw [hx1]
              exact ⟨⟨k0, k1, fun _ => hidv⟩, by show b.cnt ≤ (N : Int) + 1; omega⟩
            · exact hweak x hx1
          · intro p v b1 hf hg hb1
            rw [hh] at hf
            rw [hm] at hg hb1
            rw [hvb] at hb1
            by_cases hRp : resolveBin s.mapPtrToBin a.objptr a.datptr
                = getBin s.mapPtrToBin p
            · rw [← hRp] at hb1
              rw [binAt_binSet_self _ hb] at hb1
              cases hb1
              exact hJ2 p v b hf hg (by rw [← hRp]; exact hb)
            · rw [binAt_binSet_ne _ _ hR0 hRp] at hb1
              exact hJ2 p v b1 hf hg hb1

theorem run_dense (calls : List Invocation) :
    ∀ (s s1 : State) (N : Nat), s.g_pass ≠ 1 → N + calls.length < 2147483648 →
      (∀ a ∈ calls, a.change_type = BIN_CREATE ∨ a.change_type = BIN_UPDATE
        ∨ a.datptr = a.objptr) →
      (∀ b ∈ s.vecBins, BinDense b ∧ b.cnt ≤ N) → HandleIds s → run s calls = some s1 →
      ∀ b ∈ s1.vecBins, BinDense b := by
  induction calls with
  | nil =>
    intro s s1 N _ _ _ hJ1 _ h
    simp only [run, Option.some.injEq] at h
    subst h
    exact fun b hb => (hJ1 b hb).1
  | cons a rest ih =>
    intro s s1 N hpass hN hsw hJ1 hJ2 h
    simp only [run] at h
    cases hs : step s a with
    | none => simp [hs] at h
    | some s2 =>
      simp only [hs] at h
      obtain ⟨-, hp2, -, -⟩ := step_pass2_map s s2 a hpass hs
      simp only [List.length_cons] at hN
      obtain ⟨k1, k2⟩ := step_dense s s2 a N hpass (by omega)
        (hsw a (List.mem_cons_self _ _)) hJ1 hJ2 hs
      exact ih s2 s1 (N + 1) (by rw [hp2]; exact hpass) (by omega)
        (fun x hx => hsw x (List.mem_cons_of_mem _ hx)) k1 k2 h

set_option maxRecDepth 8000 in
/-- Claim C16 as stated fails: after a pass 1 that gives the resource 1 the
texture bin and the resource 2 the bin of vertex slot 0, the pass-2 calls of
`fallbackTrace` (two uploads through the handles 4 and 5, whose bin is found
through `datptr = 1`, then a switch of the handle 5, whose bin is found through
`datptr = 2`) leave the bin of vertex slot 0 with `change = BIN_SWITCH` and
`curr = 1`, while its value table is empty and its counter is 0. -/
theorem curr_not_registered :
    (twoPass (createBins (initState true true)) fallbackPass1 fallbackTrace).map
        (fun s => (binAt s.vecBins BIN_VERTEX0).map
          (fun b => (b.change, b.curr, b.cnt, b.hashmap.length)))
      = some (some (BIN_SWITCH, 1, 0, 0))
    ∧ BIN_SWITCH ≠ BIN_UNDEF ∧ ¬ ((1 : Int) < 0) :=
  ⟨by decide, by decide, by decide⟩

/-- Claim C16, amended: in every state reached from `createBins` by pass 1
over any calls followed by pass 2 over fewer than 2^31 calls (the range of the
`int` id counter) in which every call that is not a CREATE or an UPDATE has
`datptr = objptr`, as all SWITCH invocations of `stateCall` have, each bin
whose `change` is not `BIN_UNDEF` has a `curr` that is registered in the value
table of that same bin: `0 <= curr < cnt`, and the table holds an entry with
the id `curr`. -/
theorem curr_registered (txt raw : Bool) (calls1 calls2 : List Invocation) (s : State)
    (hlen : calls2.length < 2147483648)
    (hsw : ∀ a ∈ calls2, a.change_type = BIN_CREATE ∨ a.change_type = BIN_UPDATE
      ∨ a.datptr = a.objptr)
    (hrun : twoPass (createBins (initState txt raw)) calls1 calls2 = some s) :
    ∀ b ∈ s.vecBins, b.change ≠ BIN_UNDEF →
      0 ≤ b.curr ∧ b.curr < b.cnt ∧ ∃ hv, (hv, b.curr) ∈ b.hashmap := by
  obtain ⟨m, hrun1, -⟩ := run_pass1 calls1 { createBins (initState txt raw) with g_pass := 1 } rfl
  simp only [twoPass, hrun1] at hrun
  have hJ1 : ∀ b ∈ (createBins (initState txt raw)).vecBins, BinDense b ∧ b.cnt ≤ (0 : Nat) := by
    intro b hb
    have hb1 : b ∈ List.replicate 32 newBin := by
      simpa [createBins, initState] using hb
    rw [List.eq_of_mem_replicate hb1]
    exact ⟨⟨le_refl _, rfl, fun h => absurd rfl h⟩, le_refl _⟩
  have hJ2 : HandleIds { createBins (initState txt raw) with g_pass := 2, mapPtrToBin := m } := by
    intro p v b hf
    simp [createBins, initState, mapFind] at hf
  have hdense := run_dense calls2
    { createBins (initState txt raw) with g_pass := 2, mapPtrToBin := m } s 0
    (by show (2 : Int) ≠ 1; decide) (by omega) hsw hJ1 hJ2 hrun
  intro b hb hne
  obtain ⟨-, htab, hcurr⟩ := hdense b hb
  exact ⟨(hcurr hne).1, (hcurr hne).2, dense_registered htab (hcurr hne)⟩

set_option maxRecDepth 8000 in
theorem curr_registered_witness :
    textureTrace.length < 2147483648
    ∧ (∀ a ∈ textureTrace, a.change_type = BIN_CREATE ∨ a.change_type = BIN_UPDATE
        ∨ a.datptr = a.objptr)
    ∧ ∃ s, twoPass (createBins (initState true true)) textureTrace textureTrace = some s
        ∧ (binAt s.vecBins BIN_TEXTURE).map (fun b => (b.change, b.curr, b.cnt))
            = some (BIN_SWITCH, 1, 2)
        ∧ ∀ b ∈ s.vecBins, b.change ≠ BIN_UNDEF →
            0 ≤ b.curr ∧ b.curr < b.cnt ∧ ∃ hv, (hv, b.curr) ∈ b.hashmap := by
  have hsome : (twoPass (createBins (initState true true)) textureTrace textureTrace).isSome
      = true := by decide
  obtain ⟨s, hs⟩ := Option.isSome_iff_exists.1 hsome
  refine ⟨by decide, by decide, s, hs, ?_,
    curr_registered true true textureTrace textureTrace s (by decide) (by decide) hs⟩
  have h5 : (twoPass (createBins (initState true true)) textureTrace textureTrace).map
      (fun t => (binAt t.vecBins BIN_TEXTURE).map (fun b => (b.change, b.curr, b.cnt)))
      = some (some (BIN_SWITCH, 1, 2)) := by decide
  rw [hs] at h5
  simpa using h5

/-! ### The resource map -/

theorem getBin_assignToBin_ne (m : List (Nat × Int)) (h p : Nat) (b : Int) (hp : p ≠ h) :
    getBin (assignToBin m h b) p = getBin m p := by
  unfold assignToBin
  split
  · rfl
  · simp only [getBin, mapFind_mapSet_ne _ _ _ _ hp]

theorem getBin_foldl_assignToBin (l : List (Nat × Int)) (h : Nat) :
    ∀ m : List (Nat × Int), h ∉ l.map Prod.fst →
      getBin (l.foldl (fun m e => assignToBin m e.1 e.2) m) h = getBin m h := by
  induction l with
  | nil => intro m _; rfl
  | cons e l ih =>
    intro m hm
    simp only [List.map_cons, List.mem_cons, not_or] at hm
    simp only [List.foldl_cons]
    rw [ih _ hm.2, getBin_assignToBin_ne _ _ _ _ hm.1]

/-- Claim C28: for every handle `h` and every bin `b` other than `BIN_UNKNOWN`,
after `assignToBin (h, b)` the lookup `getBin (h)` returns `b` and the lookup of
every other handle returns what it returned before; `assignToBin (h, BIN_UNKNOWN)`
leaves the map as it is; `getBin` of a handle without an entry, and so of a
handle that no `assignToBin` call since the empty map has named, returns
`BIN_UNKNOWN` (250).  `getBin` reads the map only: it is a function of the map
and the handle and yields no new map. -/
theorem resource_map_ops (m : List (Nat × Int)) (h : Nat) (b : Int) :
    (b ≠ BIN_UNKNOWN →
      getBin (assignToBin m h b) h = b
        ∧ ∀ p, p ≠ h → getBin (assignToBin m h b) p = getBin m p)
    ∧ assignToBin m h BIN_UNKNOWN = m
    ∧ (mapFind m h = none → getBin m h = BIN_UNKNOWN)
    ∧ BIN_UNKNOWN = 250
    ∧ (∀ l : List (Nat × Int), h ∉ l.map Prod.fst →
        getBin (l.foldl (fun m e => assignToBin m e.1 e.2) []) h = BIN_UNKNOWN) := by
  refine ⟨?_, ?_, ?_, rfl, ?_⟩
  · intro hb
    refine ⟨?_, fun p hp => getBin_assignToBin_ne m h p b hp⟩
    simp only [assignToBin, hb, if_false, getBin, mapFind_mapSet_self]
  · simp only [assignToBin, if_true]
  · intro hf
    simp only [getBin, hf]
  · intro l hl
    rw [getBin_foldl_assignToBin l h [] hl]
    rfl

/-! ### Hashes of different handles -/

theorem hashStep_lt (h b : Nat) : hashStep h b < 2 ^ 64 := by
  rw [hashStep_eq]
  exact Nat.mod_lt _ (by norm_num)

theorem hashStep_inj (a c b : Nat) (ha : a < 2 ^ 64) (hc : c < 2 ^ 64)
    (h : hashStep a b = hashStep c b) : a = c := by
  rw [hashStep_eq, hashStep_eq] at h
  have h1 : a * 33 + b ≡ c * 33 + b [MOD 2 ^ 64] := h
  have h2 : a * 33 ≡ c * 33 [MOD 2 ^ 64] := Nat.ModEq.add_right_cancel' b h1
  have h3 : a ≡ c [MOD 2 ^ 64] :=
    Nat.ModEq.cancel_right_of_coprime (by norm_num) h2
  have h4 : a % 2 ^ 64 = c % 2 ^ 64 := h3
  rwa [Nat.mod_eq_of_lt ha, Nat.mod_eq_of_lt hc] at h4

theorem hashLoop_inj (n : Nat) :
    ∀ (mem : List Byte) (a c x : Nat), a < 2 ^ 64 → c < 2 ^ 64 →
      hashLoop n mem a = some x → hashLoop n mem c = some x → a = c := by
  induction n with
  | zero =>
    intro mem a c x _ _ h1 h2
    simp only [hashLoop, Option.some.injEq] at h1 h2
    rw [h1, h2]
  | succ n ih =>
    intro mem a c x ha hc h1 h2
    cases mem with
    | nil => simp [hashLoop] at h1
    | cons b mem =>
      simp only [hashLoop] at h1 h2
      exact hashStep_inj a c b.val ha hc
        (ih mem _ _ x (hashStep_lt _ _) (hashStep_lt _ _) h1 h2)

/-- The hash of the four handle bytes, with which `computeHash` enters the
payload loop. -/
theorem computeHash_some (ptr : Nat) (mem : List Byte) (size : Int) (hs : 0 ≤ size) :
    computeHash ptr (some mem) size
      = hashLoop size.toNat mem
          (hashStep (hashStep (hashStep (hashStep 5381 (ptrdat ptr 0)) (ptrdat ptr 1))
            (ptrdat ptr 2)) (ptrdat ptr 3)) := by
  have : ¬ size < 0 := by omega
  simp only [computeHash, this, if_false]

theorem computeHash_none (ptr : Nat) (size : Int) :
    computeHash ptr none size
      = some (hashStep (hashStep (hashStep (hashStep 5381 (ptrdat ptr 0)) (ptrdat ptr 1))
            (ptrdat ptr 2)) (ptrdat ptr 3)) := rfl

theorem dense_find_inj {hashmap : List (Nat × Int)} {cnt : Int}
    (h : hashmap.map Prod.snd = (List.range cnt.toNat).map (fun (i : Nat) => (i : Int)))
    {k1 k2 : Nat} {i : Int} (h1 : mapFind hashmap k1 = some i)
    (h2 : mapFind hashmap k2 = some i) : k1 = k2 := by
  have hnd : (hashmap.map Prod.snd).Nodup := by
    rw [h]
    exact (List.nodup_range _).map (fun a b hab => by simpa using hab)
  have := List.inj_on_of_nodup_map hnd (mapFind_mem _ _ _ h1) (mapFind_mem _ _ _ h2) rfl
  exact congrArg Prod.fst this

/-- Two different hashes get different ids from `assignIDToHash` in a bin whose
value table is dense. -/
theorem assignIDToHash_distinct (vb vb1 vb2 : List StateBin) (bin : Int) (b : StateBin)
    (v1 v2 : Nat) (id1 id2 : Int) (hb : binAt vb bin = some b) (hd : BinDense b)
    (hne : v1 ≠ v2) (h1 : assignIDToHash vb v1 bin = some (id1, vb1))
    (h2 : assignIDToHash vb1 v2 bin = some (id2, vb2)) : id1 ≠ id2 := by
  obtain ⟨h0, htab, -⟩ := hd
  rw [assignIDToHash_eq v1 hb] at h1
  simp only [Option.some.injEq, Prod.mk.injEq] at h1
  obtain ⟨e1, e2⟩ := h1
  have hb1 := binAt_binSet_self
    { b with
      cnt := if (mapFind b.hashmap v1).isNone then toInt32 (b.cnt + 1) else b.cnt,
      hashmap := if (mapFind b.hashmap v1).isNone
                 then mapSet b.hashmap v1 b.cnt else b.hashmap } hb
  rw [e2] at hb1
  rw [assignIDToHash_eq v2 hb1] at h2
  simp only [Option.some.injEq, Prod.mk.injEq] at h2
  obtain ⟨e3, -⟩ := h2
  rw [← e1, ← e3]
  cases hf1 : mapFind b.hashmap v1 with
  | some i1 =>
    have hi1 := dense_mem htab _ (mapFind_mem _ _ _ hf1)
    simp only [Option.isNone_some, Bool.false_eq_true, if_false, Option.getD_some]
    cases hf2 : mapFind b.hashmap v2 with
    | some i2 =>
      simp only [Option.getD_some]
      intro heq
      rw [← heq] at hf2
      exact hne (dense_find_inj htab hf1 hf2)
    | none =>
      simp only [Option.getD_none]
      have := hi1.2
      show i1 ≠ b.cnt
      omega
  | none =>
    simp only [Option.isNone_none, if_true, Option.getD_none,
      mapFind_mapSet_ne _ _ _ _ (Ne.symm hne)]
    cases hf2 : mapFind b.hashmap v2 with
    | some i2 =>
      have hi2 := dense_mem htab _ (mapFind_mem _ _ _ hf2)
      simp only [Option.getD_some]
      have := hi2.2
      show b.cnt ≠ i2
      omega
    | none =>
      simp only [Option.getD_none]
      unfold toInt32
      omega

/-- Claim C29: for all handles `h1`, `h2` and every payload of `size` readable
bytes, `computeHash (h1, payload)` and `computeHash (h2, payload)` are equal if
and only if the handle-only hashes `computeHash (h1, null)` and
`computeHash (h2, null)` are equal.  The handles 10 and 11 therefore have
different hashes under every common payload, and `assignIDToHash` gives the two
hashes different ids in one bin with a dense value table. -/
theorem computeHash_common_payload (h1 h2 : Nat) (mem : List Byte) (size : Int)
    (hs : 0 ≤ size ∧ size ≤ (mem.length : Int)) :
    (computeHash h1 (some mem) size = computeHash h2 (some mem) size
      ↔ computeHash h1 none 0 = computeHash h2 none 0)
    ∧ ∃ v1 v2, computeHash 10 (some mem) size = some v1
        ∧ computeHash 11 (some mem) size = some v2 ∧ v1 ≠ v2
        ∧ ∀ vb vb1 vb2 bin b id1 id2, binAt vb bin = some b → BinDense b →
            assignIDToHash vb v1 bin = some (id1, vb1) →
            assignIDToHash vb1 v2 bin = some (id2, vb2) → id1 ≠ id2 := by
  have hiff : ∀ a c : Nat, (computeHash a (some mem) size = computeHash c (some mem) size
      ↔ computeHash a none 0 = computeHash c none 0) := by
    intro a c
    rw [computeHash_some _ _ _ hs.1, computeHash_some _ _ _ hs.1, computeHash_none,
      computeHash_none]
    constructor
    · intro h
      obtain ⟨x, hx⟩ := hashLoop_isSome size.toNat mem
        (hashStep (hashStep (hashStep (hashStep 5381 (ptrdat a 0)) (ptrdat a 1))
          (ptrdat a 2)) (ptrdat a 3)) (by omega)
      rw [hx] at h
      rw [hashLoop_inj _ _ _ _ x (hashStep_lt _ _) (hashStep_lt _ _) hx h.symm]
    · intro h
      rw [Option.some.inj h]
  refine ⟨hiff h1 h2, ?_⟩
  obtain ⟨v1, hv1⟩ := computeHash_isSome 10 (some mem) size hs
  obtain ⟨v2, hv2⟩ := computeHash_isSome 11 (some mem) size hs
  have hne : v1 ≠ v2 := by
    intro heq
    have h := (hiff 10 11).1 (by rw [hv1, hv2, heq])
    revert h
    decide
  exact ⟨v1, v2, hv1, hv2, hne, fun vb vb1 vb2 bin b id1 id2 hb hd k1 k2 =>
    assignIDToHash_distinct vb vb1 vb2 bin b v1 v2 id1 id2 hb hd hne k1 k2⟩

theorem computeHash_common_payload_witness :
    (0 ≤ (2 : Int) ∧ (2 : Int) ≤ (([1, 2] : List Byte).length : Int))
    ∧ (computeHash 10 (some [1, 2]) 2 = computeHash 266 (some [1, 2]) 2
        ↔ computeHash 10 none 0 = computeHash 266 none 0)
    ∧ computeHash 10 (some [1, 2]) 2 ≠ computeHash 11 (some [1, 2]) 2 := by
  obtain ⟨h1, v1, v2, k1, k2, hne, -⟩ :=
    computeHash_common_payload 10 266 [1, 2] 2 (by decide)
  refine ⟨by decide, h1, ?_⟩
  rw [k1, k2]
  exact fun h => hne (Option.some.inj h)

/-! ### The handle bytes that are hashed -/

theorem ptrdat_low32 (h1 h2 : Nat) (h : h1 % 4294967296 = h2 % 4294967296) :
    ptrdat h1 0 = ptrdat h2 0 ∧ ptrdat h1 1 = ptrdat h2 1 ∧ ptrdat h1 2 = ptrdat h2 2
      ∧ ptrdat h1 3 = ptrdat h2 3 := by
  unfold ptrdat
  refine ⟨?_, ?_, ?_, ?_⟩ <;> norm_num <;> omega

/-- Claim C30: `computeHash` reads the four low-order bytes of the handle only.
For all handles `h1`, `h2` with `h1 mod 2^32 = h2 mod 2^32`, every payload and
every size, `computeHash (h1, payload)` equals `computeHash (h2, payload)`;
hence when `assignIDToHash` has given the hash of the first handle an id in a
bin, it returns the same id for the hash of the second handle and leaves the
bins as they are. -/
theorem computeHash_low32 (h1 h2 : Nat) (dat : Option (List Byte)) (size : Int)
    (h : h1 % 4294967296 = h2 % 4294967296) :
    computeHash h1 dat size = computeHash h2 dat size
    ∧ ∀ v1 v2 vb vb1 bin id, computeHash h1 dat size = some v1 →
        computeHash h2 dat size = some v2 →
        assignIDToHash vb v1 bin = some (id, vb1) →
        assignIDToHash vb1 v2 bin = some (id, vb1) := by
  obtain ⟨e0, e1, e2, e3⟩ := ptrdat_low32 h1 h2 h
  have heq : computeHash h1 dat size = computeHash h2 dat size := by
    simp only [computeHash, e0, e1, e2, e3]
  refine ⟨heq, ?_⟩
  intro v1 v2 vb vb1 bin id k1 k2 ha
  rw [heq, k2] at k1
  rw [Option.some.inj k1]
  obtain ⟨bin1, hb1, hf1⟩ := assignIDToHash_registers ha
  exact assignIDToHash_of_registered hb1 hf1

theorem computeHash_low32_witness :
    (7 : Nat) % 4294967296 = 4294967303 % 4294967296
    ∧ computeHash 7 (some [1, 2]) 2 = computeHash 4294967303 (some [1, 2]) 2 :=
  ⟨by decide, (computeHash_low32 7 4294967303 (some [1, 2]) 2 (by decide)).1⟩

/-! ### Scans of the call stream -/

theorem retraceAll_append (l1 l2 : List Call) :
    ∀ cs : Classifier × State, retraceAll cs (l1 ++ l2)
      = match retraceAll cs l1 with
        | none => none
        | some cs1 => retraceAll cs1 l2 := by
  induction l1 with
  | nil => intro cs; rfl
  | cons a rest ih =>
    intro cs
    simp only [List.cons_append, retraceAll]
    cases retrace cs a with
    | none => rfl
    | some cs1 => exact ih cs1

/-- A call of the stream can be exchanged for one that acts in the same way on
the state in which it is reached. -/
theorem retraceAll_swap (cs csA : Classifier × State) (pre post : List Call) (x y : Call)
    (hpre : retraceAll cs pre = some csA) (hxy : retrace csA x = retrace csA y) :
    retraceAll cs (pre ++ x :: post) = retraceAll cs (pre ++ y :: post) := by
  rw [retraceAll_append, retraceAll_append, hpre]
  simp only [retraceAll, hxy]

/-- A call of `stateSort` that is not a CREATE or an UPDATE does not read its
payload. -/
theorem stateSort_switch_payload (s : State) (change_type : Int) (name : String)
    (nameID bin : Int) (objptr datptr : Nat) (dat dat1 : Option (List Byte)) (size : Int)
    (hct : ¬ (change_type = BIN_CREATE ∨ change_type = BIN_UPDATE)) :
    stateSort s change_type name nameID bin objptr datptr dat size
      = stateSort s change_type name nameID bin objptr datptr dat1 size := by
  simp only [stateSort, hct, if_false]

/-- A call of `stateSort` in pass 1 does not read its payload. -/
theorem stateSort_pass1_payload (s : State) (change_type : Int) (name : String)
    (nameID bin : Int) (objptr datptr : Nat) (dat dat1 : Option (List Byte)) (size : Int)
    (hpass : s.g_pass = 1) :
    stateSort s change_type name nameID bin objptr datptr dat size
      = stateSort s change_type name nameID bin objptr datptr dat1 size := by
  rw [stateSort_pass1_eq _ _ _ _ _ _ _ _ _ hpass, stateSort_pass1_eq _ _ _ _ _ _ _ _ _ hpass]

/-- The `stateSort` call that `stateCall` makes for `glTexSubImage2D` of a
4 x 4 RGBA image of unsigned bytes while a texture is bound. -/
theorem stateCall_texSubImage (c : Classifier) (pixels : List Byte)
    (h : c.lastBindTEX ≠ 0) :
    stateCall c (callTexSubImage pixels)
      = some (c, [sortArgs BIN_UPDATE "TexSubImage2D" 112 BIN_TEXTURE c.lastBindTEX
          c.lastBindTEX (some pixels) 64]) := by
  have hs : texSize 4 4 (toGLenum 6408) (toGLenum 5121) = 64 := by decide
  simp [stateCall, callTexSubImage, Call.arg, h, Value.toSInt, Value.toPointer, hs]

theorem stateCall_texSubImage_unbound (c : Classifier) (pixels : List Byte)
    (h : c.lastBindTEX = 0) :
    stateCall c (callTexSubImage pixels) = some (c, []) := by
  simp [stateCall, callTexSubImage, h, strstr]

theorem retrace_texSubImage_pass1 (cs : Classifier × State) (p q : List Byte)
    (hpass : cs.2.g_pass = 1) :
    retrace cs (callTexSubImage p) = retrace cs (callTexSubImage q) := by
  by_cases h : cs.1.lastBindTEX = 0
  · simp only [retrace, stateCall_texSubImage_unbound _ _ h]
  · simp only [retrace, stateCall_texSubImage _ _ h, run, step, sortArgs]
    rw [stateSort_pass1_payload _ _ _ _ _ _ _ (some p) (some q) _ hpass]

theorem retrace_texSubImage_rejected (cs : Classifier × State) (p q : List Byte)
    (b : StateBin) (hpass : cs.2.g_pass ≠ 1)
    (hres : resolveBin cs.2.mapPtrToBin cs.1.lastBindTEX cs.1.lastBindTEX ≠ BIN_UNKNOWN)
    (hb : binAt cs.2.vecBins
      (resolveBin cs.2.mapPtrToBin cs.1.lastBindTEX cs.1.lastBindTEX) = some b)
    (hrej : ¬ (BIN_UPDATE ≤ b.change ∨ b.change = BIN_UNDEF)) :
    retrace cs (callTexSubImage p) = retrace cs (callTexSubImage q) := by
  by_cases h : cs.1.lastBindTEX = 0
  · simp only [retrace, stateCall_texSubImage_unbound _ _ h]
  · simp only [retrace, stateCall_texSubImage _ _ h, run, step, sortArgs]
    rw [stateSort_rejected cs.2 BIN_UPDATE _ _ BIN_TEXTURE _ _ (some p) _ b hpass
        (by decide) (by decide) (Or.inr rfl) hres hb hrej,
      stateSort_rejected cs.2 BIN_UPDATE _ _ BIN_TEXTURE _ _ (some q) _ b hpass
        (by decide) (by decide) (Or.inr rfl) hres hb hrej]

theorem run_bufferTarget_payload (s : State) (target : Nat) (name : String) (nameID : Int)
    (ptr : Nat) (dat dat1 : Option (List Byte)) (size : Int) :
    run s (bufferTarget target name nameID ptr dat size)
      = run s (bufferTarget target name nameID ptr dat1 size) := by
  have hsw : ¬ (BIN_SWITCH = BIN_CREATE ∨ BIN_SWITCH = BIN_UPDATE) := by decide
  have h1 : ∀ (t : State) (bin : Int),
      step t (sortArgs BIN_SWITCH name nameID bin ptr ptr dat size)
        = step t (sortArgs BIN_SWITCH name nameID bin ptr ptr dat1 size) := by
    intro t bin
    simp only [step, sortArgs]
    exact stateSort_switch_payload t _ _ _ _ _ _ dat dat1 _ hsw
  unfold bufferTarget
  by_cases ha : target = GL_ARRAY_BUFFER <;> by_cases he : target = GL_ELEMENT_ARRAY_BUFFER
    <;> simp only [ha, he, if_true, if_false, List.append_nil, List.nil_append,
      List.singleton_append, run, h1]

theorem stateCall_bufferData (c : Classifier) (target : Nat) (data : List Byte) :
    stateCall c (callBufferData target data)
      = some (c, if c.lastBindVBO = 0 then []
          else bufferTarget (toGLenum target) "BufferData" 106 c.lastBindVBO (some data)
            128) := by
  by_cases h : c.lastBindVBO = 0
  · simp [stateCall, callBufferData, h, strstr]
  · have h128 : toInt32 128 = 128 := by decide
    simp [stateCall, callBufferData, Call.arg, h, Value.toSInt, Value.toPointer, h128]

/-- The data of `glBufferData` has no effect on the analyzer. -/
theorem retrace_bufferData (cs : Classifier × State) (target : Nat) (p q : List Byte) :
    retrace cs (callBufferData target p) = retrace cs (callBufferData target q) := by
  simp only [retrace, stateCall_bufferData]
  by_cases h : cs.1.lastBindVBO = 0
  · simp only [h, if_true]
  · simp only [h, if_false]
    rw [run_bufferTarget_payload cs.2 _ _ _ _ (some p) (some q)]

/-! ### Scenario S1 -/

set_option maxRecDepth 100000 in
/-- Pass 1 over the calls of scenario S1 records the texture handle 10042 in the
texture bin, whatever the pixel data are. -/
theorem traceS1_pass1 (txt raw : Bool) (pixels : List Byte) :
    retraceAll (initClassifier, { createBins (initState txt raw) with g_pass := 1 })
        (traceS1 pixels)
      = some ({ lastBindVBO := 0, lastBindTEX := 10042 },
          { createBins (initState txt raw) with
            g_pass := 1, mapPtrToBin := [(10042, BIN_TEXTURE)] }) := by
  have hpre : retraceAll (initClassifier, { createBins (initState txt raw) with g_pass := 1 })
      [callGenTextures42, callBindTexture42]
      = some ({ lastBindVBO := 0, lastBindTEX := 10042 },
          { createBins (initState txt raw) with
            g_pass := 1, mapPtrToBin := [(10042, BIN_TEXTURE)] }) := by
    cases txt <;> cases raw <;> decide
  have hswap := retraceAll_swap _ _ [callGenTextures42, callBindTexture42]
    [callDrawArrays6, callSwapBuffers] (callTexSubImage pixels) (callTexSubImage []) hpre
    (retrace_texSubImage_pass1 _ pixels [] rfl)
  have hclosed : retraceAll
      (initClassifier, { createBins (initState txt raw) with g_pass := 1 }) (traceS1 [])
      = some ({ lastBindVBO := 0, lastBindTEX := 10042 },
          { createBins (initState txt raw) with
            g_pass := 1, mapPtrToBin := [(10042, BIN_TEXTURE)] }) := by
    cases txt <;> cases raw <;> decide
  exact hswap.trans hclosed

/-- The state in which pass 2 of scenario S1 starts. -/
theorem analyze_traceS1 (txt raw : Bool) (pixels : List Byte) (pass2 : List Call) :
    analyze txt raw (traceS1 pixels) pass2 = retraceAll (startS1 txt raw) pass2 := by
  simp only [analyze, traceS1_pass1, startS1]

set_option maxRecDepth 100000 in
/-- In pass 2 of scenario S1 `glTexSubImage2D` is reached with the CREATE of
`glGenTextures` in the texture bin. -/
theorem traceS1_before_upload (txt raw : Bool) :
    ∃ csA b, retraceAll (startS1 txt raw) [callGenTextures42, callBindTexture42] = some csA
      ∧ csA.2.g_pass = 2
      ∧ resolveBin csA.2.mapPtrToBin csA.1.lastBindTEX csA.1.lastBindTEX = BIN_TEXTURE
      ∧ binAt csA.2.vecBins BIN_TEXTURE = some b ∧ b.change = BIN_CREATE := by
  refine ⟨(retraceAll (startS1 txt raw) [callGenTextures42, callBindTexture42]).getD
      (startS1 txt raw),
    (binAt ((retraceAll (startS1 txt raw) [callGenTextures42, callBindTexture42]).getD
      (startS1 txt raw)).2.vecBins BIN_TEXTURE).getD newBin, ?_⟩
  cases txt <;> cases raw <;> decide

/-- In pass 2 of scenario S1 the pixel data have no effect: the UPDATE of
`glTexSubImage2D` is rejected. -/
theorem traceS1_pass2_payload (txt raw : Bool) (pixels : List Byte) (post : List Call) :
    retraceAll (startS1 txt raw)
        ([callGenTextures42, callBindTexture42] ++ callTexSubImage pixels :: post)
      = retraceAll (startS1 txt raw)
        ([callGenTextures42, callBindTexture42] ++ callTexSubImage [] :: post) := by
  obtain ⟨csA, b, h1, h2, h3, h4, h5⟩ := traceS1_before_upload txt raw
  exact retraceAll_swap _ csA _ post _ _ h1
    (retrace_texSubImage_rejected csA pixels [] b (by rw [h2]; decide)
      (by rw [h3]; decide) (by rw [h3]; exact h4) (by rw [h5]; decide))

set_option maxRecDepth 100000 in
/-- Claim C21 as stated fails: in scenario S1, with the 16-byte blob of the
scenario, the texture bin holds `curr = 0`, `change = BIN_CREATE` and
`bytes = 0` just before the draw record is written (not UPDATE and 64), and the
draw record and the frame record carry the byte totals 0 (not 64). -/
theorem scenario_S1_as_stated :
    (analyze false true (traceS1 (List.replicate 16 0))
        ((traceS1 (List.replicate 16 0)).take 3)).map
      (fun cs => (binAt cs.2.vecBins BIN_TEXTURE).map (fun b => (b.curr, b.change, b.bytes)))
      = some (some (0, BIN_CREATE, 0))
    ∧ (analyze false true (traceS1 (List.replicate 16 0))
        (traceS1 (List.replicate 16 0))).map (fun cs => cs.2.g_fp2.drop 4)
      = some [Record.draw 'D' 101 0 0
          (List.replicate 8 (0, 0, 0) ++ (0, BIN_CREATE, 0) :: List.replicate 16 (0, 0, 0))
          6 'D' 0,
        Record.frame 'F' 0 0 0 0 0]
    ∧ BIN_CREATE ≠ BIN_UPDATE :=
  ⟨by decide, by decide, by decide⟩

set_option maxRecDepth 100000 in
/-- Claim C21, amended: pass 1 and then pass 2 over the calls of scenario S1,
with any pixel data, give just before the draw record is written a texture bin
with `curr = 0`, `change = BIN_CREATE` and `bytes = 0`: the UPDATE of
`glTexSubImage2D`, whose size is 64, is rejected by the priority test because
the CREATE of `glGenTextures` stands in the same draw window.  The streams then
hold the call records of the five calls (the third with size 64), a draw record
with primitive count 6 and byte total 0, and a frame record with byte total 0;
the frame number is 0 in the text line and in the binary record when the text
stream is off. -/
theorem scenario_S1 (txt raw : Bool) (pixels : List Byte) :
    (analyze txt raw (traceS1 pixels) ((traceS1 pixels).take 3)).map
      (fun cs => (binAt cs.2.vecBins BIN_TEXTURE).map (fun b => (b.curr, b.change, b.bytes)))
      = some (some (0, BIN_CREATE, 0))
    ∧ (analyze txt raw (traceS1 pixels) (traceS1 pixels)).map
        (fun cs => (cs.2.g_fp2.take 5, cs.2.g_fp2.drop 5, cs.2.g_fp))
      = some (
        (if raw then
          [Record.call 'C' 110 0 0 BIN_TEXTURE 0 0 10042,
           Record.call 'C' 111 0 0 BIN_TEXTURE 0 0 10042,
           Record.call 'C' 112 0 0 BIN_TEXTURE 64 0 10042,
           Record.call 'C' 101 0 0 BIN_DRAW 6 0 0,
           Record.draw 'D' 101 0 0
             (List.replicate 8 (0, 0, 0) ++ (0, BIN_CREATE, 0) :: List.replicate 16 (0, 0, 0))
             6 'D' 0] else []),
        (if raw then [Record.frame 'F' 0 0 0 (if txt then 1 else 0) 0] else []),
        (if txt then
          [TextLine.call BIN_TEXTURE 0 10042 0 "GenTextures",
           TextLine.call BIN_TEXTURE 0 10042 0 "BindTexture",
           TextLine.call BIN_TEXTURE 64 10042 0 "TexSubImage2D",
           TextLine.call BIN_DRAW 6 0 0 "DrawArrays",
           TextLine.draw "DrawArrays"
             (List.replicate 8 (0, 'x', 0) ++ (0, 'c', 0) :: List.replicate 16 (0, 'x', 0))
             6 0,
           TextLine.frame 0 0] else [])) := by
  have e1 : (traceS1 pixels).take 3
      = [callGenTextures42, callBindTexture42] ++ callTexSubImage pixels :: [] := rfl
  have e2 : traceS1 pixels = [callGenTextures42, callBindTexture42]
      ++ callTexSubImage pixels :: [callDrawArrays6, callSwapBuffers] := rfl
  constructor
  · rw [analyze_traceS1, e1, traceS1_pass2_payload]
    cases txt <;> cases raw <;> decide
  · rw [analyze_traceS1]
    rw [e2, traceS1_pass2_payload]
    cases txt <;> cases raw <;> decide

/-! ### Scenario S3 -/

/-- Two call streams whose calls act alike pairwise are scanned alike. -/
theorem retraceAll_congr (xs ys : List Call)
    (h : List.Forall₂ (fun x y => ∀ cs, retrace cs x = retrace cs y) xs ys) :
    ∀ cs, retraceAll cs xs = retraceAll cs ys := by
  induction h with
  | nil => intro cs; rfl
  | cons hxy _ ih =>
    intro cs
    simp only [retraceAll, hxy cs]
    cases retrace cs _ with
    | none => rfl
    | some cs1 => exact ih cs1

/-- The data of the two `glBufferData` calls of scenario S3 have no effect on
the analyzer. -/
theorem traceS3Bound_payload (t10 t11 : Nat) (data : List Byte) (cs : Classifier × State) :
    retraceAll cs (traceS3Bound t10 t11 data) = retraceAll cs (traceS3Bound t10 t11 []) := by
  apply retraceAll_congr
  unfold traceS3Bound
  refine List.Forall₂.cons (fun _ => rfl) (List.Forall₂.cons (fun _ => rfl)
    (List.Forall₂.cons (fun _ => rfl) (List.Forall₂.cons ?_
      (List.Forall₂.cons (fun _ => rfl) (List.Forall₂.cons ?_ List.Forall₂.nil)))))
  · exact fun cs => retrace_bufferData cs t10 data []
  · exact fun cs => retrace_bufferData cs t11 data []

theorem analyze_traceS3Bound (txt raw : Bool) (t10 t11 : Nat) (data : List Byte) :
    analyze txt raw (traceS3Bound t10 t11 data) (traceS3Bound t10 t11 data)
      = analyze txt raw (traceS3Bound t10 t11 []) (traceS3Bound t10 t11 []) := by
  simp only [analyze, traceS3Bound_payload t10 t11 data]

set_option maxRecDepth 100000 in
/-- Claim C22 as stated fails.  Over the calls that the scenario lists (two
`glGenBuffers`, two `glBufferData`, no `glBindBuffer`) no buffer is bound, so
`glBufferData` makes no `stateSort` call and no bin is known for the handles 10
and 11: both stay without an id (`getPtrHashID` is -1) and nothing is written.
With each buffer bound before its data is set, but to different targets, the
two buffers get the same id 0, each in the bin of its target. -/
theorem scenario_S3_as_stated :
    (analyze true true (traceS3 (List.replicate 128 7)) (traceS3 (List.replicate 128 7))).map
      (fun cs => (getPtrHashID cs.2.mapPtrToHash 10, getPtrHashID cs.2.mapPtrToHash 11,
        cs.2.mapPtrToBin.length, cs.2.g_fp2.length))
      = some (-1, -1, 0, 0)
    ∧ (analyze true true
        (traceS3Bound GL_ARRAY_BUFFER GL_ELEMENT_ARRAY_BUFFER (List.replicate 128 7))
        (traceS3Bound GL_ARRAY_BUFFER GL_ELEMENT_ARRAY_BUFFER (List.replicate 128 7))).map
      (fun cs => (getPtrHashID cs.2.mapPtrToHash 10, getPtrHashID cs.2.mapPtrToHash 11))
      = some (0, 0) :=
  ⟨by decide, by decide⟩

set_option maxRecDepth 100000 in
/-- Claim C22, amended: pass 1 and then pass 2 over `glGenBuffers` returning 10,
`glGenBuffers` returning 11, and for each buffer a `glBindBuffer` to one and the
same target (`GL_ARRAY_BUFFER` for both, or `GL_ELEMENT_ARRAY_BUFFER` for both)
followed by `glBufferData` with the same data, leave the buffers 10 and 11 with
the ids 0 and 1, both assigned and different, in the bin of the target, whose
value table then has two entries; this holds for every content of the data. -/
theorem scenario_S3 (txt raw : Bool) (data : List Byte) :
    (analyze txt raw (traceS3Bound GL_ARRAY_BUFFER GL_ARRAY_BUFFER data)
        (traceS3Bound GL_ARRAY_BUFFER GL_ARRAY_BUFFER data)).map
      (fun cs => (getPtrHashID cs.2.mapPtrToHash 10, getPtrHashID cs.2.mapPtrToHash 11,
        getBin cs.2.mapPtrToBin 10, getBin cs.2.mapPtrToBin 11,
        (binAt cs.2.vecBins BIN_VERTEX0).map (fun b => b.cnt)))
      = some (0, 1, BIN_VERTEX0, BIN_VERTEX0, some 2)
    ∧ (analyze txt raw (traceS3Bound GL_ELEMENT_ARRAY_BUFFER GL_ELEMENT_ARRAY_BUFFER data)
        (traceS3Bound GL_ELEMENT_ARRAY_BUFFER GL_ELEMENT_ARRAY_BUFFER data)).map
      (fun cs => (getPtrHashID cs.2.mapPtrToHash 10, getPtrHashID cs.2.mapPtrToHash 11,
        getBin cs.2.mapPtrToBin 10, getBin cs.2.mapPtrToBin 11,
        (binAt cs.2.vecBins BIN_INDEX).map (fun b => b.cnt)))
      = some (0, 1, BIN_INDEX, BIN_INDEX, some 2) := by
  rw [analyze_traceS3Bound txt raw GL_ARRAY_BUFFER GL_ARRAY_BUFFER data,
    analyze_traceS3Bound txt raw GL_ELEMENT_ARRAY_BUFFER GL_ELEMENT_ARRAY_BUFFER data]
  constructor <;> cases txt <;> cases raw <;> decide

/-! ### Buffer data -/

set_option maxRecDepth 100000 in
/-- Claim C24 fails in the code: `glBufferData` with 128 bytes of data on the
target `GL_ARRAY_BUFFER` or `GL_ELEMENT_ARRAY_BUFFER`, issued while a buffer is
bound, is dispatched on the handle of the last bound buffer with the data as
payload and the size 128, but as a SWITCH, which is not UPDATE.  Applied in
pass 2 after a draw, with buffer 7 bound, it leaves the vertex bin with
last_change = SWITCH and bytes = 0 and the frame total 0, and writes the call
record with size 128. -/
theorem bufferData_dispatched_as_switch (c : Classifier) (data : List Byte) :
    stateCall c (callBufferData GL_ARRAY_BUFFER data)
      = some (c, if c.lastBindVBO = 0 then []
          else [sortArgs BIN_SWITCH "BufferData" 106 BIN_VERTEX0 c.lastBindVBO c.lastBindVBO
            (some data) 128])
    ∧ stateCall c (callBufferData GL_ELEMENT_ARRAY_BUFFER data)
      = some (c, if c.lastBindVBO = 0 then []
          else [sortArgs BIN_SWITCH "BufferData" 106 BIN_INDEX c.lastBindVBO c.lastBindVBO
            (some data) 128])
    ∧ BIN_SWITCH ≠ BIN_UPDATE
    ∧ (analyze false true (traceBufferData (List.replicate 128 7))
        (traceBufferData (List.replicate 128 7))).map
      (fun cs => (cs.1.lastBindVBO,
        (binAt cs.2.vecBins BIN_VERTEX0).map (fun b => (b.curr, b.change, b.bytes)),
        cs.2.g_bytes, cs.2.g_fp2.drop 4))
      = some (7, some (0, BIN_SWITCH, 0), 0, [Record.call 'C' 106 0 0 9 128 0 7]) := by
  refine ⟨?_, ?_, by decide, by decide⟩
  · rw [stateCall_bufferData]
    by_cases h : c.lastBindVBO = 0
    · simp only [h, if_true]
    · simp only [h, if_false]; rfl
  · rw [stateCall_bufferData]
    by_cases h : c.lastBindVBO = 0
    · simp only [h, if_true]
    · simp only [h, if_false]; rfl

/-! ### Scenario S6 -/

/-- Claim C23: `glDrawElements` whose indices argument is a blob of `n` bytes
makes one `stateSort` call, a CREATE on the draw bin with the blob as payload
and size `n`; in pass 2 this call writes, on the binary stream, a call record
with size `n` followed by one draw record, and nothing else.
`glDrawElements` whose indices argument is null makes one SWITCH on the draw
bin with size = the count argument and no payload. -/
theorem drawElements_classified (c : Classifier) (s : State) (call : Call)
    (buf : List Byte) (b25 : StateBin)
    (hn : call.name = "glDrawElements")
    (hlen : buf.length < 2147483648)
    (hpass : s.g_pass ≠ 1) (h25 : binAt s.vecBins BIN_DRAW = some b25)
    (hch : s.stateTraceTxt = true →
      ∀ b ∈ s.vecBins.take NUM_BIN, 0 ≤ b.change ∧ b.change < 5) :
    (call.arg 3 = some (Value.blob buf) →
      stateCall c call
        = some (c, [sortArgs BIN_CREATE "DrawElem" 102 BIN_DRAW 0 0 (some buf) buf.length])
      ∧ ∃ s1 draw_bytes, retrace (c, s) call = some (c, s1)
        ∧ s1.g_fp2 = s.g_fp2 ++ (if s.stateTraceRaw then
            [Record.call 'C' 102 0 0 25 buf.length (toUInt64 b25.curr) 0,
             Record.draw 'D' 102 0 0
               ((s.vecBins.take 25).map (fun b => (b.curr, b.change, b.bytes)))
               buf.length 'D' draw_bytes] else []))
    ∧ (∀ a1, call.arg 3 = some Value.null → call.arg 1 = some a1 →
      stateCall c call
        = some (c, [sortArgs BIN_SWITCH "DrawElem" 102 BIN_DRAW 0 0 none
            (toInt32 a1.toSInt)])) := by
  have h32 : toInt32 (buf.length : Int) = buf.length := by
    unfold toInt32
    omega
  constructor
  · intro h3
    have hc : stateCall c call
        = some (c, [sortArgs BIN_CREATE "DrawElem" 102 BIN_DRAW 0 0 (some buf) buf.length]) := by
      simp [stateCall, hn, h3, Value.toNull, Value.asBlob, h32]
    refine ⟨hc, ?_⟩
    obtain ⟨s1, hs1, hs⟩ : ∃ s1, s1 = { s with
          vecBins := resetChange s.vecBins,
          g_bytes := (s.g_bytes + toUInt64 (sumBytes (s.vecBins.take NUM_BIN)))
            % 18446744073709551616,
          g_fp := s.g_fp ++ (if s.stateTraceTxt then
            [TextLine.call BIN_DRAW buf.length 0 (toUInt64 b25.curr) "DrawElem",
             TextLine.draw "DrawElem"
               ((s.vecBins.take NUM_BIN).map
                 (fun b => (b.curr, (ctAt b.change).getD 'x', b.bytes)))
               buf.length (sumBytes (s.vecBins.take NUM_BIN))] else []),
          g_fp2 := s.g_fp2 ++ (if s.stateTraceRaw then
            [Record.call 'C' (toInt8 102) 0 0 BIN_DRAW buf.length (toUInt64 b25.curr) 0,
             Record.draw 'D' (toInt8 102) 0 0 ((s.vecBins.take NUM_BIN).map rawTriple)
               buf.length 'D' (sumBytes (s.vecBins.take NUM_BIN))] else []) }
        ∧ stateSort s BIN_CREATE "DrawElem" 102 BIN_DRAW 0 0 (some buf) buf.length = some s1 :=
      ⟨_, rfl, stateSort_draw_eq s BIN_CREATE "DrawElem" 102 0 0 (some buf) buf.length b25
        hpass h25 hch⟩
    refine ⟨s1, sumBytes (s.vecBins.take NUM_BIN), ?_, ?_⟩
    · simp only [retrace, hc, run, step, sortArgs, hs]
    · rw [hs1]; rfl
  · intro a1 h3 h1
    simp [stateCall, hn, h3, h1, Value.toNull]

theorem drawElements_classified_witness :
    (callDrawElements (Value.blob (List.replicate 24 1))).name = "glDrawElements"
    ∧ (List.replicate 24 (1 : Byte)).length = 24
    ∧ (stateCall initClassifier (callDrawElements (Value.blob (List.replicate 24 1)))
        = some (initClassifier,
            [sortArgs BIN_CREATE "DrawElem" 102 BIN_DRAW 0 0 (some (List.replicate 24 1)) 24])
      ∧ ∃ s1 draw_bytes,
        retrace (initClassifier, demoDrawState) (callDrawElements (Value.blob (List.replicate 24 1)))
          = some (initClassifier, s1)
        ∧ s1.g_fp2 = demoDrawState.g_fp2 ++ (if demoDrawState.stateTraceRaw then
            [Record.call 'C' 102 0 0 25 24 (toUInt64 newBin.curr) 0,
             Record.draw 'D' 102 0 0
               ((demoDrawState.vecBins.take 25).map (fun b => (b.curr, b.change, b.bytes)))
               24 'D' draw_bytes] else [])) :=
  ⟨rfl, rfl,
    (drawElements_classified initClassifier demoDrawState
      (callDrawElements (Value.blob (List.replicate 24 1))) (List.replicate 24 1) newBin
      rfl (by decide) (by decide) (by decide) (by decide)).1 rfl⟩

/-! ### Texture upload size -/

theorem toInt32_mul_toInt32 (a k : Int) : toInt32 (toInt32 a * k) = toInt32 (a * k) := by
  unfold toInt32
  have h : ((a + 2147483648) % 4294967296 - 2147483648) * k
      = a * k + (- ((a + 2147483648) / 4294967296) * k) * 4294967296 := by
    have := Int.emod_add_ediv (a + 2147483648) 4294967296
    linear_combination k * this
  rw [h, add_right_comm, Int.add_mul_emod_self]

/-- The size that `glTexSubImage2D` computes is the product of width, height
and the two factors, brought into `int`. -/
theorem texSize_eq (width height : Int) (format type : Nat) :
    texSize width height format type
      = toInt32 (width * height * specFormatFactor format * specTypeFactor type) := by
  have h1 : ∀ x : Int, toInt32 (toInt32 x) = toInt32 x := by
    intro x
    have := toInt32_mul_toInt32 x 1
    simpa using this
  unfold texSize specFormatFactor specTypeFactor
  simp only [GL_RGB, GL_RGBA, GL_BGR, GL_BGRA, GL_UNSIGNED_SHORT, GL_UNSIGNED_INT, GL_INT,
    GL_FLOAT]
  split_ifs <;> simp_all [toInt32_mul_toInt32, h1]

/-- Claim C25: `glTexSubImage2D` with width `w`, height `h`, format `f` and type
`t`, issued while a texture is bound (`lastBindTEX` is not 0), makes one
`stateSort` call, an UPDATE on the texture bin for the last bound texture
handle, with the size `w * h * F * T` in `int` arithmetic, where F is 3 for
RGB/BGR, 4 for RGBA/BGRA and 1 otherwise and T is 2 for UNSIGNED_SHORT, 4 for
UNSIGNED_INT/INT/FLOAT and 1 otherwise; for `w = h = 4`, RGBA, UNSIGNED_BYTE the
size is 64.  While `lastBindTEX` is 0 the call makes no `stateSort` call. -/
theorem texSubImage_size (c : Classifier) (call : Call) (a4 a5 a6 a7 a8 : Value)
    (hn : call.name = "glTexSubImage2D")
    (h4 : call.arg 4 = some a4) (h5 : call.arg 5 = some a5) (h6 : call.arg 6 = some a6)
    (h7 : call.arg 7 = some a7) (h8 : call.arg 8 = some a8) :
    (c.lastBindTEX ≠ 0 →
      stateCall c call
        = some (c, [sortArgs BIN_UPDATE "TexSubImage2D" 112 BIN_TEXTURE c.lastBindTEX
            c.lastBindTEX a8.toPointer
            (toInt32 (a4.toSInt * a5.toSInt * specFormatFactor (toGLenum a6.toSInt)
              * specTypeFactor (toGLenum a7.toSInt)))]))
    ∧ (c.lastBindTEX = 0 → stateCall c call = some (c, []))
    ∧ toInt32 (4 * 4 * specFormatFactor GL_RGBA * specTypeFactor GL_UNSIGNED_BYTE) = 64
    ∧ texSize 4 4 GL_RGBA GL_UNSIGNED_BYTE = 64 := by
  refine ⟨?_, ?_, by decide, by decide⟩
  · intro h
    rw [← texSize_eq]
    simp [stateCall, hn, h4, h5, h6, h7, h8, h]
  · intro h
    simp [stateCall, hn, h, strstr]

theorem texSubImage_size_witness :
    (callTexSubImage [1, 2, 3]).name = "glTexSubImage2D"
    ∧ stateCall { lastBindVBO := 0, lastBindTEX := 10042 } (callTexSubImage [1, 2, 3])
        = some ({ lastBindVBO := 0, lastBindTEX := 10042 },
            [sortArgs BIN_UPDATE "TexSubImage2D" 112 BIN_TEXTURE 10042 10042
              (Value.blob [1, 2, 3]).toPointer
              (toInt32 ((Value.sint 4).toSInt * (Value.sint 4).toSInt
                * specFormatFactor (toGLenum (Value.const "GL_RGBA" (Value.sint 6408)).toSInt)
                * specTypeFactor
                  (toGLenum (Value.const "GL_UNSIGNED_BYTE" (Value.sint 5121)).toSInt)))])
    ∧ stateCall initClassifier (callTexSubImage [1, 2, 3]) = some (initClassifier, []) :=
  ⟨rfl,
    (texSubImage_size { lastBindVBO := 0, lastBindTEX := 10042 } (callTexSubImage [1, 2, 3])
      (Value.sint 4) (Value.sint 4) (Value.const "GL_RGBA" (Value.sint 6408))
      (Value.const "GL_UNSIGNED_BYTE" (Value.sint 5121)) (Value.blob [1, 2, 3])
      rfl rfl rfl rfl rfl rfl).1 (by decide),
    (texSubImage_size initClassifier (callTexSubImage [1, 2, 3])
      (Value.sint 4) (Value.sint 4) (Value.const "GL_RGBA" (Value.sint 6408))
      (Value.const "GL_UNSIGNED_BYTE" (Value.sint 5121)) (Value.blob [1, 2, 3])
      rfl rfl rfl rfl rfl rfl).2.1 rfl⟩

/-! ### Multi-slot calls -/

theorem slotCalls_eq (name : String) (nameID slot0 : Int) (vs : List Value) :
    ∀ k n, n + k ≤ vs.length →
      slotCalls name nameID slot0 (some vs) k n
        = some ((List.range' n k).map (fun i =>
            sortArgs BIN_SWITCH name nameID (slot0 + (i : Nat)) (vs.getD i Value.null).toUIntPtr
              (vs.getD i Value.null).toUIntPtr none 0)) := by
  intro k
  induction k with
  | zero => intro n _; rfl
  | succ k ih =>
    intro n hn
    have hlt : n < vs.length := by omega
    have hget : vs[n]? = some vs[n] := List.getElem?_eq_getElem hlt
    have hd : vs.getD n Value.null = vs[n] := by
      rw [List.getD_eq_getElem?_getD, hget]; rfl
    simp only [slotCalls, hget, ih (n + 1) (by omega), List.range'_succ, List.map_cons, hd]

theorem multiSlot_eq (call : Call) (name : String) (nameID slot0 : Int) (a2 : Value)
    (vs : List Value) (h2 : call.arg 2 = some a2) (h3 : call.arg 3 = some (Value.array vs))
    (hc : a2.toUInt < 2147483648) (hlen : min a2.toUInt 5 ≤ vs.length) :
    multiSlot call name nameID slot0
      = some ((List.range (min a2.toUInt 5)).map (fun i =>
          sortArgs BIN_SWITCH name nameID (slot0 + (i : Nat)) (vs.getD i Value.null).toUIntPtr
            (vs.getD i Value.null).toUIntPtr none 0)) := by
  have h32 : toInt32 (a2.toUInt : Int) = a2.toUInt := by
    unfold toInt32
    omega
  have hnum : (if (a2.toUInt : Int) > 5 then (5 : Int) else a2.toUInt).toNat
      = min a2.toUInt 5 := by
    split_ifs with h <;> omega
  simp only [multiSlot, h2, h3, Value.asArray, h32, hnum]
  rw [slotCalls_eq name nameID slot0 vs _ 0 (by omega), List.range_eq_range']

set_option maxRecDepth 100000 in
/-- Claim C26 fails in the code, through the defect of claim C13.  The
classifier does what the claim says: for a count `c` below `2^31` and an array
of at least `min (c, 5)` handles, each of the three calls makes exactly
`min (c, 5)` SWITCH calls of `stateSort`, in increasing `n`, the `n`-th with the
supplied bin `slot0 + n` and the `n`-th handle.  But pass 2 of `stateSort`
replaces the supplied bin by the bin that the resource map holds for the handle:
in the trace `CreateBuffer` returning 101, `Draw`, `VSSetConstantBuffers` with
count 7 and the buffers 101 to 107, `PSSetConstantBuffers` with the buffer 101,
the `VSSetConstantBuffers` call of pass 2 sets `change` to SWITCH in the bin
PSCONST0 (19), outside its slot family, writes the call record of buffer 101
with that bin, and leaves VSCONST0 (14) as it was.  A count of `2^31` is read
into an `int` as a negative number and makes no call at all. -/
theorem multiSlot_fanout (c : Classifier) (call : Call) (a2 : Value) (vs : List Value)
    (h2 : call.arg 2 = some a2) (h3 : call.arg 3 = some (Value.array vs))
    (hc : a2.toUInt < 2147483648) (hlen : min a2.toUInt 5 ≤ vs.length) :
    (call.name = "ID3D10Device::IASetVertexBuffers"
        ∨ call.name = "ID3D11DeviceContext::IASetVertexBuffers" →
      stateCall c call = some (c, (List.range (min a2.toUInt 5)).map (fun n =>
        sortArgs BIN_SWITCH "IASetVertexBuffers" 17 (BIN_VERTEX0 + (n : Nat))
          (vs.getD n Value.null).toUIntPtr (vs.getD n Value.null).toUIntPtr none 0)))
    ∧ (call.name = "ID3D10Device::VSSetConstantBuffers"
        ∨ call.name = "ID3D11DeviceContext::VSSetConstantBuffers" →
      stateCall c call = some (c, (List.range (min a2.toUInt 5)).map (fun n =>
        sortArgs BIN_SWITCH "VSSetConstantBuffers" 19 (BIN_VSCONST0 + (n : Nat))
          (vs.getD n Value.null).toUIntPtr (vs.getD n Value.null).toUIntPtr none 0)))
    ∧ (call.name = "ID3D10Device::PSSetConstantBuffers"
        ∨ call.name = "ID3D11DeviceContext::PSSetConstantBuffers" →
      stateCall c call = some (c, (List.range (min a2.toUInt 5)).map (fun n =>
        sortArgs BIN_SWITCH "PSSetConstantBuffers" 20 (BIN_PSCONST0 + (n : Nat))
          (vs.getD n Value.null).toUIntPtr (vs.getD n Value.null).toUIntPtr none 0)))
    ∧ (analyze false true traceSharedBuffer (traceSharedBuffer.take 3)).map
        (fun cs => (getBin cs.2.mapPtrToBin 101,
          (binAt cs.2.vecBins BIN_VSCONST0).map (fun b => (b.curr, b.change, b.bytes)),
          (binAt cs.2.vecBins BIN_PSCONST0).map (fun b => (b.curr, b.change, b.bytes))))
      = some (BIN_PSCONST0, some (0, BIN_UNDEF, 0), some (0, BIN_SWITCH, 0))
    ∧ (analyze false true traceSharedBuffer (traceSharedBuffer.take 3)).map
        (fun cs => cs.2.g_fp2.drop 3)
      = some ([Record.call 'C' 19 0 0 19 0 0 101, Record.call 'C' 19 0 0 15 0 0 102,
            Record.call 'C' 19 0 0 16 0 0 103, Record.call 'C' 19 0 0 17 0 0 104,
            Record.call 'C' 19 0 0 18 0 0 105])
    ∧ stateCall initClassifier
        (callVSSetConstantBuffers (Value.uint 2147483648) [101, 102, 103, 104, 105, 106, 107])
      = some (initClassifier, []) := by
  refine ⟨?_, ?_, ?_, by decide, by decide, by decide⟩
  · intro hn
    rcases hn with hn | hn <;>
      simp [stateCall, hn, strstr, multiSlot_eq call _ _ _ a2 vs h2 h3 hc hlen]
  · intro hn
    rcases hn with hn | hn <;>
      simp [stateCall, hn, strstr, multiSlot_eq call _ _ _ a2 vs h2 h3 hc hlen]
  · intro hn
    rcases hn with hn | hn <;>
      simp [stateCall, hn, strstr, multiSlot_eq call _ _ _ a2 vs h2 h3 hc hlen]

theorem multiSlot_fanout_witness :
    stateCall initClassifier
        (callVSSetConstantBuffers (Value.uint 7) [101, 102, 103, 104, 105, 106, 107])
      = some (initClassifier, (List.range (min (Value.uint 7).toUInt 5)).map (fun n =>
        sortArgs BIN_SWITCH "VSSetConstantBuffers" 19 (BIN_VSCONST0 + (n : Nat))
          (([101, 102, 103, 104, 105, 106, 107].map (fun h => Value.uint h)).getD n
            Value.null).toUIntPtr
          (([101, 102, 103, 104, 105, 106, 107].map (fun h => Value.uint h)).getD n
            Value.null).toUIntPtr none 0))
    ∧ min (Value.uint 7).toUInt 5 = 5 :=
  ⟨(multiSlot_fanout initClassifier
      (callVSSetConstantBuffers (Value.uint 7) [101, 102, 103, 104, 105, 106, 107])
      (Value.uint 7) ([101, 102, 103, 104, 105, 106, 107].map (fun h => Value.uint h))
      rfl rfl (by decide) (by decide)).2.1 (Or.inr rfl), by decide⟩

/-! ### Handle biases -/

theorem toULong_cast (n : Nat) (h : n < 4294967296) : toULong (n : Int) = n := by
  unfold toULong
  omega

theorem stateCall_genTextures (c : Classifier) (t : Nat) (ht : t < 10000) :
    stateCall c (callGenTextures t)
      = some (c, [sortArgs BIN_CREATE "GenTextures" 110 BIN_TEXTURE (t + 10000) (t + 10000)
          none 0]) := by
  have h : (t % 18446744073709551616 + 10000) % 18446744073709551616 = t + 10000 := by omega
  simp [stateCall, callGenTextures, perElement, Call.arg, Value.asArray, Value.toUInt, h]

theorem stateCall_bindTexture (c : Classifier) (t : Nat) (ht : t < 10000) :
    stateCall c (callBindTexture t)
      = some ({ c with lastBindTEX := t + 10000 },
          [sortArgs BIN_SWITCH "BindTexture" 111 BIN_TEXTURE (t + 10000) (t + 10000) none 0]) := by
  have h : toULong ((t : Int) % 18446744073709551616 + 10000) = t + 10000 := by
    unfold toULong
    omega
  simp [stateCall, callBindTexture, Call.arg, Value.toUInt, h]

theorem stateCall_createShader (c : Classifier) (s : Nat) (hs : s < 4294947296) :
    stateCall c (callCreateShader s)
      = some (c, [sortArgs BIN_CREATE "CreateShader" 107 BIN_SHADER (s + 20000) (s + 20000)
          (some (leBytes 4 (s + 20000))) 8]) := by
  have h : toULong ((s : Int) % 18446744073709551616 + 20000) = s + 20000 := by
    unfold toULong
    omega
  simp [stateCall, callCreateShader, createShader, Value.toUInt, h]

theorem stateCall_useProgram (c : Classifier) (s : Nat) (hs : s < 4294947296) :
    stateCall c (callUseProgram s)
      = some (c, [sortArgs BIN_SWITCH "UseProgram" 109 BIN_SHADER (s + 20000) (s + 20000)
          none 0]) := by
  have h : toULong ((s : Int) % 18446744073709551616 + 20000) = s + 20000 := by
    unfold toULong
    omega
  simp [stateCall, callUseProgram, Call.arg, Value.toUInt, h]

theorem stateCall_genBuffers (c : Classifier) (u : Nat) (hu : u < 10000) :
    stateCall c (callGenBuffers u)
      = some (c, [sortArgs BIN_CREATE "GenBuffers" 104 BIN_UNKNOWN u u none 0]) := by
  have h : u % 18446744073709551616 = u := by omega
  simp [stateCall, callGenBuffers, perElement, Call.arg, Value.asArray, Value.toUInt, h]

theorem stateCall_bindBuffer (c : Classifier) (u : Nat) (hu : u < 10000) :
    stateCall c (callBindBuffer GL_ARRAY_BUFFER u)
      = some ({ c with lastBindVBO := u },
          [sortArgs BIN_SWITCH "BindBuffer" 105 BIN_VERTEX0 u u none 0]) := by
  have h : toULong ((u : Int) % 18446744073709551616) = u := by
    unfold toULong
    omega
  have hg : toGLenum 34962 = 34962 := by decide
  simp [stateCall, callBindBuffer, Call.arg, Value.toUInt, Value.toSInt, h, hg, bufferTarget]

theorem stateCall_getUniformLocation (c : Classifier) (p u : Nat) (hu : u < 10000) :
    stateCall c (callGetUniformLocation p u)
      = some (c, [sortArgs BIN_CREATE "GetUniformLocation" 113 BIN_UNKNOWN u u none 0]) := by
  have h : toULong (u : Int) = u := toULong_cast u (by omega)
  simp [stateCall, callGetUniformLocation, Value.toSInt, h]

/-- In pass 1 a call that makes one `stateSort` call on a bin below
`BIN_DRAW` records the handle in the resource map and does nothing else. -/
theorem retrace_pass1_single (cs : Classifier × State) (call : Call) (c1 : Classifier)
    (a : Invocation) (hc : stateCall cs.1 call = some (c1, [a])) (hpass : cs.2.g_pass = 1)
    (hb : a.bin < BIN_DRAW) :
    retrace cs call
      = some (c1, { cs.2 with mapPtrToBin := mapSet cs.2.mapPtrToBin a.objptr a.bin }) := by
  simp only [retrace, hc, run, step, stateSort_pass1_eq _ _ _ _ _ _ _ _ _ hpass, hb, if_true]

set_option maxRecDepth 100000 in
/-- Claim C27 as stated fails: the texture name 5 and the buffer name 10005
are given the same handle 10005.  Pass 1 over `glGenTextures` returning 5,
`glBindTexture` of 5, `glGenBuffers` returning 10005 and `glBindBuffer` of 10005
leaves the resource map with the single entry `10005 -> VERTEX0`, and pass 2
writes the two texture calls to the vertex bin and gives the texture and the
buffer one id. -/
theorem handle_bias_clash :
    (stateCall initClassifier (callBindTexture 5)).map
        (fun r => r.2.map (fun a => (a.bin, a.objptr)))
      = some [(BIN_TEXTURE, 10005)]
    ∧ (stateCall initClassifier (callBindBuffer GL_ARRAY_BUFFER 10005)).map
        (fun r => r.2.map (fun a => (a.bin, a.objptr)))
      = some [(BIN_VERTEX0, 10005)]
    ∧ (analyze false true traceBiasClash traceBiasClash).map
        (fun cs => (cs.2.mapPtrToBin, cs.2.mapPtrToHash, cs.2.g_fp2))
      = some ([(10005, BIN_VERTEX0)], [(10005, 0)],
          [Record.call 'C' 110 0 0 9 0 0 10005, Record.call 'C' 111 0 0 9 0 0 10005,
            Record.call 'C' 104 0 0 9 0 0 10005, Record.call 'C' 105 0 0 9 0 0 10005]) :=
  ⟨by decide, by decide, by decide⟩

/-- Claim C27, amended: the handle that the classifier uses for a texture
name `t` is `t + 10000` (`glGenTextures`, `glBindTexture`), for a shader or
program name `s` it is `s + 20000` (`glCreateShader`, `glUseProgram`), and for
a buffer name or uniform location `u` it is `u` (`glGenBuffers`,
`glBindBuffer`, `glGetUniformLocation`).  For `t < 10000`, `u < 10000` and
`s < 2^32 - 20000` these three handles are pairwise distinct, and pass 1 over
`glBindTexture` of `t`, `glUseProgram` of `s` and `glBindBuffer` of `u` leaves
the resource map with three entries, one for each handle. -/
theorem handle_bias_separates (c : Classifier) (txt raw : Bool) (t s u : Nat)
    (ht : t < 10000) (hs : s < 4294947296) (hu : u < 10000) :
    (stateCall c (callGenTextures t)).map (fun r => r.2.map (fun a => a.objptr))
      = some [t + 10000]
    ∧ (stateCall c (callBindTexture t)).map (fun r => r.2.map (fun a => a.objptr))
      = some [t + 10000]
    ∧ (stateCall c (callCreateShader s)).map (fun r => r.2.map (fun a => a.objptr))
      = some [s + 20000]
    ∧ (stateCall c (callUseProgram s)).map (fun r => r.2.map (fun a => a.objptr))
      = some [s + 20000]
    ∧ (stateCall c (callGenBuffers u)).map (fun r => r.2.map (fun a => a.objptr)) = some [u]
    ∧ (stateCall c (callBindBuffer GL_ARRAY_BUFFER u)).map
        (fun r => r.2.map (fun a => a.objptr)) = some [u]
    ∧ (stateCall c (callGetUniformLocation s u)).map (fun r => r.2.map (fun a => a.objptr))
      = some [u]
    ∧ t + 10000 ≠ s + 20000 ∧ t + 10000 ≠ u ∧ s + 20000 ≠ u
    ∧ (retraceAll (c, { createBins (initState txt raw) with g_pass := 1 })
        [callBindTexture t, callUseProgram s, callBindBuffer GL_ARRAY_BUFFER u]).map
        (fun cs => cs.2.mapPtrToBin)
      = some [(t + 10000, BIN_TEXTURE), (s + 20000, BIN_SHADER), (u, BIN_VERTEX0)] := by
  have e1 : ¬ t + 10000 = s + 20000 := by omega
  have e2 : ¬ t + 10000 = u := by omega
  have e3 : ¬ s + 20000 = u := by omega
  refine ⟨?_, ?_, ?_, ?_, ?_, ?_, ?_, e1, e2, e3, ?_⟩
  · rw [stateCall_genTextures c t ht]; rfl
  · rw [stateCall_bindTexture c t ht]; rfl
  · rw [stateCall_createShader c s hs]; rfl
  · rw [stateCall_useProgram c s hs]; rfl
  · rw [stateCall_genBuffers c u hu]; rfl
  · rw [stateCall_bindBuffer c u hu]; rfl
  · rw [stateCall_getUniformLocation c s u hu]; rfl
  · have r1 := retrace_pass1_single (c, { createBins (initState txt raw) with g_pass := 1 })
      (callBindTexture t) _ _ (stateCall_bindTexture c t ht) rfl
      (show BIN_TEXTURE < BIN_DRAW by decide)
    have r2 := retrace_pass1_single
      ({ c with lastBindTEX := t + 10000 },
        { createBins (initState txt raw) with
          g_pass := 1, mapPtrToBin := [(t + 10000, BIN_TEXTURE)] })
      (callUseProgram s) _ _ (stateCall_useProgram _ s hs) rfl
      (show BIN_SHADER < BIN_DRAW by decide)
    have r3 := retrace_pass1_single
      ({ c with lastBindTEX := t + 10000 },
        { createBins (initState txt raw) with
          g_pass := 1, mapPtrToBin := [(t + 10000, BIN_TEXTURE), (s + 20000, BIN_SHADER)] })
      (callBindBuffer GL_ARRAY_BUFFER u) _ _ (stateCall_bindBuffer _ u hu) rfl
      (show BIN_VERTEX0 < BIN_DRAW by decide)
    have m2 : mapSet [(t + 10000, BIN_TEXTURE)] (s + 20000) BIN_SHADER
        = [(t + 10000, BIN_TEXTURE), (s + 20000, BIN_SHADER)] := by
      simp only [mapSet, e1, if_false]
    have m3 : mapSet [(t + 10000, BIN_TEXTURE), (s + 20000, BIN_SHADER)] u BIN_VERTEX0
        = [(t + 10000, BIN_TEXTURE), (s + 20000, BIN_SHADER), (u, BIN_VERTEX0)] := by
      simp only [mapSet, e2, e3, if_false]
    simp only [sortArgs] at r1 r2 r3
    rw [show mapSet (createBins (initState txt raw)).mapPtrToBin (t + 10000) BIN_TEXTURE
      = [(t + 10000, BIN_TEXTURE)] from rfl] at r1
    rw [m2] at r2
    rw [m3] at r3
    simp only [retraceAll, r1, r2, r3, Option.map]

theorem handle_bias_separates_witness :
    (stateCall initClassifier (callBindTexture 5)).map (fun r => r.2.map (fun a => a.objptr))
      = some [5 + 10000]
    ∧ (stateCall initClassifier (callUseProgram 5)).map
        (fun r => r.2.map (fun a => a.objptr)) = some [5 + 20000]
    ∧ (stateCall initClassifier (callBindBuffer GL_ARRAY_BUFFER 5)).map
        (fun r => r.2.map (fun a => a.objptr)) = some [5]
    ∧ (retraceAll (initClassifier, { createBins (initState false true) with g_pass := 1 })
        [callBindTexture 5, callUseProgram 5, callBindBuffer GL_ARRAY_BUFFER 5]).map
        (fun cs => cs.2.mapPtrToBin)
      = some [(5 + 10000, BIN_TEXTURE), (5 + 20000, BIN_SHADER), (5, BIN_VERTEX0)] :=
  have h := handle_bias_separates initClassifier false true 5 5 5 (by decide) (by decide)
    (by decide)
  ⟨h.2.1, h.2.2.2.1, h.2.2.2.2.2.1, h.2.2.2.2.2.2.2.2.2.2⟩

/-! ### Region map -/

theorem lower_bound_all_after (regionMap : RegionMap) (address : Nat)
    (h : ∀ e ∈ regionMap, address < e.1) :
    lower_bound regionMap address = ([], regionMap) := by
  cases regionMap with
  | nil => rfl
  | cons e rest =>
    have he : ¬ e.1 < address := by
      have := h e (List.mem_cons_self _ _)
      omega
    simp [lower_bound, List.takeWhile, List.dropWhile, he]

theorem lower_bound_at (pre post : RegionMap) (e : Nat × Region) (address : Nat)
    (hpre : ∀ x ∈ pre, x.1 < e.1) (he : e.1 = address) :
    lower_bound (pre ++ e :: post) address = (pre, e :: post) := by
  have hp : ∀ x ∈ pre, decide (x.1 < address) = true := by
    intro x hx
    have := hpre x hx
    simp only [decide_eq_true_eq]
    omega
  have hne : ¬ e.1 < address := by omega
  simp only [lower_bound, List.takeWhile_append_of_pos hp, List.dropWhile_append_of_pos hp]
  simp [List.takeWhile, List.dropWhile, hne]

theorem lower_bound_inside (pre post : RegionMap) (e : Nat × Region) (address : Nat)
    (hpre : ∀ x ∈ pre, x.1 < e.1) (hpost : ∀ x ∈ post, address < x.1)
    (he : e.1 < address) :
    lower_bound (pre ++ e :: post) address = (pre ++ [e], post) := by
  have hp : ∀ x ∈ pre, decide (x.1 < address) = true := by
    intro x hx
    have := hpre x hx
    simp only [decide_eq_true_eq]
    omega
  have h2 := lower_bound_all_after post address hpost
  simp only [lower_bound, Prod.mk.injEq] at h2
  simp only [lower_bound, List.takeWhile_append_of_pos hp, List.dropWhile_append_of_pos hp]
  simp [List.takeWhile, List.dropWhile, he, h2.1, h2.2]

theorem lookupRegion_below (ndebug : Bool) (regionMap : RegionMap) (address : Nat)
    (h : ∀ e ∈ regionMap, address < e.1) :
    lookupRegion ndebug regionMap address = some none := by
  unfold lookupRegion
  rw [lower_bound_all_after regionMap address h]
  cases regionMap with
  | nil => rfl
  | cons e rest =>
    have he : address < e.1 := h e (List.mem_cons_self _ _)
    simp [he]

theorem lookupRegion_inside (ndebug : Bool) (pre post : RegionMap) (e : Nat × Region)
    (address : Nat) (hpre : ∀ x ∈ pre, x.1 < e.1)
    (hpost : ∀ x ∈ post, e.1 + e.2.size ≤ x.1)
    (h1 : e.1 ≤ address) (h2 : address < e.1 + e.2.size)
    (h3 : e.1 + e.2.size < 18446744073709551616) :
    lookupRegion ndebug (pre ++ e :: post) address = some (some e) := by
  have hc : contains e address = true := by
    simp only [contains, Nat.mod_eq_of_lt h3, Bool.and_eq_true, decide_eq_true_eq]
    omega
  unfold lookupRegion
  rcases Nat.eq_or_lt_of_le h1 with he | he
  · rw [lower_bound_at pre post e address hpre he]
    have hn : ¬ e.1 > address := by omega
    simp [hn, hc]
  · have hpost2 : ∀ x ∈ post, address < x.1 := by
      intro x hx
      have := hpost x hx
      omega
    rw [lower_bound_inside pre post e address hpre hpost2 he]
    cases post with
    | nil => simp [hc]
    | cons x rest =>
      have hx : address < x.1 := hpost2 x (List.mem_cons_self _ _)
      simp [hx, hc]

theorem lookupRegion_past (pre : RegionMap) (e : Nat × Region) (address : Nat)
    (hpre : ∀ x ∈ pre, x.1 < e.1) (h1 : e.1 + e.2.size ≤ address)
    (h2 : 0 < e.2.size) (h3 : e.1 + e.2.size < 18446744073709551616) :
    lookupRegion false (pre ++ [e]) address = none := by
  have hc : contains e address = false := by
    simp only [contains, Nat.mod_eq_of_lt h3, Bool.and_eq_false_iff, decide_eq_false_iff_not]
    right
    omega
  unfold lookupRegion
  rw [lower_bound_inside pre [] e address hpre (by simp) (by omega)]
  simp [hc]

theorem lookupRegion_sound (regionMap : RegionMap) (address : Nat) (e : Nat × Region)
    (h : lookupRegion false regionMap address = some (some e)) :
    contains e address = true ∧ e ∈ regionMap := by
  have hb : ∀ x, (lower_bound regionMap address).1.getLast? = some x → x ∈ regionMap :=
    fun x hx => (List.takeWhile_sublist _).subset (List.mem_of_mem_getLast? hx)
  have hi : ∀ x, (lower_bound regionMap address).2.head? = some x → x ∈ regionMap :=
    fun x hx => (List.dropWhile_sublist _).subset (List.mem_of_mem_head? hx)
  simp only [lookupRegion] at h
  generalize (lower_bound regionMap address).1.getLast? = lastB at h hb
  generalize (lower_bound regionMap address).2.head? = it at h hi
  cases it with
  | none =>
    cases lastB with
    | none => simp at h
    | some p =>
      simp at h
      obtain ⟨hc, rfl⟩ := h
      exact ⟨hc, hb _ rfl⟩
  | some x =>
    by_cases hx : x.1 > address
    · cases lastB with
      | none => simp [hx] at h
      | some p =>
        simp [hx] at h
        obtain ⟨hc, rfl⟩ := h
        exact ⟨hc, hb _ rfl⟩
    · simp [hx] at h
      obtain ⟨hc, rfl⟩ := h
      exact ⟨hc, hi _ rfl⟩

theorem lookupAddress_of_region (ndebug : Bool) (regionMap : RegionMap) (address : Nat)
    (e : Nat × Region) (h : lookupRegion ndebug regionMap address = some (some e))
    (h1 : e.1 ≤ address) (h2 : address < e.1 + e.2.size)
    (h3 : e.1 + e.2.size < 18446744073709551616) :
    lookupAddress ndebug regionMap address = some (e.2.buffer + (address - e.1)) := by
  have ho : (address + 18446744073709551616 - e.1 % 18446744073709551616)
      % 18446744073709551616 = address - e.1 := by
    omega
  have hlt : address - e.1 < e.2.size := by omega
  simp [lookupAddress, h, ho, hlt]

/-- Claim C33 fails in the code: the assertion of `lookupRegion` can fail.
With the one region of 10 bytes at 100 (buffer at 4096), `lookupRegion (200)`
steps back to that region, which does not contain 200: the assertion fails, and
with assertions compiled out `lookupAddress (200)` returns 4196, an address past
the buffer, instead of 200.  With two overlapping regions the address 500, which
lies in the region at 100, fails the assertion on the region at 200.  In
general every address at or past the end of the last region fails it.  What
holds: a region that `lookupRegion` returns with assertions on contains the
address; an address below every region start gives no region and is returned
unchanged by `lookupAddress`; and an address inside a region that every later
region starts after gives that region and `buffer + (address - start)`. -/
theorem lookupRegion_assertion (ndebug : Bool) (regionMap : RegionMap) (address : Nat) :
    (lookupRegion false oneRegion 200 = none
      ∧ lookupAddress false oneRegion 200 = none
      ∧ lookupAddress true oneRegion 200 = some 4196
      ∧ lookupAddress false overlappingRegions 500 = none
      ∧ lookupAddress false oneRegion 105 = some 4101
      ∧ lookupAddress false oneRegion 50 = some 50)
    ∧ (∀ pre e, regionMap = pre ++ [e] → (∀ x ∈ pre, x.1 < e.1) → 0 < e.2.size →
        e.1 + e.2.size < 18446744073709551616 → e.1 + e.2.size ≤ address →
        lookupRegion false regionMap address = none
        ∧ lookupAddress false regionMap address = none)
    ∧ (∀ e, lookupRegion false regionMap address = some (some e) →
        contains e address = true ∧ e ∈ regionMap)
    ∧ ((∀ e ∈ regionMap, address < e.1) → address < 18446744073709551616 →
        lookupRegion ndebug regionMap address = some none
        ∧ lookupAddress ndebug regionMap address = some address)
    ∧ (∀ pre e post, regionMap = pre ++ e :: post → (∀ x ∈ pre, x.1 < e.1) →
        (∀ x ∈ post, e.1 + e.2.size ≤ x.1) → e.1 ≤ address → address < e.1 + e.2.size →
        e.1 + e.2.size < 18446744073709551616 →
        lookupRegion ndebug regionMap address = some (some e)
        ∧ lookupAddress ndebug regionMap address
            = some (e.2.buffer + (address - e.1))) := by
  refine ⟨by decide, ?_, fun e h => lookupRegion_sound regionMap address e h, ?_, ?_⟩
  · intro pre e hm hpre hs h3 h1
    have h := lookupRegion_past pre e address hpre h1 hs h3
    rw [hm]
    exact ⟨h, by simp [lookupAddress, h]⟩
  · intro hb ha
    have h := lookupRegion_below ndebug regionMap address hb
    exact ⟨h, by simp [lookupAddress, h, Nat.mod_eq_of_lt ha]⟩
  · intro pre e post hm hpre hpost h1 h2 h3
    have h := lookupRegion_inside ndebug pre post e address hpre hpost h1 h2 h3
    rw [hm]
    exact ⟨h, lookupAddress_of_region ndebug _ address e h h1 h2 h3⟩
/-! ### Frame number on the two streams -/

/-- Claim C32 fails in the code, through the statement `g_frame++` that claim
C8 is about.  With both streams on, a present in pass 2 writes the text line
with the frame number `g_frame` and the binary record with `g_frame + 1` (in
`int` arithmetic), which is a different number: the increment sits in the
`fprintf` of the text branch, before the binary record is packed.  The byte
total of the two is the same.  From the start of pass 2 the first
`wglSwapBuffers` writes `FRAME: 0` and a binary record with the frame
number 1. -/
theorem frame_number_streams (s : State) (change_type : Int) (name : String) (nameID : Int)
    (objptr datptr : Nat) (dat : Option (List Byte)) (size : Int)
    (hpass : s.g_pass ≠ 1) (htxt : s.stateTraceTxt = true) (hraw : s.stateTraceRaw = true) :
    ∃ s1, stateSort s change_type name nameID BIN_PRESENT objptr datptr dat size = some s1
      ∧ s1.g_fp = s.g_fp ++ [TextLine.frame s.g_frame (toInt32 s.g_bytes)]
      ∧ s1.g_fp2 = s.g_fp2
          ++ [Record.frame 'F' 0 0 0 (toInt32 (s.g_frame + 1)) (toInt32 s.g_bytes)]
      ∧ toInt32 (s.g_frame + 1) ≠ s.g_frame := by
  refine ⟨_, stateSort_present_eq s change_type name nameID objptr datptr dat size hpass,
    ?_, ?_, ?_⟩
  · simp only [htxt, if_true]
  · simp only [htxt, hraw, if_true]
  · unfold toInt32
    omega

set_option maxRecDepth 8000 in
theorem frame_number_streams_witness :
    ∃ s1, step (pass2Start true true) swapBuffers = some s1
      ∧ s1.g_fp = [TextLine.frame 0 0]
      ∧ s1.g_fp2 = [Record.frame 'F' 0 0 0 1 0] := by
  obtain ⟨s1, h1, h2, h3, -⟩ :=
    frame_number_streams (pass2Start true true) BIN_SWITCH "SwapBuffers" 100 0 0 none 0
      (by decide) rfl rfl
  exact ⟨s1, h1, by rw [h2]; rfl, by rw [h3]; rfl⟩

theorem supplied_sortArgs (change_type : Int) (name : String) (nameID bin : Int)
    (objptr datptr : Nat) (dat : Option (List Byte)) (size : Int)
    (hb : (0 ≤ bin ∧ bin ≤ 26) ∨ bin = BIN_UNKNOWN)
    (hk : change_type = BIN_CREATE ∨ change_type = BIN_UPDATE ∨ change_type = BIN_SWITCH) :
    Supplied (sortArgs change_type name nameID bin objptr datptr dat size) :=
  ⟨hb, hk⟩

theorem supplied_perElement (arr : Option Value) (change_type : Int) (name : String)
    (nameID bin : Int) (handle : Value → Nat) (payload : Nat → Option (List Byte))
    (size : Int) (l : List Invocation)
    (hb : (0 ≤ bin ∧ bin ≤ 26) ∨ bin = BIN_UNKNOWN)
    (hk : change_type = BIN_CREATE ∨ change_type = BIN_UPDATE ∨ change_type = BIN_SWITCH)
    (h : perElement arr change_type name nameID bin handle payload size = some l) :
    ∀ a ∈ l, Supplied a := by
  unfold perElement at h
  split at h
  · cases h
  · split at h
    · cases h
    · cases h
      intro a ha
      obtain ⟨v, -, rfl⟩ := List.mem_map.1 ha
      exact supplied_sortArgs _ _ _ _ _ _ _ _ hb hk

theorem supplied_firstElement (arr : Option Value) (name : String) (nameID bin : Int)
    (l : List Invocation) (hb : (0 ≤ bin ∧ bin ≤ 26) ∨ bin = BIN_UNKNOWN)
    (h : firstElement arr name nameID bin = some l) : ∀ a ∈ l, Supplied a := by
  unfold firstElement at h
  split at h
  · cases h
  · split at h
    · cases h
    · split at h
      · cases h
      · cases h
        intro a ha
        rw [List.mem_singleton.1 ha]
        exact supplied_sortArgs _ _ _ _ _ _ _ _ hb (Or.inl rfl)

theorem supplied_createShader (call : Call) (name : String) (nameID : Int)
    (l : List Invocation) (h : createShader call name nameID = some l) :
    ∀ a ∈ l, Supplied a := by
  unfold createShader at h
  split at h
  · cases h
  · cases h
    intro a ha
    rw [List.mem_singleton.1 ha]
    exact supplied_sortArgs _ _ _ _ _ _ _ _ (by decide) (Or.inl rfl)

theorem supplied_bufferTarget (target : Nat) (name : String) (nameID : Int) (ptr : Nat)
    (dat : Option (List Byte)) (size : Int) :
    ∀ a ∈ bufferTarget target name nameID ptr dat size, Supplied a := by
  intro a ha
  unfold bufferTarget at ha
  rcases List.mem_append.1 ha with h | h
  · split at h
    · rw [List.mem_singleton.1 h]
      exact supplied_sortArgs _ _ _ _ _ _ _ _ (by decide) (Or.inr (Or.inr rfl))
    · cases h
  · split at h
    · rw [List.mem_singleton.1 h]
      exact supplied_sortArgs _ _ _ _ _ _ _ _ (by decide) (Or.inr (Or.inr rfl))
    · cases h

theorem supplied_pointerCall (arg : Option Value) (name : String) (nameID bin : Int)
    (l : List Invocation) (hb : (0 ≤ bin ∧ bin ≤ 26) ∨ bin = BIN_UNKNOWN)
    (h : pointerCall arg name nameID bin = some l) : ∀ a ∈ l, Supplied a := by
  unfold pointerCall at h
  split at h
  · cases h
  · split at h
    · split at h
      · cases h
        intro a ha
        rw [List.mem_singleton.1 ha]
        exact supplied_sortArgs _ _ _ _ _ _ _ _ hb (Or.inr (Or.inr rfl))
      · cases h
        intro a ha
        rw [List.mem_singleton.1 ha]
        exact supplied_sortArgs _ _ _ _ _ _ _ _ hb (Or.inr (Or.inl rfl))
    · cases h
      intro a ha
      cases ha

theorem supplied_loadMatrix (call : Call) (name : String) (nameID : Int)
    (l : List Invocation) (h : loadMatrix call name nameID = some l) :
    ∀ a ∈ l, Supplied a := by
  unfold loadMatrix at h
  split at h
  · cases h
  · split at h
    · cases h
      intro a ha
      cases ha
    · split at h
      · cases h
      · split at h
        · cases h
        · cases h
          intro a ha
          rw [List.mem_singleton.1 ha]
          exact supplied_sortArgs _ _ _ _ _ _ _ _ (by decide) (Or.inr (Or.inl rfl))

theorem supplied_uniform (call : Call) (name : String) (nameID : Int) (n : Nat)
    (l : List Invocation) (h : uniform call name nameID n = some l) :
    ∀ a ∈ l, Supplied a := by
  unfold uniform at h
  split at h
  · cases h
  · simp only at h
    split at h
    · cases h
    · cases h
      intro a ha
      rw [List.mem_singleton.1 ha]
      exact supplied_sortArgs _ _ _ _ _ _ _ _ (by decide) (Or.inr (Or.inl rfl))

theorem supplied_shaderSource (call : Call) (l : List Invocation)
    (h : shaderSource call = some l) : ∀ a ∈ l, Supplied a := by
  unfold shaderSource at h
  split at h
  · simp only at h
    split at h
    · cases h
    · split at h
      · cases h
      · split at h
        · cases h
        · cases h
          intro a ha
          rw [List.mem_singleton.1 ha]
          exact supplied_sortArgs _ _ _ _ _ _ _ _ (by decide) (Or.inr (Or.inl rfl))
  · cases h

theorem supplied_slotCalls (name : String) (nameID slot0 : Int)
    (values : Option (List Value)) (h0 : 0 ≤ slot0) (h1 : slot0 + 4 ≤ 26) :
    ∀ k n l, n + k ≤ 5 → slotCalls name nameID slot0 values k n = some l →
      ∀ a ∈ l, Supplied a := by
  intro k
  induction k with
  | zero =>
    intro n l _ h
    simp only [slotCalls] at h
    cases h
    intro a ha
    cases ha
  | succ k ih =>
    intro n l hn h
    simp only [slotCalls] at h
    split at h
    · cases h
    · split at h
      · cases h
      · split at h
        · cases h
        · rename_i rest hrest
          cases h
          intro a ha
          rcases List.mem_cons.1 ha with h2 | h2
          · rw [h2]
            exact supplied_sortArgs _ _ _ _ _ _ _ _ (Or.inl ⟨by omega, by omega⟩)
              (Or.inr (Or.inr rfl))
          · exact ih (n + 1) rest (by omega) hrest a h2

theorem supplied_multiSlot (call : Call) (name : String) (nameID slot0 : Int)
    (l : List Invocation) (h0 : 0 ≤ slot0) (h1 : slot0 + 4 ≤ 26)
    (h : multiSlot call name nameID slot0 = some l) : ∀ a ∈ l, Supplied a := by
  unfold multiSlot at h
  split at h
  · simp only at h
    refine supplied_slotCalls name nameID slot0 _ h0 h1 _ 0 l ?_ h
    split_ifs <;> omega
  · cases h
theorem supplied_map (o : Option (List Invocation)) (c c1 : Classifier) (l : List Invocation)
    (ho : ∀ l, o = some l → ∀ a ∈ l, Supplied a)
    (h : o.map (fun l => (c, l)) = some (c1, l)) : ∀ a ∈ l, Supplied a := by
  cases o with
  | none => cases h
  | some l0 =>
    simp only [Option.map_some', Option.some.injEq, Prod.mk.injEq] at h
    rw [← h.2]
    exact ho l0 rfl

theorem supplied_single (c2 c1 : Classifier) (a0 : Invocation) (l : List Invocation)
    (ha0 : Supplied a0) (h : some (c2, [a0]) = some (c1, l)) :
    ∀ a ∈ l, Supplied a := by
  cases h
  intro a ha
  rw [List.mem_singleton.1 ha]
  exact ha0

set_option maxHeartbeats 1600000 in
/-- Every `stateSort` call that `stateCall` makes has a bin from 0 to 26 or
`BIN_UNKNOWN` and the change kind CREATE, UPDATE or SWITCH. -/
theorem stateCall_supplied (c c1 : Classifier) (call : Call) (l : List Invocation)
    (h : stateCall c call = some (c1, l)) : ∀ a ∈ l, Supplied a := by
  unfold stateCall at h
  change (ite _ _ _) = _ at h
  by_cases h0 : call.name = "wglSwapBuffers"
  · rw [if_pos h0] at h
    exact supplied_single _ _ _ l
      (supplied_sortArgs _ _ _ _ _ _ _ _ (by decide) (by decide)) h
  rw [if_neg h0] at h
  by_cases h1 : call.name = "glDrawArrays"
  · rw [if_pos h1] at h
    repeat' first
      | exact supplied_single _ _ _ l
          (supplied_sortArgs _ _ _ _ _ _ _ _ (by decide) (by decide)) h
      | cases h
      | split at h
  rw [if_neg h1] at h
  by_cases h2 : call.name = "glDrawElements"
  · rw [if_pos h2] at h
    repeat' first
      | exact supplied_single _ _ _ l
          (supplied_sortArgs _ _ _ _ _ _ _ _ (by decide) (by decide)) h
      | cases h
      | split at h
  rw [if_neg h2] at h
  by_cases h3 : call.name = "glGenBuffers" ∨ call.name = "glGenBuffersARB"
  · rw [if_pos h3] at h
    exact supplied_map _ _ _ _ (fun l hl => supplied_perElement _ _ _ _ _ _ _ _ l
      (by decide) (by decide) hl) h
  rw [if_neg h3] at h
  by_cases h4 : call.name = "glBindBuffer"
  · rw [if_pos h4] at h
    split at h
    · cases h
      exact supplied_bufferTarget _ _ _ _ _ _
    · cases h
  rw [if_neg h4] at h
  by_cases h5 : call.name = "glBufferData" ∧ c.lastBindVBO ≠ 0
  · rw [if_pos h5] at h
    split at h
    · cases h
      exact supplied_bufferTarget _ _ _ _ _ _
    · cases h
  rw [if_neg h5] at h
  by_cases h6 : call.name = "glCreateShader"
  · rw [if_pos h6] at h
    exact supplied_map _ _ _ _ (fun l hl => supplied_createShader _ _ _ l hl) h
  rw [if_neg h6] at h
  by_cases h7 : call.name = "glCreateProgram"
  · rw [if_pos h7] at h
    exact supplied_map _ _ _ _ (fun l hl => supplied_createShader _ _ _ l hl) h
  rw [if_neg h7] at h
  by_cases h8 : call.name = "glUseProgram"
  · rw [if_pos h8] at h
    repeat' first
      | exact supplied_single _ _ _ l
          (supplied_sortArgs _ _ _ _ _ _ _ _ (by decide) (by decide)) h
      | cases h
      | split at h
  rw [if_neg h8] at h
  by_cases h9 : call.name = "glGenTextures" ∨ call.name = "glGenTexturesEXT"
  · rw [if_pos h9] at h
    exact supplied_map _ _ _ _ (fun l hl => supplied_perElement _ _ _ _ _ _ _ _ l
      (by decide) (by decide) hl) h
  rw [if_neg h9] at h
  by_cases h10 : call.name = "glBindTexture"
  · rw [if_pos h10] at h
    repeat' first
      | exact supplied_single _ _ _ l
          (supplied_sortArgs _ _ _ _ _ _ _ _ (by decide) (by decide)) h
      | cases h
      | split at h
  rw [if_neg h10] at h
  by_cases h11 : call.name = "glTexSubImage2D" ∧ c.lastBindTEX ≠ 0
  · rw [if_pos h11] at h
    repeat' first
      | exact supplied_single _ _ _ l
          (supplied_sortArgs _ _ _ _ _ _ _ _ (by decide) (by decide)) h
      | cases h
      | split at h
  rw [if_neg h11] at h
  by_cases h12 : call.name = "glGetUniformLocation"
  · rw [if_pos h12] at h
    repeat' first
      | exact supplied_single _ _ _ l
          (supplied_sortArgs _ _ _ _ _ _ _ _ (by decide) (by decide)) h
      | cases h
      | split at h
  rw [if_neg h12] at h
  by_cases h13 : call.name = "glUniform1f"
  · rw [if_pos h13] at h
    exact supplied_map _ _ _ _ (fun l hl => supplied_uniform _ _ _ _ l hl) h
  rw [if_neg h13] at h
  by_cases h14 : call.name = "glUniform3f"
  · rw [if_pos h14] at h
    exact supplied_map _ _ _ _ (fun l hl => supplied_uniform _ _ _ _ l hl) h
  rw [if_neg h14] at h
  by_cases h15 : call.name = "glUniform4f"
  · rw [if_pos h15] at h
    exact supplied_map _ _ _ _ (fun l hl => supplied_uniform _ _ _ _ l hl) h
  rw [if_neg h15] at h
  by_cases h16 : call.name = "glUniformMatrix4fv"
  · rw [if_pos h16] at h
    repeat' first
      | exact supplied_single _ _ _ l
          (supplied_sortArgs _ _ _ _ _ _ _ _ (by decide) (by decide)) h
      | cases h
      | split at h
  rw [if_neg h16] at h
  by_cases h17 : call.name = "glShaderSource"
  · rw [if_pos h17] at h
    exact supplied_map _ _ _ _ (fun l hl => supplied_shaderSource _ l hl) h
  rw [if_neg h17] at h
  by_cases h18 : call.name = "glVertexPointer"
  · rw [if_pos h18] at h
    exact supplied_map _ _ _ _ (fun l hl => supplied_pointerCall _ _ _ _ l
      (by decide) hl) h
  rw [if_neg h18] at h
  by_cases h19 : call.name = "glNormalPointer"
  · rw [if_pos h19] at h
    exact supplied_map _ _ _ _ (fun l hl => supplied_pointerCall _ _ _ _ l
      (by decide) hl) h
  rw [if_neg h19] at h
  by_cases h20 : call.name = "glLoadMatrixd"
  · rw [if_pos h20] at h
    exact supplied_map _ _ _ _ (fun l hl => supplied_loadMatrix _ _ _ l hl) h
  rw [if_neg h20] at h
  by_cases h21 : call.name = "glLoadMatrixf"
  · rw [if_pos h21] at h
    exact supplied_map _ _ _ _ (fun l hl => supplied_loadMatrix _ _ _ l hl) h
  rw [if_neg h21] at h
  by_cases h22 : call.name = "IDXGISwapChain::Present"
  · rw [if_pos h22] at h
    exact supplied_single _ _ _ l
      (supplied_sortArgs _ _ _ _ _ _ _ _ (by decide) (by decide)) h
  rw [if_neg h22] at h
  by_cases h23 : call.name = "ID3D10Device::DrawIndexed" ∨ call.name = "ID3D11DeviceContext::DrawIndexed"
  · rw [if_pos h23] at h
    repeat' first
      | exact supplied_single _ _ _ l
          (supplied_sortArgs _ _ _ _ _ _ _ _ (by decide) (by decide)) h
      | cases h
      | split at h
  rw [if_neg h23] at h
  by_cases h24 : call.name = "ID3D10Device::DrawInstanced" ∨ call.name = "ID3D11DeviceContext::DrawInstanced"
  · rw [if_pos h24] at h
    repeat' first
      | exact supplied_single _ _ _ l
          (supplied_sortArgs _ _ _ _ _ _ _ _ (by decide) (by decide)) h
      | cases h
      | split at h
  rw [if_neg h24] at h
  by_cases h25 : call.name = "ID3D10Device::Draw" ∨ call.name = "ID3D11DeviceContext::Draw"
  · rw [if_pos h25] at h
    repeat' first
      | exact supplied_single _ _ _ l
          (supplied_sortArgs _ _ _ _ _ _ _ _ (by decide) (by decide)) h
      | cases h
      | split at h
  rw [if_neg h25] at h
  by_cases h26 : call.name = "ID3D10Device::CreateBuffer" ∨ call.name = "ID3D11Device::CreateBuffer"
  · rw [if_pos h26] at h
    exact supplied_map _ _ _ _ (fun l hl => supplied_perElement _ _ _ _ _ _ _ _ l
      (by decide) (by decide) hl) h
  rw [if_neg h26] at h
  by_cases h27 : call.name = "ID3D10Device::CreateRenderTargetView" ∨ call.name = "ID3D11Device::CreateRenderTargetView"
  · rw [if_pos h27] at h
    exact supplied_map _ _ _ _ (fun l hl => supplied_firstElement _ _ _ _ l
      (by decide) hl) h
  rw [if_neg h27] at h
  by_cases h28 : call.name = "ID3D10Device::OMSetRenderTargets" ∨ call.name = "ID3D11DeviceContext::OMSetRenderTargets"
  · rw [if_pos h28] at h
    exact supplied_map _ _ _ _ (fun l hl => supplied_perElement _ _ _ _ _ _ _ _ l
      (by decide) (by decide) hl) h
  rw [if_neg h28] at h
  by_cases h29 : call.name = "ID3D10Device::CreateRasterizerState" ∨ call.name = "ID3D11Device::CreateRasterizerState"
  · rw [if_pos h29] at h
    exact supplied_map _ _ _ _ (fun l hl => supplied_firstElement _ _ _ _ l
      (by decide) hl) h
  rw [if_neg h29] at h
  by_cases h30 : call.name = "ID3D10Device::RSSetState" ∨ call.name = "ID3D11DeviceContext::RSSetState"
  · rw [if_pos h30] at h
    repeat' first
      | exact supplied_single _ _ _ l
          (supplied_sortArgs _ _ _ _ _ _ _ _ (by decide) (by decide)) h
      | cases h
      | split at h
  rw [if_neg h30] at h
  by_cases h31 : strstr call.name.toList "ID3D10Device1::CreateVertexShader".toList
  · rw [if_pos h31] at h
    exact supplied_map _ _ _ _ (fun l hl => supplied_firstElement _ _ _ _ l
      (by decide) hl) h
  rw [if_neg h31] at h
  by_cases h32 : strstr call.name.toList "ID3D11Device::CreateVertexShader".toList
  · rw [if_pos h32] at h
    exact supplied_map _ _ _ _ (fun l hl => supplied_firstElement _ _ _ _ l
      (by decide) hl) h
  rw [if_neg h32] at h
  by_cases h33 : strstr call.name.toList "ID3D10Device::CreatePixelShader".toList
  · rw [if_pos h33] at h
    exact supplied_map _ _ _ _ (fun l hl => supplied_firstElement _ _ _ _ l
      (by decide) hl) h
  rw [if_neg h33] at h
  by_cases h34 : strstr call.name.toList "ID3D11Device::CreatePixelShader".toList
  · rw [if_pos h34] at h
    exact supplied_map _ _ _ _ (fun l hl => supplied_firstElement _ _ _ _ l
      (by decide) hl) h
  rw [if_neg h34] at h
  by_cases h35 : call.name = "ID3D10Device::VSSetShader" ∨ call.name = "ID3D11DeviceContext::VSSetShader"
  · rw [if_pos h35] at h
    repeat' first
      | exact supplied_single _ _ _ l
          (supplied_sortArgs _ _ _ _ _ _ _ _ (by decide) (by decide)) h
      | cases h
      | split at h
  rw [if_neg h35] at h
  by_cases h36 : call.name = "ID3D10Device::PSSetShader" ∨ call.name = "ID3D11DeviceContext::PSSetShader"
  · rw [if_pos h36] at h
    repeat' first
      | exact supplied_single _ _ _ l
          (supplied_sortArgs _ _ _ _ _ _ _ _ (by decide) (by decide)) h
      | cases h
      | split at h
  rw [if_neg h36] at h
  by_cases h37 : call.name = "ID3D10Buffer::Map"
  · rw [if_pos h37] at h
    repeat' first
      | exact supplied_single _ _ _ l
          (supplied_sortArgs _ _ _ _ _ _ _ _ (by decide) (by decide)) h
      | cases h
      | split at h
  rw [if_neg h37] at h
  by_cases h38 : call.name = "ID3D11DeviceContext::Map"
  · rw [if_pos h38] at h
    repeat' first
      | exact supplied_single _ _ _ l
          (supplied_sortArgs _ _ _ _ _ _ _ _ (by decide) (by decide)) h
      | cases h
      | split at h
  rw [if_neg h38] at h
  by_cases h39 : call.name = "ID3D10Device::UpdateSubresource" ∨ call.name = "ID3D11DeviceContext::UpdateSubresource"
  · rw [if_pos h39] at h
    repeat' first
      | exact supplied_single _ _ _ l
          (supplied_sortArgs _ _ _ _ _ _ _ _ (by decide) (by decide)) h
      | cases h
      | split at h
  rw [if_neg h39] at h
  by_cases h40 : call.name = "ID3D10Device::IASetVertexBuffers" ∨ call.name = "ID3D11DeviceContext::IASetVertexBuffers"
  · rw [if_pos h40] at h
    exact supplied_map _ _ _ _ (fun l hl => supplied_multiSlot _ _ _ _ l
      (by decide) (by decide) hl) h
  rw [if_neg h40] at h
  by_cases h41 : call.name = "ID3D10Device::IASetIndexBuffer" ∨ call.name = "ID3D11DeviceContext::IASetIndexBuffer"
  · rw [if_pos h41] at h
    repeat' first
      | exact supplied_single _ _ _ l
          (supplied_sortArgs _ _ _ _ _ _ _ _ (by decide) (by decide)) h
      | cases h
      | split at h
  rw [if_neg h41] at h
  by_cases h42 : call.name = "ID3D10Device::VSSetConstantBuffers" ∨ call.name = "ID3D11DeviceContext::VSSetConstantBuffers"
  · rw [if_pos h42] at h
    exact supplied_map _ _ _ _ (fun l hl => supplied_multiSlot _ _ _ _ l
      (by decide) (by decide) hl) h
  rw [if_neg h42] at h
  by_cases h43 : call.name = "ID3D10Device::PSSetConstantBuffers" ∨ call.name = "ID3D11DeviceContext::PSSetConstantBuffers"
  · rw [if_pos h43] at h
    exact supplied_map _ _ _ _ (fun l hl => supplied_multiSlot _ _ _ _ l
      (by decide) (by decide) hl) h
  rw [if_neg h43] at h
  cases h
  intro a ha
  cases ha
theorem hashLoop_some_le : ∀ (n : Nat) (mem : List Byte) (hash v : Nat),
    hashLoop n mem hash = some v → n ≤ mem.length := by
  intro n
  induction n with
  | zero => intro mem hash v _; exact Nat.zero_le _
  | succ n ih =>
    intro mem hash v h
    cases mem with
    | nil => simp [hashLoop] at h
    | cons b mem =>
      simp only [hashLoop] at h
      have := ih mem _ v h
      simp only [List.length_cons]
      omega

/-- A call with one of the three change kinds whose hash `computeHash` can
compute has a payload of at least `size` bytes. -/
theorem validCall_of_computeHash (a : Invocation) (hv : Nat)
    (hk : a.change_type = BIN_CREATE ∨ a.change_type = BIN_UPDATE
      ∨ a.change_type = BIN_SWITCH)
    (h : computeHash a.objptr a.dat a.size = some hv) : ValidCall a := by
  obtain ⟨ct, name, nameID, bin, objptr, datptr, dat, size⟩ := a
  refine ⟨hk, ?_⟩
  cases dat with
  | none => trivial
  | some mem =>
    show 0 ≤ size ∧ size ≤ (mem.length : Int)
    simp only [computeHash] at h
    split at h
    · cases h
    · have := hashLoop_some_le _ _ _ _ h
      omega

/-- In pass 2 a call with one of the three change kinds on a well-formed state
either returns and leaves a well-formed state, or it stops in `computeHash`,
which reads past the payload; no index of the bin vector or of `ct` is out of
bounds. -/
theorem step_safe (s : State) (a : Invocation) (hpass : s.g_pass ≠ 1)
    (hwf : WellFormed s)
    (hk : a.change_type = BIN_CREATE ∨ a.change_type = BIN_UPDATE
      ∨ a.change_type = BIN_SWITCH) :
    (∃ s1, step s a = some s1 ∧ WellFormed s1 ∧ s1.g_pass = s.g_pass)
    ∨ (step s a = none ∧ computeHash a.objptr a.dat a.size = none) := by
  cases hh : computeHash a.objptr a.dat a.size with
  | some hv =>
    exact Or.inl (step_wellFormed s a hpass hwf (validCall_of_computeHash a hv hk hh))
  | none =>
    have hv0 : ValidCall { a with dat := none } := ⟨hk, trivial⟩
    have h0 := step_wellFormed s { a with dat := none } hpass hwf hv0
    unfold step at h0 ⊢
    simp only at h0
    by_cases hp : a.bin = BIN_PRESENT
    · left
      rw [hp, stateSort_present_eq _ _ _ _ _ _ _ _ hpass] at h0 ⊢
      exact h0
    · by_cases hd : a.bin = BIN_DRAW
      · left
        obtain ⟨b25, h25⟩ := @binAt_isSome s.vecBins BIN_DRAW (by decide)
          (by rw [hwf.1]; decide)
        have hch : s.stateTraceTxt = true →
            ∀ b ∈ s.vecBins.take NUM_BIN, 0 ≤ b.change ∧ b.change < 5 := by
          intro _ b hb
          have := hwf.2.2 b (List.mem_of_mem_take hb)
          omega
        rw [hd, stateSort_draw_eq s _ _ _ _ _ _ _ b25 hpass h25 hch] at h0 ⊢
        exact h0
      · by_cases hu : resolveBin s.mapPtrToBin a.objptr a.datptr = BIN_UNKNOWN
        · left
          exact ⟨s, by simp [stateSort, hpass, hp, hd, hu], hwf, rfl⟩
        · obtain ⟨hR0, hR1⟩ := resolveBin_range _ _ _ hwf.2.1 hu
          obtain ⟨b, hb⟩ := @binAt_isSome s.vecBins _ hR0 (by rw [hwf.1]; omega)
          by_cases hcu : a.change_type = BIN_CREATE ∨ a.change_type = BIN_UPDATE
          · by_cases hprio : a.change_type ≤ b.change ∨ b.change = BIN_UNDEF
            · right
              have hpt : priorityTest a.change_type b.change = true :=
                (priorityTest_iff _ _).mpr hprio
              refine ⟨?_, rfl⟩
              simp only [stateSort, hpass, hp, hd, if_false, hu, hb, hcu, if_true, hpt, hh]
            · left
              rw [stateSort_rejected s _ a.name a.nameID a.bin _ _ none a.size b hpass hp hd
                hcu hu hb hprio] at h0
              rw [stateSort_rejected s _ a.name a.nameID a.bin _ _ a.dat a.size b hpass hp hd
                hcu hu hb hprio]
              exact h0
          · left
            have hk3 : a.change_type = BIN_SWITCH := by
              rcases hk with h | h | h
              · exact absurd (Or.inl h) hcu
              · exact absurd (Or.inr h) hcu
              · exact h
            by_cases hacc : getPtrHashID s.mapPtrToHash a.objptr ≠ -1
                ∧ (a.change_type ≤ b.change ∨ b.change = BIN_UNDEF)
            · rw [stateSort_switch_applied s _ a.name a.nameID a.bin _ _ none a.size b hpass
                hp hd hcu hu hb hacc.1 hacc.2] at h0
              rw [stateSort_switch_applied s _ a.name a.nameID a.bin _ _ a.dat a.size b hpass
                hp hd hcu hu hb hacc.1 hacc.2]
              exact h0
            · rw [stateSort_switch_rejected s _ a.name a.nameID a.bin _ _ none a.size b
                hpass hp hd hcu hu hb hacc] at h0
              rw [stateSort_switch_rejected s _ a.name a.nameID a.bin _ _ a.dat a.size b
                hpass hp hd hcu hu hb hacc]
              exact h0

/-- In pass 2 a sequence of calls with the three change kinds that runs to
its end on a well-formed state leaves a well-formed state. -/
theorem run_safe (calls : List Invocation) :
    ∀ (s s1 : State), s.g_pass ≠ 1 → WellFormed s →
      (∀ a ∈ calls, a.change_type = BIN_CREATE ∨ a.change_type = BIN_UPDATE
        ∨ a.change_type = BIN_SWITCH) →
      run s calls = some s1 → WellFormed s1 ∧ s1.g_pass = s.g_pass := by
  induction calls with
  | nil =>
    intro s s1 _ hwf _ h
    cases h
    exact ⟨hwf, rfl⟩
  | cons a rest ih =>
    intro s s1 hpass hwf hk h
    rcases step_safe s a hpass hwf (hk a (List.mem_cons_self _ _)) with
      ⟨s2, h2, hwf2, hp2⟩ | ⟨h2, -⟩
    · simp only [run, h2] at h
      obtain ⟨k1, k2⟩ := ih s2 s1 (by rw [hp2]; exact hpass) hwf2
        (fun x hx => hk x (List.mem_cons_of_mem _ hx)) h
      exact ⟨k1, by rw [k2, hp2]⟩
    · simp [run, h2] at h

/-! ### Bin-index safety -/

/-- Claim C31: every `stateSort` call that `stateCall` makes has a bin from 0
to 26 or `BIN_UNKNOWN` and the change kind CREATE, UPDATE or SWITCH.  For calls
of that kind, pass 1 from `createBins` runs to its end and every bin it stores
in the resource map is from 0 to 24; and before every call of pass 2 there are
32 bins, the resource map still holds bins from 0 to 24 only, every bin has a
`change` from 0 to 4, for which `ct` has a character, the draw bin 25 is a bin
of the vector, and the bin that the call resolves, when it is not
`BIN_UNKNOWN`, is from 0 to 24 and a bin of the vector.  A call of pass 2 can
then stop only in `computeHash`, reading past its payload, never on an index. -/
theorem bin_index_safety (txt raw : Bool) (pass1 pass2 : List Invocation)
    (h1 : ∀ a ∈ pass1, Supplied a) (h2 : ∀ a ∈ pass2, Supplied a) :
    (∀ c call c1 l, stateCall c call = some (c1, l) → ∀ a ∈ l, Supplied a)
    ∧ ∃ s1, run { createBins (initState txt raw) with g_pass := 1 } pass1 = some s1
      ∧ (∀ e ∈ s1.mapPtrToBin, 0 ≤ e.2 ∧ e.2 ≤ 24)
      ∧ ∀ pre post sa, pass2 = pre ++ post →
          run { s1 with g_pass := 2 } pre = some sa →
          sa.vecBins.length = 32
          ∧ (∀ e ∈ sa.mapPtrToBin, 0 ≤ e.2 ∧ e.2 ≤ 24)
          ∧ (∀ b ∈ sa.vecBins, 0 ≤ b.change ∧ b.change ≤ 4 ∧ (ctAt b.change).isSome = true)
          ∧ (binAt sa.vecBins BIN_DRAW).isSome = true
          ∧ ∀ a rest, post = a :: rest →
              (resolveBin sa.mapPtrToBin a.objptr a.datptr ≠ BIN_UNKNOWN →
                0 ≤ resolveBin sa.mapPtrToBin a.objptr a.datptr
                ∧ resolveBin sa.mapPtrToBin a.objptr a.datptr ≤ 24
                ∧ (binAt sa.vecBins
                    (resolveBin sa.mapPtrToBin a.objptr a.datptr)).isSome = true)
              ∧ (step sa a = none → computeHash a.objptr a.dat a.size = none) := by
  refine ⟨fun c call c1 l h => stateCall_supplied c c1 call l h, ?_⟩
  obtain ⟨m, hrun, -, -, hrange⟩ :=
    run_pass1 pass1 { createBins (initState txt raw) with g_pass := 1 } rfl
  have hm : ∀ e ∈ m, 0 ≤ e.2 ∧ e.2 < 25 := by
    apply hrange
    · intro e he
      cases he
    · intro a ha hlt
      rcases (h1 a ha).1 with h | h
      · exact h.1
      · rw [h] at hlt
        exact absurd hlt (by decide)
  refine ⟨_, hrun, fun e he => ⟨(hm e he).1, by have := (hm e he).2; omega⟩, ?_⟩
  intro pre post sa hsplit hpre
  have hwf0 : WellFormed
      { ({ createBins (initState txt raw) with g_pass := 1, mapPtrToBin := m } : State) with
        g_pass := 2 } := by
    refine ⟨rfl, hm, ?_⟩
    intro b hb
    have hb1 : b ∈ List.replicate 32 newBin := hb
    rw [List.eq_of_mem_replicate hb1]
    decide
  have hk : ∀ a ∈ pre, a.change_type = BIN_CREATE ∨ a.change_type = BIN_UPDATE
      ∨ a.change_type = BIN_SWITCH := by
    intro a ha
    exact (h2 a (by rw [hsplit]; exact List.mem_append_left _ ha)).2
  obtain ⟨hwf, hpass⟩ := run_safe pre _ sa (by simp) hwf0 hk hpre
  have hp2 : sa.g_pass ≠ 1 := by
    rw [hpass]
    simp
  obtain ⟨hl, hmap, hch⟩ := hwf
  refine ⟨hl, fun e he => ⟨(hmap e he).1, by have := (hmap e he).2; omega⟩, ?_, ?_, ?_⟩
  · intro b hb
    obtain ⟨k1, k2⟩ := hch b hb
    obtain ⟨ch, hc⟩ := @ctAt_isSome b.change k1 (by omega)
    exact ⟨k1, k2, by rw [hc]; rfl⟩
  · obtain ⟨b, hb⟩ := @binAt_isSome sa.vecBins BIN_DRAW (by decide) (by rw [hl]; decide)
    rw [hb]
    rfl
  · intro a rest hpost
    constructor
    · intro hres
      obtain ⟨k1, k2⟩ := resolveBin_range _ _ _ hmap hres
      obtain ⟨b, hb⟩ := @binAt_isSome sa.vecBins _ k1 (by rw [hl]; omega)
      exact ⟨k1, by omega, by rw [hb]; rfl⟩
    · intro hnone
      have ha : a ∈ pass2 := by
        rw [hsplit, hpost]
        exact List.mem_append_right _ (List.mem_cons_self _ _)
      rcases step_safe sa a hp2 ⟨hl, hmap, hch⟩ (h2 a ha).2 with ⟨s2, hs2, -⟩ | ⟨-, hc⟩
      · rw [hs2] at hnone
        cases hnone
      · exact hc

set_option maxRecDepth 8000 in
theorem bin_index_safety_witness :
    (∀ a ∈ rebindTrace, Supplied a)
    ∧ ∃ s1, run { createBins (initState false true) with g_pass := 1 } rebindTrace = some s1
      ∧ (∀ e ∈ s1.mapPtrToBin, 0 ≤ e.2 ∧ e.2 ≤ 24)
      ∧ ∀ sa, run { s1 with g_pass := 2 } (rebindTrace.take 3) = some sa →
          sa.vecBins.length = 32
          ∧ (binAt sa.vecBins BIN_DRAW).isSome = true
          ∧ (step sa bindArrayBuffer7 = none →
              computeHash bindArrayBuffer7.objptr bindArrayBuffer7.dat
                bindArrayBuffer7.size = none) := by
  refine ⟨by decide, ?_⟩
  obtain ⟨-, s1, hrun, hmap, hrest⟩ :=
    bin_index_safety false true rebindTrace rebindTrace (by decide) (by decide)
  refine ⟨s1, hrun, hmap, ?_⟩
  intro sa hsa
  obtain ⟨k1, -, -, k4, k5⟩ := hrest (rebindTrace.take 3) (rebindTrace.drop 3) sa
    (List.take_append_drop 3 rebindTrace).symm hsa
  exact ⟨k1, k4, (k5 bindArrayBuffer7 [bindElementBuffer7] rfl).2⟩

end Retrace
